import Mathlib

/-! # Parallax background script (`script.js`)

A shallow embedding of the mouse / scroll driven parallax script and a
verification of its specification.

Number model.

JavaScript numbers are IEEE 754 doubles.  `JSNum` holds a rational or one of the
three non-finite values `NaN`, `+Infinity` and `-Infinity`; the sign of zero is
not modelled: a zero denominator is the positive zero that the browser reports
for an empty viewport.  The script is embedded twice over `JSNum`.

* `State`, `update`, `updateScroll`, `step`, `run`, ... compute exactly, without
  rounding; there `smoothScroll` and `targetScroll`, which the script only ever
  combines with `+`, `-`, `*` from finite browser readings, are plain rationals.
* `Dbl.State`, `Dbl.update`, `Dbl.updateScroll`, `Dbl.step`, `Dbl.run`, ... round
  every arithmetic result and every decimal literal to the nearest double
  (`toDouble`: ties to the even mantissa, overflow to an infinity, gradual
  underflow).  Statements whose truth depends on the rounding are made on this
  embedding.
-/

namespace Parallax

/-! ## JavaScript numbers -/

/-- A JavaScript number: a finite value or one of the three non-finite ones. -/
inductive JSNum where
  | fin (q : ℚ)
  | posInf
  | negInf
  | nan
  deriving DecidableEq

namespace JSNum

/-- Unary minus. -/
def neg : JSNum → JSNum
  | fin q => fin (-q)
  | posInf => negInf
  | negInf => posInf
  | nan => nan

/-- The operator `+`. -/
def add : JSNum → JSNum → JSNum
  | fin a, fin b => fin (a + b)
  | nan, _ => nan
  | _, nan => nan
  | posInf, negInf => nan
  | negInf, posInf => nan
  | posInf, _ => posInf
  | _, posInf => posInf
  | negInf, _ => negInf
  | _, negInf => negInf

/-- The operator `-`. -/
def sub (a b : JSNum) : JSNum := add a (neg b)

/-- Sign of an infinite product or quotient: positive or negative infinity. -/
def infOfSign (positive : Bool) : JSNum := if positive then posInf else negInf

/-- The operator `*`. -/
def mul : JSNum → JSNum → JSNum
  | fin a, fin b => fin (a * b)
  | nan, _ => nan
  | _, nan => nan
  | posInf, fin b => if b = 0 then nan else infOfSign (decide (0 < b))
  | negInf, fin b => if b = 0 then nan else infOfSign (decide (b < 0))
  | fin a, posInf => if a = 0 then nan else infOfSign (decide (0 < a))
  | fin a, negInf => if a = 0 then nan else infOfSign (decide (a < 0))
  | posInf, posInf => posInf
  | negInf, negInf => posInf
  | posInf, negInf => negInf
  | negInf, posInf => negInf

/-- The operator `/` (a zero denominator is the positive zero). -/
def div : JSNum → JSNum → JSNum
  | fin a, fin b =>
      if b = 0 then (if a = 0 then nan else infOfSign (decide (0 < a)))
      else fin (a / b)
  | nan, _ => nan
  | _, nan => nan
  | fin _, posInf => fin 0
  | fin _, negInf => fin 0
  | posInf, fin b => infOfSign (decide (0 ≤ b))
  | negInf, fin b => infOfSign (decide (b < 0))
  | posInf, posInf => nan
  | posInf, negInf => nan
  | negInf, posInf => nan
  | negInf, negInf => nan

/-- The function `Math.max` of two arguments. -/
def max : JSNum → JSNum → JSNum
  | nan, _ => nan
  | _, nan => nan
  | posInf, _ => posInf
  | _, posInf => posInf
  | negInf, b => b
  | a, negInf => a
  | fin a, fin b => fin (Max.max a b)

/-- The function `Math.min` of two arguments. -/
def min : JSNum → JSNum → JSNum
  | nan, _ => nan
  | _, nan => nan
  | negInf, _ => negInf
  | _, negInf => negInf
  | posInf, b => b
  | a, posInf => a
  | fin a, fin b => fin (Min.min a b)

/-- The function `Math.floor`. -/
def floor : JSNum → JSNum
  | fin q => fin (⌊q⌋ : ℤ)
  | x => x

/-- The function `Math.round`: the nearest integer, ties towards `+Infinity`. -/
def round : JSNum → JSNum
  | fin q => fin (⌊q + 1 / 2⌋ : ℤ)
  | x => x

/-- Strict equality `===` on numbers: `NaN` equals nothing. -/
def strictEq : JSNum → JSNum → Bool
  | fin a, fin b => decide (a = b)
  | posInf, posInf => true
  | negInf, negInf => true
  | _, _ => false

/-- Truthiness of a number: everything except zero and `NaN`. -/
def truthy : JSNum → Bool
  | fin q => decide (q ≠ 0)
  | nan => false
  | _ => true

/-- The operator `||` on numbers. -/
def or (a b : JSNum) : JSNum := if a.truthy then a else b

/-- Two-digit rendering of a number below one hundred. -/
def twoDigits (n : ℕ) : String :=
  if n < 10 then "0" ++ Nat.repr n else Nat.repr n

/-- Rendering of a non-negative rational with two decimals: the integer `n`
with `n / 100` closest to the value (the larger one on a tie), printed with a
decimal point before its last two digits. -/
def fixed2Abs (x : ℚ) : String :=
  let n : ℕ := (⌊x * 100 + 1 / 2⌋ : ℤ).toNat
  Nat.repr (n / 100) ++ "." ++ twoDigits (n % 100)

/-- The method `toFixed(2)` (values of magnitude `1e21` and above, which print
in exponent form, do not arise and are printed in positional form here). -/
def toFixed2 : JSNum → String
  | fin q => if q < 0 then "-" ++ fixed2Abs (-q) else fixed2Abs q
  | posInf => "Infinity"
  | negInf => "-Infinity"
  | nan => "NaN"

end JSNum

instance : Add JSNum := ⟨JSNum.add⟩
instance : Sub JSNum := ⟨JSNum.sub⟩
instance : Mul JSNum := ⟨JSNum.mul⟩
instance : Div JSNum := ⟨JSNum.div⟩
instance : Neg JSNum := ⟨JSNum.neg⟩

open JSNum (fin)

/-! ## Browser readings and script state -/

/-- The coordinates carried by a mouse event or by a touch point. -/
structure Pointer where
  clientX : ℚ
  clientY : ℚ
  deriving DecidableEq

/-- What the script reads from the browser when a callback runs. -/
structure Env where
  /-- The result of `matchMedia('(prefers-reduced-motion: reduce)').matches`. -/
  prefersReduced : Bool
  /-- The result of `'onmousemove' in window`. -/
  hasOnMouseMove : Bool
  /-- The reading `window.innerWidth`. -/
  innerWidth : ℚ
  /-- The reading `window.innerHeight`. -/
  innerHeight : ℚ
  /-- The reading `document.documentElement.scrollHeight`. -/
  scrollHeight : ℚ
  /-- The reading `window.scrollY`. -/
  scrollY : ℚ
  /-- The value `parseFloat(css.getPropertyValue('--parallax-mouse-mult'))`. -/
  mouseMultProp : JSNum
  /-- The value `parseFloat(css.getPropertyValue('--parallax-scroll-mult'))`. -/
  scrollMultProp : JSNum

/-- The functions handed to `requestAnimationFrame`. -/
inductive Callback where
  | update
  | updateScroll
  | activeUpdate
  deriving DecidableEq

/-- The functions handed to `addEventListener`. -/
inductive Handler where
  | onMove
  | touchStart
  | touchMove
  | onScroll
  | scheduleActiveUpdate
  deriving DecidableEq

/-- The variables of the script together with the parts of the browser it
acts on: the style of the document root, the class lists of the layer
elements, the listener list and the list of animation frame callbacks. -/
structure State where
  rafId : Option ℕ
  lastEvent : Option Pointer
  scrollY : ℚ
  targetScroll : ℚ
  smoothScroll : ℚ
  touchActive : Bool
  /-- Class lists of the elements selected by `.bg-layer`, in document order. -/
  layers : List (List String)
  activeIndex : JSNum
  rafActive : Option ℕ
  /-- Every `style.setProperty` call on the document root, oldest first. -/
  style : List (String × String)
  /-- Every class list change: the layer index and whether the class was added. -/
  classLog : List (ℕ × Bool)
  /-- Every `addEventListener` call on `window`, oldest first. -/
  listeners : List (String × Handler)
  /-- The animation frame callbacks not yet run, with their handles. -/
  pending : List (ℕ × Callback)
  /-- The last handle given out by `requestAnimationFrame`. -/
  nextHandle : ℕ

/-- Truthiness of a frame handle variable: `null` and `0` are falsy. -/
def handleTruthy : Option ℕ → Bool
  | some h => h != 0
  | none => false

/-- The expression `window.scrollY || 0`. -/
def scrollYOrZero (env : Env) : ℚ := if env.scrollY ≠ 0 then env.scrollY else 0

/-- The browser function `requestAnimationFrame`: a fresh non-zero handle. -/
def requestAnimationFrame (cb : Callback) (s : State) : ℕ × State :=
  let h := s.nextHandle + 1
  (h, { s with nextHandle := h, pending := s.pending ++ [(h, cb)] })

/-- The browser method `style.setProperty` on the document root. -/
def setProperty (name value : String) (s : State) : State :=
  { s with style := s.style ++ [(name, value)] }

/-- The current value of a style property of the document root. -/
def styleValue (name : String) (s : State) : Option String :=
  (s.style.reverse.find? (fun p => p.1 == name)).map Prod.snd

/-! ## Position computation -/

/-- The local function `clamp` of `applyTransforms`. -/
def clamp (v a b : JSNum) : JSNum := JSNum.max a (JSNum.min b v)

/-- The constant `docH`: the scrollable height floored at one. -/
def docH (env : Env) : JSNum :=
  JSNum.max (fin env.scrollHeight - fin env.innerHeight) (fin 1)

/-- The numbers computed by `applyTransforms`, under the names of the source. -/
structure Positions where
  pct : JSNum
  mousePctX : JSNum
  mousePctY : JSNum
  scrollTopPct : JSNum
  scrollBottomPct : JSNum
  topX : JSNum
  topY : JSNum
  bottomX : JSNum
  bottomY : JSNum
  l3x : JSNum
  l3y : JSNum
  l4x : JSNum
  l4y : JSNum
  l5x : JSNum
  l5y : JSNum
  l6x : JSNum
  l6y : JSNum
  l7x : JSNum
  l7y : JSNum
  l8x : JSNum
  l8y : JSNum
  l9x : JSNum
  l9y : JSNum
  l10x : JSNum
  l10y : JSNum

/-- The numeric part of `applyTransforms(mx, my)` at a given `smoothScroll`. -/
def positions (env : Env) (smoothScroll : ℚ) (mx my : JSNum) : Positions :=
  let docH := docH env
  let pct := fin smoothScroll / docH
  let mousePctX := JSNum.max (fin (-6))
    (JSNum.min (fin 6) ((mx / JSNum.max (fin 1) (fin env.innerWidth)) * fin 100 * fin 0.06))
  let mousePctY := JSNum.max (fin (-4))
    (JSNum.min (fin 4) ((my / JSNum.max (fin 1) (fin env.innerHeight)) * fin 100 * fin 0.04))
  let scrollTopPct := fin (-12) * pct
  let scrollBottomPct := fin 12 * pct
  let topX := fin 50 + mousePctX
  let topY := fin 20 + scrollTopPct + mousePctY
  let bottomX := fin 50 - mousePctX
  let bottomY := fin 80 - scrollBottomPct - mousePctY
  let topX := clamp topX (fin 10) (fin 90)
  let topY := clamp topY (fin 5) (fin 50)
  let bottomX := clamp bottomX (fin 10) (fin 90)
  let bottomY := clamp bottomY (fin 50) (fin 95)
  let mul3 := fin 0.5
  let mul4 := fin 0.35
  let mul5 := fin 0.2
  let mul6 := fin 0.15
  let mul7 := fin 0.1
  let mul8 := fin 0.08
  let mul9 := fin 0.05
  let mul10 := fin 0.03
  { pct := pct
    mousePctX := mousePctX
    mousePctY := mousePctY
    scrollTopPct := scrollTopPct
    scrollBottomPct := scrollBottomPct
    topX := topX
    topY := topY
    bottomX := bottomX
    bottomY := bottomY
    l3x := fin 50 + mousePctX * mul3
    l3y := fin 30 + scrollTopPct * mul3 + mousePctY * mul3
    l4x := fin 50 + mousePctX * mul4
    l4y := fin 40 + scrollTopPct * mul4 + mousePctY * mul4
    l5x := fin 50 + mousePctX * mul5
    l5y := fin 45 + scrollTopPct * mul5 + mousePctY * mul5
    l6x := fin 50 + mousePctX * mul6
    l6y := fin 50 + scrollTopPct * mul6 + mousePctY * mul6
    l7x := fin 50 + mousePctX * mul7
    l7y := fin 55 + scrollTopPct * mul7 + mousePctY * mul7
    l8x := fin 50 + mousePctX * mul8
    l8y := fin 60 + scrollTopPct * mul8 + mousePctY * mul8
    l9x := fin 50 + mousePctX * mul9
    l9y := fin 65 + scrollTopPct * mul9 + mousePctY * mul9
    l10x := fin 50 + mousePctX * mul10
    l10y := fin 70 + scrollTopPct * mul10 + mousePctY * mul10 }

/-- The template string giving a position as two percentages. -/
def posString (x y : JSNum) : String :=
  x.toFixed2 ++ "% " ++ y.toFixed2 ++ "%"

/-- The ten `setProperty` calls of `applyTransforms`, in source order. -/
def transformWrites (p : Positions) : List (String × String) :=
  [ ("--bg-top-pos", posString p.topX p.topY),
    ("--bg-bottom-pos", posString p.bottomX p.bottomY),
    ("--bg-layer-3-pos", posString p.l3x p.l3y),
    ("--bg-layer-4-pos", posString p.l4x p.l4y),
    ("--bg-layer-5-pos", posString p.l5x p.l5y),
    ("--bg-layer-6-pos", posString p.l6x p.l6y),
    ("--bg-layer-7-pos", posString p.l7x p.l7y),
    ("--bg-layer-8-pos", posString p.l8x p.l8y),
    ("--bg-layer-9-pos", posString p.l9x p.l9y),
    ("--bg-layer-10-pos", posString p.l10x p.l10y) ]

/-- The function `applyTransforms(mx, my)`. -/
def applyTransforms (env : Env) (mx my : JSNum) (s : State) : State :=
  (transformWrites (positions env s.smoothScroll mx my)).foldl
    (fun st w => setProperty w.1 w.2 st) s

/-! ## The pointer pipeline -/

/-- The function `onMove(e)`. -/
def onMove (e : Pointer) (s : State) : State :=
  let s := { s with lastEvent := some e }
  if handleTruthy s.rafId then s
  else
    let r := requestAnimationFrame Callback.update s
    { r.2 with rafId := some r.1 }

/-- The pixel offsets `(mx, my)` computed by `update` from the stored event. -/
def pointerOffsets (env : Env) (e : Pointer) : JSNum × JSNum :=
  let w := fin env.innerWidth
  let h := fin env.innerHeight
  let nx := (fin e.clientX / w) - fin 0.5
  let ny := (fin e.clientY / h) - fin 0.5
  let mouseMult := JSNum.or env.mouseMultProp (fin 0.5)
  let mouseMaxX := JSNum.min (fin 40) (w * fin 0.06) * mouseMult
  let mouseMaxY := JSNum.min (fin 24) (h * fin 0.06) * mouseMult
  let mx := JSNum.round (nx * mouseMaxX)
  let my := JSNum.round (ny * mouseMaxY)
  (mx, my)

/-- The values `update` computes from the scroll multiplier and never uses:
`scrollMax`, `topScroll` and `bottomScroll`. -/
def unusedScrollOffsets (env : Env) (smoothScroll : ℚ) : JSNum × JSNum × JSNum :=
  let scrollMult := JSNum.or env.scrollMultProp (fin 1.2)
  let pct := fin smoothScroll / docH env
  let scrollMax := JSNum.round (fin env.innerHeight * fin 0.12 * scrollMult)
  let topScroll := JSNum.round (-scrollMax * pct)
  let bottomScroll := JSNum.round (scrollMax * pct)
  (scrollMax, topScroll, bottomScroll)

/-- The function `update()`, the frame callback of the pointer pipeline. -/
def update (env : Env) (s : State) : State :=
  let s := { s with rafId := none }
  match s.lastEvent with
  | none => s
  | some e =>
    let m := pointerOffsets env e
    let _unused := unusedScrollOffsets env s.smoothScroll
    let s := applyTransforms env m.1 m.2 s
    { s with lastEvent := none }

/-! ## The scroll pipeline -/

/-- The function `onScroll()`. -/
def onScroll (env : Env) (s : State) : State :=
  let s := { s with targetScroll := scrollYOrZero env }
  if handleTruthy s.rafId then s
  else
    let r := requestAnimationFrame Callback.updateScroll s
    { r.2 with rafId := some r.1 }

/-- The function `updateScroll()`, the frame callback of the scroll pipeline
(its constants `docH`, `pct`, `topShift`, `bottomShift` and `nx` are computed
and never used). -/
def updateScroll (env : Env) (s : State) : State :=
  let s := { s with rafId := none }
  let s := { s with smoothScroll := s.smoothScroll + (s.targetScroll - s.smoothScroll) * 0.12 }
  let s := applyTransforms env (fin 0) (fin 0) s
  if |s.targetScroll - s.smoothScroll| > 0.5 then
    let r := requestAnimationFrame Callback.updateScroll s
    { r.2 with rafId := some r.1 }
  else s

/-! ## The active layer -/

/-- The method `classList.toggle(token, force)` on one class list. -/
def toggle (cl : List String) (token : String) (force : Bool) : List String :=
  if token ∈ cl then
    (if force then cl else cl.filter (fun c => c ≠ token))
  else
    (if force then cl ++ [token] else cl)

/-- The class lists after `layers.forEach((el, i) => el.classList.toggle(
'active', i === clampIdx))`, for the layers from index `i` on. -/
def toggleAll (clampIdx : JSNum) : ℕ → List (List String) → List (List String)
  | _, [] => []
  | i, cl :: rest =>
      toggle cl "active" (JSNum.strictEq (fin i) clampIdx) :: toggleAll clampIdx (i + 1) rest

/-- The class list changes made by the same loop: a `toggle` call changes the
list exactly when the presence of the token differs from `force`. -/
def toggleAllLog (clampIdx : JSNum) : ℕ → List (List String) → List (ℕ × Bool)
  | _, [] => []
  | i, cl :: rest =>
      let force := JSNum.strictEq (fin i) clampIdx
      (if decide ("active" ∈ cl) = force then [] else [(i, force)])
        ++ toggleAllLog clampIdx (i + 1) rest

/-- The constant `clampIdx` of `updateActiveLayer`. -/
def clampIdx (env : Env) (layerCount : ℕ) : JSNum :=
  let idx := JSNum.floor (fin (scrollYOrZero env) / fin env.innerHeight)
  JSNum.max (fin 0) (JSNum.min (fin ((layerCount : ℚ) - 1)) idx)

/-- The function `updateActiveLayer()`. -/
def updateActiveLayer (env : Env) (s : State) : State :=
  let c := clampIdx env s.layers.length
  if JSNum.strictEq c s.activeIndex then s
  else
    { s with
      activeIndex := c
      layers := toggleAll c 0 s.layers
      classLog := s.classLog ++ toggleAllLog c 0 s.layers }

/-- The function `scheduleActiveUpdate()`. -/
def scheduleActiveUpdate (s : State) : State :=
  if handleTruthy s.rafActive then s
  else
    let r := requestAnimationFrame Callback.activeUpdate s
    { r.2 with rafActive := some r.1 }

/-! ## Start-up, events and frames -/

/-- The browser method `window.addEventListener`. -/
def addEventListener (type : String) (f : Handler) (s : State) : State :=
  { s with listeners := s.listeners ++ [(type, f)] }

/-- The page before the script runs: nothing written, nothing registered. -/
def blank (layers : List (List String)) : State :=
  { rafId := none
    lastEvent := none
    scrollY := 0
    targetScroll := 0
    smoothScroll := 0
    touchActive := false
    layers := layers
    activeIndex := fin (-1)
    rafActive := none
    style := []
    classLog := []
    listeners := []
    pending := []
    nextHandle := 0 }

/-- The body of the script, run once when the page loads; `layers` are the
class lists of the elements that `querySelectorAll('.bg-layer')` selects. -/
def start (env : Env) (layers : List (List String)) : State :=
  if env.prefersReduced then blank layers
  else
    let s := blank layers
    let s := { s with rafId := none, lastEvent := none, scrollY := scrollYOrZero env }
    let s := { s with targetScroll := s.scrollY }
    let s := { s with smoothScroll := s.scrollY }
    let s := if env.hasOnMouseMove then addEventListener "mousemove" Handler.onMove s else s
    let s := { s with touchActive := false }
    let s := addEventListener "touchstart" Handler.touchStart s
    let s := addEventListener "touchmove" Handler.touchMove s
    let s := addEventListener "scroll" Handler.onScroll s
    let s := { s with activeIndex := fin (-1), rafActive := none }
    let s := updateActiveLayer env s
    addEventListener "scroll" Handler.scheduleActiveUpdate s

/-- What the browser delivers to the page. -/
inductive Event where
  | mousemove (e : Pointer)
  | touchstart
  | touchmove (touches : List Pointer)
  | scroll
  | frame

/-- The listener type an event is dispatched under (none for a frame). -/
def Event.type : Event → String
  | Event.mousemove _ => "mousemove"
  | Event.touchstart => "touchstart"
  | Event.touchmove _ => "touchmove"
  | Event.scroll => "scroll"
  | Event.frame => ""

/-- One registered listener called with an event. -/
def runHandler (env : Env) (ev : Event) (f : Handler) (s : State) : State :=
  match f, ev with
  | Handler.onMove, Event.mousemove e => onMove e s
  | Handler.touchStart, _ => { s with touchActive := true }
  | Handler.touchMove, Event.touchmove (t :: _) => onMove t s
  | Handler.onScroll, _ => onScroll env s
  | Handler.scheduleActiveUpdate, _ => scheduleActiveUpdate s
  | _, _ => s

/-- One animation frame callback called by the browser. -/
def runCallback (env : Env) (cb : Callback) (s : State) : State :=
  match cb with
  | Callback.update => update env s
  | Callback.updateScroll => updateScroll env s
  | Callback.activeUpdate => updateActiveLayer env { s with rafActive := none }

/-- An animation frame: the callbacks pending when the frame starts run in
the order they were requested; callbacks requested meanwhile wait for the
next frame. -/
def runFrame (env : Env) (s : State) : State :=
  s.pending.foldl (fun st c => runCallback env c.2 st) { s with pending := [] }

/-- One step of the page: an event is handed to the listeners registered for
its type, in registration order; a frame runs the pending callbacks. -/
def step (s : State) (x : Env × Event) : State :=
  match x.2 with
  | Event.frame => runFrame x.1 s
  | ev =>
    (s.listeners.filter (fun l => l.1 == ev.type)).foldl
      (fun st l => runHandler x.1 ev l.2 st) s

/-- A run of the page: the steps in order, each with the readings the browser
gives at that moment. -/
def run (s : State) (xs : List (Env × Event)) : State := xs.foldl step s

/-! ## Properties used in the statements -/

/-- A number is finite and lies in the closed interval from `a` to `b`. -/
def JSNum.within (a b : ℚ) : JSNum → Prop
  | JSNum.fin q => a ≤ q ∧ q ≤ b
  | _ => False

/-- The top pair lies in `[10,90] x [5,50]` and the bottom pair in
`[10,90] x [50,95]`. -/
def Positions.Clamped (p : Positions) : Prop :=
  JSNum.within 10 90 p.topX ∧ JSNum.within 5 50 p.topY ∧
  JSNum.within 10 90 p.bottomX ∧ JSNum.within 50 95 p.bottomY

/-- The pairs `applyTransforms` writes for the top and the bottom layer are
the formatted top and bottom positions. -/
def WritesTopBottom (p : Positions) (before after : State) : Prop :=
  (("--bg-top-pos", posString p.topX p.topY) ∈ after.style.drop before.style.length) ∧
  (("--bg-bottom-pos", posString p.bottomX p.bottomY)
    ∈ after.style.drop before.style.length) ∧
  styleValue "--bg-top-pos" after = some (posString p.topX p.topY) ∧
  styleValue "--bg-bottom-pos" after = some (posString p.bottomX p.bottomY)

/-- The `setProperty` calls made between two states, oldest first. -/
def written (before after : State) : List (String × String) :=
  after.style.drop before.style.length

/-- The scroll fraction as a rational: `smoothScroll / max(scrollableHeight, 1)`
with `scrollableHeight = documentHeight - viewportHeight`. -/
def pctQ (env : Env) (smooth : ℚ) : ℚ :=
  smooth / max (env.scrollHeight - env.innerHeight) 1

/-- The clamp of the specification on rationals: `clamp(v, lo, hi)`. -/
def clampQ (v lo hi : ℚ) : ℚ := max lo (min hi v)

/-- A page of the given viewport and document height, at scroll offset
`scrollY`, without multiplier properties. -/
def page (innerWidth innerHeight scrollHeight scrollY : ℚ) : Env :=
  { prefersReduced := false
    hasOnMouseMove := true
    innerWidth := innerWidth
    innerHeight := innerHeight
    scrollHeight := scrollHeight
    scrollY := scrollY
    mouseMultProp := JSNum.nan
    scrollMultProp := JSNum.nan }

/-- The distance `|targetScroll - smoothScroll|` still to be smoothed away. -/
def gap (s : State) : ℚ := |s.targetScroll - s.smoothScroll|

/-- Repeated smoothing steps: `updateScroll` called once per entry of `envs`. -/
def smoothSteps (envs : List Env) (s : State) : State :=
  envs.foldl (fun st e => updateScroll e st) s

/-- A run of animation frames only, one per entry of `envs`. -/
def frames (envs : List Env) (s : State) : State :=
  run s (envs.map (fun e => (e, Event.frame)))

/-- The number of pending frame callbacks that are `updateScroll`. -/
def scrollPending (s : State) : ℕ :=
  s.pending.countP (fun c => decide (c.2 = Callback.updateScroll))

/-- The active-layer invariant: `activeIndex` is the index `k` of a layer, and
a layer carries the class `active` exactly when it is layer `k`. -/
def LayersInv (layers : List (List String)) (activeIndex : JSNum) : Prop :=
  ∃ k : ℕ, k < layers.length ∧ activeIndex = fin k ∧
    ∀ (i : ℕ) (hi : i < layers.length), "active" ∈ layers[i] ↔ i = k

/-- The active-layer invariant of a state. -/
def ActiveInv (s : State) : Prop := LayersInv s.layers s.activeIndex

/-- The constant `mouseMult` of `update`: the parsed property, or `0.5`. -/
def mouseMult (env : Env) : JSNum := JSNum.or env.mouseMultProp (fin 0.5)

/-- The constant `scrollMult` of `update`: the parsed property, or `1.2`. -/
def scrollMult (env : Env) : JSNum := JSNum.or env.scrollMultProp (fin 1.2)

/-- The names of the ten style properties `applyTransforms` sets, in order. -/
def propertyNames : List String :=
  ["--bg-top-pos", "--bg-bottom-pos", "--bg-layer-3-pos", "--bg-layer-4-pos",
   "--bg-layer-5-pos", "--bg-layer-6-pos", "--bg-layer-7-pos", "--bg-layer-8-pos",
   "--bg-layer-9-pos", "--bg-layer-10-pos"]

/-- The number of pending frame callbacks that are the given function. -/
def pendingCount (cb : Callback) (s : State) : ℕ :=
  s.pending.countP (fun c => decide (c.2 = cb))

/-- A page like `page`, with the property `--parallax-mouse-mult` parsing to
the given number. -/
def pageWithMouseMult (innerWidth innerHeight scrollHeight scrollY : ℚ) (m : JSNum) : Env :=
  { page innerWidth innerHeight scrollHeight scrollY with mouseMultProp := m }

/-- A page like `page`, for a user who prefers reduced motion. -/
def reducedPage (innerWidth innerHeight scrollHeight scrollY : ℚ) : Env :=
  { page innerWidth innerHeight scrollHeight scrollY with prefersReduced := true }

/-- Every property name in the style log is one of the ten. -/
def StyleNames (s : State) : Prop := ∀ p ∈ s.style, p.1 ∈ propertyNames

/-- The number of callbacks in a list that belong to the pipelines sharing
`rafId`: `update` and `updateScroll`. -/
def pipelineCount (l : List (ℕ × Callback)) : ℕ :=
  l.countP (fun c => decide (c.2 ≠ Callback.activeUpdate))

/-- The number of active-layer callbacks in a list. -/
def activeCount (l : List (ℕ × Callback)) : ℕ :=
  l.countP (fun c => decide (c.2 = Callback.activeUpdate))

/-- The scheduling invariant: at most one callback of the pipelines sharing
`rafId` is pending, and none when `rafId` is falsy; likewise for the
active-layer callback and `rafActive`. -/
def Coalesced (s : State) : Prop :=
  pipelineCount s.pending ≤ 1 ∧
  (handleTruthy s.rafId = false → pipelineCount s.pending = 0) ∧
  activeCount s.pending ≤ 1 ∧
  (handleTruthy s.rafActive = false → activeCount s.pending = 0)

/-- A burst of pointer events: `onMove` called for each, oldest first. -/
def burst (es : List Pointer) (s : State) : State :=
  es.foldl (fun st e => onMove e st) s

/-- Rounding to the nearest integer, ties upwards, as `Math.round` does. -/
def roundQ (q : ℚ) : ℤ := ⌊q + 1 / 2⌋

/-- The depth multiplier of extra layer `k`, as the specification lists them. -/
def layerMul : ℕ → ℚ
  | 3 => 0.5
  | 4 => 0.35
  | 5 => 0.2
  | 6 => 0.15
  | 7 => 0.1
  | 8 => 0.08
  | 9 => 0.05
  | 10 => 0.03
  | _ => 0

/-- The base vertical offset of extra layer `k`, as the specification lists
them. -/
def layerBase : ℕ → ℚ
  | 3 => 30
  | 4 => 40
  | 5 => 45
  | 6 => 50
  | 7 => 55
  | 8 => 60
  | 9 => 65
  | 10 => 70
  | _ => 0

/-- The computed `x` of extra layer `k`. -/
def Positions.layerX (p : Positions) : ℕ → JSNum
  | 3 => p.l3x
  | 4 => p.l4x
  | 5 => p.l5x
  | 6 => p.l6x
  | 7 => p.l7x
  | 8 => p.l8x
  | 9 => p.l9x
  | 10 => p.l10x
  | _ => JSNum.nan

/-- The computed `y` of extra layer `k`. -/
def Positions.layerY (p : Positions) : ℕ → JSNum
  | 3 => p.l3y
  | 4 => p.l4y
  | 5 => p.l5y
  | 6 => p.l6y
  | 7 => p.l7y
  | 8 => p.l8y
  | 9 => p.l9y
  | 10 => p.l10y
  | _ => JSNum.nan

/-- The style property of extra layer `k`. -/
def layerName (k : ℕ) : String := "--bg-layer-" ++ Nat.repr k ++ "-pos"

/-- A page like `page`, with the property `--parallax-scroll-mult` parsing to
the given number. -/
def pageWithScrollMult (innerWidth innerHeight scrollHeight scrollY : ℚ) (m : JSNum) : Env :=
  { page innerWidth innerHeight scrollHeight scrollY with scrollMultProp := m }

/-- While `update` is pending, a pointer event is stored. -/
def EventStored (s : State) : Prop :=
  0 < pendingCount Callback.update s → s.lastEvent ≠ none

/-- Whether `update` takes its early return `if(!lastEvent) return` while the
given callbacks of a frame run in order from the given state. -/
def frameHitsGuard (env : Env) : List (ℕ × Callback) → State → Bool
  | [], _ => false
  | c :: rest, st =>
      (decide (c.2 = Callback.update) && st.lastEvent.isNone)
        || frameHitsGuard env rest (runCallback env c.2 st)

/-- Whether `update` takes its early return during a step of the page. -/
def hitsGuard (s : State) (x : Env × Event) : Bool :=
  match x.2 with
  | Event.frame => frameHitsGuard x.1 s.pending { s with pending := [] }
  | _ => false

/-! ## Double precision

The numbers of the script are IEEE 754 doubles.  The definitions of this
section are the numeric functions of the script with every arithmetic result
and every decimal literal rounded to the nearest double (ties to the even
mantissa, overflow to an infinity).  The sign of zero is not modelled. -/

/-- The power `2 ^ e` for an integer exponent. -/
def pow2 (e : ℤ) : ℚ :=
  if 0 ≤ e then ((2 ^ e.toNat : ℕ) : ℚ) else 1 / ((2 ^ (-e).toNat : ℕ) : ℚ)

/-- The nearest integer, the even one on a tie. -/
def roundHalfEven (x : ℚ) : ℤ :=
  if x - ⌊x⌋ < 1 / 2 then ⌊x⌋
  else if 1 / 2 < x - ⌊x⌋ then ⌊x⌋ + 1
  else if ⌊x⌋ % 2 = 0 then ⌊x⌋ else ⌊x⌋ + 1

/-- The largest exponent `k` with `lo <= k < hi` and `2 ^ k <= a`, found by
bisection in the given number of steps (`lo` when there is none). -/
def floorLog2 (a : ℚ) : ℕ → ℤ → ℤ → ℤ
  | 0, lo, _ => lo
  | n + 1, lo, hi =>
      if pow2 ((lo + hi) / 2) ≤ a then floorLog2 a n ((lo + hi) / 2) hi
      else floorLog2 a n lo ((lo + hi) / 2)

/-- The exponent of the spacing of the doubles around a positive rational `a`:
with `2 ^ k <= a < 2 ^ (k + 1)` the doubles there are the multiples of
`2 ^ (k - 52)`, and the multiples of `2 ^ (-1074)` below the normal range. -/
def ulpExp (a : ℚ) : ℤ :=
  max (floorLog2 a 12 (-1200) 1200 - 52) (-1074)

/-- The double nearest to a rational: the nearest multiple of the spacing, ties
to the even multiple; a result of `2 ^ 1024` or more is an infinity. -/
def toDouble (q : ℚ) : JSNum :=
  if q = 0 then fin 0
  else if pow2 1024 ≤ (roundHalfEven (|q| / pow2 (ulpExp |q|)) : ℚ) * pow2 (ulpExp |q|) then
    (if 0 < q then JSNum.posInf else JSNum.negInf)
  else if 0 < q then fin ((roundHalfEven (|q| / pow2 (ulpExp |q|)) : ℚ) * pow2 (ulpExp |q|))
  else fin (-((roundHalfEven (|q| / pow2 (ulpExp |q|)) : ℚ) * pow2 (ulpExp |q|)))

/-- The double that an exactly computed result is rounded to. -/
def JSNum.rd : JSNum → JSNum
  | JSNum.fin q => toDouble q
  | x => x

/-- The function `Math.abs`. -/
def JSNum.abs : JSNum → JSNum
  | JSNum.fin q => fin |q|
  | JSNum.posInf => JSNum.posInf
  | JSNum.negInf => JSNum.posInf
  | JSNum.nan => JSNum.nan

/-- The operator `>` on numbers: false as soon as an operand is `NaN`. -/
def JSNum.gt : JSNum → JSNum → Bool
  | JSNum.fin a, JSNum.fin b => decide (b < a)
  | JSNum.nan, _ => false
  | _, JSNum.nan => false
  | _, JSNum.posInf => false
  | JSNum.posInf, _ => true
  | JSNum.negInf, _ => false
  | JSNum.fin _, JSNum.negInf => true

namespace Dbl

/-- A decimal literal of the source: the double nearest to it. -/
def lit (q : ℚ) : JSNum := toDouble q

/-- The operator `+` on doubles. -/
def add (a b : JSNum) : JSNum := (a + b).rd

/-- The operator `-` on doubles. -/
def sub (a b : JSNum) : JSNum := (a - b).rd

/-- The operator `*` on doubles. -/
def mul (a b : JSNum) : JSNum := (a * b).rd

/-- The operator `/` on doubles. -/
def div (a b : JSNum) : JSNum := (a / b).rd

/-- The constant `docH` on doubles. -/
def docH (env : Env) : JSNum :=
  JSNum.max (sub (fin env.scrollHeight) (fin env.innerHeight)) (fin 1)

/-- The numeric part of `applyTransforms(mx, my)` on doubles, at a given
`smoothScroll`; the readings and the arguments are doubles. -/
def positions (env : Env) (smoothScroll : JSNum) (mx my : JSNum) : Positions :=
  let docH := docH env
  let pct := div smoothScroll docH
  let mousePctX := JSNum.max (fin (-6))
    (JSNum.min (fin 6)
      (mul (mul (div mx (JSNum.max (fin 1) (fin env.innerWidth))) (fin 100)) (lit 0.06)))
  let mousePctY := JSNum.max (fin (-4))
    (JSNum.min (fin 4)
      (mul (mul (div my (JSNum.max (fin 1) (fin env.innerHeight))) (fin 100)) (lit 0.04)))
  let scrollTopPct := mul (fin (-12)) pct
  let scrollBottomPct := mul (fin 12) pct
  let topX := add (fin 50) mousePctX
  let topY := add (add (fin 20) scrollTopPct) mousePctY
  let bottomX := sub (fin 50) mousePctX
  let bottomY := sub (sub (fin 80) scrollBottomPct) mousePctY
  let topX := clamp topX (fin 10) (fin 90)
  let topY := clamp topY (fin 5) (fin 50)
  let bottomX := clamp bottomX (fin 10) (fin 90)
  let bottomY := clamp bottomY (fin 50) (fin 95)
  let mul3 := lit 0.5
  let mul4 := lit 0.35
  let mul5 := lit 0.2
  let mul6 := lit 0.15
  let mul7 := lit 0.1
  let mul8 := lit 0.08
  let mul9 := lit 0.05
  let mul10 := lit 0.03
  { pct := pct
    mousePctX := mousePctX
    mousePctY := mousePctY
    scrollTopPct := scrollTopPct
    scrollBottomPct := scrollBottomPct
    topX := topX
    topY := topY
    bottomX := bottomX
    bottomY := bottomY
    l3x := add (fin 50) (mul mousePctX mul3)
    l3y := add (add (fin 30) (mul scrollTopPct mul3)) (mul mousePctY mul3)
    l4x := add (fin 50) (mul mousePctX mul4)
    l4y := add (add (fin 40) (mul scrollTopPct mul4)) (mul mousePctY mul4)
    l5x := add (fin 50) (mul mousePctX mul5)
    l5y := add (add (fin 45) (mul scrollTopPct mul5)) (mul mousePctY mul5)
    l6x := add (fin 50) (mul mousePctX mul6)
    l6y := add (add (fin 50) (mul scrollTopPct mul6)) (mul mousePctY mul6)
    l7x := add (fin 50) (mul mousePctX mul7)
    l7y := add (add (fin 55) (mul scrollTopPct mul7)) (mul mousePctY mul7)
    l8x := add (fin 50) (mul mousePctX mul8)
    l8y := add (add (fin 60) (mul scrollTopPct mul8)) (mul mousePctY mul8)
    l9x := add (fin 50) (mul mousePctX mul9)
    l9y := add (add (fin 65) (mul scrollTopPct mul9)) (mul mousePctY mul9)
    l10x := add (fin 50) (mul mousePctX mul10)
    l10y := add (add (fin 70) (mul scrollTopPct mul10)) (mul mousePctY mul10) }

/-- The variables of the script and the parts of the browser it acts on, as in
`Parallax.State`, with `smoothScroll` a double (the one variable the script
computes by arithmetic of its own). -/
structure State where
  rafId : Option ℕ
  lastEvent : Option Pointer
  scrollY : ℚ
  targetScroll : ℚ
  smoothScroll : JSNum
  touchActive : Bool
  /-- Class lists of the elements selected by `.bg-layer`, in document order. -/
  layers : List (List String)
  activeIndex : JSNum
  rafActive : Option ℕ
  /-- Every `style.setProperty` call on the document root, oldest first. -/
  style : List (String × String)
  /-- Every class list change: the layer index and whether the class was added. -/
  classLog : List (ℕ × Bool)
  /-- Every `addEventListener` call on `window`, oldest first. -/
  listeners : List (String × Handler)
  /-- The animation frame callbacks not yet run, with their handles. -/
  pending : List (ℕ × Callback)
  /-- The last handle given out by `requestAnimationFrame`. -/
  nextHandle : ℕ

/-- The browser function `requestAnimationFrame`: a fresh non-zero handle. -/
def requestAnimationFrame (cb : Callback) (s : State) : ℕ × State :=
  let h := s.nextHandle + 1
  (h, { s with nextHandle := h, pending := s.pending ++ [(h, cb)] })

/-- The browser method `style.setProperty` on the document root. -/
def setProperty (name value : String) (s : State) : State :=
  { s with style := s.style ++ [(name, value)] }

/-- The current value of a style property of the document root. -/
def styleValue (name : String) (s : State) : Option String :=
  (s.style.reverse.find? (fun p => p.1 == name)).map Prod.snd

/-- The function `applyTransforms(mx, my)` on doubles. -/
def applyTransforms (env : Env) (mx my : JSNum) (s : State) : State :=
  (transformWrites (positions env s.smoothScroll mx my)).foldl
    (fun st w => setProperty w.1 w.2 st) s

/-- The function `onMove(e)`. -/
def onMove (e : Pointer) (s : State) : State :=
  let s := { s with lastEvent := some e }
  if handleTruthy s.rafId then s
  else
    let r := requestAnimationFrame Callback.update s
    { r.2 with rafId := some r.1 }

/-- The pixel offsets `(mx, my)` computed by `update` on doubles. -/
def pointerOffsets (env : Env) (e : Pointer) : JSNum × JSNum :=
  let w := fin env.innerWidth
  let h := fin env.innerHeight
  let nx := sub (div (fin e.clientX) w) (lit 0.5)
  let ny := sub (div (fin e.clientY) h) (lit 0.5)
  let mouseMult := JSNum.or env.mouseMultProp (lit 0.5)
  let mouseMaxX := mul (JSNum.min (fin 40) (mul w (lit 0.06))) mouseMult
  let mouseMaxY := mul (JSNum.min (fin 24) (mul h (lit 0.06))) mouseMult
  let mx := JSNum.round (mul nx mouseMaxX)
  let my := JSNum.round (mul ny mouseMaxY)
  (mx, my)

/-- The function `update()` on doubles (its constants `scrollMult`, `docH`,
`pct`, `scrollMax`, `topScroll`, `bottomScroll` and the four strings built from
them are computed and never used). -/
def update (env : Env) (s : State) : State :=
  let s := { s with rafId := none }
  match s.lastEvent with
  | none => s
  | some e =>
    let m := pointerOffsets env e
    let s := applyTransforms env m.1 m.2 s
    { s with lastEvent := none }

/-- The function `onScroll()`. -/
def onScroll (env : Env) (s : State) : State :=
  let s := { s with targetScroll := scrollYOrZero env }
  if handleTruthy s.rafId then s
  else
    let r := requestAnimationFrame Callback.updateScroll s
    { r.2 with rafId := some r.1 }

/-- The function `updateScroll()` on doubles (its constants `docH`, `pct`,
`topShift`, `bottomShift` and `nx` are computed and never used). -/
def updateScroll (env : Env) (s : State) : State :=
  let s := { s with rafId := none }
  let s := { s with
    smoothScroll := add s.smoothScroll (mul (sub (fin s.targetScroll) s.smoothScroll) (lit 0.12)) }
  let s := applyTransforms env (fin 0) (fin 0) s
  if JSNum.gt (JSNum.abs (sub (fin s.targetScroll) s.smoothScroll)) (lit 0.5) then
    let r := requestAnimationFrame Callback.updateScroll s
    { r.2 with rafId := some r.1 }
  else s

/-- The constant `clampIdx` of `updateActiveLayer` on doubles. -/
def clampIdx (env : Env) (layerCount : ℕ) : JSNum :=
  let idx := JSNum.floor (div (fin (scrollYOrZero env)) (fin env.innerHeight))
  JSNum.max (fin 0) (JSNum.min (fin ((layerCount : ℚ) - 1)) idx)

/-- The function `updateActiveLayer()`. -/
def updateActiveLayer (env : Env) (s : State) : State :=
  let c := clampIdx env s.layers.length
  if JSNum.strictEq c s.activeIndex then s
  else
    { s with
      activeIndex := c
      layers := toggleAll c 0 s.layers
      classLog := s.classLog ++ toggleAllLog c 0 s.layers }

/-- The function `scheduleActiveUpdate()`. -/
def scheduleActiveUpdate (s : State) : State :=
  if handleTruthy s.rafActive then s
  else
    let r := requestAnimationFrame Callback.activeUpdate s
    { r.2 with rafActive := some r.1 }

/-- The browser method `window.addEventListener`. -/
def addEventListener (type : String) (f : Handler) (s : State) : State :=
  { s with listeners := s.listeners ++ [(type, f)] }

/-- The page before the script runs: nothing written, nothing registered. -/
def blank (layers : List (List String)) : State :=
  { rafId := none
    lastEvent := none
    scrollY := 0
    targetScroll := 0
    smoothScroll := fin 0
    touchActive := false
    layers := layers
    activeIndex := fin (-1)
    rafActive := none
    style := []
    classLog := []
    listeners := []
    pending := []
    nextHandle := 0 }

/-- The body of the script, run once when the page loads; `layers` are the
class lists of the elements that `querySelectorAll('.bg-layer')` selects. -/
def start (env : Env) (layers : List (List String)) : State :=
  if env.prefersReduced then blank layers
  else
    let s := blank layers
    let s := { s with rafId := none, lastEvent := none, scrollY := scrollYOrZero env }
    let s := { s with targetScroll := s.scrollY }
    let s := { s with smoothScroll := fin s.scrollY }
    let s := if env.hasOnMouseMove then addEventListener "mousemove" Handler.onMove s else s
    let s := { s with touchActive := false }
    let s := addEventListener "touchstart" Handler.touchStart s
    let s := addEventListener "touchmove" Handler.touchMove s
    let s := addEventListener "scroll" Handler.onScroll s
    let s := { s with activeIndex := fin (-1), rafActive := none }
    let s := updateActiveLayer env s
    addEventListener "scroll" Handler.scheduleActiveUpdate s

/-- One registered listener called with an event. -/
def runHandler (env : Env) (ev : Event) (f : Handler) (s : State) : State :=
  match f, ev with
  | Handler.onMove, Event.mousemove e => onMove e s
  | Handler.touchStart, _ => { s with touchActive := true }
  | Handler.touchMove, Event.touchmove (t :: _) => onMove t s
  | Handler.onScroll, _ => onScroll env s
  | Handler.scheduleActiveUpdate, _ => scheduleActiveUpdate s
  | _, _ => s

/-- One animation frame callback called by the browser. -/
def runCallback (env : Env) (cb : Callback) (s : State) : State :=
  match cb with
  | Callback.update => update env s
  | Callback.updateScroll => updateScroll env s
  | Callback.activeUpdate => updateActiveLayer env { s with rafActive := none }

/-- An animation frame: the callbacks pending when the frame starts run in
the order they were requested; callbacks requested meanwhile wait for the
next frame. -/
def runFrame (env : Env) (s : State) : State :=
  s.pending.foldl (fun st c => runCallback env c.2 st) { s with pending := [] }

/-- One step of the page: an event is handed to the listeners registered for
its type, in registration order; a frame runs the pending callbacks. -/
def step (s : State) (x : Env × Event) : State :=
  match x.2 with
  | Event.frame => runFrame x.1 s
  | ev =>
    (s.listeners.filter (fun l => l.1 == ev.type)).foldl
      (fun st l => runHandler x.1 ev l.2 st) s

/-- A run of the page: the steps in order, each with the readings the browser
gives at that moment. -/
def run (s : State) (xs : List (Env × Event)) : State := xs.foldl step s

/-- The `setProperty` calls made between two states, oldest first. -/
def written (before after : State) : List (String × String) :=
  after.style.drop before.style.length

/-- The pairs `applyTransforms` writes for the top and the bottom layer are
the formatted top and bottom positions. -/
def WritesTopBottom (p : Positions) (before after : State) : Prop :=
  (("--bg-top-pos", posString p.topX p.topY) ∈ after.style.drop before.style.length) ∧
  (("--bg-bottom-pos", posString p.bottomX p.bottomY)
    ∈ after.style.drop before.style.length) ∧
  styleValue "--bg-top-pos" after = some (posString p.topX p.topY) ∧
  styleValue "--bg-bottom-pos" after = some (posString p.bottomX p.bottomY)

/-- The number of pending frame callbacks that are `updateScroll`. -/
def scrollPending (s : State) : ℕ :=
  s.pending.countP (fun c => decide (c.2 = Callback.updateScroll))

/-- Repeated smoothing steps: `updateScroll` called once per entry of `envs`. -/
def smoothSteps (envs : List Env) (s : State) : State :=
  envs.foldl (fun st e => updateScroll e st) s

/-- The scroll pipeline seen on its own: `smoothScroll`, `targetScroll` and
whether a call of `updateScroll` is pending. -/
structure Scroll where
  smoothScroll : JSNum
  targetScroll : JSNum
  requested : Bool
  deriving DecidableEq

/-- The effect of one call of `updateScroll` on the scroll pipeline: the
smoothing step and the test that requests the next call. -/
def smoothStep (s : Scroll) : Scroll :=
  let smoothScroll := add s.smoothScroll (mul (sub s.targetScroll s.smoothScroll) (lit 0.12))
  { smoothScroll := smoothScroll
    targetScroll := s.targetScroll
    requested := JSNum.gt (JSNum.abs (sub s.targetScroll smoothScroll)) (lit 0.5) }

/-- The effect of an animation frame on the scroll pipeline: a pending call of
`updateScroll` runs. -/
def chainFrame (s : Scroll) : Scroll := if s.requested then smoothStep s else s

/-- The scroll pipeline after `n` animation frames. -/
def chainFrames : ℕ → Scroll → Scroll
  | 0, s => s
  | n + 1, s => chainFrame (chainFrames n s)

/-- The scroll pipeline after `n` calls of `updateScroll` in a row. -/
def chainSteps : ℕ → Scroll → Scroll
  | 0, s => s
  | n + 1, s => smoothStep (chainSteps n s)

/-- The scroll pipeline right after `onScroll` requested `updateScroll`. -/
def scrolled (smoothScroll targetScroll : ℚ) : Scroll :=
  { smoothScroll := fin smoothScroll, targetScroll := fin targetScroll, requested := true }

/-- The scroll pipeline of a state of the page. -/
def scrollOf (s : State) : Scroll :=
  { smoothScroll := s.smoothScroll
    targetScroll := fin s.targetScroll
    requested := decide (scrollPending s = 1) }

end Dbl

/-- Whether an event is a scroll event. -/
def Event.isScroll : Event → Bool
  | Event.scroll => true
  | _ => false

/-- Whether an event is an animation frame. -/
def Event.isFrame : Event → Bool
  | Event.frame => true
  | _ => false

/-- The number of animation frames in a run. -/
def frameCount (xs : List (Env × Event)) : ℕ := xs.countP (fun x => x.2.isFrame)

/-- A run without scroll events. -/
def NoScroll (xs : List (Env × Event)) : Prop := ∀ x ∈ xs, x.2.isScroll = false

/-- The handler `onScroll` is registered for scroll events only. -/
def Dbl.ScrollTyped (s : Dbl.State) : Prop :=
  ∀ l ∈ s.listeners, l.2 = Handler.onScroll → l.1 = "scroll"

/-! ## Arithmetic of finite numbers -/

section Arithmetic

@[simp] theorem fin_add_fin (a b : ℚ) : fin a + fin b = fin (a + b) := rfl

@[simp] theorem fin_sub_fin (a b : ℚ) : fin a - fin b = fin (a - b) := by
  show JSNum.add (fin a) (JSNum.neg (fin b)) = fin (a - b)
  simp [JSNum.add, JSNum.neg, sub_eq_add_neg]

@[simp] theorem fin_mul_fin (a b : ℚ) : fin a * fin b = fin (a * b) := rfl

@[simp] theorem neg_fin (a : ℚ) : -fin a = fin (-a) := rfl

theorem fin_div_fin (a b : ℚ) (hb : b ≠ 0) : fin a / fin b = fin (a / b) := by
  show JSNum.div (fin a) (fin b) = fin (a / b)
  simp [JSNum.div, hb]

@[simp] theorem max_fin_fin (a b : ℚ) : JSNum.max (fin a) (fin b) = fin (max a b) := rfl

@[simp] theorem min_fin_fin (a b : ℚ) : JSNum.min (fin a) (fin b) = fin (min a b) := rfl

theorem docH_eq (env : Env) :
    docH env = fin (max (env.scrollHeight - env.innerHeight) 1) := by
  simp [docH]

theorem docH_ne_zero (env : Env) : max (env.scrollHeight - env.innerHeight) 1 ≠ 0 := by
  have : (1 : ℚ) ≤ max (env.scrollHeight - env.innerHeight) 1 := le_max_right _ _
  linarith

theorem max_one_ne_zero (w : ℚ) : max 1 w ≠ 0 := by
  have : (1 : ℚ) ≤ max 1 w := le_max_left _ _
  linarith

/-- The scroll fraction is the finite quotient by the floored scrollable height. -/
theorem pct_eq (env : Env) (smooth : ℚ) :
    fin smooth / docH env = fin (smooth / max (env.scrollHeight - env.innerHeight) 1) := by
  rw [docH_eq, fin_div_fin _ _ (docH_ne_zero env)]

/-- Clamping anything but `NaN` between finite bounds gives a finite value
between the bounds. -/
theorem clamp_within (v : JSNum) (a b : ℚ) (hab : a ≤ b) (hv : v ≠ JSNum.nan) :
    JSNum.within a b (clamp v (fin a) (fin b)) := by
  cases v with
  | fin q => simp [clamp, JSNum.within, hab]
  | posInf => simp [clamp, JSNum.min, JSNum.max, JSNum.within, hab]
  | negInf => simp [clamp, JSNum.min, JSNum.max, JSNum.within, hab]
  | nan => exact absurd rfl hv

theorem posInf_mul_fin (c : ℚ) (hc : 0 < c) : JSNum.posInf * fin c = JSNum.posInf := by
  show JSNum.mul JSNum.posInf (fin c) = JSNum.posInf
  simp [JSNum.mul, JSNum.infOfSign, hc, ne_of_gt hc]

theorem negInf_mul_fin (c : ℚ) (hc : 0 < c) : JSNum.negInf * fin c = JSNum.negInf := by
  show JSNum.mul JSNum.negInf (fin c) = JSNum.negInf
  simp [JSNum.mul, JSNum.infOfSign, not_lt.mpr (le_of_lt hc), ne_of_gt hc]

theorem posInf_div_fin (d : ℚ) (hd : 0 ≤ d) : JSNum.posInf / fin d = JSNum.posInf := by
  show JSNum.div JSNum.posInf (fin d) = JSNum.posInf
  simp [JSNum.div, JSNum.infOfSign, hd]

theorem negInf_div_fin (d : ℚ) (hd : 0 ≤ d) : JSNum.negInf / fin d = JSNum.negInf := by
  show JSNum.div JSNum.negInf (fin d) = JSNum.negInf
  simp [JSNum.div, JSNum.infOfSign, not_lt.mpr hd]

end Arithmetic

/-! ## Position computation: what is written -/

section Written

theorem applyTransforms_style (env : Env) (mx my : JSNum) (s : State) :
    (applyTransforms env mx my s).style
      = s.style ++ transformWrites (positions env s.smoothScroll mx my) := by
  simp [applyTransforms, transformWrites, setProperty]

theorem applyTransforms_writes (env : Env) (mx my : JSNum) (s : State) :
    WritesTopBottom (positions env s.smoothScroll mx my) s (applyTransforms env mx my s) := by
  simp [WritesTopBottom, styleValue, applyTransforms_style, transformWrites]

end Written

/-! ## Claims about the position computation -/

/-- The positions computed for a zero pointer offset, as functions of the
scroll fraction. -/
theorem positions_zero_offsets (env : Env) (smooth : ℚ) :
    (positions env smooth (fin 0) (fin 0)).topX = fin 50 ∧
    (positions env smooth (fin 0) (fin 0)).topY
      = fin (clampQ (20 - 12 * pctQ env smooth) 5 50) ∧
    (positions env smooth (fin 0) (fin 0)).bottomX = fin 50 ∧
    (positions env smooth (fin 0) (fin 0)).bottomY
      = fin (clampQ (80 - 12 * pctQ env smooth) 50 95) ∧
    (positions env smooth (fin 0) (fin 0)).l3x = fin 50 ∧
    (positions env smooth (fin 0) (fin 0)).l3y = fin (30 - 6 * pctQ env smooth) := by
  simp only [positions, pct_eq, max_fin_fin, fin_div_fin _ _ (max_one_ne_zero _), clamp, pctQ,
    fin_mul_fin, fin_add_fin, fin_sub_fin, min_fin_fin, JSNum.fin.injEq, clampQ]
  refine ⟨?_, ?_, ?_, ?_, ?_, ?_⟩ <;> norm_num <;> ring_nf

theorem written_applyTransforms (env : Env) (mx my : JSNum) (s : State) :
    written s (applyTransforms env mx my s)
      = transformWrites (positions env s.smoothScroll mx my) := by
  simp [written, applyTransforms_style]

theorem styleValue_top (env : Env) (mx my : JSNum) (s : State) :
    styleValue "--bg-top-pos" (applyTransforms env mx my s)
      = some (posString (positions env s.smoothScroll mx my).topX
          (positions env s.smoothScroll mx my).topY) :=
  (applyTransforms_writes env mx my s).2.2.1

theorem styleValue_bottom (env : Env) (mx my : JSNum) (s : State) :
    styleValue "--bg-bottom-pos" (applyTransforms env mx my s)
      = some (posString (positions env s.smoothScroll mx my).bottomX
          (positions env s.smoothScroll mx my).bottomY) :=
  (applyTransforms_writes env mx my s).2.2.2

theorem styleValue_layer3 (env : Env) (mx my : JSNum) (s : State) :
    styleValue "--bg-layer-3-pos" (applyTransforms env mx my s)
      = some (posString (positions env s.smoothScroll mx my).l3x
          (positions env s.smoothScroll mx my).l3y) := by
  simp [styleValue, applyTransforms_style, transformWrites]

/-- What `applyTransforms(0, 0)` writes for the top, bottom and third layer, as
a function of the scroll fraction. -/
theorem zero_offsets_written (env : Env) (s : State) :
    ("--bg-top-pos", posString (fin 50) (fin (clampQ (20 - 12 * pctQ env s.smoothScroll) 5 50)))
      ∈ written s (applyTransforms env (fin 0) (fin 0) s) ∧
    ("--bg-bottom-pos",
        posString (fin 50) (fin (clampQ (80 - 12 * pctQ env s.smoothScroll) 50 95)))
      ∈ written s (applyTransforms env (fin 0) (fin 0) s) ∧
    ("--bg-layer-3-pos", posString (fin 50) (fin (30 - 6 * pctQ env s.smoothScroll)))
      ∈ written s (applyTransforms env (fin 0) (fin 0) s) ∧
    styleValue "--bg-top-pos" (applyTransforms env (fin 0) (fin 0) s)
      = some (posString (fin 50) (fin (clampQ (20 - 12 * pctQ env s.smoothScroll) 5 50))) ∧
    styleValue "--bg-bottom-pos" (applyTransforms env (fin 0) (fin 0) s)
      = some (posString (fin 50) (fin (clampQ (80 - 12 * pctQ env s.smoothScroll) 50 95))) ∧
    styleValue "--bg-layer-3-pos" (applyTransforms env (fin 0) (fin 0) s)
      = some (posString (fin 50) (fin (30 - 6 * pctQ env s.smoothScroll))) := by
  obtain ⟨hx, hy, hbx, hby, h3x, h3y⟩ := positions_zero_offsets env s.smoothScroll
  rw [styleValue_top, styleValue_bottom, styleValue_layer3, written_applyTransforms,
    hx, hy, hbx, hby, h3x, h3y]
  simp [transformWrites, hx, hy, hbx, hby, h3x, h3y]

/-- C2 (rest position).  For every viewport size and document height, with
`smoothScroll = 0` and pointer offset `(0, 0)`, `applyTransforms` writes the top
position as "50.00% 20.00%" and the bottom position as "50.00% 80.00%". -/
theorem applyTransforms_at_rest (env : Env) (s : State) (h0 : s.smoothScroll = 0) :
    ("--bg-top-pos", "50.00% 20.00%") ∈ written s (applyTransforms env (fin 0) (fin 0) s) ∧
    ("--bg-bottom-pos", "50.00% 80.00%") ∈ written s (applyTransforms env (fin 0) (fin 0) s) ∧
    styleValue "--bg-top-pos" (applyTransforms env (fin 0) (fin 0) s) = some "50.00% 20.00%" ∧
    styleValue "--bg-bottom-pos" (applyTransforms env (fin 0) (fin 0) s)
      = some "50.00% 80.00%" := by
  obtain ⟨h1, h2, -, h4, h5, -⟩ := zero_offsets_written env s
  have hp : pctQ env s.smoothScroll = 0 := by simp [pctQ, h0]
  have ht : clampQ (20 - 12 * pctQ env s.smoothScroll) 5 50 = 20 := by
    rw [hp]; norm_num [clampQ]
  have hb : clampQ (80 - 12 * pctQ env s.smoothScroll) 50 95 = 80 := by
    rw [hp]; norm_num [clampQ]
  have e1 : posString (fin 50) (fin 20) = "50.00% 20.00%" := by decide!
  have e2 : posString (fin 50) (fin 80) = "50.00% 80.00%" := by decide!
  rw [ht, e1] at h1 h4
  rw [hb, e2] at h2 h5
  exact ⟨h1, h2, h4, h5⟩

/-- C3, as stated, fails on a page that does not scroll: with document height
equal to the viewport height the scrollable height is `0`, `smoothScroll = 0`
equals it, and `applyTransforms(0, 0)` writes the rest positions, with top
`y` of 20.00% and bottom `y` of 80.00%, not 8.00% and 68.00%. -/
theorem max_scroll_counterexample :
    (start (page 1000 800 800 0) []).smoothScroll
      = (page 1000 800 800 0).scrollHeight - (page 1000 800 800 0).innerHeight ∧
    styleValue "--bg-top-pos"
      (applyTransforms (page 1000 800 800 0) (fin 0) (fin 0) (start (page 1000 800 800 0) []))
      = some "50.00% 20.00%" ∧
    styleValue "--bg-bottom-pos"
      (applyTransforms (page 1000 800 800 0) (fin 0) (fin 0) (start (page 1000 800 800 0) []))
      = some "50.00% 80.00%" ∧
    ¬ (styleValue "--bg-top-pos"
      (applyTransforms (page 1000 800 800 0) (fin 0) (fin 0) (start (page 1000 800 800 0) []))
      = some "50.00% 8.00%") ∧
    ¬ (styleValue "--bg-bottom-pos"
      (applyTransforms (page 1000 800 800 0) (fin 0) (fin 0) (start (page 1000 800 800 0) []))
      = some "50.00% 68.00%") := by
  obtain ⟨-, -, -, h4, h5, -⟩ :=
    zero_offsets_written (page 1000 800 800 0) (start (page 1000 800 800 0) [])
  have h0 : (start (page 1000 800 800 0) []).smoothScroll = 0 := by decide!
  have hp : pctQ (page 1000 800 800 0) (start (page 1000 800 800 0) []).smoothScroll = 0 := by
    simp [pctQ, h0]
  have ht : clampQ (20 - 12 * pctQ (page 1000 800 800 0)
      (start (page 1000 800 800 0) []).smoothScroll) 5 50 = 20 := by
    rw [hp]; norm_num [clampQ]
  have hb : clampQ (80 - 12 * pctQ (page 1000 800 800 0)
      (start (page 1000 800 800 0) []).smoothScroll) 50 95 = 80 := by
    rw [hp]; norm_num [clampQ]
  have e1 : posString (fin 50) (fin 20) = "50.00% 20.00%" := by decide!
  have e2 : posString (fin 50) (fin 80) = "50.00% 80.00%" := by decide!
  rw [ht, e1] at h4
  rw [hb, e2] at h5
  refine ⟨by rw [h0]; norm_num [page], h4, h5, ?_, ?_⟩
  · rw [h4]; decide
  · rw [h5]; decide

/-- C3, amended.  Whenever the scrollable height `documentHeight -
viewportHeight` is at least 1 and `smoothScroll` equals it, `applyTransforms`
with pointer offset `(0, 0)` writes a top `y` of 8.00% and a bottom `y` of
68.00% (positions "50.00% 8.00%" and "50.00% 68.00%"). -/
theorem applyTransforms_at_max_scroll (env : Env) (s : State)
    (hH : 1 ≤ env.scrollHeight - env.innerHeight)
    (hs : s.smoothScroll = env.scrollHeight - env.innerHeight) :
    (positions env s.smoothScroll (fin 0) (fin 0)).topY = fin 8 ∧
    (positions env s.smoothScroll (fin 0) (fin 0)).bottomY = fin 68 ∧
    ("--bg-top-pos", "50.00% 8.00%") ∈ written s (applyTransforms env (fin 0) (fin 0) s) ∧
    ("--bg-bottom-pos", "50.00% 68.00%") ∈ written s (applyTransforms env (fin 0) (fin 0) s) ∧
    styleValue "--bg-top-pos" (applyTransforms env (fin 0) (fin 0) s) = some "50.00% 8.00%" ∧
    styleValue "--bg-bottom-pos" (applyTransforms env (fin 0) (fin 0) s)
      = some "50.00% 68.00%" := by
  obtain ⟨h1, h2, -, h4, h5, -⟩ := zero_offsets_written env s
  obtain ⟨-, hy, -, hby, -, -⟩ := positions_zero_offsets env s.smoothScroll
  have hp : pctQ env s.smoothScroll = 1 := by
    rw [pctQ, hs, max_eq_left hH]
    exact div_self (by linarith)
  have ht : clampQ (20 - 12 * pctQ env s.smoothScroll) 5 50 = 8 := by
    rw [hp]; norm_num [clampQ]
  have hb : clampQ (80 - 12 * pctQ env s.smoothScroll) 50 95 = 68 := by
    rw [hp]; norm_num [clampQ]
  have e1 : posString (fin 50) (fin 8) = "50.00% 8.00%" := by decide!
  have e2 : posString (fin 50) (fin 68) = "50.00% 68.00%" := by decide!
  rw [ht] at hy
  rw [hb] at hby
  rw [ht, e1] at h1 h4
  rw [hb, e2] at h2 h5
  exact ⟨hy, hby, h1, h2, h4, h5⟩

/-! ## Smoothing -/

section Smoothing

theorem applyTransforms_eq (env : Env) (mx my : JSNum) (s : State) :
    applyTransforms env mx my s
      = { s with style := s.style ++ transformWrites (positions env s.smoothScroll mx my) } := by
  simp [applyTransforms, transformWrites, setProperty]

theorem updateScroll_smoothScroll (env : Env) (s : State) :
    (updateScroll env s).smoothScroll
      = s.smoothScroll + (s.targetScroll - s.smoothScroll) * 0.12 := by
  unfold updateScroll
  simp only [applyTransforms_eq, requestAnimationFrame]
  split <;> rfl

theorem updateScroll_targetScroll (env : Env) (s : State) :
    (updateScroll env s).targetScroll = s.targetScroll := by
  unfold updateScroll
  simp only [applyTransforms_eq, requestAnimationFrame]
  split <;> rfl

theorem smoothSteps_append (envs : List Env) (env : Env) (s : State) :
    smoothSteps (envs ++ [env]) s = updateScroll env (smoothSteps envs s) := by
  simp [smoothSteps]

theorem targetScroll_smoothSteps (envs : List Env) (s : State) :
    (smoothSteps envs s).targetScroll = s.targetScroll := by
  induction envs using List.reverseRecOn with
  | nil => simp [smoothSteps]
  | append_singleton envs env ih => rw [smoothSteps_append, updateScroll_targetScroll, ih]

end Smoothing

/-! ## The smoothing chain across frames -/

section Chain

theorem update_fields (env : Env) (s : State) :
    (update env s).smoothScroll = s.smoothScroll ∧
    (update env s).targetScroll = s.targetScroll ∧
    (update env s).pending = s.pending ∧
    (update env s).layers = s.layers ∧
    (update env s).activeIndex = s.activeIndex ∧
    (update env s).classLog = s.classLog := by
  unfold update
  cases s.lastEvent <;> simp [applyTransforms_eq]

theorem updateActiveLayer_fields (env : Env) (s : State) :
    (updateActiveLayer env s).smoothScroll = s.smoothScroll ∧
    (updateActiveLayer env s).targetScroll = s.targetScroll ∧
    (updateActiveLayer env s).pending = s.pending := by
  simp only [updateActiveLayer]
  split <;> simp

end Chain

/-! ## Convergence when scrolling stops -/

/-- C7 fails on the code.  The page is loaded at scroll offset 0; the pointer
moves, which requests `update` and sets `rafId`; then the page is scrolled to
1000 before the next frame: `onScroll` stores `targetScroll = 1000` but, finding
`rafId` set, requests nothing.  After the frame no callback is pending, no
handle is set, and `|targetScroll - smoothScroll| = 1000`. -/
theorem smoothing_stalls_after_pointer_move :
    (run (start (page 1000 800 2800 0) [])
      [(page 1000 800 2800 0, Event.mousemove ⟨500, 400⟩),
       (page 1000 800 2800 1000, Event.scroll),
       (page 1000 800 2800 1000, Event.frame)]).pending = [] ∧
    (run (start (page 1000 800 2800 0) [])
      [(page 1000 800 2800 0, Event.mousemove ⟨500, 400⟩),
       (page 1000 800 2800 1000, Event.scroll),
       (page 1000 800 2800 1000, Event.frame)]).rafId = none ∧
    (run (start (page 1000 800 2800 0) [])
      [(page 1000 800 2800 0, Event.mousemove ⟨500, 400⟩),
       (page 1000 800 2800 1000, Event.scroll),
       (page 1000 800 2800 1000, Event.frame)]).rafActive = none ∧
    (run (start (page 1000 800 2800 0) [])
      [(page 1000 800 2800 0, Event.mousemove ⟨500, 400⟩),
       (page 1000 800 2800 1000, Event.scroll),
       (page 1000 800 2800 1000, Event.frame)]).targetScroll = 1000 ∧
    (run (start (page 1000 800 2800 0) [])
      [(page 1000 800 2800 0, Event.mousemove ⟨500, 400⟩),
       (page 1000 800 2800 1000, Event.scroll),
       (page 1000 800 2800 1000, Event.frame)]).smoothScroll = 0 ∧
    ¬ (|(run (start (page 1000 800 2800 0) [])
      [(page 1000 800 2800 0, Event.mousemove ⟨500, 400⟩),
       (page 1000 800 2800 1000, Event.scroll),
       (page 1000 800 2800 1000, Event.frame)]).targetScroll
      - (run (start (page 1000 800 2800 0) [])
      [(page 1000 800 2800 0, Event.mousemove ⟨500, 400⟩),
       (page 1000 800 2800 1000, Event.scroll),
       (page 1000 800 2800 1000, Event.frame)]).smoothScroll| ≤ 0.5) := by
  refine ⟨by decide!, by decide!, by decide!, by decide!, by decide!, by decide!⟩

/-! ## The active layer -/

section ActiveLayer

theorem scrollYOrZero_eq (env : Env) : scrollYOrZero env = env.scrollY := by
  unfold scrollYOrZero
  split_ifs with h
  · rfl
  · push_neg at h
    exact h.symm

theorem strictEq_eq {a b : JSNum} (h : JSNum.strictEq a b = true) : a = b := by
  cases a <;> cases b <;> simp_all [JSNum.strictEq]

theorem strictEq_fin_self (q : ℚ) : JSNum.strictEq (fin q) (fin q) = true := by
  simp [JSNum.strictEq]

/-- In a viewport of non-zero height `clampIdx` is the clamped quotient. -/
theorem clampIdx_eq (env : Env) (n : ℕ) (hh : env.innerHeight ≠ 0) :
    clampIdx env n
      = fin (((max 0 (min ((n : ℤ) - 1) ⌊env.scrollY / env.innerHeight⌋) : ℤ) : ℚ)) := by
  simp only [clampIdx, scrollYOrZero_eq, fin_div_fin _ _ hh, JSNum.floor, min_fin_fin,
    max_fin_fin]
  congr 1
  push_cast
  rfl

theorem clampIdx_nat (env : Env) (n : ℕ) (hh : env.innerHeight ≠ 0) (hn : 1 ≤ n) :
    ∃ k : ℕ, k < n ∧ clampIdx env n = fin k ∧
      (k : ℤ) = max 0 (min ((n : ℤ) - 1) ⌊env.scrollY / env.innerHeight⌋) := by
  have h0 : (0 : ℤ) ≤ max 0 (min ((n : ℤ) - 1) ⌊env.scrollY / env.innerHeight⌋) :=
    le_max_left _ _
  have h1 : max 0 (min ((n : ℤ) - 1) ⌊env.scrollY / env.innerHeight⌋) ≤ (n : ℤ) - 1 :=
    max_le (by omega) (min_le_left _ _)
  obtain ⟨k, hk⟩ := Int.eq_ofNat_of_zero_le h0
  refine ⟨k, by omega, ?_, hk.symm⟩
  rw [clampIdx_eq env n hh, hk]
  simp

theorem updateActiveLayer_activeIndex (env : Env) (s : State) :
    (updateActiveLayer env s).activeIndex = clampIdx env s.layers.length := by
  simp only [updateActiveLayer]
  split
  · next h => exact (strictEq_eq h).symm
  · rfl

theorem mem_toggle (cl : List String) (token : String) (force : Bool) :
    token ∈ toggle cl token force ↔ force = true := by
  unfold toggle
  by_cases hm : token ∈ cl <;> cases force <;> simp [hm]

theorem length_toggleAll (c : JSNum) (l : List (List String)) :
    ∀ i, (toggleAll c i l).length = l.length := by
  induction l with
  | nil => intro i; rfl
  | cons cl rest ih => intro i; simp [toggleAll, ih]

theorem getElem_toggleAll (c : JSNum) (l : List (List String)) :
    ∀ (i j : ℕ) (hj : j < l.length),
      (toggleAll c i l)[j]? = some (toggle l[j] "active" (JSNum.strictEq (fin ((i + j : ℕ) : ℚ)) c)) := by
  induction l with
  | nil => intro i j hj; simp at hj
  | cons cl rest ih =>
    intro i j hj
    cases j with
    | zero => simp [toggleAll]
    | succ j =>
      have hj2 : j < rest.length := by simpa using hj
      have := ih (i + 1) j hj2
      simp only [toggleAll, List.getElem?_cons_succ, List.getElem_cons_succ]
      rw [this]
      have : i + 1 + j = i + (j + 1) := by omega
      rw [this]

/-- After the loop of `updateActiveLayer` for a layer index `k`, a layer carries
`active` exactly when it is layer `k`. -/
theorem active_toggleAll (k : ℕ) (l : List (List String)) (i : ℕ)
    (hi : i < (toggleAll (fin k) 0 l).length) :
    "active" ∈ (toggleAll (fin k) 0 l)[i] ↔ i = k := by
  have hi2 : i < l.length := by rwa [length_toggleAll] at hi
  have h := getElem_toggleAll (fin k) l 0 i hi2
  rw [List.getElem?_eq_getElem hi] at h
  rw [Option.some.inj h, mem_toggle]
  simp [JSNum.strictEq]

/-- One call of `updateActiveLayer` in a viewport of non-zero height, with at
least one layer, establishes or keeps the invariant. -/
theorem updateActiveLayer_inv (env : Env) (s : State) (hh : env.innerHeight ≠ 0)
    (hn : 1 ≤ s.layers.length) (hs : s.activeIndex = fin (-1) ∨ ActiveInv s) :
    ActiveInv (updateActiveLayer env s) := by
  obtain ⟨k, hk, hc, -⟩ := clampIdx_nat env s.layers.length hh hn
  simp only [updateActiveLayer, hc]
  split
  · next heq =>
    rcases hs with h | h
    · rw [h] at heq
      simp [JSNum.strictEq] at heq
      have : (0 : ℚ) ≤ (k : ℚ) := Nat.cast_nonneg k
      linarith
    · exact h
  · refine ⟨k, by simpa [length_toggleAll] using hk, rfl, ?_⟩
    intro i hi
    exact active_toggleAll k s.layers i hi

theorem toggle_toggle (cl : List String) (token : String) (force : Bool) :
    toggle (toggle cl token force) token force = toggle cl token force := by
  have hm := mem_toggle cl token force
  generalize toggle cl token force = cl2 at hm
  unfold toggle
  cases force <;> simp_all

theorem toggleAll_toggleAll (c : JSNum) (l : List (List String)) :
    ∀ i, toggleAll c i (toggleAll c i l) = toggleAll c i l := by
  induction l with
  | nil => intro i; rfl
  | cons cl rest ih => intro i; simp [toggleAll, toggle_toggle, ih]

theorem toggleAllLog_toggleAll (c : JSNum) (l : List (List String)) :
    ∀ i, toggleAllLog c i (toggleAll c i l) = [] := by
  induction l with
  | nil => intro i; rfl
  | cons cl rest ih =>
    intro i
    simp only [toggleAll, toggleAllLog, ih, List.append_nil]
    have hm := mem_toggle cl "active" (JSNum.strictEq (fin i) c)
    generalize toggle cl "active" (JSNum.strictEq (fin i) c) = cl2 at hm
    cases hf : JSNum.strictEq (fin i) c <;> simp_all

/-- A second call of `updateActiveLayer` under the same readings returns the
state unchanged. -/
theorem updateActiveLayer_twice (env : Env) (s : State) :
    updateActiveLayer env (updateActiveLayer env s) = updateActiveLayer env s := by
  by_cases h : JSNum.strictEq (clampIdx env s.layers.length) s.activeIndex = true
  · have h1 : updateActiveLayer env s = s := by simp [updateActiveLayer, h]
    rw [h1, h1]
  · have h1 : updateActiveLayer env s =
        { s with
          activeIndex := clampIdx env s.layers.length
          layers := toggleAll (clampIdx env s.layers.length) 0 s.layers
          classLog := s.classLog ++ toggleAllLog (clampIdx env s.layers.length) 0 s.layers } := by
      simp [updateActiveLayer, h]
    rw [h1]
    simp only [updateActiveLayer, length_toggleAll, toggleAll_toggleAll, toggleAllLog_toggleAll,
      List.append_nil]
    split <;> rfl

theorem LayersInv_updateActiveLayer (env : Env) (s : State) (hh : env.innerHeight ≠ 0)
    (hs : ActiveInv s) : ActiveInv (updateActiveLayer env s) := by
  have hlen : 1 ≤ s.layers.length := by
    obtain ⟨k, hk, -, -⟩ := hs
    omega
  exact updateActiveLayer_inv env s hh hlen (Or.inr hs)

theorem onMove_layers (e : Pointer) (s : State) :
    (onMove e s).layers = s.layers ∧ (onMove e s).activeIndex = s.activeIndex := by
  simp only [onMove, requestAnimationFrame]
  split <;> exact ⟨rfl, rfl⟩

theorem onScroll_layers (env : Env) (s : State) :
    (onScroll env s).layers = s.layers ∧ (onScroll env s).activeIndex = s.activeIndex := by
  simp only [onScroll, requestAnimationFrame]
  split <;> exact ⟨rfl, rfl⟩

theorem scheduleActiveUpdate_layers (s : State) :
    (scheduleActiveUpdate s).layers = s.layers ∧
    (scheduleActiveUpdate s).activeIndex = s.activeIndex := by
  simp only [scheduleActiveUpdate, requestAnimationFrame]
  split <;> exact ⟨rfl, rfl⟩

theorem updateScroll_layers (env : Env) (s : State) :
    (updateScroll env s).layers = s.layers ∧
    (updateScroll env s).activeIndex = s.activeIndex := by
  simp only [updateScroll, applyTransforms_eq, requestAnimationFrame]
  split <;> exact ⟨rfl, rfl⟩

theorem runHandler_layers (env : Env) (ev : Event) (f : Handler) (s : State) :
    (runHandler env ev f s).layers = s.layers ∧
    (runHandler env ev f s).activeIndex = s.activeIndex := by
  cases f <;> cases ev <;>
    first
    | exact ⟨rfl, rfl⟩
    | exact onMove_layers _ s
    | exact onScroll_layers env s
    | exact scheduleActiveUpdate_layers s
    | (rename_i t; cases t <;> first | exact ⟨rfl, rfl⟩ | exact onMove_layers _ s)

theorem runHandler_inv (env : Env) (ev : Event) (f : Handler) (s : State) (hs : ActiveInv s) :
    ActiveInv (runHandler env ev f s) := by
  unfold ActiveInv at *
  rw [(runHandler_layers env ev f s).1, (runHandler_layers env ev f s).2]
  exact hs

theorem runCallback_inv (env : Env) (cb : Callback) (s : State) (hh : env.innerHeight ≠ 0)
    (hs : ActiveInv s) : ActiveInv (runCallback env cb s) := by
  cases cb with
  | update =>
    obtain ⟨-, -, -, h4, h5, -⟩ := update_fields env s
    unfold ActiveInv at *
    simp only [runCallback]
    rw [h4, h5]; exact hs
  | updateScroll =>
    unfold ActiveInv at *
    simp only [runCallback]
    rw [(updateScroll_layers env s).1, (updateScroll_layers env s).2]; exact hs
  | activeUpdate =>
    exact LayersInv_updateActiveLayer env { s with rafActive := none } hh hs

theorem foldl_inv {α β : Type} (P : α → Prop) (f : α → β → α) (l : List β)
    (hf : ∀ a b, P a → P (f a b)) : ∀ a, P a → P (l.foldl f a) := by
  induction l with
  | nil => intro a ha; exact ha
  | cons b l ih => intro a ha; exact ih _ (hf a b ha)

theorem step_inv (s : State) (x : Env × Event) (hh : x.1.innerHeight ≠ 0) (hs : ActiveInv s) :
    ActiveInv (step s x) := by
  unfold step
  split
  · exact foldl_inv ActiveInv _ _ (fun a c ha => runCallback_inv x.1 c.2 a hh ha) _ hs
  · exact foldl_inv ActiveInv _ _ (fun a l ha => runHandler_inv x.1 _ l.2 a ha) _ hs

theorem run_inv (xs : List (Env × Event)) :
    ∀ s : State, (∀ x ∈ xs, x.1.innerHeight ≠ 0) → ActiveInv s → ActiveInv (run s xs) := by
  induction xs with
  | nil => intro s _ hs; exact hs
  | cons x xs ih =>
    intro s hx hs
    exact ih (step s x) (fun y hy => hx y (List.mem_cons_of_mem _ hy))
      (step_inv s x (hx x (List.mem_cons_self _ _)) hs)

theorem start_inv (env : Env) (layers : List (List String)) (hred : env.prefersReduced = false)
    (hh : env.innerHeight ≠ 0) (hn : layers ≠ []) : ActiveInv (start env layers) := by
  have hlen : 1 ≤ layers.length := List.length_pos.mpr hn
  simp only [start, hred, Bool.false_eq_true, if_false, addEventListener]
  split <;> exact updateActiveLayer_inv env _ hh hlen (Or.inl rfl)

end ActiveLayer

/-- C8 (active-layer index).  For every scroll offset (non-negative or not),
viewport height `> 0` and layer count `n >= 1`, `updateActiveLayer` sets `activeIndex` to
`clamp(floor(scrollY / viewportHeight), 0, n - 1)`, the index `k` of a layer:
`0 <= k <= n - 1`. -/
theorem updateActiveLayer_index (env : Env) (s : State)
    (hh : 0 < env.innerHeight) (hn : 1 ≤ s.layers.length) :
    ∃ k : ℕ, (updateActiveLayer env s).activeIndex = fin k ∧
      (k : ℤ) = max 0 (min ((s.layers.length : ℤ) - 1) ⌊env.scrollY / env.innerHeight⌋) ∧
      0 ≤ k ∧ k ≤ s.layers.length - 1 := by
  obtain ⟨k, hk, hc, hz⟩ := clampIdx_nat env s.layers.length (ne_of_gt hh) hn
  exact ⟨k, by rw [updateActiveLayer_activeIndex, hc], hz, Nat.zero_le k, by omega⟩

/-- C9 (idempotence).  For every state and every reading of the scroll offset,
viewport height and layer list, a second call of `updateActiveLayer` under the
same readings returns the state of the first call: `activeIndex` and every
class list are identical and no class list change is recorded. -/
theorem updateActiveLayer_idempotent (env : Env) (s : State) :
    updateActiveLayer env (updateActiveLayer env s) = updateActiveLayer env s ∧
    (updateActiveLayer env (updateActiveLayer env s)).activeIndex
      = (updateActiveLayer env s).activeIndex ∧
    (updateActiveLayer env (updateActiveLayer env s)).layers
      = (updateActiveLayer env s).layers ∧
    (updateActiveLayer env (updateActiveLayer env s)).classLog
      = (updateActiveLayer env s).classLog := by
  have h := updateActiveLayer_twice env s
  exact ⟨h, by rw [h], by rw [h], by rw [h]⟩

/-- C10 (exactly one active layer).  With at least one layer and a positive
viewport height, whatever classes the layers carried before: after the
start-up call of `updateActiveLayer`, after any later call, and in every state
the page reaches by events and frames, `activeIndex` is the index of a layer and
layer `i` carries `active` if and only if `i = activeIndex`. -/
theorem exactly_one_active_layer (env : Env) (layers : List (List String))
    (hred : env.prefersReduced = false) (hh : 0 < env.innerHeight) (hn : layers ≠ []) :
    ActiveInv (start env layers) ∧
    (∀ (s : State) (later : Env), ActiveInv s → 0 < later.innerHeight →
      ActiveInv (updateActiveLayer later s)) ∧
    (∀ xs : List (Env × Event), (∀ x ∈ xs, 0 < x.1.innerHeight) →
      ActiveInv (run (start env layers) xs)) := by
  refine ⟨start_inv env layers hred (ne_of_gt hh) hn,
    fun s later hs hl => LayersInv_updateActiveLayer later s (ne_of_gt hl) hs, ?_⟩
  intro xs hxs
  exact run_inv xs _ (fun x hx => ne_of_gt (hxs x hx)) (start_inv env layers hred (ne_of_gt hh) hn)

/-! ## Reduced motion -/

section ReducedMotion

theorem step_blank (layers : List (List String)) (x : Env × Event) :
    step (blank layers) x = blank layers := by
  obtain ⟨env, ev⟩ := x
  cases ev <;> rfl

theorem run_blank (layers : List (List String)) (xs : List (Env × Event)) :
    run (blank layers) xs = blank layers := by
  induction xs with
  | nil => rfl
  | cons x xs ih =>
    show run (step (blank layers) x) xs = blank layers
    rw [step_blank, ih]

end ReducedMotion

/-- C11 (reduced motion).  If the reduced-motion preference is active when the
script starts, the script registers no listener, and after every sequence of
pointer, touch and scroll events and frames (whatever the browser reads then)
the page is as it was before the script ran: no listener, no frame requested,
no style property written, no class list changed. -/
theorem reduced_motion_inert (env : Env) (layers : List (List String))
    (hred : env.prefersReduced = true) (xs : List (Env × Event)) :
    (start env layers).listeners = [] ∧
    run (start env layers) xs = blank layers ∧
    (run (start env layers) xs).listeners = [] ∧
    (run (start env layers) xs).pending = [] ∧
    (run (start env layers) xs).nextHandle = 0 ∧
    (run (start env layers) xs).style = [] ∧
    (run (start env layers) xs).classLog = [] ∧
    (run (start env layers) xs).layers = layers := by
  have h0 : start env layers = blank layers := by simp [start, hred]
  rw [h0, run_blank]
  exact ⟨rfl, rfl, rfl, rfl, rfl, rfl, rfl, rfl⟩

/-! ## The multipliers -/

section Multipliers

theorem or_of_nan (d : JSNum) : JSNum.or JSNum.nan d = d := rfl

theorem or_of_zero (d : JSNum) : JSNum.or (fin 0) d = d := by
  simp [JSNum.or, JSNum.truthy]

theorem or_of_ne_zero (q : ℚ) (d : JSNum) (hq : q ≠ 0) : JSNum.or (fin q) d = fin q := by
  simp [JSNum.or, JSNum.truthy, hq]

/-- The multiplier `update` uses is the constant `mouseMult`. -/
theorem pointerOffsets_eq (env : Env) (e : Pointer) :
    pointerOffsets env e
      = (JSNum.round (((fin e.clientX / fin env.innerWidth) - fin 0.5)
            * (JSNum.min (fin 40) (fin env.innerWidth * fin 0.06) * mouseMult env)),
         JSNum.round (((fin e.clientY / fin env.innerHeight) - fin 0.5)
            * (JSNum.min (fin 24) (fin env.innerHeight * fin 0.06) * mouseMult env))) := rfl

/-- The values derived from the scroll multiplier use the constant `scrollMult`. -/
theorem unusedScrollOffsets_fst (env : Env) (smooth : ℚ) :
    (unusedScrollOffsets env smooth).1
      = JSNum.round (fin env.innerHeight * fin 0.12 * scrollMult env) := rfl

end Multipliers

/-- C12 fails on the code for a property that parses to the number 0.  What
holds: a property that parses to a non-zero number (or to an infinity) is used
as it is, and one that is absent or not numeric (`NaN`) gives the default, `0.5`
for the mouse and `1.2` for the scroll multiplier; but the number 0 is replaced
by the default as well, so with `--parallax-mouse-mult: 0` the pointer at
`(900, 100)` in a 1000 x 800 viewport still moves the layers by `(8, -4)`
pixels. -/
theorem zero_multiplier_replaced_by_default :
    (∀ (env : Env) (q : ℚ), q ≠ 0 →
      (env.mouseMultProp = fin q → mouseMult env = fin q) ∧
      (env.scrollMultProp = fin q → scrollMult env = fin q)) ∧
    (∀ env : Env,
      (env.mouseMultProp = JSNum.nan → mouseMult env = fin 0.5) ∧
      (env.scrollMultProp = JSNum.nan → scrollMult env = fin 1.2)) ∧
    mouseMult (pageWithMouseMult 1000 800 2800 0 (fin 0)) = fin 0.5 ∧
    mouseMult (pageWithMouseMult 1000 800 2800 0 (fin 0)) ≠ fin 0 ∧
    pointerOffsets (pageWithMouseMult 1000 800 2800 0 (fin 0)) ⟨900, 100⟩ = (fin 8, fin (-4)) ∧
    (∀ env : Env, env.scrollMultProp = fin 0 → scrollMult env = fin 1.2) := by
  refine ⟨fun env q hq => ⟨fun h => ?_, fun h => ?_⟩, fun env => ⟨fun h => ?_, fun h => ?_⟩,
    by decide!, by decide!, by decide!, fun env h => ?_⟩
  · rw [mouseMult, h, or_of_ne_zero q _ hq]
  · rw [scrollMult, h, or_of_ne_zero q _ hq]
  · rw [mouseMult, h, or_of_nan]
  · rw [scrollMult, h, or_of_nan]
  · rw [scrollMult, h, or_of_zero]

/-! ## Denominators -/

/-- C13 fails on the code.  `applyTransforms` (and with it the position
computation of `updateScroll`) divides by `docH`, `max(1, innerWidth)` and
`max(1, innerHeight)`, all at least 1; but `updateActiveLayer` divides by
`innerHeight` itself and `update` by `innerWidth` and `innerHeight` themselves.
In a viewport of height 0 the start-up call of `updateActiveLayer` computes
`0 / 0 = NaN`: `activeIndex` becomes `NaN` and every layer loses `active`.  In a
viewport of width and height 0 `update` derives the offsets `(NaN, NaN)` and
"NaN% NaN%" is written. -/
theorem division_by_zero_in_empty_viewport :
    (∀ env : Env, ∃ d : ℚ, docH env = fin d ∧ 1 ≤ d) ∧
    (∀ w : ℚ, ∃ d : ℚ, JSNum.max (fin 1) (fin w) = fin d ∧ 1 ≤ d) ∧
    (page 1000 0 0 0).innerHeight = 0 ∧
    fin (scrollYOrZero (page 1000 0 0 0)) / fin (page 1000 0 0 0).innerHeight = JSNum.nan ∧
    clampIdx (page 1000 0 0 0) 3 = JSNum.nan ∧
    (start (page 1000 0 0 0)
      [["bg-layer", "active"], ["bg-layer"], ["bg-layer"]]).activeIndex = JSNum.nan ∧
    (start (page 1000 0 0 0)
      [["bg-layer", "active"], ["bg-layer"], ["bg-layer"]]).layers
      = [["bg-layer"], ["bg-layer"], ["bg-layer"]] ∧
    fin (0 : ℚ) / fin (page 0 0 0 0).innerWidth = JSNum.nan ∧
    pointerOffsets (page 0 0 0 0) ⟨0, 0⟩ = (JSNum.nan, JSNum.nan) ∧
    styleValue "--bg-top-pos" (run (start (page 0 0 0 0) [])
      [(page 0 0 0 0, Event.mousemove ⟨0, 0⟩), (page 0 0 0 0, Event.frame)])
      = some "NaN% NaN%" := by
  refine ⟨fun env => ⟨_, docH_eq env, le_max_right _ _⟩,
    fun w => ⟨_, max_fin_fin 1 w, le_max_left _ _⟩,
    rfl, by decide!, by decide!, by decide!, by decide!, by decide!, by decide!, by decide!⟩

/-! ## The write set -/

section WriteSet

theorem transformWrites_names (p : Positions) :
    (transformWrites p).map Prod.fst = propertyNames := rfl

theorem update_style (env : Env) (s : State) :
    (update env s).style = s.style ∨
    ∃ p : Positions, (update env s).style = s.style ++ transformWrites p := by
  unfold update
  cases s.lastEvent with
  | none => exact Or.inl rfl
  | some e =>
    exact Or.inr ⟨positions env s.smoothScroll (pointerOffsets env e).1 (pointerOffsets env e).2,
      by simp [applyTransforms_eq]⟩

theorem updateScroll_style (env : Env) (s : State) :
    ∃ p : Positions, (updateScroll env s).style = s.style ++ transformWrites p := by
  refine ⟨positions env (s.smoothScroll + (s.targetScroll - s.smoothScroll) * 0.12)
    (fin 0) (fin 0), ?_⟩
  simp only [updateScroll, applyTransforms_eq, requestAnimationFrame]
  split <;> rfl

theorem StyleNames_append (s t : State) (p : Positions) (h : StyleNames s)
    (ht : t.style = s.style ++ transformWrites p) : StyleNames t := by
  intro q hq
  rw [ht, List.mem_append] at hq
  rcases hq with hq | hq
  · exact h q hq
  · rw [← transformWrites_names p]
    exact List.mem_map_of_mem _ hq

theorem runHandler_style (env : Env) (ev : Event) (f : Handler) (s : State) :
    (runHandler env ev f s).style = s.style := by
  have hm : ∀ e, (onMove e s).style = s.style := by
    intro e
    simp only [onMove, requestAnimationFrame]
    split <;> rfl
  have hsc : (onScroll env s).style = s.style := by
    simp only [onScroll, requestAnimationFrame]
    split <;> rfl
  have ha : (scheduleActiveUpdate s).style = s.style := by
    simp only [scheduleActiveUpdate, requestAnimationFrame]
    split <;> rfl
  cases f <;> cases ev <;>
    first
    | rfl
    | exact hm _
    | exact hsc
    | exact ha
    | (rename_i t; cases t <;> first | rfl | exact hm _)

theorem updateActiveLayer_style (env : Env) (s : State) :
    (updateActiveLayer env s).style = s.style := by
  simp only [updateActiveLayer]
  split <;> rfl

theorem runCallback_StyleNames (env : Env) (cb : Callback) (s : State) (h : StyleNames s) :
    StyleNames (runCallback env cb s) := by
  cases cb with
  | update =>
    rcases update_style env s with h1 | ⟨p, h1⟩
    · intro q hq
      exact h q (by rw [← h1]; exact hq)
    · exact StyleNames_append s _ p h h1
  | updateScroll =>
    obtain ⟨p, h1⟩ := updateScroll_style env s
    exact StyleNames_append s _ p h h1
  | activeUpdate =>
    intro q hq
    have h1 := updateActiveLayer_style env { s with rafActive := none }
    exact h q (by
      have : q ∈ (updateActiveLayer env { s with rafActive := none }).style := hq
      rw [h1] at this
      exact this)

theorem step_StyleNames (s : State) (x : Env × Event) (h : StyleNames s) :
    StyleNames (step s x) := by
  unfold step
  split
  · refine foldl_inv StyleNames _ _ (fun a c ha => runCallback_StyleNames x.1 c.2 a ha) _ ?_
    exact h
  · refine foldl_inv StyleNames _ _ (fun a l ha => ?_) _ h
    intro q hq
    exact ha q (by rw [← runHandler_style x.1 _ l.2 a]; exact hq)

theorem run_StyleNames (xs : List (Env × Event)) :
    ∀ s : State, StyleNames s → StyleNames (run s xs) := by
  induction xs with
  | nil => intro s h; exact h
  | cons x xs ih => intro s h; exact ih (step s x) (step_StyleNames s x h)

theorem start_StyleNames (env : Env) (layers : List (List String)) :
    StyleNames (start env layers) := by
  have h : (start env layers).style = [] := by
    simp only [start, addEventListener]
    split
    · rfl
    · split <;> simp [updateActiveLayer_style, blank]
  intro q hq
  rw [h] at hq
  simp at hq

theorem styleValue_none_of_not_name (name : String) (s : State) (h : StyleNames s)
    (hn : name ∉ propertyNames) : styleValue name s = none := by
  unfold styleValue
  rw [Option.map_eq_none', List.find?_eq_none]
  intro q hq
  have hq2 : q ∈ s.style := List.mem_reverse.mp hq
  have := h q hq2
  intro heq
  have : q.1 = name := by simpa using heq
  exact hn (this ▸ h q hq2)

end WriteSet

/-- The digits `toFixed(2)` prints for a non-negative number are those of the
nearest multiple of `1 / 100`. -/
theorem toFixed2_nearest (q : ℚ) (hq : 0 ≤ q) :
    ∃ n : ℕ, JSNum.toFixed2 (fin q)
        = Nat.repr (n / 100) ++ "." ++ JSNum.twoDigits (n % 100) ∧
      |(n : ℚ) / 100 - q| ≤ 1 / 200 := by
  refine ⟨(⌊q * 100 + 1 / 2⌋ : ℤ).toNat, ?_, ?_⟩
  · simp [JSNum.toFixed2, JSNum.fixed2Abs, not_lt.mpr hq]
  · have h0 : (0 : ℤ) ≤ ⌊q * 100 + 1 / 2⌋ := Int.floor_nonneg.mpr (by positivity)
    have hc : (((⌊q * 100 + 1 / 2⌋ : ℤ).toNat : ℕ) : ℚ) = ((⌊q * 100 + 1 / 2⌋ : ℤ) : ℚ) := by
      have := Int.toNat_of_nonneg h0
      exact_mod_cast this
    rw [hc, abs_le]
    have h1 := Int.floor_le (q * 100 + 1 / 2)
    have h2 := Int.lt_floor_add_one (q * 100 + 1 / 2)
    constructor <;> linarith

/-- C14 (write set).  Every call of `applyTransforms` appends exactly ten
`setProperty` calls to the style of the document root and changes nothing
else: the names are `--bg-top-pos`, `--bg-bottom-pos` and `--bg-layer-k-pos`
for `k = 3..10`, each once, and each value is `x.toFixed(2) + "% " +
y.toFixed(2) + "%"` for the computed coordinates of that layer, `toFixed(2)`
printing the nearest multiple of `1 / 100`. -/
theorem applyTransforms_write_set (env : Env) (mx my : JSNum) (s : State) :
    applyTransforms env mx my s
      = { s with style := s.style ++ written s (applyTransforms env mx my s) } ∧
    (written s (applyTransforms env mx my s)).map Prod.fst
      = ["--bg-top-pos", "--bg-bottom-pos", "--bg-layer-3-pos", "--bg-layer-4-pos",
         "--bg-layer-5-pos", "--bg-layer-6-pos", "--bg-layer-7-pos", "--bg-layer-8-pos",
         "--bg-layer-9-pos", "--bg-layer-10-pos"] ∧
    (written s (applyTransforms env mx my s)).length = 10 ∧
    ((written s (applyTransforms env mx my s)).map Prod.fst).Nodup ∧
    (written s (applyTransforms env mx my s)).map Prod.snd
      = [ (positions env s.smoothScroll mx my).topX.toFixed2 ++ "% "
            ++ (positions env s.smoothScroll mx my).topY.toFixed2 ++ "%",
          (positions env s.smoothScroll mx my).bottomX.toFixed2 ++ "% "
            ++ (positions env s.smoothScroll mx my).bottomY.toFixed2 ++ "%",
          (positions env s.smoothScroll mx my).l3x.toFixed2 ++ "% "
            ++ (positions env s.smoothScroll mx my).l3y.toFixed2 ++ "%",
          (positions env s.smoothScroll mx my).l4x.toFixed2 ++ "% "
            ++ (positions env s.smoothScroll mx my).l4y.toFixed2 ++ "%",
          (positions env s.smoothScroll mx my).l5x.toFixed2 ++ "% "
            ++ (positions env s.smoothScroll mx my).l5y.toFixed2 ++ "%",
          (positions env s.smoothScroll mx my).l6x.toFixed2 ++ "% "
            ++ (positions env s.smoothScroll mx my).l6y.toFixed2 ++ "%",
          (positions env s.smoothScroll mx my).l7x.toFixed2 ++ "% "
            ++ (positions env s.smoothScroll mx my).l7y.toFixed2 ++ "%",
          (positions env s.smoothScroll mx my).l8x.toFixed2 ++ "% "
            ++ (positions env s.smoothScroll mx my).l8y.toFixed2 ++ "%",
          (positions env s.smoothScroll mx my).l9x.toFixed2 ++ "% "
            ++ (positions env s.smoothScroll mx my).l9y.toFixed2 ++ "%",
          (positions env s.smoothScroll mx my).l10x.toFixed2 ++ "% "
            ++ (positions env s.smoothScroll mx my).l10y.toFixed2 ++ "%" ] ∧
    (∀ q : ℚ, 0 ≤ q → ∃ n : ℕ,
      JSNum.toFixed2 (fin q) = Nat.repr (n / 100) ++ "." ++ JSNum.twoDigits (n % 100) ∧
      |(n : ℚ) / 100 - q| ≤ 1 / 200) := by
  rw [written_applyTransforms]
  have hn : propertyNames.Nodup := by decide
  refine ⟨applyTransforms_eq env mx my s, rfl, rfl, ?_, rfl, toFixed2_nearest⟩
  rw [transformWrites_names]
  exact hn

/-- C15 fails on the code.  The header comment names the variables
`--bg-pos-top` and `--bg-pos-bottom`; the script sets `--bg-top-pos` and
`--bg-bottom-pos`.  In no state the page reaches do the documented variables
hold a value; after a pointer move at `(900, 100)` and a frame the positions
are in `--bg-top-pos` and `--bg-bottom-pos`. -/
theorem documented_names_never_written :
    (∀ (env : Env) (layers : List (List String)) (xs : List (Env × Event)),
      styleValue "--bg-pos-top" (run (start env layers) xs) = none ∧
      styleValue "--bg-pos-bottom" (run (start env layers) xs) = none) ∧
    styleValue "--bg-pos-top" (run (start (page 1000 800 2800 0) [])
      [(page 1000 800 2800 0, Event.mousemove ⟨900, 100⟩),
       (page 1000 800 2800 0, Event.frame)]) = none ∧
    styleValue "--bg-pos-bottom" (run (start (page 1000 800 2800 0) [])
      [(page 1000 800 2800 0, Event.mousemove ⟨900, 100⟩),
       (page 1000 800 2800 0, Event.frame)]) = none ∧
    styleValue "--bg-top-pos" (run (start (page 1000 800 2800 0) [])
      [(page 1000 800 2800 0, Event.mousemove ⟨900, 100⟩),
       (page 1000 800 2800 0, Event.frame)]) = some "50.05% 19.98%" ∧
    styleValue "--bg-bottom-pos" (run (start (page 1000 800 2800 0) [])
      [(page 1000 800 2800 0, Event.mousemove ⟨900, 100⟩),
       (page 1000 800 2800 0, Event.frame)]) = some "49.95% 80.02%" := by
  refine ⟨fun env layers xs => ?_, by decide!, by decide!, by decide!, by decide!⟩
  have h := run_StyleNames xs _ (start_StyleNames env layers)
  exact ⟨styleValue_none_of_not_name _ _ h (by decide),
    styleValue_none_of_not_name _ _ h (by decide)⟩

/-! ## Coalescing -/

section Coalescing

theorem pipelineCount_append (l : List (ℕ × Callback)) (h : ℕ) (cb : Callback) :
    pipelineCount (l ++ [(h, cb)])
      = pipelineCount l + if cb = Callback.activeUpdate then 0 else 1 := by
  unfold pipelineCount
  rw [List.countP_append]
  cases cb <;> simp [List.countP_cons]

theorem activeCount_append (l : List (ℕ × Callback)) (h : ℕ) (cb : Callback) :
    activeCount (l ++ [(h, cb)])
      = activeCount l + if cb = Callback.activeUpdate then 1 else 0 := by
  unfold activeCount
  rw [List.countP_append]
  cases cb <;> simp [List.countP_cons]

theorem handleTruthy_succ (n : ℕ) : handleTruthy (some (n + 1)) = true := by
  simp [handleTruthy]

theorem onMove_coalesced (e : Pointer) (s : State) (h : Coalesced s) :
    Coalesced (onMove e s) := by
  obtain ⟨h1, h2, h3, h4⟩ := h
  simp only [onMove, requestAnimationFrame]
  split
  · exact ⟨h1, h2, h3, h4⟩
  · next hr =>
    have hr2 : handleTruthy s.rafId = false := by simpa using hr
    have h0 := h2 hr2
    refine ⟨?_, ?_, ?_, ?_⟩
    · show pipelineCount (s.pending ++ [(s.nextHandle + 1, Callback.update)]) ≤ 1
      rw [pipelineCount_append, h0]; simp
    · intro hf
      rw [handleTruthy_succ] at hf
      exact absurd hf (by simp)
    · show activeCount (s.pending ++ [(s.nextHandle + 1, Callback.update)]) ≤ 1
      rw [activeCount_append]; simpa using h3
    · intro hf
      show activeCount (s.pending ++ [(s.nextHandle + 1, Callback.update)]) = 0
      rw [activeCount_append]; simpa using h4 hf

theorem onScroll_coalesced (env : Env) (s : State) (h : Coalesced s) :
    Coalesced (onScroll env s) := by
  obtain ⟨h1, h2, h3, h4⟩ := h
  simp only [onScroll, requestAnimationFrame]
  split
  · exact ⟨h1, h2, h3, h4⟩
  · next hr =>
    have hr2 : handleTruthy s.rafId = false := by simpa using hr
    have h0 := h2 hr2
    refine ⟨?_, ?_, ?_, ?_⟩
    · show pipelineCount (s.pending ++ [(s.nextHandle + 1, Callback.updateScroll)]) ≤ 1
      rw [pipelineCount_append, h0]; simp
    · intro hf
      rw [handleTruthy_succ] at hf
      exact absurd hf (by simp)
    · show activeCount (s.pending ++ [(s.nextHandle + 1, Callback.updateScroll)]) ≤ 1
      rw [activeCount_append]; simpa using h3
    · intro hf
      show activeCount (s.pending ++ [(s.nextHandle + 1, Callback.updateScroll)]) = 0
      rw [activeCount_append]; simpa using h4 hf

theorem scheduleActiveUpdate_coalesced (s : State) (h : Coalesced s) :
    Coalesced (scheduleActiveUpdate s) := by
  obtain ⟨h1, h2, h3, h4⟩ := h
  simp only [scheduleActiveUpdate, requestAnimationFrame]
  split
  · exact ⟨h1, h2, h3, h4⟩
  · next hr =>
    have hr2 : handleTruthy s.rafActive = false := by simpa using hr
    have h0 := h4 hr2
    refine ⟨?_, ?_, ?_, ?_⟩
    · show pipelineCount (s.pending ++ [(s.nextHandle + 1, Callback.activeUpdate)]) ≤ 1
      rw [pipelineCount_append]; simpa using h1
    · intro hf
      show pipelineCount (s.pending ++ [(s.nextHandle + 1, Callback.activeUpdate)]) = 0
      rw [pipelineCount_append]; simpa using h2 hf
    · show activeCount (s.pending ++ [(s.nextHandle + 1, Callback.activeUpdate)]) ≤ 1
      rw [activeCount_append, h0]; simp
    · intro hf
      rw [handleTruthy_succ] at hf
      exact absurd hf (by simp)

theorem runHandler_coalesced (env : Env) (ev : Event) (f : Handler) (s : State)
    (h : Coalesced s) : Coalesced (runHandler env ev f s) := by
  cases f <;> cases ev <;>
    first
    | exact h
    | exact onMove_coalesced _ s h
    | exact onScroll_coalesced env s h
    | exact scheduleActiveUpdate_coalesced s h
    | (rename_i t; cases t <;> first | exact h | exact onMove_coalesced _ s h)

theorem update_rafId (env : Env) (s : State) : (update env s).rafId = none := by
  unfold update
  cases s.lastEvent <;> simp [applyTransforms_eq]

theorem updateScroll_schedule (env : Env) (s : State) :
    ((updateScroll env s).pending = s.pending ++ [(s.nextHandle + 1, Callback.updateScroll)] ∧
      (updateScroll env s).rafId = some (s.nextHandle + 1)) ∨
    ((updateScroll env s).pending = s.pending ∧ (updateScroll env s).rafId = none) := by
  simp only [updateScroll, applyTransforms_eq, requestAnimationFrame]
  split
  · exact Or.inl ⟨rfl, rfl⟩
  · exact Or.inr ⟨rfl, rfl⟩

theorem updateActiveLayer_rafId (env : Env) (s : State) :
    (updateActiveLayer env s).rafId = s.rafId := by
  simp only [updateActiveLayer]
  split <;> rfl

/-- Within a frame: the callbacks still to run and those requested meanwhile
hold at most one of the pipelines sharing `rafId`, and no active-layer callback
is requested. -/
theorem foldl_callbacks_coalesced (env : Env) (rest : List (ℕ × Callback)) :
    ∀ st : State, pipelineCount st.pending + pipelineCount rest ≤ 1 →
      (handleTruthy st.rafId = false → pipelineCount st.pending = 0) →
      activeCount st.pending = 0 →
      Coalesced (rest.foldl (fun a c => runCallback env c.2 a) st) := by
  induction rest with
  | nil =>
    intro st h1 h2 h3
    have h3b : activeCount st.pending ≤ 1 := by omega
    exact ⟨by simpa [pipelineCount] using h1, h2, h3b, fun _ => h3⟩
  | cons c rest ih =>
    intro st h1 h2 h3
    simp only [List.foldl_cons]
    obtain ⟨hd, cb⟩ := c
    cases cb with
    | update =>
      have hc : pipelineCount ((hd, Callback.update) :: rest) = pipelineCount rest + 1 := by
        simp [pipelineCount, List.countP_cons]
      rw [hc] at h1
      obtain ⟨-, -, hp, -⟩ := update_fields env st
      apply ih
      · show pipelineCount (update env st).pending + pipelineCount rest ≤ 1
        rw [hp]; omega
      · intro _
        show pipelineCount (update env st).pending = 0
        rw [hp]; omega
      · show activeCount (update env st).pending = 0
        rw [hp]; exact h3
    | updateScroll =>
      have hc : pipelineCount ((hd, Callback.updateScroll) :: rest)
          = pipelineCount rest + 1 := by
        simp [pipelineCount, List.countP_cons]
      rw [hc] at h1
      have hp0 : pipelineCount st.pending = 0 := by omega
      have hr0 : pipelineCount rest = 0 := by omega
      rcases updateScroll_schedule env st with ⟨hp, hr⟩ | ⟨hp, hr⟩
      · apply ih
        · show pipelineCount (updateScroll env st).pending + pipelineCount rest ≤ 1
          rw [hp, pipelineCount_append, hp0, hr0]; simp
        · intro hf
          have : handleTruthy (updateScroll env st).rafId = false := hf
          rw [hr, handleTruthy_succ] at this
          exact absurd this (by simp)
        · show activeCount (updateScroll env st).pending = 0
          rw [hp, activeCount_append, h3]; simp
      · apply ih
        · show pipelineCount (updateScroll env st).pending + pipelineCount rest ≤ 1
          rw [hp, hp0, hr0]; simp
        · intro _
          show pipelineCount (updateScroll env st).pending = 0
          rw [hp]; exact hp0
        · show activeCount (updateScroll env st).pending = 0
          rw [hp]; exact h3
    | activeUpdate =>
      have hc : pipelineCount ((hd, Callback.activeUpdate) :: rest) = pipelineCount rest := by
        simp [pipelineCount, List.countP_cons]
      rw [hc] at h1
      obtain ⟨-, -, hp⟩ := updateActiveLayer_fields env { st with rafActive := none }
      have hr := updateActiveLayer_rafId env { st with rafActive := none }
      apply ih
      · show pipelineCount (updateActiveLayer env { st with rafActive := none }).pending
          + pipelineCount rest ≤ 1
        rw [hp]; exact h1
      · intro hf
        show pipelineCount (updateActiveLayer env { st with rafActive := none }).pending = 0
        rw [hp]
        have : handleTruthy (updateActiveLayer env { st with rafActive := none }).rafId
            = false := hf
        rw [hr] at this
        exact h2 this
      · show activeCount (updateActiveLayer env { st with rafActive := none }).pending = 0
        rw [hp]; exact h3

theorem runFrame_coalesced (env : Env) (s : State) (h : Coalesced s) :
    Coalesced (runFrame env s) := by
  obtain ⟨h1, -, -, -⟩ := h
  unfold runFrame
  apply foldl_callbacks_coalesced
  · show pipelineCount [] + pipelineCount s.pending ≤ 1
    simpa [pipelineCount] using h1
  · intro _; rfl
  · rfl

theorem step_coalesced (s : State) (x : Env × Event) (h : Coalesced s) :
    Coalesced (step s x) := by
  unfold step
  split
  · exact runFrame_coalesced x.1 s h
  · exact foldl_inv Coalesced _ _ (fun a l ha => runHandler_coalesced x.1 _ l.2 a ha) _ h

theorem run_coalesced (xs : List (Env × Event)) :
    ∀ s : State, Coalesced s → Coalesced (run s xs) := by
  induction xs with
  | nil => intro s h; exact h
  | cons x xs ih => intro s h; exact ih (step s x) (step_coalesced s x h)

theorem start_coalesced (env : Env) (layers : List (List String)) :
    Coalesced (start env layers) := by
  have h : (start env layers).pending = [] := by
    simp only [start, addEventListener]
    split
    · rfl
    · split <;> simp [(updateActiveLayer_fields env _).2.2, blank]
  unfold Coalesced
  rw [h]
  simp [pipelineCount, activeCount]

theorem pendingCount_le_pipeline (s : State) :
    pendingCount Callback.update s + pendingCount Callback.updateScroll s
      = pipelineCount s.pending := by
  unfold pendingCount pipelineCount
  induction s.pending with
  | nil => rfl
  | cons c l ih =>
    obtain ⟨hd, cb⟩ := c
    cases cb <;> simp [List.countP_cons] at ih ⊢ <;> omega

end Coalescing

/-- C16 (coalescing bound).  In every state the page reaches from start-up by
pointer, touch and scroll events and frames, in any order and number, at most
one `update` callback, at most one `updateScroll` callback and at most one
active-layer callback is pending; indeed `update` and `updateScroll` together
are pending at most once. -/
theorem at_most_one_pending (env : Env) (layers : List (List String))
    (xs : List (Env × Event)) :
    pendingCount Callback.update (run (start env layers) xs) ≤ 1 ∧
    pendingCount Callback.updateScroll (run (start env layers) xs) ≤ 1 ∧
    pendingCount Callback.activeUpdate (run (start env layers) xs) ≤ 1 ∧
    pendingCount Callback.update (run (start env layers) xs)
      + pendingCount Callback.updateScroll (run (start env layers) xs) ≤ 1 := by
  obtain ⟨h1, -, h3, -⟩ := run_coalesced xs _ (start_coalesced env layers)
  have h := pendingCount_le_pipeline (run (start env layers) xs)
  refine ⟨by omega, by omega, h3, by omega⟩

/-- C17 fails on the code: the pointer and the scroll pipeline share the one
variable `rafId`.  While it is set, `onScroll` and `onMove` request nothing.
After a pointer move, a scroll to 1000 requests no `updateScroll` although
`targetScroll` is now 1000; after a scroll, a pointer move requests no `update`
although the event is stored. -/
theorem pipelines_share_rafId :
    (∀ (env : Env) (e : Pointer) (s : State), handleTruthy s.rafId = true →
      (onScroll env s).pending = s.pending ∧ (onMove e s).pending = s.pending) ∧
    (pendingCount Callback.update (run (start (page 1000 800 2800 0) [])
        [(page 1000 800 2800 0, Event.mousemove ⟨500, 400⟩)]) = 1 ∧
      pendingCount Callback.updateScroll (run (start (page 1000 800 2800 0) [])
        [(page 1000 800 2800 0, Event.mousemove ⟨500, 400⟩)]) = 0 ∧
      pendingCount Callback.updateScroll (run (start (page 1000 800 2800 0) [])
        [(page 1000 800 2800 0, Event.mousemove ⟨500, 400⟩),
         (page 1000 800 2800 1000, Event.scroll)]) = 0 ∧
      (run (start (page 1000 800 2800 0) [])
        [(page 1000 800 2800 0, Event.mousemove ⟨500, 400⟩),
         (page 1000 800 2800 1000, Event.scroll)]).targetScroll = 1000 ∧
      (run (start (page 1000 800 2800 0) [])
        [(page 1000 800 2800 0, Event.mousemove ⟨500, 400⟩),
         (page 1000 800 2800 1000, Event.scroll)]).smoothScroll = 0) ∧
    (pendingCount Callback.updateScroll (run (start (page 1000 800 2800 0) [])
        [(page 1000 800 2800 1000, Event.scroll)]) = 1 ∧
      pendingCount Callback.update (run (start (page 1000 800 2800 0) [])
        [(page 1000 800 2800 1000, Event.scroll)]) = 0 ∧
      pendingCount Callback.update (run (start (page 1000 800 2800 0) [])
        [(page 1000 800 2800 1000, Event.scroll),
         (page 1000 800 2800 1000, Event.mousemove ⟨500, 400⟩)]) = 0 ∧
      (run (start (page 1000 800 2800 0) [])
        [(page 1000 800 2800 1000, Event.scroll),
         (page 1000 800 2800 1000, Event.mousemove ⟨500, 400⟩)]).lastEvent
        = some ⟨500, 400⟩) := by
  refine ⟨fun env e s h => ?_,
    ⟨by decide!, by decide!, by decide!, by decide!, by decide!⟩,
    ⟨by decide!, by decide!, by decide!, by decide!⟩⟩
  constructor
  · simp only [onScroll]
    rw [if_pos h]
  · simp only [onMove]
    rw [if_pos h]

/-! ## Pointer events -/

section PointerEvents

theorem onMove_lastEvent (e : Pointer) (s : State) : (onMove e s).lastEvent = some e := by
  simp only [onMove, requestAnimationFrame]
  split <;> rfl

theorem onMove_smoothScroll (e : Pointer) (s : State) :
    (onMove e s).smoothScroll = s.smoothScroll := by
  simp only [onMove, requestAnimationFrame]
  split <;> rfl

theorem burst_append (es : List Pointer) (e : Pointer) (s : State) :
    burst (es ++ [e]) s = onMove e (burst es s) := by
  simp [burst]

theorem burst_smoothScroll (es : List Pointer) (s : State) :
    (burst es s).smoothScroll = s.smoothScroll := by
  induction es using List.reverseRecOn with
  | nil => rfl
  | append_singleton es e ih => rw [burst_append, onMove_smoothScroll, ih]

/-- What `update` does when an event is stored. -/
theorem update_of_some (env : Env) (s : State) (e : Pointer) (h : s.lastEvent = some e) :
    update env s
      = { s with
          rafId := none
          lastEvent := none
          style := s.style ++ transformWrites
            (positions env s.smoothScroll (pointerOffsets env e).1 (pointerOffsets env e).2) } := by
  unfold update
  simp only [h, applyTransforms_eq]

/-- What `update` does when no event is stored. -/
theorem update_of_none (env : Env) (s : State) (h : s.lastEvent = none) :
    update env s = { s with rafId := none } := by
  unfold update
  simp only [h]

theorem update_lastEvent (env : Env) (s : State) : (update env s).lastEvent = none := by
  cases h : s.lastEvent with
  | none => rw [update_of_none env s h]; exact h
  | some e => rw [update_of_some env s e h]

/-- The nearest integer to a number of magnitude at most `B / 2` has magnitude
at most `B`. -/
theorem roundQ_bound (v B : ℚ) (hB : 0 ≤ B) (hv : |v| ≤ B / 2) : |((roundQ v : ℤ) : ℚ)| ≤ B := by
  obtain ⟨hv1, hv2⟩ := abs_le.mp hv
  unfold roundQ
  by_cases h1 : B < 1
  · have h0 : ⌊v + 1 / 2⌋ = 0 := by
      rw [Int.floor_eq_zero_iff]
      constructor <;> linarith
    rw [h0]
    simpa using hB
  · have h1b : 1 ≤ B := not_lt.mp h1
    have ha := Int.floor_le (v + 1 / 2)
    have hb := Int.lt_floor_add_one (v + 1 / 2)
    rw [abs_le]
    constructor <;> linarith

end PointerEvents

/-- C18 (latest event wins).  After a burst of `k >= 1` pointer events, whatever
the state before and whatever the earlier events of the burst, the stored event
is the last one, and `update` writes exactly the ten positions computed from the
last event's coordinates (with the readings and the `smoothScroll` of that
moment). -/
theorem latest_event_wins (env : Env) (s : State) (earlier : List Pointer) (e : Pointer) :
    (burst (earlier ++ [e]) s).lastEvent = some e ∧
    written (burst (earlier ++ [e]) s) (update env (burst (earlier ++ [e]) s))
      = transformWrites
          (positions env s.smoothScroll (pointerOffsets env e).1 (pointerOffsets env e).2) ∧
    (∀ (other : List Pointer),
      written (burst (other ++ [e]) s) (update env (burst (other ++ [e]) s))
        = written (burst (earlier ++ [e]) s) (update env (burst (earlier ++ [e]) s))) := by
  have key : ∀ l : List Pointer,
      written (burst (l ++ [e]) s) (update env (burst (l ++ [e]) s))
        = transformWrites
          (positions env s.smoothScroll (pointerOffsets env e).1 (pointerOffsets env e).2) := by
    intro l
    have hl : (burst (l ++ [e]) s).lastEvent = some e := by
      rw [burst_append]; exact onMove_lastEvent e _
    rw [update_of_some env _ e hl, burst_smoothScroll]
    simp [written]
  refine ⟨by rw [burst_append]; exact onMove_lastEvent e _, key earlier, fun other => ?_⟩
  rw [key other, key earlier]

/-- C19 (consume once).  After `update` has run no pointer event is stored; and
in every state without a stored event `update` only clears `rafId`: it writes no
style property and changes nothing else.  So a second run of `update` without
a new event writes nothing. -/
theorem update_consumes_once (env : Env) (s : State) :
    (update env s).lastEvent = none ∧
    (s.lastEvent = none →
      update env s = { s with rafId := none } ∧ written s (update env s) = []) ∧
    (∀ next : Env, update next (update env s) = update env s ∧
      written (update env s) (update next (update env s)) = []) := by
  have h1 := update_lastEvent env s
  refine ⟨h1, fun h => ?_, fun next => ?_⟩
  · rw [update_of_none env s h]
    exact ⟨rfl, by simp [written]⟩
  · have h2 := update_of_none next (update env s) h1
    have h3 : ({ update env s with rafId := none } : State) = update env s := by
      have := update_rafId env s
      cases hu : update env s
      rw [hu] at this
      simp only at this
      subst this
      rfl
    rw [h2, h3]
    exact ⟨rfl, by simp [written]⟩

/-! ## The computed positions as rationals -/

section Finite

/-- The pointer percentage for a finite pixel offset. -/
theorem mousePct_fin (a d c k : ℚ) :
    JSNum.max (fin (-k)) (JSNum.min (fin k)
      ((fin a / JSNum.max (fin 1) (fin d)) * fin 100 * fin c))
      = fin (clampQ (a / max 1 d * 100 * c) (-k) k) := by
  simp [fin_div_fin _ _ (max_one_ne_zero d), clampQ]

end Finite

/-! ## The extra layers -/

section ExtraLayers

theorem layerName_values :
    layerName 3 = "--bg-layer-3-pos" ∧ layerName 4 = "--bg-layer-4-pos" ∧
    layerName 5 = "--bg-layer-5-pos" ∧ layerName 6 = "--bg-layer-6-pos" ∧
    layerName 7 = "--bg-layer-7-pos" ∧ layerName 8 = "--bg-layer-8-pos" ∧
    layerName 9 = "--bg-layer-9-pos" ∧ layerName 10 = "--bg-layer-10-pos" := by
  decide!

end ExtraLayers

/-! ## The scroll path -/

section ScrollPath

theorem written_updateScroll (env : Env) (s : State) :
    written s (updateScroll env s)
      = transformWrites (positions env
          (s.smoothScroll + (s.targetScroll - s.smoothScroll) * 0.12) (fin 0) (fin 0)) := by
  have h : (updateScroll env s).style = s.style ++ transformWrites (positions env
      (s.smoothScroll + (s.targetScroll - s.smoothScroll) * 0.12) (fin 0) (fin 0)) := by
    simp only [updateScroll, applyTransforms_eq, requestAnimationFrame]
    split <;> rfl
  simp [written, h]

/-- A smoothing step stays between the old value and the target. -/
theorem lerp_between (a t : ℚ) :
    min a t ≤ a + (t - a) * 0.12 ∧ a + (t - a) * 0.12 ≤ max a t := by
  rcases le_total a t with h | h
  · rw [min_eq_left h, max_eq_right h]
    constructor <;> nlinarith
  · rw [min_eq_right h, max_eq_left h]
    constructor <;> nlinarith

theorem smoothSteps_range (H : ℚ) (envs : List Env) (s : State)
    (h0 : 0 ≤ s.smoothScroll) (h1 : s.smoothScroll ≤ H)
    (t0 : 0 ≤ s.targetScroll) (t1 : s.targetScroll ≤ H) :
    0 ≤ (smoothSteps envs s).smoothScroll ∧ (smoothSteps envs s).smoothScroll ≤ H := by
  induction envs using List.reverseRecOn with
  | nil => exact ⟨h0, h1⟩
  | append_singleton envs env ih =>
    rw [smoothSteps_append, updateScroll_smoothScroll, targetScroll_smoothSteps]
    obtain ⟨hl, hu⟩ := lerp_between (smoothSteps envs s).smoothScroll s.targetScroll
    constructor
    · exact le_trans (le_min ih.1 t0) hl
    · exact le_trans hu (max_le ih.2 t1)

/-- Scaling a displacement by a smaller non-negative factor does not enlarge
it. -/
theorem abs_mul_le_of_le (d a b : ℚ) (hb : 0 ≤ b) (hab : b ≤ a) : |d * b| ≤ |d * a| := by
  rw [abs_mul, abs_mul, abs_of_nonneg hb, abs_of_nonneg (le_trans hb hab)]
  exact mul_le_mul_of_nonneg_left hab (abs_nonneg d)

theorem layerMul_decreasing (k : ℕ) (h3 : 3 ≤ k) (h9 : k ≤ 9) :
    0 < layerMul (k + 1) ∧ layerMul (k + 1) < layerMul k := by
  interval_cases k <;> norm_num [layerMul]

end ScrollPath

/-- C24 fails on the code.  `updateScroll` calls `applyTransforms(0, 0)`: what
it writes is computed from the new `smoothScroll` and the offsets `(0, 0)`,
whatever the pointer did.  After a pointer move at `(900, 100)` and a frame the
top position is "50.05% 19.98%" (offsets `(8, -4)`); a scroll to 1000 and the
next frame write "50.00% 19.28%", where the offsets `(8, -4)` would give
"50.05% 19.26%". -/
theorem scroll_frame_resets_pointer_offset :
    (∀ (env : Env) (s : State),
      written s (updateScroll env s)
        = transformWrites (positions env
            (s.smoothScroll + (s.targetScroll - s.smoothScroll) * 0.12) (fin 0) (fin 0))) ∧
    pointerOffsets (page 1000 800 2800 0) ⟨900, 100⟩ = (fin 8, fin (-4)) ∧
    styleValue "--bg-top-pos" (run (start (page 1000 800 2800 0) [])
      [(page 1000 800 2800 0, Event.mousemove ⟨900, 100⟩),
       (page 1000 800 2800 0, Event.frame)]) = some "50.05% 19.98%" ∧
    styleValue "--bg-top-pos" (run (start (page 1000 800 2800 0) [])
      [(page 1000 800 2800 0, Event.mousemove ⟨900, 100⟩),
       (page 1000 800 2800 0, Event.frame),
       (page 1000 800 2800 1000, Event.scroll),
       (page 1000 800 2800 1000, Event.frame)]) = some "50.00% 19.28%" ∧
    (run (start (page 1000 800 2800 0) [])
      [(page 1000 800 2800 0, Event.mousemove ⟨900, 100⟩),
       (page 1000 800 2800 0, Event.frame),
       (page 1000 800 2800 1000, Event.scroll),
       (page 1000 800 2800 1000, Event.frame)]).smoothScroll = 120 ∧
    posString (positions (page 1000 800 2800 1000) 120 (fin 8) (fin (-4))).topX
      (positions (page 1000 800 2800 1000) 120 (fin 8) (fin (-4))).topY = "50.05% 19.26%" := by
  refine ⟨written_updateScroll, by decide!, by decide!, by decide!, by decide!, by decide!⟩

/-- C25 (scroll fraction range).  With scrollable height `H = documentHeight -
viewportHeight >= 1`, `0 <= smoothScroll <= H` and `0 <= targetScroll <= H`:
after a smoothing step `smoothScroll` lies between its old value and
`targetScroll`, still within `[0, H]` (also after any number of steps), the
fraction `pct = smoothScroll / H` lies in `[0, 1]`, the top scroll contribution
`-12 pct` in `[-12, 0]` and the bottom one `12 pct` in `[0, 12]`. -/
theorem scroll_fraction_range (env : Env) (s : State)
    (hH : 1 ≤ env.scrollHeight - env.innerHeight)
    (h0 : 0 ≤ s.smoothScroll) (h1 : s.smoothScroll ≤ env.scrollHeight - env.innerHeight)
    (t0 : 0 ≤ s.targetScroll) (t1 : s.targetScroll ≤ env.scrollHeight - env.innerHeight) :
    (min s.smoothScroll s.targetScroll ≤ (updateScroll env s).smoothScroll ∧
      (updateScroll env s).smoothScroll ≤ max s.smoothScroll s.targetScroll) ∧
    (0 ≤ (updateScroll env s).smoothScroll ∧
      (updateScroll env s).smoothScroll ≤ env.scrollHeight - env.innerHeight) ∧
    (∀ envs : List Env, 0 ≤ (smoothSteps envs s).smoothScroll ∧
      (smoothSteps envs s).smoothScroll ≤ env.scrollHeight - env.innerHeight) ∧
    (∀ mx my : JSNum, ∃ p : ℚ,
      p = (updateScroll env s).smoothScroll / (env.scrollHeight - env.innerHeight) ∧
      (0 ≤ p ∧ p ≤ 1) ∧
      (positions env (updateScroll env s).smoothScroll mx my).pct = fin p ∧
      (positions env (updateScroll env s).smoothScroll mx my).scrollTopPct = fin (-12 * p) ∧
      (positions env (updateScroll env s).smoothScroll mx my).scrollBottomPct = fin (12 * p) ∧
      (-12 ≤ -12 * p ∧ -12 * p ≤ 0) ∧ (0 ≤ 12 * p ∧ 12 * p ≤ 12)) := by
  obtain ⟨hl, hu⟩ := lerp_between s.smoothScroll s.targetScroll
  have hr : 0 ≤ (updateScroll env s).smoothScroll ∧
      (updateScroll env s).smoothScroll ≤ env.scrollHeight - env.innerHeight := by
    rw [updateScroll_smoothScroll]
    exact ⟨le_trans (le_min h0 t0) hl, le_trans hu (max_le h1 t1)⟩
  refine ⟨by rw [updateScroll_smoothScroll]; exact ⟨hl, hu⟩, hr,
    fun envs => smoothSteps_range _ envs s h0 h1 t0 t1, fun mx my => ?_⟩
  have hpos : 0 < env.scrollHeight - env.innerHeight := by linarith
  have hp0 : 0 ≤ (updateScroll env s).smoothScroll / (env.scrollHeight - env.innerHeight) :=
    div_nonneg hr.1 (le_of_lt hpos)
  have hp1 : (updateScroll env s).smoothScroll / (env.scrollHeight - env.innerHeight) ≤ 1 :=
    (div_le_one hpos).mpr hr.2
  refine ⟨_, rfl, ⟨hp0, hp1⟩, ?_, ?_, ?_, ⟨by linarith, by linarith⟩,
    ⟨by linarith, by linarith⟩⟩
  · simp only [positions, pct_eq, max_eq_left hH]
  · simp only [positions, pct_eq, max_eq_left hH, fin_mul_fin]
  · simp only [positions, pct_eq, max_eq_left hH, fin_mul_fin]

/-- C27 (the scroll multiplier has no influence).  Two runs of `update` from
the same state under readings that differ only in the parsed value of
`--parallax-scroll-mult` end in the same state and write the same ten values,
although the unused `scrollMax` computed from the property differs (192 against
96 for the values 2 and 1 in a viewport of height 800). -/
theorem scroll_multiplier_unused (env : Env) (s : State) (v w : JSNum) :
    update { env with scrollMultProp := v } s = update { env with scrollMultProp := w } s ∧
    written s (update { env with scrollMultProp := v } s)
      = written s (update { env with scrollMultProp := w } s) ∧
    (written s (update { env with scrollMultProp := v } s)).map Prod.snd
      = (written s (update { env with scrollMultProp := w } s)).map Prod.snd ∧
    (unusedScrollOffsets (pageWithScrollMult 1000 800 2800 0 (fin 2)) 0).1 = fin 192 ∧
    (unusedScrollOffsets (pageWithScrollMult 1000 800 2800 0 (fin 1)) 0).1 = fin 96 := by
  have h : update { env with scrollMultProp := v } s
      = update { env with scrollMultProp := w } s := by
    unfold update
    cases s.lastEvent <;> rfl
  refine ⟨h, by rw [h], by rw [h], by decide!, by decide!⟩

/-! ## Size of the pointer contribution -/

section PointerSize

/-- The offsets `update` derives are integers of magnitude at most the maximum
offset times the multiplier. -/
theorem pointerOffsets_magnitude (env : Env) (e : Pointer) (m : ℚ)
    (hw : 0 < env.innerWidth) (hh : 0 < env.innerHeight)
    (hx0 : 0 ≤ e.clientX) (hx1 : e.clientX ≤ env.innerWidth)
    (hy0 : 0 ≤ e.clientY) (hy1 : e.clientY ≤ env.innerHeight)
    (hm : mouseMult env = fin m) (hm0 : 0 ≤ m) :
    ∃ a b : ℤ, pointerOffsets env e = (fin a, fin b) ∧
      |(a : ℚ)| ≤ min 40 (env.innerWidth * 0.06) * m ∧
      |(b : ℚ)| ≤ min 24 (env.innerHeight * 0.06) * m := by
  have half : ∀ c d : ℚ, 0 < d → 0 ≤ c → c ≤ d → |c / d - 0.5| ≤ 0.5 := by
    intro c d hd hc0 hcd
    rw [abs_le]
    have h1 : 0 ≤ c / d := div_nonneg hc0 (le_of_lt hd)
    have h2 : c / d ≤ 1 := (div_le_one hd).mpr hcd
    constructor <;> norm_num <;> linarith
  have bound : ∀ n M : ℚ, |n| ≤ 0.5 → 0 ≤ M → |n * M| ≤ M / 2 := by
    intro n M hn hM
    rw [abs_mul, abs_of_nonneg hM]
    have : |n| * M ≤ 0.5 * M := mul_le_mul_of_nonneg_right hn hM
    linarith
  have hMx : 0 ≤ min 40 (env.innerWidth * 0.06) * m :=
    mul_nonneg (le_min (by norm_num) (by positivity)) hm0
  have hMy : 0 ≤ min 24 (env.innerHeight * 0.06) * m :=
    mul_nonneg (le_min (by norm_num) (by positivity)) hm0
  refine ⟨roundQ ((e.clientX / env.innerWidth - 0.5) * (min 40 (env.innerWidth * 0.06) * m)),
    roundQ ((e.clientY / env.innerHeight - 0.5) * (min 24 (env.innerHeight * 0.06) * m)),
    ?_, ?_, ?_⟩
  · rw [pointerOffsets_eq, hm]
    simp only [fin_div_fin _ _ (ne_of_gt hw), fin_div_fin _ _ (ne_of_gt hh), fin_sub_fin,
      fin_mul_fin, min_fin_fin, JSNum.round, roundQ]
  · exact roundQ_bound _ _ hMx (bound _ _ (half _ _ hw hx0 hx1) hMx)
  · exact roundQ_bound _ _ hMy (bound _ _ (half _ _ hh hy0 hy1) hMy)

/-- A pixel offset of magnitude at most `0.03 d` gives a percentage of
magnitude at most `3 c` without the clamp at `k >= 3 c` becoming active. -/
theorem pct_small (a d c k : ℚ) (hd : 1 ≤ d) (hc : 0 ≤ c) (ha : |a| ≤ 0.03 * d)
    (hk : 3 * c ≤ k) :
    clampQ (a / max 1 d * 100 * c) (-k) k = a / d * 100 * c ∧ |a / d * 100 * c| ≤ 3 * c := by
  have hd0 : 0 < d := by linarith
  obtain ⟨ha1, ha2⟩ := abs_le.mp ha
  have hq1 : -0.03 ≤ a / d := by
    rw [le_div_iff₀ hd0]; linarith
  have hq2 : a / d ≤ 0.03 := by
    rw [div_le_iff₀ hd0]; linarith
  have hb : |a / d * 100 * c| ≤ 3 * c := by
    rw [abs_le]
    constructor <;> nlinarith
  obtain ⟨hb1, hb2⟩ := abs_le.mp hb
  refine ⟨?_, hb⟩
  unfold clampQ
  rw [max_eq_right hd, min_eq_right (by linarith), max_eq_right (by linarith)]

end PointerSize

/-- C28 (pointer contribution far inside its clamp).  With the default mouse
multiplier `0.5`, in a viewport of width `w >= 1` and height `h >= 1` and for a
pointer position with `0 <= clientX <= w`, `0 <= clientY <= h`: the percentages
computed from the offsets `(mx, my)` of `update` are `mousePctX = mx / w * 100 *
0.06` and `mousePctY = my / h * 100 * 0.04` unclamped, with `|mousePctX| <=
0.18` and `|mousePctY| <= 0.12`, and the top and bottom `x` are `50 + mousePctX`
and `50 - mousePctX`, within `[49.82, 50.18]`. -/
theorem pointer_contribution_small (env : Env) (smooth : ℚ) (e : Pointer)
    (hw : 1 ≤ env.innerWidth) (hh : 1 ≤ env.innerHeight)
    (hx0 : 0 ≤ e.clientX) (hx1 : e.clientX ≤ env.innerWidth)
    (hy0 : 0 ≤ e.clientY) (hy1 : e.clientY ≤ env.innerHeight)
    (hm : mouseMult env = fin 0.5) :
    ∃ (a b : ℤ) (px py : ℚ),
      pointerOffsets env e = (fin a, fin b) ∧
      px = a / env.innerWidth * 100 * 0.06 ∧ py = b / env.innerHeight * 100 * 0.04 ∧
      (positions env smooth (pointerOffsets env e).1 (pointerOffsets env e).2).mousePctX
        = fin px ∧
      (positions env smooth (pointerOffsets env e).1 (pointerOffsets env e).2).mousePctY
        = fin py ∧
      |px| ≤ 0.18 ∧ |py| ≤ 0.12 ∧
      (positions env smooth (pointerOffsets env e).1 (pointerOffsets env e).2).topX
        = fin (50 + px) ∧
      (positions env smooth (pointerOffsets env e).1 (pointerOffsets env e).2).bottomX
        = fin (50 - px) ∧
      (49.82 ≤ 50 + px ∧ 50 + px ≤ 50.18) ∧ (49.82 ≤ 50 - px ∧ 50 - px ≤ 50.18) := by
  obtain ⟨a, b, hab, ha, hb⟩ := pointerOffsets_magnitude env e 0.5 (by linarith) (by linarith)
    hx0 hx1 hy0 hy1 hm (by norm_num)
  have ha2 : |(a : ℚ)| ≤ 0.03 * env.innerWidth := by
    have : min 40 (env.innerWidth * 0.06) ≤ env.innerWidth * 0.06 := min_le_right _ _
    linarith
  have hb2 : |(b : ℚ)| ≤ 0.03 * env.innerHeight := by
    have : min 24 (env.innerHeight * 0.06) ≤ env.innerHeight * 0.06 := min_le_right _ _
    linarith
  obtain ⟨cx, bx⟩ := pct_small a env.innerWidth 0.06 6 hw (by norm_num) ha2 (by norm_num)
  obtain ⟨cy, by1⟩ := pct_small b env.innerHeight 0.04 4 hh (by norm_num) hb2 (by norm_num)
  have bx2 : |(a : ℚ) / env.innerWidth * 100 * 0.06| ≤ 0.18 := by
    have : (3 : ℚ) * 0.06 = 0.18 := by norm_num
    linarith
  have by2 : |(b : ℚ) / env.innerHeight * 100 * 0.04| ≤ 0.12 := by
    have : (3 : ℚ) * 0.04 = 0.12 := by norm_num
    linarith
  obtain ⟨bx3, bx4⟩ := abs_le.mp bx2
  have hpx : (positions env smooth (pointerOffsets env e).1 (pointerOffsets env e).2).mousePctX
      = fin (a / env.innerWidth * 100 * 0.06) := by
    rw [hab]
    simp only [positions]
    rw [mousePct_fin, cx]
  have hpy : (positions env smooth (pointerOffsets env e).1 (pointerOffsets env e).2).mousePctY
      = fin (b / env.innerHeight * 100 * 0.04) := by
    rw [hab]
    simp only [positions]
    rw [mousePct_fin, cy]
  have htop : (positions env smooth (pointerOffsets env e).1 (pointerOffsets env e).2).topX
      = fin (50 + a / env.innerWidth * 100 * 0.06) := by
    rw [hab]
    simp only [positions, clamp]
    rw [mousePct_fin, cx, fin_add_fin, min_fin_fin, max_fin_fin,
      min_eq_right (by linarith), max_eq_right (by linarith)]
  have hbot : (positions env smooth (pointerOffsets env e).1 (pointerOffsets env e).2).bottomX
      = fin (50 - a / env.innerWidth * 100 * 0.06) := by
    rw [hab]
    simp only [positions, clamp]
    rw [mousePct_fin, cx, fin_sub_fin, min_fin_fin, max_fin_fin,
      min_eq_right (by linarith), max_eq_right (by linarith)]
  refine ⟨a, b, _, _, hab, rfl, rfl, hpx, hpy, bx2, by2, htop, hbot,
    ⟨by linarith, by linarith⟩, ⟨by linarith, by linarith⟩⟩

/-! ## The empty-event guard -/

section Guard

theorem pendingCount_append (s : State) (l : List (ℕ × Callback)) (h : ℕ) (cb c : Callback)
    (hp : s.pending = l ++ [(h, cb)]) :
    pendingCount c s = l.countP (fun x => decide (x.2 = c)) + if cb = c then 1 else 0 := by
  unfold pendingCount
  rw [hp, List.countP_append]
  by_cases hcb : cb = c <;> simp [List.countP_cons, hcb]

theorem onMove_eventStored (e : Pointer) (s : State) : EventStored (onMove e s) := by
  intro _
  rw [onMove_lastEvent]
  simp

theorem onScroll_eventStored (env : Env) (s : State) (h : EventStored s) :
    EventStored (onScroll env s) := by
  simp only [onScroll, requestAnimationFrame]
  split
  · exact h
  · intro hc
    have hc2 : 0 < pendingCount Callback.update s := by
      have := pendingCount_append
        ({ s with
            targetScroll := scrollYOrZero env
            nextHandle := s.nextHandle + 1
            pending := s.pending ++ [(s.nextHandle + 1, Callback.updateScroll)]
            rafId := some (s.nextHandle + 1) } : State)
        s.pending (s.nextHandle + 1) Callback.updateScroll Callback.update rfl
      rw [this] at hc
      simpa [pendingCount] using hc
    exact h hc2

theorem scheduleActiveUpdate_eventStored (s : State) (h : EventStored s) :
    EventStored (scheduleActiveUpdate s) := by
  simp only [scheduleActiveUpdate, requestAnimationFrame]
  split
  · exact h
  · intro hc
    have hc2 : 0 < pendingCount Callback.update s := by
      have := pendingCount_append
        ({ s with
            nextHandle := s.nextHandle + 1
            pending := s.pending ++ [(s.nextHandle + 1, Callback.activeUpdate)]
            rafActive := some (s.nextHandle + 1) } : State)
        s.pending (s.nextHandle + 1) Callback.activeUpdate Callback.update rfl
      rw [this] at hc
      simpa [pendingCount] using hc
    exact h hc2

theorem runHandler_eventStored (env : Env) (ev : Event) (f : Handler) (s : State)
    (h : EventStored s) : EventStored (runHandler env ev f s) := by
  cases f <;> cases ev <;>
    first
    | exact h
    | exact onMove_eventStored _ s
    | exact onScroll_eventStored env s h
    | exact scheduleActiveUpdate_eventStored s h
    | (rename_i t; cases t <;> first | exact h | exact onMove_eventStored _ s)

/-- No callback requests `update`: running a callback leaves the number of
pending `update` callbacks as it is. -/
theorem runCallback_updateCount (env : Env) (cb : Callback) (s : State) :
    pendingCount Callback.update (runCallback env cb s) = pendingCount Callback.update s := by
  cases cb with
  | update =>
    obtain ⟨-, -, hp, -⟩ := update_fields env s
    simp [pendingCount, runCallback, hp]
  | updateScroll =>
    rcases updateScroll_schedule env s with ⟨hp, -⟩ | ⟨hp, -⟩
    · have := pendingCount_append (updateScroll env s) s.pending (s.nextHandle + 1)
        Callback.updateScroll Callback.update hp
      simpa [runCallback, pendingCount] using this
    · simp [pendingCount, runCallback, hp]
  | activeUpdate =>
    obtain ⟨-, -, hp⟩ := updateActiveLayer_fields env { s with rafActive := none }
    simp [pendingCount, runCallback, hp]

theorem runFrame_updateCount (env : Env) (s : State) :
    pendingCount Callback.update (runFrame env s) = 0 := by
  unfold runFrame
  refine foldl_inv (fun st => pendingCount Callback.update st = 0) _ _
    (fun a c ha => (runCallback_updateCount env c.2 a).trans ha) _ rfl

theorem step_eventStored (s : State) (x : Env × Event) (h : EventStored s) :
    EventStored (step s x) := by
  unfold step
  split
  · intro hc
    rw [runFrame_updateCount] at hc
    exact absurd hc (lt_irrefl 0)
  · exact foldl_inv EventStored _ _ (fun a l ha => runHandler_eventStored x.1 _ l.2 a ha) _ h

theorem run_eventStored (xs : List (Env × Event)) :
    ∀ s : State, EventStored s → EventStored (run s xs) := by
  induction xs with
  | nil => intro s h; exact h
  | cons x xs ih => intro s h; exact ih (step s x) (step_eventStored s x h)

theorem start_eventStored (env : Env) (layers : List (List String)) :
    EventStored (start env layers) := by
  have h : (start env layers).pending = [] := by
    simp only [start, addEventListener]
    split
    · rfl
    · split <;> simp [(updateActiveLayer_fields env _).2.2, blank]
  intro hc
  simp [pendingCount, h] at hc

theorem runCallback_lastEvent (env : Env) (cb : Callback) (s : State)
    (h : cb ≠ Callback.update) : (runCallback env cb s).lastEvent = s.lastEvent := by
  cases cb with
  | update => exact absurd rfl h
  | updateScroll =>
    simp only [runCallback, updateScroll, applyTransforms_eq, requestAnimationFrame]
    split <;> rfl
  | activeUpdate =>
    simp only [runCallback, updateActiveLayer]
    split <;> rfl

/-- Within a frame: if at most one `update` is still to run and an event is
stored while one is, `update` never finds `lastEvent` empty. -/
theorem frameHitsGuard_false (env : Env) (rest : List (ℕ × Callback)) :
    ∀ st : State, rest.countP (fun c => decide (c.2 = Callback.update)) ≤ 1 →
      (0 < rest.countP (fun c => decide (c.2 = Callback.update)) → st.lastEvent ≠ none) →
      frameHitsGuard env rest st = false := by
  induction rest with
  | nil => intro st _ _; rfl
  | cons c rest ih =>
    intro st h1 h2
    by_cases hc : c.2 = Callback.update
    · have hcount : (c :: rest).countP (fun c => decide (c.2 = Callback.update))
          = rest.countP (fun c => decide (c.2 = Callback.update)) + 1 := by
        simp [List.countP_cons, hc]
      rw [hcount] at h1 h2
      have hne := h2 (by omega)
      have hrest : rest.countP (fun c => decide (c.2 = Callback.update)) = 0 := by omega
      have hih := ih (runCallback env c.2 st) (by omega)
        (fun hpos => absurd hpos (by omega))
      simp only [frameHitsGuard, hih, Bool.or_false, Bool.and_eq_false_imp]
      intro _
      cases hl : st.lastEvent with
      | none => exact absurd hl hne
      | some e => rfl
    · have hcount : (c :: rest).countP (fun c => decide (c.2 = Callback.update))
          = rest.countP (fun c => decide (c.2 = Callback.update)) := by
        simp [List.countP_cons, hc]
      rw [hcount] at h1 h2
      have hih := ih (runCallback env c.2 st) h1
        (fun hpos => by rw [runCallback_lastEvent env c.2 st hc]; exact h2 hpos)
      simp [frameHitsGuard, hih, hc]

theorem hitsGuard_false (s : State) (x : Env × Event) (hco : Coalesced s)
    (hev : EventStored s) : hitsGuard s x = false := by
  unfold hitsGuard
  split
  · have hsum := pendingCount_le_pipeline s
    have hle : pendingCount Callback.update s ≤ 1 := by
      have := hco.1
      omega
    exact frameHitsGuard_false x.1 s.pending _ hle hev
  · rfl

end Guard

/-- C30 (the empty-event guard is unreachable).  In every state the page
reaches from start-up by pointer, touch and scroll events and frames, an event
is stored (`lastEvent` is not null) whenever `update` is pending, and in no
step from such a state does `update` take its early return `if(!lastEvent)
return`; the guard would be taken if `update` ran without a stored event. -/
theorem update_guard_unreachable :
    (∀ (env : Env) (layers : List (List String)) (xs : List (Env × Event)),
      (0 < pendingCount Callback.update (run (start env layers) xs) →
        (run (start env layers) xs).lastEvent ≠ none) ∧
      ∀ x : Env × Event, hitsGuard (run (start env layers) xs) x = false) ∧
    (pendingCount Callback.update (run (start (page 1000 800 2800 0) [])
        [(page 1000 800 2800 0, Event.mousemove ⟨900, 100⟩)]) = 1 ∧
      (run (start (page 1000 800 2800 0) [])
        [(page 1000 800 2800 0, Event.mousemove ⟨900, 100⟩)]).lastEvent = some ⟨900, 100⟩) ∧
    frameHitsGuard (page 1000 800 2800 0) [(1, Callback.update)] (blank []) = true := by
  refine ⟨fun env layers xs => ⟨?_, fun x => ?_⟩, ⟨by decide!, by decide!⟩, by decide!⟩
  · exact run_eventStored xs _ (start_eventStored env layers)
  · exact hitsGuard_false _ x (run_coalesced xs _ (start_coalesced env layers))
      (run_eventStored xs _ (start_eventStored env layers))

/-! ## Rounding to doubles, the smoothing step and the layer positions -/

theorem pow2_eq (e : ℤ) : pow2 e = (2 : ℚ) ^ e := by
  unfold pow2
  split
  · rename_i h
    lift e to ℕ using h
    simp
  · rename_i h
    push_neg at h
    have he : e = -((-e).toNat : ℤ) := by omega
    conv_rhs => rw [he]
    rw [zpow_neg, zpow_natCast]
    simp

theorem pow2_pos (e : ℤ) : 0 < pow2 e := by
  rw [pow2_eq]; positivity

theorem roundHalfEven_int (n : ℤ) : roundHalfEven (n : ℚ) = n := by
  unfold roundHalfEven
  simp

theorem roundHalfEven_error (x : ℚ) : |((roundHalfEven x : ℤ) : ℚ) - x| ≤ 1 / 2 := by
  unfold roundHalfEven
  have h1 := Int.floor_le x
  have h2 := Int.lt_floor_add_one x
  split_ifs <;> push_cast <;> rw [abs_le] <;> constructor <;> linarith

theorem floorLog2_spec (a : ℚ) (n : ℕ) :
    ∀ lo hi : ℤ, (pow2 lo ≤ a ∨ lo = -1200) →
      (pow2 (floorLog2 a n lo hi) ≤ a ∨ floorLog2 a n lo hi = -1200) := by
  induction n with
  | zero => intro lo hi h; exact h
  | succ n ih =>
    intro lo hi h
    unfold floorLog2
    split
    · rename_i hm
      exact ih _ _ (Or.inl hm)
    · exact ih _ _ h

/-- The spacing of the doubles around a positive rational is at most `2 ^ (-52)`
times the rational, or it is the smallest spacing `2 ^ (-1074)`. -/
theorem pow2_ulpExp_le (a : ℚ) :
    pow2 (ulpExp a) ≤ max (a / 2 ^ 52) (pow2 (-1074)) := by
  unfold ulpExp
  rcases le_total (floorLog2 a 12 (-1200) 1200 - 52) (-1074) with h | h
  · rw [max_eq_right h]
    exact le_max_right _ _
  · rw [max_eq_left h]
    rcases floorLog2_spec a 12 (-1200) 1200 (Or.inr rfl) with key | key
    · refine le_trans ?_ (le_max_left _ _)
      rw [pow2_eq, zpow_sub₀ (by norm_num : (2 : ℚ) ≠ 0)]
      rw [pow2_eq] at key
      have : ((2 : ℚ) ^ (52 : ℤ)) = 2 ^ 52 := by norm_num
      rw [this]
      exact div_le_div_of_nonneg_right key (by positivity)
    · omega

/-- The candidate `m * 2 ^ e` of `toDouble` is within half a spacing of the
magnitude it rounds. -/
theorem candidate_error (a : ℚ) (ha : 0 < a) :
    |(roundHalfEven (a / pow2 (ulpExp a)) : ℚ) * pow2 (ulpExp a) - a|
      ≤ a / 2 ^ 53 + 1 / 2 ^ 1075 := by
  have hp := pow2_pos (ulpExp a)
  have h1 := roundHalfEven_error (a / pow2 (ulpExp a))
  have h2 : |(roundHalfEven (a / pow2 (ulpExp a)) : ℚ) * pow2 (ulpExp a) - a|
      = |(roundHalfEven (a / pow2 (ulpExp a)) : ℚ) - a / pow2 (ulpExp a)| * pow2 (ulpExp a) := by
    rw [← abs_of_pos hp, ← abs_mul, abs_of_pos hp]
    congr 1
    field_simp
  have h3 : |(roundHalfEven (a / pow2 (ulpExp a)) : ℚ) * pow2 (ulpExp a) - a|
      ≤ pow2 (ulpExp a) / 2 := by
    rw [h2]
    have := mul_le_mul_of_nonneg_right h1 (le_of_lt hp)
    linarith
  have h4 := pow2_ulpExp_le a
  have hmin : pow2 (-1074) = 1 / 2 ^ 1074 := by
    rw [pow2_eq, show (-1074 : ℤ) = -((1074 : ℕ) : ℤ) by norm_num, zpow_neg, zpow_natCast,
      one_div]
  have e53 : (2 : ℚ) ^ 53 = 2 ^ 52 * 2 := by rw [← pow_succ]
  have e1075 : (2 : ℚ) ^ 1075 = 2 ^ 1074 * 2 := by rw [← pow_succ]
  have hx : 0 ≤ a / 2 ^ 52 := by positivity
  have hy : (0 : ℚ) ≤ 1 / 2 ^ 1074 := by positivity
  have hx2 : a / 2 ^ 53 = a / 2 ^ 52 / 2 := by rw [e53, div_div]
  have hy2 : (1 : ℚ) / 2 ^ 1075 = 1 / 2 ^ 1074 / 2 := by rw [e1075, div_div]
  rw [hmin] at h4
  rw [hx2, hy2]
  rcases max_cases (a / 2 ^ 52) ((1 : ℚ) / 2 ^ 1074) with ⟨hm, -⟩ | ⟨hm, -⟩ <;>
    rw [hm] at h4 <;> linarith

/-- Rounding to the nearest double: a rational of magnitude at most `2 ^ 1023`
rounds to a finite double whose distance from it is at most `2 ^ (-53)` times
its magnitude, plus `2 ^ (-1075)` below the normal range. -/
theorem toDouble_error (q : ℚ) (hq : |q| ≤ 2 ^ 1023) :
    ∃ r : ℚ, toDouble q = fin r ∧ |r - q| ≤ |q| / 2 ^ 53 + 1 / 2 ^ 1075 := by
  by_cases h0 : q = 0
  · refine ⟨0, by simp [toDouble, h0], ?_⟩
    rw [h0]; simp
  have ha : 0 < |q| := abs_pos.mpr h0
  have herr := candidate_error |q| ha
  have hT : (2 : ℚ) ≤ 2 ^ 1023 := by
    calc (2 : ℚ) = 2 ^ 1 := by norm_num
      _ ≤ 2 ^ 1023 := pow_le_pow_right₀ (by norm_num) (by norm_num)
  have h1024 : pow2 1024 = 2 ^ 1023 * 2 := by
    rw [pow2_eq, show (1024 : ℤ) = ((1024 : ℕ) : ℤ) by norm_num, zpow_natCast, ← pow_succ]
  have hx : |q| / 2 ^ 53 ≤ |q| / 2 := by
    apply div_le_div_of_nonneg_left (le_of_lt ha) (by norm_num)
    calc (2 : ℚ) = 2 ^ 1 := by norm_num
      _ ≤ 2 ^ 53 := pow_le_pow_right₀ (by norm_num) (by norm_num)
  have hy : (1 : ℚ) / 2 ^ 1075 ≤ 1 / 2 := by
    apply div_le_div_of_nonneg_left (by norm_num) (by norm_num)
    calc (2 : ℚ) = 2 ^ 1 := by norm_num
      _ ≤ 2 ^ 1075 := pow_le_pow_right₀ (by norm_num) (by norm_num)
  have hno : ¬ pow2 1024 ≤ (roundHalfEven (|q| / pow2 (ulpExp |q|)) : ℚ) * pow2 (ulpExp |q|) := by
    rw [h1024, not_le]
    have := (abs_le.mp herr).2
    linarith
  unfold toDouble
  rw [if_neg h0, if_neg hno]
  by_cases hpos : 0 < q
  · rw [if_pos hpos]
    refine ⟨_, rfl, ?_⟩
    have hq1 : |q| = q := abs_of_pos hpos
    rw [hq1] at herr ⊢
    exact herr
  · rw [if_neg hpos]
    refine ⟨_, rfl, ?_⟩
    have hq1 : |q| = -q := abs_of_neg (lt_of_le_of_ne (not_lt.mp hpos) h0)
    have : -((roundHalfEven (|q| / pow2 (ulpExp |q|)) : ℚ) * pow2 (ulpExp |q|)) - q
        = -((roundHalfEven (|q| / pow2 (ulpExp |q|)) : ℚ) * pow2 (ulpExp |q|) - |q|) := by
      rw [hq1]; ring
    rw [this, abs_neg]
    exact herr

theorem toDouble_ne_nan (q : ℚ) : toDouble q ≠ JSNum.nan := by
  unfold toDouble
  split_ifs <;> simp

theorem rd_ne_nan (x : JSNum) (h : x ≠ JSNum.nan) : x.rd ≠ JSNum.nan := by
  cases x with
  | fin q => exact toDouble_ne_nan q
  | posInf => simp [JSNum.rd]
  | negInf => simp [JSNum.rd]
  | nan => exact absurd rfl h

/-- The error bound in the form used below: for magnitudes up to `2 ^ 1023`
the rounding error is at most `(|q| + 1) / 2 ^ 53`. -/
theorem toDouble_near (q : ℚ) (hq : |q| ≤ 2 ^ 1023) :
    ∃ r : ℚ, toDouble q = fin r ∧ |r - q| ≤ (|q| + 1) / 2 ^ 53 := by
  obtain ⟨r, hr, he⟩ := toDouble_error q hq
  refine ⟨r, hr, le_trans he ?_⟩
  have : (1 : ℚ) / 2 ^ 1075 ≤ 1 / 2 ^ 53 := by
    apply div_le_div_of_nonneg_left (by norm_num) (by positivity)
    exact pow_le_pow_right₀ (by norm_num) (by norm_num)
  rw [add_div]
  linarith

theorem pow2_nonpos (e : ℤ) (he : e ≤ 0) : pow2 e = 1 / 2 ^ (-e).toNat := by
  rcases eq_or_lt_of_le he with h | h
  · subst h; simp [pow2]
  · unfold pow2
    rw [if_neg (not_le.mpr h)]
    push_cast
    rfl

/-- A natural number below `2 ^ 53` is a double. -/
theorem toDouble_nat (N : ℕ) (hN : N < 2 ^ 53) :
    N ≠ 0 → (roundHalfEven ((N : ℚ) / pow2 (ulpExp (N : ℚ))) : ℚ) * pow2 (ulpExp (N : ℚ))
      = (N : ℚ) := by
  intro hN0
  have hNq : (N : ℚ) < 2 ^ 53 := by exact_mod_cast hN
  have he : ulpExp (N : ℚ) ≤ 0 := by
    unfold ulpExp
    apply max_le _ (by norm_num)
    rcases floorLog2_spec (N : ℚ) 12 (-1200) 1200 (Or.inr rfl) with key | key
    · by_contra hcon
      push_neg at hcon
      have h53 : (53 : ℤ) ≤ floorLog2 (N : ℚ) 12 (-1200) 1200 := by omega
      have hmono : (2 : ℚ) ^ (53 : ℤ) ≤ 2 ^ (floorLog2 (N : ℚ) 12 (-1200) 1200) :=
        zpow_le_zpow_right₀ (by norm_num) h53
      rw [pow2_eq] at key
      have : ((2 : ℚ) ^ (53 : ℤ)) = 2 ^ 53 := by norm_num
      rw [this] at hmono
      linarith
    · omega
  obtain ⟨j, hj⟩ : ∃ j : ℕ, pow2 (ulpExp (N : ℚ)) = 1 / 2 ^ j := ⟨_, pow2_nonpos _ he⟩
  have hquot : (N : ℚ) / pow2 (ulpExp (N : ℚ)) = (((N * 2 ^ j : ℕ) : ℤ) : ℚ) := by
    rw [hj]
    push_cast
    field_simp
  rw [hquot, roundHalfEven_int, hj]
  push_cast
  field_simp

/-- An integer of magnitude below `2 ^ 53` is a double. -/
theorem toDouble_int (n : ℤ) (hn : |n| < 2 ^ 53) : toDouble (n : ℚ) = fin (n : ℚ) := by
  by_cases h0 : n = 0
  · subst h0; simp [toDouble]
  have hq0 : (n : ℚ) ≠ 0 := by exact_mod_cast h0
  have habs : |(n : ℚ)| = ((n.natAbs : ℕ) : ℚ) := by
    rw [Nat.cast_natAbs, Int.cast_abs]
  have hN0 : n.natAbs ≠ 0 := fun h => h0 (Int.natAbs_eq_zero.mp h)
  have hNlt : n.natAbs < 2 ^ 53 := by
    have : ((n.natAbs : ℕ) : ℤ) < 2 ^ 53 := by rw [Int.natCast_natAbs]; exact hn
    exact_mod_cast this
  have hcand := toDouble_nat n.natAbs hNlt hN0
  rw [← habs] at hcand
  have hno : ¬ pow2 1024 ≤ |(n : ℚ)| := by
    rw [not_le, habs, pow2_eq, show (1024 : ℤ) = ((1024 : ℕ) : ℤ) by norm_num, zpow_natCast]
    have h1 : ((n.natAbs : ℕ) : ℚ) < 2 ^ 53 := by exact_mod_cast hNlt
    have h2 : (2 : ℚ) ^ 53 ≤ 2 ^ 1024 := pow_le_pow_right₀ (by norm_num) (by norm_num)
    linarith
  unfold toDouble
  rw [if_neg hq0, hcand, if_neg hno]
  by_cases hpos : 0 < (n : ℚ)
  · rw [if_pos hpos, abs_of_pos hpos]
  · rw [if_neg hpos, abs_of_neg (lt_of_le_of_ne (not_lt.mp hpos) hq0), neg_neg]

/-- Rounding a rational of magnitude at most `B`: a finite double, off by at
most `(B + 1) / 2 ^ 53`. -/
theorem toDouble_bound (q B : ℚ) (hq : |q| ≤ B) (hB : B ≤ 2 ^ 1023) :
    ∃ r : ℚ, toDouble q = fin r ∧ |r - q| ≤ (B + 1) / 2 ^ 53 := by
  obtain ⟨r, hr, he⟩ := toDouble_near q (le_trans hq hB)
  refine ⟨r, hr, le_trans he ?_⟩
  apply div_le_div_of_nonneg_right _ (by positivity)
  linarith

theorem big_le : (10 : ℚ) ^ 12 ≤ 2 ^ 1023 := by
  calc (10 : ℚ) ^ 12 ≤ 2 ^ 40 := by norm_num
    _ ≤ 2 ^ 1023 := pow_le_pow_right₀ (by norm_num) (by norm_num)

theorem lit_012 : Dbl.lit 0.12 = fin (1080863910568919 / 9007199254740992) := by decide!

theorem lit_half : Dbl.lit 0.5 = fin 0.5 := by decide!

/-- One smoothing step on doubles. -/
theorem step_error (a t : ℚ) (ha : |a| ≤ 3 * 10 ^ 9 + 1) (ht : |t| ≤ 10 ^ 9) :
    ∃ a' : ℚ, Dbl.add (fin a) (Dbl.mul (Dbl.sub (fin t) (fin a)) (Dbl.lit 0.12)) = fin a' ∧
      |(t - a') - 0.88 * (t - a)| ≤ 1 / 10 ^ 6 := by
  obtain ⟨ha1, ha2⟩ := abs_le.mp ha
  obtain ⟨ht1, ht2⟩ := abs_le.mp ht
  have hbig := big_le
  obtain ⟨d, hd, hde⟩ := toDouble_bound (t - a) (4 * 10 ^ 9 + 1)
    (by rw [abs_le]; constructor <;> linarith) (by linarith)
  obtain ⟨hd1, hd2⟩ := abs_le.mp hde
  obtain ⟨p, hp, hpe⟩ := toDouble_bound (d * (1080863910568919 / 9007199254740992)) (10 ^ 9)
    (by rw [abs_le]; constructor <;> norm_num at hd1 hd2 ⊢ <;> linarith) (by linarith)
  obtain ⟨hp1, hp2⟩ := abs_le.mp hpe
  obtain ⟨r, hr, hre⟩ := toDouble_bound (a + p) (5 * 10 ^ 9)
    (by rw [abs_le]; constructor <;> norm_num at hd1 hd2 hp1 hp2 ⊢ <;> linarith) (by linarith)
  obtain ⟨hr1, hr2⟩ := abs_le.mp hre
  refine ⟨r, ?_, ?_⟩
  · simp only [Dbl.add, Dbl.mul, Dbl.sub, fin_sub_fin, JSNum.rd, hd, lit_012, fin_mul_fin, hp,
      fin_add_fin, hr]
  · rw [abs_le]
    constructor <;> norm_num at hd1 hd2 hp1 hp2 hr1 hr2 ⊢ <;> linarith

/-- The test `Math.abs(targetScroll - smoothScroll) > 0.5` on doubles. -/
theorem gap_test (a t : ℚ) (h : |t - a| ≤ 5 * 10 ^ 9) :
    (JSNum.gt (JSNum.abs (Dbl.sub (fin t) (fin a))) (Dbl.lit 0.5) = true →
      1 / 2 - 1 / 10 ^ 6 < |t - a|) ∧
    (JSNum.gt (JSNum.abs (Dbl.sub (fin t) (fin a))) (Dbl.lit 0.5) = false →
      |t - a| ≤ 1 / 2 + 1 / 10 ^ 6) := by
  have hbig := big_le
  obtain ⟨d, hd, hde⟩ := toDouble_bound (t - a) (5 * 10 ^ 9) h (by linarith)
  have hdd : |(|d| - |t - a|)| ≤ (5 * 10 ^ 9 + 1) / 2 ^ 53 :=
    le_trans (abs_abs_sub_abs_le_abs_sub d (t - a)) hde
  obtain ⟨h1, h2⟩ := abs_le.mp hdd
  have hg : JSNum.gt (JSNum.abs (Dbl.sub (fin t) (fin a))) (Dbl.lit 0.5)
      = decide ((0.5 : ℚ) < |d|) := by
    simp only [Dbl.sub, fin_sub_fin, JSNum.rd, hd, JSNum.abs, lit_half, JSNum.gt]
  rw [hg]
  constructor
  · intro hp
    have := of_decide_eq_true hp
    norm_num at h1 h2 this ⊢
    linarith
  · intro hp
    have := of_decide_eq_false hp
    norm_num at h1 h2 this ⊢
    linarith

theorem updateScroll_fin (a t : ℚ) (req : Bool) (ha : |a| ≤ 3 * 10 ^ 9 + 1) (ht : |t| ≤ 10 ^ 9) :
    ∃ a' : ℚ, Dbl.smoothStep ⟨fin a, fin t, req⟩
        = ⟨fin a', fin t, JSNum.gt (JSNum.abs (Dbl.sub (fin t) (fin a'))) (Dbl.lit 0.5)⟩ ∧
      |(t - a') - 0.88 * (t - a)| ≤ 1 / 10 ^ 6 := by
  obtain ⟨a', h1, h2⟩ := step_error a t ha ht
  exact ⟨a', by simp only [Dbl.smoothStep, h1], h2⟩

theorem pow088_le_one (n : ℕ) : (0.88 : ℚ) ^ n ≤ 1 :=
  pow_le_one₀ (by norm_num) (by norm_num)

theorem pow088_nonneg (n : ℕ) : (0 : ℚ) ≤ 0.88 ^ n := pow_nonneg (by norm_num) n

/-- The scaled initial difference is no larger than the initial difference. -/
theorem scaled_le (n : ℕ) (x : ℚ) : |0.88 ^ n * x| ≤ |x| := by
  rw [abs_mul, abs_of_nonneg (pow088_nonneg n)]
  have := mul_le_mul_of_nonneg_right (pow088_le_one n) (abs_nonneg x)
  linarith

/-- After `n` smoothing steps on doubles the difference to the target is
`0.88 ^ n` times the initial one, up to `25 / 3 * 10 ^ (-6)`. -/
theorem steps_error (a t : ℚ) (req : Bool) (ha : |a| ≤ 10 ^ 9) (ht : |t| ≤ 10 ^ 9) (n : ℕ) :
    ∃ an : ℚ, (Dbl.chainSteps n ⟨fin a, fin t, req⟩).smoothScroll = fin an ∧
      (Dbl.chainSteps n ⟨fin a, fin t, req⟩).targetScroll = fin t ∧
      |(t - an) - 0.88 ^ n * (t - a)| ≤ 25 / 3 / 10 ^ 6 := by
  induction n with
  | zero => exact ⟨a, rfl, rfl, by norm_num⟩
  | succ n ih =>
    obtain ⟨an, h1, h2, h3⟩ := ih
    have hs := scaled_le n (t - a)
    obtain ⟨ha1, ha2⟩ := abs_le.mp ha
    obtain ⟨ht1, ht2⟩ := abs_le.mp ht
    have hta : |t - a| ≤ 2 * 10 ^ 9 := by rw [abs_le]; constructor <;> linarith
    obtain ⟨s1, s2⟩ := abs_le.mp (le_trans hs hta)
    obtain ⟨e1, e2⟩ := abs_le.mp h3
    have han : |an| ≤ 3 * 10 ^ 9 + 1 := by
      rw [abs_le]; constructor <;> norm_num at e1 e2 ⊢ <;> linarith
    have hst : Dbl.chainSteps n ⟨fin a, fin t, req⟩
        = ⟨fin an, fin t, (Dbl.chainSteps n ⟨fin a, fin t, req⟩).requested⟩ := by
      cases hx : Dbl.chainSteps n ⟨fin a, fin t, req⟩
      rw [hx] at h1 h2
      simp only at h1 h2
      rw [h1, h2]
    obtain ⟨a', hu, he⟩ := updateScroll_fin an t (Dbl.chainSteps n ⟨fin a, fin t, req⟩).requested han ht
    refine ⟨a', ?_, ?_, ?_⟩
    · show (Dbl.smoothStep (Dbl.chainSteps n ⟨fin a, fin t, req⟩)).smoothScroll = fin a'
      rw [hst, hu]
    · show (Dbl.smoothStep (Dbl.chainSteps n ⟨fin a, fin t, req⟩)).targetScroll = fin t
      rw [hst, hu]
    · obtain ⟨f1, f2⟩ := abs_le.mp he
      rw [pow_succ, abs_le]
      constructor <;> norm_num at e1 e2 f1 f2 ⊢ <;> nlinarith

/-- The smoothing step and its repetition on the scroll pipeline. -/
theorem smoothing_chain_d (a t : ℚ) (req : Bool) (ha : |a| ≤ 10 ^ 9) (ht : |t| ≤ 10 ^ 9) :
    (∃ a' : ℚ,
      (Dbl.smoothStep ⟨fin a, fin t, req⟩).smoothScroll = fin a' ∧
      (Dbl.smoothStep ⟨fin a, fin t, req⟩).targetScroll = fin t ∧
      |abs (t - a') - 0.88 * abs (t - a)| ≤ 1 / 10 ^ 6 ∧
      (1 / 10 ^ 5 < |t - a| → |t - a'| < |t - a|)) ∧
    (∀ n : ℕ, ∃ an an1 : ℚ,
      (Dbl.chainSteps n ⟨fin a, fin t, req⟩).smoothScroll = fin an ∧
      (Dbl.chainSteps n ⟨fin a, fin t, req⟩).targetScroll = fin t ∧
      (Dbl.chainSteps (n + 1) ⟨fin a, fin t, req⟩).smoothScroll = fin an1 ∧
      |abs (t - an) - 0.88 ^ n * abs (t - a)| ≤ 1 / 10 ^ 5 ∧
      (1 / 10 ^ 5 < |t - an| → |t - an1| < |t - an|)) := by
  have key : ∀ (x : ℚ) (req' : Bool), |x| ≤ 3 * 10 ^ 9 + 1 → ∃ x' : ℚ,
      Dbl.smoothStep ⟨fin x, fin t, req'⟩
        = ⟨fin x', fin t, JSNum.gt (JSNum.abs (Dbl.sub (fin t) (fin x'))) (Dbl.lit 0.5)⟩ ∧
      |abs (t - x') - 0.88 * abs (t - x)| ≤ 1 / 10 ^ 6 ∧
      (1 / 10 ^ 5 < |t - x| → |t - x'| < |t - x|) := by
    intro x req' hx
    obtain ⟨x', hu, he⟩ := updateScroll_fin x t req' hx ht
    have h88 : (0.88 : ℚ) * |t - x| = |0.88 * (t - x)| := by
      rw [abs_mul, abs_of_pos (by norm_num : (0 : ℚ) < 0.88)]
    have hgap : |abs (t - x') - 0.88 * abs (t - x)| ≤ 1 / 10 ^ 6 := by
      rw [h88]
      exact le_trans (abs_abs_sub_abs_le_abs_sub _ _) he
    refine ⟨x', hu, hgap, fun hlt => ?_⟩
    obtain ⟨g1, g2⟩ := abs_le.mp hgap
    norm_num at g1 g2 hlt ⊢
    linarith
  constructor
  · obtain ⟨a', hu, h1, h2⟩ := key a req (by linarith [abs_nonneg a])
    exact ⟨a', by rw [hu], by rw [hu], h1, h2⟩
  · intro n
    obtain ⟨an, h1, h2, h3⟩ := steps_error a t req ha ht n
    have hs := scaled_le n (t - a)
    obtain ⟨ha1, ha2⟩ := abs_le.mp ha
    obtain ⟨ht1, ht2⟩ := abs_le.mp ht
    have hta : |t - a| ≤ 2 * 10 ^ 9 := by rw [abs_le]; constructor <;> linarith
    obtain ⟨s1, s2⟩ := abs_le.mp (le_trans hs hta)
    obtain ⟨e1, e2⟩ := abs_le.mp h3
    have han : |an| ≤ 3 * 10 ^ 9 + 1 := by
      rw [abs_le]; constructor <;> norm_num at e1 e2 ⊢ <;> linarith
    have hst : Dbl.chainSteps n ⟨fin a, fin t, req⟩
        = ⟨fin an, fin t, (Dbl.chainSteps n ⟨fin a, fin t, req⟩).requested⟩ := by
      cases hx : Dbl.chainSteps n ⟨fin a, fin t, req⟩
      rw [hx] at h1 h2
      simp only at h1 h2
      rw [h1, h2]
    obtain ⟨an1, hu, -, hdec⟩ := key an (Dbl.chainSteps n ⟨fin a, fin t, req⟩).requested han
    refine ⟨an, an1, h1, h2, ?_, ?_, hdec⟩
    · show (Dbl.smoothStep (Dbl.chainSteps n ⟨fin a, fin t, req⟩)).smoothScroll = fin an1
      rw [hst, hu]
    · have hpow : (0.88 : ℚ) ^ n * |t - a| = |0.88 ^ n * (t - a)| := by
        rw [abs_mul, abs_of_nonneg (pow088_nonneg n)]
      rw [hpow]
      refine le_trans (abs_abs_sub_abs_le_abs_sub _ _) (le_trans h3 (by norm_num))

theorem frame_of_requested (s : Dbl.Scroll) (h : s.requested = true) :
    Dbl.chainFrame s = Dbl.smoothStep s := by
  simp [Dbl.chainFrame, h]

theorem frame_of_idle (s : Dbl.Scroll) (h : s.requested = false) : Dbl.chainFrame s = s := by
  simp [Dbl.chainFrame, h]

/-- The state of the smoothing chain on doubles after `n` frames. -/
theorem frames_invariant (a t : ℚ) (ha : |a| ≤ 10 ^ 9) (ht : |t| ≤ 10 ^ 9) (n : ℕ) :
    ∃ an : ℚ, (Dbl.chainFrames n (Dbl.scrolled a t)).smoothScroll = fin an ∧
      (Dbl.chainFrames n (Dbl.scrolled a t)).targetScroll = fin t ∧
      ((Dbl.chainFrames n (Dbl.scrolled a t)).requested = true →
        |(t - an) - 0.88 ^ n * (t - a)| ≤ 25 / 3 / 10 ^ 6 ∧
        (1 ≤ n → 1 / 2 - 1 / 10 ^ 6 < |t - an|)) ∧
      ((Dbl.chainFrames n (Dbl.scrolled a t)).requested = false →
        ∃ m : ℕ, 1 ≤ m ∧ m ≤ n ∧ 0.88 ^ m * |t - a| ≤ 1 / 2 + 1 / 10 ^ 5) := by
  induction n with
  | zero =>
    refine ⟨a, rfl, rfl, fun _ => ⟨by norm_num, fun h => absurd h (by norm_num)⟩, fun h => ?_⟩
    simp [Dbl.chainFrames, Dbl.scrolled] at h
  | succ n ih =>
    obtain ⟨an, h1, h2, hrun, hidle⟩ := ih
    have hst : Dbl.chainFrames n (Dbl.scrolled a t)
        = ⟨fin an, fin t, (Dbl.chainFrames n (Dbl.scrolled a t)).requested⟩ := by
      cases hx : Dbl.chainFrames n (Dbl.scrolled a t)
      rw [hx] at h1 h2
      simp only at h1 h2
      rw [h1, h2]
    cases hreq : (Dbl.chainFrames n (Dbl.scrolled a t)).requested with
    | false =>
      have hf : Dbl.chainFrames (n + 1) (Dbl.scrolled a t) = Dbl.chainFrames n (Dbl.scrolled a t) :=
        frame_of_idle _ hreq
      obtain ⟨m, hm1, hm2, hm3⟩ := hidle hreq
      refine ⟨an, by rw [hf, h1], by rw [hf, h2], fun h => ?_, fun _ => ⟨m, hm1, by omega, hm3⟩⟩
      rw [hf, hreq] at h
      exact absurd h (by simp)
    | true =>
      obtain ⟨h3, -⟩ := hrun hreq
      have hs := scaled_le n (t - a)
      obtain ⟨ha1, ha2⟩ := abs_le.mp ha
      obtain ⟨ht1, ht2⟩ := abs_le.mp ht
      have hta : |t - a| ≤ 2 * 10 ^ 9 := by rw [abs_le]; constructor <;> linarith
      obtain ⟨s1, s2⟩ := abs_le.mp (le_trans hs hta)
      obtain ⟨e1, e2⟩ := abs_le.mp h3
      have han : |an| ≤ 3 * 10 ^ 9 + 1 := by
        rw [abs_le]; constructor <;> norm_num at e1 e2 ⊢ <;> linarith
      obtain ⟨a', hu, he⟩ := updateScroll_fin an t true han ht
      have hf : Dbl.chainFrames (n + 1) (Dbl.scrolled a t)
          = ⟨fin a', fin t, JSNum.gt (JSNum.abs (Dbl.sub (fin t) (fin a'))) (Dbl.lit 0.5)⟩ := by
        show Dbl.chainFrame (Dbl.chainFrames n (Dbl.scrolled a t)) = _
        rw [frame_of_requested _ hreq, hst, hreq, hu]
      obtain ⟨f1, f2⟩ := abs_le.mp he
      have hnew : |(t - a') - 0.88 ^ (n + 1) * (t - a)| ≤ 25 / 3 / 10 ^ 6 := by
        rw [pow_succ, abs_le]
        constructor <;> norm_num at e1 e2 f1 f2 ⊢ <;> nlinarith
      obtain ⟨n1, n2⟩ := abs_le.mp hnew
      obtain ⟨t1, t2⟩ := abs_le.mp (le_trans (scaled_le (n + 1) (t - a)) hta)
      have hgap5 : |t - a'| ≤ 5 * 10 ^ 9 := by
        rw [abs_le]; constructor <;> norm_num at n1 n2 ⊢ <;> linarith
      obtain ⟨g1, g2⟩ := gap_test a' t hgap5
      refine ⟨a', by rw [hf], by rw [hf], fun h => ⟨hnew, fun _ => ?_⟩, fun h => ?_⟩
      · rw [hf] at h
        exact g1 h
      · rw [hf] at h
        have hle := g2 h
        refine ⟨n + 1, by omega, le_refl _, ?_⟩
        have hpow : (0.88 : ℚ) ^ (n + 1) * |t - a| = |0.88 ^ (n + 1) * (t - a)| := by
          rw [abs_mul, abs_of_nonneg (pow088_nonneg (n + 1))]
        rw [hpow]
        have hd := abs_abs_sub_abs_le_abs_sub (0.88 ^ (n + 1) * (t - a)) (t - a')
        have hnew2 : |0.88 ^ (n + 1) * (t - a) - (t - a')| ≤ 25 / 3 / 10 ^ 6 := by
          rw [abs_sub_comm]; exact hnew
        have := le_trans hd hnew2
        obtain ⟨d1, d2⟩ := abs_le.mp this
        norm_num at d1 d2 hle ⊢
        linarith

/-- Some frame brings the gap to a given positive threshold or below. -/
theorem exists_below (g c : ℚ) (hg : 0 ≤ g) (hc : 0 < c) :
    ∃ N : ℕ, 1 ≤ N ∧ ∀ n, N ≤ n → 0.88 ^ n * g ≤ c := by
  have hex : ∃ n : ℕ, (0.88 : ℚ) ^ n * g ≤ c := by
    rcases eq_or_lt_of_le hg with h0 | hpos
    · exact ⟨0, by rw [← h0]; simp; exact le_of_lt hc⟩
    · obtain ⟨n, hn⟩ := exists_pow_lt_of_lt_one (div_pos hc hpos)
        (by norm_num : (0.88 : ℚ) < 1)
      exact ⟨n, le_of_lt ((lt_div_iff₀ hpos).mp hn)⟩
  obtain ⟨n0, hn0⟩ := hex
  refine ⟨n0 + 1, by omega, fun n hn => ?_⟩
  have h1 : (0.88 : ℚ) ^ n ≤ 0.88 ^ n0 :=
    pow_le_pow_of_le_one (by norm_num) (by norm_num) (by omega)
  have h3 : (0.88 : ℚ) ^ n * g ≤ 0.88 ^ n0 * g := mul_le_mul_of_nonneg_right h1 hg
  linarith

/-- The smoothing chain on doubles: it is running while the scaled gap is above
`0.5`, stopped once it is at most `0.5`, and it stops. -/
theorem frames_band (a t : ℚ) (ha : |a| ≤ 10 ^ 9) (ht : |t| ≤ 10 ^ 9) :
    (∀ n, 1 / 2 + 1 / 10 ^ 4 < 0.88 ^ n * |t - a| →
      (Dbl.chainFrames n (Dbl.scrolled a t)).requested = true) ∧
    (∀ n, 1 ≤ n → 0.88 ^ n * |t - a| ≤ 1 / 2 - 1 / 10 ^ 4 →
      (Dbl.chainFrames n (Dbl.scrolled a t)).requested = false) ∧
    (∃ N : ℕ, ∀ n, N ≤ n → (Dbl.chainFrames n (Dbl.scrolled a t)).requested = false) := by
  have hg0 : 0 ≤ |t - a| := abs_nonneg _
  have stop : ∀ n, 1 ≤ n → 0.88 ^ n * |t - a| ≤ 1 / 2 - 1 / 10 ^ 4 →
      (Dbl.chainFrames n (Dbl.scrolled a t)).requested = false := by
    intro n hn hle
    obtain ⟨an, -, -, hrun, -⟩ := frames_invariant a t ha ht n
    cases hreq : (Dbl.chainFrames n (Dbl.scrolled a t)).requested with
    | false => rfl
    | true =>
      exfalso
      obtain ⟨h3, h4⟩ := hrun hreq
      have h5 := h4 hn
      have hpow : (0.88 : ℚ) ^ n * |t - a| = |0.88 ^ n * (t - a)| := by
        rw [abs_mul, abs_of_nonneg (pow088_nonneg n)]
      rw [hpow] at hle
      have hd := le_trans (abs_abs_sub_abs_le_abs_sub (t - an) (0.88 ^ n * (t - a))) h3
      obtain ⟨d1, d2⟩ := abs_le.mp hd
      norm_num at d1 d2 hle h5
      linarith
  refine ⟨fun n hgt => ?_, stop, ?_⟩
  · obtain ⟨an, -, -, -, hidle⟩ := frames_invariant a t ha ht n
    cases hreq : (Dbl.chainFrames n (Dbl.scrolled a t)).requested with
    | true => rfl
    | false =>
      exfalso
      obtain ⟨m, hm1, hm2, hm3⟩ := hidle hreq
      have h1 : (0.88 : ℚ) ^ n ≤ 0.88 ^ m :=
        pow_le_pow_of_le_one (by norm_num) (by norm_num) hm2
      have h3 := mul_le_mul_of_nonneg_right h1 hg0
      norm_num at hgt hm3 h3
      linarith
  · obtain ⟨N, hN1, hN⟩ := exists_below |t - a| (1 / 2 - 1 / 10 ^ 4) hg0 (by norm_num)
    exact ⟨N, fun n hn => stop n (by omega) (hN n hn)⟩

/-- After a scroll from 0 to 1000 the chain on doubles runs for 60 frames. -/
theorem frames_sixty :
    (∀ n, n < 60 → (Dbl.chainFrames n (Dbl.scrolled 0 1000)).requested = true) ∧
    (∀ n, 60 ≤ n → (Dbl.chainFrames n (Dbl.scrolled 0 1000)).requested = false) := by
  obtain ⟨h1, h2, -⟩ := frames_band 0 1000 (by norm_num) (by norm_num)
  constructor
  · intro n hn
    apply h1
    have hp : (0.88 : ℚ) ^ 59 ≤ 0.88 ^ n :=
      pow_le_pow_of_le_one (by norm_num) (by norm_num) (by omega)
    have h59 : (1 / 2 + 1 / 10 ^ 4 : ℚ) < 0.88 ^ 59 * 1000 := by norm_num
    have : |(1000 : ℚ) - 0| = 1000 := by norm_num
    rw [this]
    linarith
  · intro n hn
    apply h2 n (by omega)
    have hp : (0.88 : ℚ) ^ n ≤ 0.88 ^ 60 :=
      pow_le_pow_of_le_one (by norm_num) (by norm_num) hn
    have h60 : (0.88 : ℚ) ^ 60 * 1000 ≤ 1 / 2 - 1 / 10 ^ 4 := by norm_num
    have : |(1000 : ℚ) - 0| = 1000 := by norm_num
    rw [this]
    linarith

/-- Rounding to the nearest double, in general: a finite double within the error
bound, or an infinity for a magnitude above `2 ^ 1023`. -/
theorem toDouble_spec (q : ℚ) :
    (∃ r : ℚ, toDouble q = fin r ∧ |r - q| ≤ |q| / 2 ^ 53 + 1 / 2 ^ 1075) ∨
    (toDouble q = JSNum.posInf ∧ 2 ^ 1023 < q) ∨
    (toDouble q = JSNum.negInf ∧ q < -2 ^ 1023) := by
  by_cases hq : |q| ≤ 2 ^ 1023
  · exact Or.inl (toDouble_error q hq)
  · push_neg at hq
    have h0 : q ≠ 0 := by
      intro h
      rw [h, abs_zero] at hq
      have : (0 : ℚ) < 2 ^ 1023 := by positivity
      linarith
    have ha : 0 < |q| := abs_pos.mpr h0
    have herr := candidate_error |q| ha
    unfold toDouble
    rw [if_neg h0]
    by_cases hov : pow2 1024 ≤ (roundHalfEven (|q| / pow2 (ulpExp |q|)) : ℚ) * pow2 (ulpExp |q|)
    · rw [if_pos hov]
      by_cases hpos : 0 < q
      · rw [if_pos hpos]
        have hq2 : (2 : ℚ) ^ 1023 < q := lt_of_lt_of_eq hq (abs_of_pos hpos)
        exact Or.inr (Or.inl ⟨rfl, hq2⟩)
      · rw [if_neg hpos]
        have hneg : q < 0 := lt_of_le_of_ne (not_lt.mp hpos) h0
        have hq2 : (2 : ℚ) ^ 1023 < -q := lt_of_lt_of_eq hq (abs_of_neg hneg)
        exact Or.inr (Or.inr ⟨rfl, lt_neg_of_lt_neg hq2⟩)
    · rw [if_neg hov]
      left
      by_cases hpos : 0 < q
      · rw [if_pos hpos]
        refine ⟨_, rfl, ?_⟩
        have hq1 : |q| = q := abs_of_pos hpos
        rw [hq1] at herr ⊢
        exact herr
      · rw [if_neg hpos]
        refine ⟨_, rfl, ?_⟩
        have hq1 : |q| = -q := abs_of_neg (lt_of_le_of_ne (not_lt.mp hpos) h0)
        have : -((roundHalfEven (|q| / pow2 (ulpExp |q|)) : ℚ) * pow2 (ulpExp |q|)) - q
            = -((roundHalfEven (|q| / pow2 (ulpExp |q|)) : ℚ) * pow2 (ulpExp |q|) - |q|) := by
          rw [hq1]; ring
        rw [this, abs_neg]
        exact herr

theorem u_small : (1 : ℚ) / 2 ^ 53 ≤ 1 / 10 ^ 15 := by norm_num

theorem eta_small : (1 : ℚ) / 2 ^ 1075 ≤ 1 / 2 ^ 53 := by
  apply div_le_div_of_nonneg_left (by norm_num) (by positivity)
  exact pow_le_pow_right₀ (by norm_num) (by norm_num)

/-- The constant `docH` on doubles is a finite number that is at least one, or
`+Infinity`. -/
theorem docH_cases (env : Env) :
    (∃ h : ℚ, Dbl.docH env = fin h ∧ 1 ≤ h ∧
      |h - max (env.scrollHeight - env.innerHeight) 1|
        ≤ max (env.scrollHeight - env.innerHeight) 1 / 2 ^ 53 + 1 / 2 ^ 1075) ∨
    (Dbl.docH env = JSNum.posInf ∧ 2 ^ 1023 < env.scrollHeight - env.innerHeight) := by
  unfold Dbl.docH Dbl.sub
  rw [fin_sub_fin]
  rcases toDouble_spec (env.scrollHeight - env.innerHeight) with ⟨r, hr, he⟩ | ⟨hr, hq⟩ | ⟨hr, hq⟩
  · left
    refine ⟨max r 1, by simp [JSNum.rd, hr], le_max_right _ _, ?_⟩
    have hu : (0 : ℚ) ≤ 1 / 2 ^ 53 := by positivity
    have hη : (0 : ℚ) < 1 / 2 ^ 1075 := by positivity
    have hη2 := eta_small
    have hu2 := u_small
    by_cases hq : env.scrollHeight - env.innerHeight ≤ 1 / 2
    · -- both are floored at one
      have hr1 : r ≤ 1 := by
        have h3 := (abs_le.mp he).2
        have hηu : (1 : ℚ) / 2 ^ 1075 ≤ 1 / 10 ^ 15 := le_trans hη2 hu2
        rw [div_eq_mul_one_div |env.scrollHeight - env.innerHeight|] at h3
        generalize (1 : ℚ) / 2 ^ 53 = u at h3 hu hu2
        generalize (1 : ℚ) / 2 ^ 1075 = η at h3 hηu
        rcases abs_cases (env.scrollHeight - env.innerHeight) with ⟨h1, h0⟩ | ⟨h1, h0⟩
        · rw [h1] at h3
          have : (env.scrollHeight - env.innerHeight) * u ≤ 1 / 2 * u :=
            mul_le_mul_of_nonneg_right hq hu
          norm_num at hu2 hηu
          linarith
        · rw [h1] at h3
          norm_num at hu2 hηu
          have : -(env.scrollHeight - env.innerHeight) * u
              ≤ -(env.scrollHeight - env.innerHeight) * 1 :=
            mul_le_mul_of_nonneg_left (by linarith) (by linarith)
          linarith
      rw [max_eq_right hr1, max_eq_right (by linarith)]
      simp
      positivity
    · push_neg at hq
      have hqa : |env.scrollHeight - env.innerHeight| = env.scrollHeight - env.innerHeight :=
        abs_of_pos (by linarith)
      rw [hqa] at he
      have hle : env.scrollHeight - env.innerHeight
          ≤ max (env.scrollHeight - env.innerHeight) 1 := le_max_left _ _
      have h1 := abs_max_sub_max_le_abs r (env.scrollHeight - env.innerHeight) 1
      have h2 : (env.scrollHeight - env.innerHeight) / 2 ^ 53
          ≤ max (env.scrollHeight - env.innerHeight) 1 / 2 ^ 53 :=
        div_le_div_of_nonneg_right hle (by positivity)
      linarith
  · right
    exact ⟨by simp [JSNum.rd, hr, JSNum.max], hq⟩
  · left
    have hlt : env.scrollHeight - env.innerHeight ≤ 1 := by
      have : (0 : ℚ) < 2 ^ 1023 := by positivity
      linarith
    refine ⟨1, by simp [JSNum.rd, hr, JSNum.max], le_refl _, ?_⟩
    rw [max_eq_right hlt]
    simp
    positivity

theorem add_fin_bound (a b B : ℚ) (h : |a + b| ≤ B) (hB : B ≤ 2 ^ 1023) :
    ∃ r : ℚ, Dbl.add (fin a) (fin b) = fin r ∧ |r - (a + b)| ≤ (B + 1) / 2 ^ 53 := by
  obtain ⟨r, hr, he⟩ := toDouble_bound (a + b) B h hB
  exact ⟨r, by simp only [Dbl.add, fin_add_fin, JSNum.rd, hr], he⟩

theorem sub_fin_bound (a b B : ℚ) (h : |a - b| ≤ B) (hB : B ≤ 2 ^ 1023) :
    ∃ r : ℚ, Dbl.sub (fin a) (fin b) = fin r ∧ |r - (a - b)| ≤ (B + 1) / 2 ^ 53 := by
  obtain ⟨r, hr, he⟩ := toDouble_bound (a - b) B h hB
  exact ⟨r, by simp only [Dbl.sub, fin_sub_fin, JSNum.rd, hr], he⟩

theorem mul_fin_bound (a b B : ℚ) (h : |a * b| ≤ B) (hB : B ≤ 2 ^ 1023) :
    ∃ r : ℚ, Dbl.mul (fin a) (fin b) = fin r ∧ |r - a * b| ≤ (B + 1) / 2 ^ 53 := by
  obtain ⟨r, hr, he⟩ := toDouble_bound (a * b) B h hB
  exact ⟨r, by simp only [Dbl.mul, fin_mul_fin, JSNum.rd, hr], he⟩

theorem toDouble_zero : toDouble 0 = fin 0 := by simp [toDouble]

/-- The scroll fraction on doubles: finite, and within `3 * 10 ^ (-7)` of the
exact quotient for a `smoothScroll` of magnitude at most `10 ^ 9`. -/
theorem pct_cases (env : Env) (s : ℚ) (hs : |s| ≤ 10 ^ 9) :
    ∃ p : ℚ, Dbl.div (fin s) (Dbl.docH env) = fin p ∧ |p - pctQ env s| ≤ 3 / 10 ^ 7 ∧
      |p| ≤ 10 ^ 9 + 1 := by
  have hbig := big_le
  have hu2 := u_small
  have hη2 := eta_small
  have hu0 : (0 : ℚ) ≤ 1 / 2 ^ 53 := by positivity
  have hη0 : (0 : ℚ) ≤ 1 / 2 ^ 1075 := by positivity
  have hH1 : (1 : ℚ) ≤ max (env.scrollHeight - env.innerHeight) 1 := le_max_right _ _
  rcases docH_cases env with ⟨h, hd, h1, he⟩ | ⟨hd, hq⟩
  · have h0 : h ≠ 0 := by linarith
    have hsh : |s / h| ≤ 10 ^ 9 := by
      rw [abs_div, abs_of_pos (by linarith : (0 : ℚ) < h)]
      rw [div_le_iff₀ (by linarith)]
      have : (10 : ℚ) ^ 9 * 1 ≤ 10 ^ 9 * h := mul_le_mul_of_nonneg_left h1 (by norm_num)
      linarith
    obtain ⟨p, hp, hpe⟩ := toDouble_bound (s / h) (10 ^ 9) hsh (by linarith)
    have hdiff : |s / h - pctQ env s| ≤ 10 ^ 9 * (1 / 2 ^ 53 + 1 / 2 ^ 1075) := by
      unfold pctQ
      have hHpos : (0 : ℚ) < max (env.scrollHeight - env.innerHeight) 1 := by linarith
      have hhpos : (0 : ℚ) < h := by linarith
      have e1 : s / h - s / max (env.scrollHeight - env.innerHeight) 1
          = s * ((max (env.scrollHeight - env.innerHeight) 1 - h)
              / (h * max (env.scrollHeight - env.innerHeight) 1)) := by
        field_simp
        ring
      rw [e1, abs_mul]
      have e2 : |(max (env.scrollHeight - env.innerHeight) 1 - h)
          / (h * max (env.scrollHeight - env.innerHeight) 1)|
          ≤ 1 / 2 ^ 53 + 1 / 2 ^ 1075 := by
        rw [abs_div, abs_of_pos (mul_pos hhpos hHpos), div_le_iff₀ (mul_pos hhpos hHpos),
          abs_sub_comm]
        rw [div_eq_mul_one_div (max (env.scrollHeight - env.innerHeight) 1)] at he
        generalize (1 : ℚ) / 2 ^ 53 = u at he hu0 ⊢
        generalize (1 : ℚ) / 2 ^ 1075 = η at he hη0 ⊢
        generalize max (env.scrollHeight - env.innerHeight) 1 = H at he hH1 hHpos ⊢
        have a0 : 0 ≤ u * H * (h - 1) := mul_nonneg (mul_nonneg hu0 hHpos.le) (by linarith)
        have a1 : H * u ≤ u * (h * H) := by linarith
        have hhH : 1 ≤ h * H := by nlinarith
        have a2 : η ≤ η * (h * H) := by
          have := mul_le_mul_of_nonneg_left hhH hη0
          linarith
        linarith
      exact mul_le_mul hs e2 (abs_nonneg _) (by norm_num)
    refine ⟨p, by simp only [hd, Dbl.div, fin_div_fin _ _ h0, JSNum.rd, hp], ?_, ?_⟩
    · have := abs_sub_le p (s / h) (pctQ env s)
      have h10 : (10 : ℚ) ^ 9 * (1 / 2 ^ 53 + 1 / 2 ^ 1075) ≤ 10 ^ 9 * (2 / 2 ^ 53) := by
        apply mul_le_mul_of_nonneg_left _ (by norm_num)
        linarith
      norm_num at hpe h10 ⊢
      linarith
    · have := abs_sub_abs_le_abs_sub p (s / h)
      norm_num at hpe hsh ⊢
      linarith
  · refine ⟨0, ?_, ?_, by norm_num⟩
    · have : fin s / JSNum.posInf = fin 0 := rfl
      simp only [hd, Dbl.div, this, JSNum.rd, toDouble_zero]
    · unfold pctQ
      have hq1 : (10 : ℚ) ^ 17 ≤ env.scrollHeight - env.innerHeight := by
        have : (10 : ℚ) ^ 17 ≤ 2 ^ 1023 := by
          calc (10 : ℚ) ^ 17 ≤ 2 ^ 60 := by norm_num
            _ ≤ 2 ^ 1023 := pow_le_pow_right₀ (by norm_num) (by norm_num)
        linarith
      rw [max_eq_left (by linarith), zero_sub, abs_neg, abs_div,
        abs_of_pos (by linarith : (0 : ℚ) < env.scrollHeight - env.innerHeight),
        div_le_iff₀ (by linarith)]
      nlinarith

theorem div_fin_ne_nan (x : JSNum) (d : ℚ) (hd : 0 < d) (hx : x ≠ JSNum.nan) :
    x / fin d ≠ JSNum.nan := by
  cases x with
  | fin a => rw [fin_div_fin _ _ (ne_of_gt hd)]; simp
  | posInf => rw [posInf_div_fin _ (le_of_lt hd)]; simp
  | negInf => rw [negInf_div_fin _ (le_of_lt hd)]; simp
  | nan => exact absurd rfl hx

theorem mul_fin_ne_nan (x : JSNum) (c : ℚ) (hc : 0 < c) (hx : x ≠ JSNum.nan) :
    x * fin c ≠ JSNum.nan := by
  cases x with
  | fin a => simp
  | posInf => rw [posInf_mul_fin _ hc]; simp
  | negInf => rw [negInf_mul_fin _ hc]; simp
  | nan => exact absurd rfl hx

theorem within_fin (a b : ℚ) (v : JSNum) (h : JSNum.within a b v) :
    ∃ q : ℚ, v = fin q ∧ a ≤ q ∧ q ≤ b := by
  cases v with
  | fin q => exact ⟨q, rfl, h.1, h.2⟩
  | posInf => exact absurd h (by simp [JSNum.within])
  | negInf => exact absurd h (by simp [JSNum.within])
  | nan => exact absurd h (by simp [JSNum.within])

theorem lit_006 : Dbl.lit 0.06 = fin (1080863910568919 / 18014398509481984) := by decide!

theorem lit_004 : Dbl.lit 0.04 = fin (5764607523034235 / 144115188075855872) := by decide!

/-- The pointer percentage on doubles is finite and within its clamp whenever
the pixel offset is a number. -/
theorem mousePct_finite_d (m : JSNum) (d c k : ℚ) (hk : 0 ≤ k) (hc : 0 < c)
    (hm : m ≠ JSNum.nan) :
    ∃ q, JSNum.max (fin (-k)) (JSNum.min (fin k)
      (Dbl.mul (Dbl.mul (Dbl.div m (JSNum.max (fin 1) (fin d))) (fin 100)) (fin c))) = fin q ∧
      -k ≤ q ∧ q ≤ k := by
  have hd0 : (0 : ℚ) < max 1 d := lt_of_lt_of_le zero_lt_one (le_max_left _ _)
  have h1 : Dbl.div m (JSNum.max (fin 1) (fin d)) ≠ JSNum.nan := by
    rw [max_fin_fin]
    exact rd_ne_nan _ (div_fin_ne_nan m _ hd0 hm)
  have h2 : Dbl.mul (Dbl.div m (JSNum.max (fin 1) (fin d))) (fin 100) ≠ JSNum.nan :=
    rd_ne_nan _ (mul_fin_ne_nan _ 100 (by norm_num) h1)
  have h3 : Dbl.mul (Dbl.mul (Dbl.div m (JSNum.max (fin 1) (fin d))) (fin 100)) (fin c)
      ≠ JSNum.nan := rd_ne_nan _ (mul_fin_ne_nan _ c hc h2)
  have := clamp_within _ (-k) k (by linarith) h3
  exact within_fin _ _ _ this

/-- The pointer percentage on doubles for the pixel offset `0`. -/
theorem mousePct_zero_d (d c k : ℚ) (hk : 0 ≤ k) :
    JSNum.max (fin (-k)) (JSNum.min (fin k)
      (Dbl.mul (Dbl.mul (Dbl.div (fin 0) (JSNum.max (fin 1) (fin d))) (fin 100)) (fin c)))
      = fin 0 := by
  have hd0 : max 1 d ≠ 0 := max_one_ne_zero d
  simp only [max_fin_fin, Dbl.div, fin_div_fin _ _ hd0, zero_div, JSNum.rd, toDouble_zero,
    Dbl.mul, fin_mul_fin, zero_mul, min_fin_fin]
  congr 1
  rw [min_eq_right hk, max_eq_right (by linarith)]

/-- The doubles of the layer multipliers. -/
theorem lit_layerMul (k : ℕ) (h3 : 3 ≤ k) (h10 : k ≤ 10) :
    ∃ c : ℚ, Dbl.lit (layerMul k) = fin c ∧ 0 ≤ c ∧ c ≤ 1 ∧ |c - layerMul k| ≤ 3 / 10 ^ 17 := by
  interval_cases k
  · exact ⟨1 / 2, by decide!, by norm_num, by norm_num, by norm_num [layerMul]⟩
  · refine ⟨3152519739159347 / 9007199254740992, by decide!, by norm_num, by norm_num, ?_⟩
    rw [abs_le]; constructor <;> norm_num [layerMul]
  · refine ⟨3602879701896397 / 18014398509481984, by decide!, by norm_num, by norm_num, ?_⟩
    rw [abs_le]; constructor <;> norm_num [layerMul]
  · refine ⟨5404319552844595 / 36028797018963968, by decide!, by norm_num, by norm_num, ?_⟩
    rw [abs_le]; constructor <;> norm_num [layerMul]
  · refine ⟨3602879701896397 / 36028797018963968, by decide!, by norm_num, by norm_num, ?_⟩
    rw [abs_le]; constructor <;> norm_num [layerMul]
  · refine ⟨5764607523034235 / 72057594037927936, by decide!, by norm_num, by norm_num, ?_⟩
    rw [abs_le]; constructor <;> norm_num [layerMul]
  · refine ⟨3602879701896397 / 72057594037927936, by decide!, by norm_num, by norm_num, ?_⟩
    rw [abs_le]; constructor <;> norm_num [layerMul]
  · refine ⟨1080863910568919 / 36028797018963968, by decide!, by norm_num, by norm_num, ?_⟩
    rw [abs_le]; constructor <;> norm_num [layerMul]

/-- The `x` of an extra layer on doubles. -/
theorem layerX_error (px c μ : ℚ) (hpx : |px| ≤ 6) (hc0 : 0 ≤ c) (hc1 : c ≤ 1)
    (hcμ : |c - μ| ≤ 3 / 10 ^ 17) :
    ∃ x : ℚ, Dbl.add (fin 50) (Dbl.mul (fin px) (fin c)) = fin x ∧
      |x - (50 + px * μ)| ≤ 1 / 10 ^ 14 := by
  have hbig := big_le
  have hpc : |px * c| ≤ 6 := by
    rw [abs_mul, abs_of_nonneg hc0]
    have := mul_le_mul hpx hc1 hc0 (by norm_num : (0 : ℚ) ≤ 6)
    linarith
  obtain ⟨m, hm, hme⟩ := mul_fin_bound px c 6 hpc (by linarith)
  obtain ⟨m1, m2⟩ := abs_le.mp hme
  obtain ⟨q1, q2⟩ := abs_le.mp hpc
  obtain ⟨x, hx, hxe⟩ := add_fin_bound 50 m 57
    (by rw [abs_le]; constructor <;> norm_num at m1 m2 ⊢ <;> linarith) (by linarith)
  obtain ⟨x1, x2⟩ := abs_le.mp hxe
  have hd : |px * c - px * μ| ≤ 18 / 10 ^ 17 := by
    rw [← mul_sub, abs_mul]
    have := mul_le_mul hpx hcμ (abs_nonneg _) (by norm_num : (0 : ℚ) ≤ 6)
    norm_num at this ⊢
    linarith
  obtain ⟨d1, d2⟩ := abs_le.mp hd
  refine ⟨x, by rw [hm, hx], ?_⟩
  rw [abs_le]
  constructor <;> norm_num at m1 m2 x1 x2 d1 d2 ⊢ <;> linarith

/-- The `y` of an extra layer on doubles. -/
theorem layerY_error (b st py c μ : ℚ) (hb0 : 0 ≤ b) (hb1 : b ≤ 100) (hst : |st| ≤ 13 * 10 ^ 9)
    (hpy : |py| ≤ 4) (hc0 : 0 ≤ c) (hc1 : c ≤ 1) (hcμ : |c - μ| ≤ 3 / 10 ^ 17) :
    ∃ y : ℚ, Dbl.add (Dbl.add (fin b) (Dbl.mul (fin st) (fin c))) (Dbl.mul (fin py) (fin c))
        = fin y ∧
      |y - (b + st * μ + py * μ)| ≤ 5 / 10 ^ 6 := by
  have hbig := big_le
  have hsc : |st * c| ≤ 13 * 10 ^ 9 := by
    rw [abs_mul, abs_of_nonneg hc0]
    have := mul_le_mul hst hc1 hc0 (by norm_num : (0 : ℚ) ≤ 13 * 10 ^ 9)
    linarith
  have hpc : |py * c| ≤ 4 := by
    rw [abs_mul, abs_of_nonneg hc0]
    have := mul_le_mul hpy hc1 hc0 (by norm_num : (0 : ℚ) ≤ 4)
    linarith
  obtain ⟨m, hm, hme⟩ := mul_fin_bound st c (13 * 10 ^ 9) hsc (by linarith)
  obtain ⟨m1, m2⟩ := abs_le.mp hme
  obtain ⟨s1, s2⟩ := abs_le.mp hsc
  obtain ⟨a, ha, hae⟩ := add_fin_bound b m (13 * 10 ^ 9 + 101)
    (by rw [abs_le]; constructor <;> norm_num at m1 m2 ⊢ <;> linarith) (by linarith)
  obtain ⟨a1, a2⟩ := abs_le.mp hae
  obtain ⟨n, hn, hne⟩ := mul_fin_bound py c 4 hpc (by linarith)
  obtain ⟨n1, n2⟩ := abs_le.mp hne
  obtain ⟨q1, q2⟩ := abs_le.mp hpc
  obtain ⟨y, hy, hye⟩ := add_fin_bound a n (13 * 10 ^ 9 + 110)
    (by rw [abs_le]; constructor <;> norm_num at m1 m2 a1 a2 n1 n2 ⊢ <;> linarith)
    (by linarith)
  obtain ⟨y1, y2⟩ := abs_le.mp hye
  have hd1 : |st * c - st * μ| ≤ 4 / 10 ^ 7 := by
    rw [← mul_sub, abs_mul]
    have := mul_le_mul hst hcμ (abs_nonneg _) (by norm_num : (0 : ℚ) ≤ 13 * 10 ^ 9)
    norm_num at this ⊢
    linarith
  have hd2 : |py * c - py * μ| ≤ 12 / 10 ^ 17 := by
    rw [← mul_sub, abs_mul]
    have := mul_le_mul hpy hcμ (abs_nonneg _) (by norm_num : (0 : ℚ) ≤ 4)
    norm_num at this ⊢
    linarith
  obtain ⟨d1, d2⟩ := abs_le.mp hd1
  obtain ⟨f1, f2⟩ := abs_le.mp hd2
  refine ⟨y, by rw [hm, ha, hn, hy], ?_⟩
  rw [abs_le]
  constructor <;> norm_num at m1 m2 a1 a2 n1 n2 y1 y2 d1 d2 f1 f2 ⊢ <;> linarith

theorem layerX_eq_d (env : Env) (s : ℚ) (mx my : JSNum) (k : ℕ) (h3 : 3 ≤ k) (h10 : k ≤ 10) :
    (Dbl.positions env (fin s) mx my).layerX k
      = Dbl.add (fin 50) (Dbl.mul (Dbl.positions env (fin s) mx my).mousePctX (Dbl.lit (layerMul k))) := by
  interval_cases k <;> rfl

theorem layerY_eq_d (env : Env) (s : ℚ) (mx my : JSNum) (k : ℕ) (h3 : 3 ≤ k) (h10 : k ≤ 10) :
    (Dbl.positions env (fin s) mx my).layerY k
      = Dbl.add (Dbl.add (fin (layerBase k))
          (Dbl.mul (Dbl.positions env (fin s) mx my).scrollTopPct (Dbl.lit (layerMul k))))
          (Dbl.mul (Dbl.positions env (fin s) mx my).mousePctY (Dbl.lit (layerMul k))) := by
  interval_cases k <;> rfl

theorem layerBase_range (k : ℕ) (h3 : 3 ≤ k) (h10 : k ≤ 10) :
    0 ≤ layerBase k ∧ layerBase k ≤ 100 := by
  interval_cases k <;> norm_num [layerBase]

/-- The scroll contributions on doubles. -/
theorem scrollPct_d (env : Env) (s : ℚ) (mx my : JSNum) (hs : |s| ≤ 10 ^ 9) :
    ∃ p st sb : ℚ,
      (Dbl.positions env (fin s) mx my).pct = fin p ∧
      (Dbl.positions env (fin s) mx my).scrollTopPct = fin st ∧
      (Dbl.positions env (fin s) mx my).scrollBottomPct = fin sb ∧
      |p - pctQ env s| ≤ 3 / 10 ^ 7 ∧ |p| ≤ 10 ^ 9 + 1 ∧
      |st - -12 * p| ≤ 14 / 10 ^ 7 ∧ |sb - 12 * p| ≤ 14 / 10 ^ 7 := by
  have hbig := big_le
  obtain ⟨p, hp, hpe, hpb⟩ := pct_cases env s hs
  obtain ⟨p1, p2⟩ := abs_le.mp hpb
  obtain ⟨st, hst, hste⟩ := mul_fin_bound (-12) p (12 * 10 ^ 9 + 12)
    (by rw [abs_le]; constructor <;> linarith) (by linarith)
  obtain ⟨sb, hsb, hsbe⟩ := mul_fin_bound 12 p (12 * 10 ^ 9 + 12)
    (by rw [abs_le]; constructor <;> linarith) (by linarith)
  refine ⟨p, st, sb, hp, ?_, ?_, hpe, hpb, ?_, ?_⟩
  · show Dbl.mul (fin (-12)) (Dbl.div (fin s) (Dbl.docH env)) = fin st
    rw [hp, hst]
  · show Dbl.mul (fin 12) (Dbl.div (fin s) (Dbl.docH env)) = fin sb
    rw [hp, hsb]
  · refine le_trans hste ?_
    norm_num
  · refine le_trans hsbe ?_
    norm_num

/-- The pointer percentages on doubles for pixel offsets that are numbers. -/
theorem mousePct_d (env : Env) (s : ℚ) (mx my : JSNum) (hmx : mx ≠ JSNum.nan)
    (hmy : my ≠ JSNum.nan) :
    ∃ px py : ℚ,
      (Dbl.positions env (fin s) mx my).mousePctX = fin px ∧
      (Dbl.positions env (fin s) mx my).mousePctY = fin py ∧
      (-6 ≤ px ∧ px ≤ 6) ∧ (-4 ≤ py ∧ py ≤ 4) := by
  obtain ⟨px, hpx, hx1, hx2⟩ := mousePct_finite_d mx env.innerWidth
    (1080863910568919 / 18014398509481984) 6 (by norm_num) (by norm_num) hmx
  obtain ⟨py, hpy, hy1, hy2⟩ := mousePct_finite_d my env.innerHeight
    (5764607523034235 / 144115188075855872) 4 (by norm_num) (by norm_num) hmy
  refine ⟨px, py, ?_, ?_, ⟨hx1, hx2⟩, ⟨hy1, hy2⟩⟩
  · simp only [Dbl.positions, lit_006]
    exact hpx
  · simp only [Dbl.positions, lit_004]
    exact hpy

/-- The extra layers on doubles. -/
theorem layers_d (env : Env) (s : ℚ) (mx my : JSNum) (hmx : mx ≠ JSNum.nan)
    (hmy : my ≠ JSNum.nan) (hs : |s| ≤ 10 ^ 9) (k : ℕ) (h3 : 3 ≤ k) (h10 : k ≤ 10) :
    ∃ px py p x y : ℚ,
      (Dbl.positions env (fin s) mx my).mousePctX = fin px ∧
      (Dbl.positions env (fin s) mx my).mousePctY = fin py ∧
      (Dbl.positions env (fin s) mx my).pct = fin p ∧
      (Dbl.positions env (fin s) mx my).layerX k = fin x ∧
      (Dbl.positions env (fin s) mx my).layerY k = fin y ∧
      |x - (50 + px * layerMul k)| ≤ 1 / 10 ^ 14 ∧
      |y - (layerBase k + -12 * p * layerMul k + py * layerMul k)| ≤ 1 / 10 ^ 5 := by
  obtain ⟨px, py, hpx, hpy, ⟨hx1, hx2⟩, ⟨hy1, hy2⟩⟩ := mousePct_d env s mx my hmx hmy
  obtain ⟨p, st, sb, hp, hst, -, -, hpb, hste, -⟩ := scrollPct_d env s mx my hs
  obtain ⟨c, hc, hc0, hc1, hcμ⟩ := lit_layerMul k h3 h10
  obtain ⟨hb0, hb1⟩ := layerBase_range k h3 h10
  obtain ⟨p1, p2⟩ := abs_le.mp hpb
  obtain ⟨t1, t2⟩ := abs_le.mp hste
  have hstb : |st| ≤ 13 * 10 ^ 9 := by
    rw [abs_le]; constructor <;> norm_num at t1 t2 ⊢ <;> linarith
  obtain ⟨x, hx, hxe⟩ := layerX_error px c (layerMul k) (abs_le.mpr ⟨hx1, hx2⟩) hc0 hc1 hcμ
  obtain ⟨y, hy, hye⟩ := layerY_error (layerBase k) st py c (layerMul k) hb0 hb1 hstb
    (abs_le.mpr ⟨hy1, hy2⟩) hc0 hc1 hcμ
  refine ⟨px, py, p, x, y, hpx, hpy, hp, ?_, ?_, hxe, ?_⟩
  · rw [layerX_eq_d env s mx my k h3 h10, hpx, hc, hx]
  · rw [layerY_eq_d env s mx my k h3 h10, hst, hpy, hc, hy]
  · have hμ : 0 ≤ layerMul k ∧ layerMul k ≤ 1 := by
      interval_cases k <;> norm_num [layerMul]
    have hd : |st * layerMul k - -12 * p * layerMul k| ≤ 14 / 10 ^ 7 := by
      rw [← sub_mul, abs_mul, abs_of_nonneg hμ.1]
      have := mul_le_mul hste hμ.2 hμ.1 (by norm_num : (0 : ℚ) ≤ 14 / 10 ^ 7)
      linarith
    obtain ⟨d1, d2⟩ := abs_le.mp hd
    obtain ⟨y1, y2⟩ := abs_le.mp hye
    rw [abs_le]
    constructor <;> norm_num at d1 d2 y1 y2 ⊢ <;> linarith

theorem applyTransforms_style_d (env : Env) (mx my : JSNum) (s : Dbl.State) :
    (Dbl.applyTransforms env mx my s).style
      = s.style ++ transformWrites (Dbl.positions env s.smoothScroll mx my) := by
  simp [Dbl.applyTransforms, transformWrites, Dbl.setProperty]

theorem applyTransforms_writes_d (env : Env) (mx my : JSNum) (s : Dbl.State) :
    Dbl.WritesTopBottom (Dbl.positions env s.smoothScroll mx my) s
      (Dbl.applyTransforms env mx my s) := by
  simp [Dbl.WritesTopBottom, Dbl.styleValue, applyTransforms_style_d, transformWrites]

theorem written_applyTransforms_d (env : Env) (mx my : JSNum) (s : Dbl.State) :
    Dbl.written s (Dbl.applyTransforms env mx my s)
      = transformWrites (Dbl.positions env s.smoothScroll mx my) := by
  simp [Dbl.written, applyTransforms_style_d]

/-- On doubles too, extra layer `k` is written under its own name, as computed. -/
theorem layer_written_d (env : Env) (mx my : JSNum) (s : Dbl.State) (k : ℕ) (h3 : 3 ≤ k)
    (h10 : k ≤ 10) :
    (layerName k, posString ((Dbl.positions env s.smoothScroll mx my).layerX k)
        ((Dbl.positions env s.smoothScroll mx my).layerY k))
      ∈ Dbl.written s (Dbl.applyTransforms env mx my s) ∧
    Dbl.styleValue (layerName k) (Dbl.applyTransforms env mx my s)
      = some (posString ((Dbl.positions env s.smoothScroll mx my).layerX k)
          ((Dbl.positions env s.smoothScroll mx my).layerY k)) := by
  obtain ⟨n3, n4, n5, n6, n7, n8, n9, n10⟩ := layerName_values
  rw [written_applyTransforms_d]
  interval_cases k
  · rw [n3]; simp [Dbl.styleValue, applyTransforms_style_d, transformWrites, Positions.layerX,
      Positions.layerY]
  · rw [n4]; simp [Dbl.styleValue, applyTransforms_style_d, transformWrites, Positions.layerX,
      Positions.layerY]
  · rw [n5]; simp [Dbl.styleValue, applyTransforms_style_d, transformWrites, Positions.layerX,
      Positions.layerY]
  · rw [n6]; simp [Dbl.styleValue, applyTransforms_style_d, transformWrites, Positions.layerX,
      Positions.layerY]
  · rw [n7]; simp [Dbl.styleValue, applyTransforms_style_d, transformWrites, Positions.layerX,
      Positions.layerY]
  · rw [n8]; simp [Dbl.styleValue, applyTransforms_style_d, transformWrites, Positions.layerX,
      Positions.layerY]
  · rw [n9]; simp [Dbl.styleValue, applyTransforms_style_d, transformWrites, Positions.layerX,
      Positions.layerY]
  · rw [n10]; simp [Dbl.styleValue, applyTransforms_style_d, transformWrites, Positions.layerX,
      Positions.layerY]

/-- The clamp of the specification moves two values no further apart. -/
theorem clampQ_close (x y lo hi : ℚ) : |clampQ x lo hi - clampQ y lo hi| ≤ |x - y| := by
  unfold clampQ
  refine le_trans (abs_max_sub_max_le_max _ _ _ _) ?_
  rw [sub_self, abs_zero]
  refine max_le (abs_nonneg _) ?_
  refine le_trans (abs_min_sub_min_le_max _ _ _ _) ?_
  rw [sub_self, abs_zero]
  exact max_le (abs_nonneg _) (le_refl _)

theorem clamp_fin (v a b : ℚ) : clamp (fin v) (fin a) (fin b) = fin (clampQ v a b) := rfl

/-- What `applyTransforms(0, 0)` computes on doubles for the top, bottom and
third layer. -/
theorem zero_offsets_d (env : Env) (s : ℚ) (hs : |s| ≤ 10 ^ 9) :
    ∃ yt yb y3 : ℚ,
      (Dbl.positions env (fin s) (fin 0) (fin 0)).topX = fin 50 ∧
      (Dbl.positions env (fin s) (fin 0) (fin 0)).topY = fin yt ∧
      (Dbl.positions env (fin s) (fin 0) (fin 0)).bottomX = fin 50 ∧
      (Dbl.positions env (fin s) (fin 0) (fin 0)).bottomY = fin yb ∧
      (Dbl.positions env (fin s) (fin 0) (fin 0)).l3x = fin 50 ∧
      (Dbl.positions env (fin s) (fin 0) (fin 0)).l3y = fin y3 ∧
      |yt - clampQ (20 - 12 * pctQ env s) 5 50| ≤ 1 / 10 ^ 5 ∧
      |yb - clampQ (80 - 12 * pctQ env s) 50 95| ≤ 1 / 10 ^ 5 ∧
      |y3 - (30 - 6 * pctQ env s)| ≤ 1 / 10 ^ 5 := by
  have hbig := big_le
  obtain ⟨p, st, sb, hp, hst, hsb, hpe, hpb, hste, hsbe⟩ :=
    scrollPct_d env s (fin 0) (fin 0) hs
  have hpx : (Dbl.positions env (fin s) (fin 0) (fin 0)).mousePctX = fin 0 := by
    simp only [Dbl.positions, lit_006]
    exact mousePct_zero_d _ _ 6 (by norm_num)
  have hpy : (Dbl.positions env (fin s) (fin 0) (fin 0)).mousePctY = fin 0 := by
    simp only [Dbl.positions, lit_004]
    exact mousePct_zero_d _ _ 4 (by norm_num)
  obtain ⟨p1, p2⟩ := abs_le.mp hpb
  obtain ⟨q1, q2⟩ := abs_le.mp hpe
  obtain ⟨t1, t2⟩ := abs_le.mp hste
  obtain ⟨b1, b2⟩ := abs_le.mp hsbe
  -- top
  obtain ⟨u1, hu1, hu1e⟩ := add_fin_bound 20 st (13 * 10 ^ 9)
    (by rw [abs_le]; constructor <;> norm_num at t1 t2 ⊢ <;> linarith) (by linarith)
  obtain ⟨u11, u12⟩ := abs_le.mp hu1e
  obtain ⟨u2, hu2, hu2e⟩ := add_fin_bound u1 0 (13 * 10 ^ 9)
    (by rw [abs_le]; constructor <;> norm_num at t1 t2 u11 u12 ⊢ <;> linarith) (by linarith)
  obtain ⟨u21, u22⟩ := abs_le.mp hu2e
  -- bottom
  obtain ⟨v1, hv1, hv1e⟩ := sub_fin_bound 80 sb (13 * 10 ^ 9)
    (by rw [abs_le]; constructor <;> norm_num at b1 b2 ⊢ <;> linarith) (by linarith)
  obtain ⟨v11, v12⟩ := abs_le.mp hv1e
  obtain ⟨v2, hv2, hv2e⟩ := sub_fin_bound v1 0 (13 * 10 ^ 9)
    (by rw [abs_le]; constructor <;> norm_num at b1 b2 v11 v12 ⊢ <;> linarith) (by linarith)
  obtain ⟨v21, v22⟩ := abs_le.mp hv2e
  -- layer 3
  have hstb : |st| ≤ 13 * 10 ^ 9 := by
    rw [abs_le]; constructor <;> norm_num at t1 t2 ⊢ <;> linarith
  obtain ⟨y3, hy3, hy3e⟩ := layerY_error 30 st 0 (1 / 2) (1 / 2) (by norm_num) (by norm_num)
    hstb (by norm_num) (by norm_num) (by norm_num) (by norm_num)
  obtain ⟨y31, y32⟩ := abs_le.mp hy3e
  have e50a : Dbl.add (fin 50) (fin 0) = fin 50 := by decide!
  have e50s : Dbl.sub (fin 50) (fin 0) = fin 50 := by decide!
  have e50c : clamp (fin 50) (fin 10) (fin 90) = fin 50 := by decide!
  have e50l : Dbl.add (fin 50) (Dbl.mul (fin 0) (Dbl.lit 0.5)) = fin 50 := by decide!
  have htx : (Dbl.positions env (fin s) (fin 0) (fin 0)).topX = fin 50 := by
    show clamp (Dbl.add (fin 50) (Dbl.positions env (fin s) (fin 0) (fin 0)).mousePctX) (fin 10)
      (fin 90) = fin 50
    rw [hpx, e50a, e50c]
  have hbx : (Dbl.positions env (fin s) (fin 0) (fin 0)).bottomX = fin 50 := by
    show clamp (Dbl.sub (fin 50) (Dbl.positions env (fin s) (fin 0) (fin 0)).mousePctX) (fin 10)
      (fin 90) = fin 50
    rw [hpx, e50s, e50c]
  have hty : (Dbl.positions env (fin s) (fin 0) (fin 0)).topY = fin (clampQ u2 5 50) := by
    show clamp (Dbl.add (Dbl.add (fin 20) (Dbl.positions env (fin s) (fin 0) (fin 0)).scrollTopPct)
      (Dbl.positions env (fin s) (fin 0) (fin 0)).mousePctY) (fin 5) (fin 50) = _
    rw [hst, hpy, hu1, hu2, clamp_fin]
  have hby : (Dbl.positions env (fin s) (fin 0) (fin 0)).bottomY = fin (clampQ v2 50 95) := by
    show clamp (Dbl.sub (Dbl.sub (fin 80) (Dbl.positions env (fin s) (fin 0) (fin 0)).scrollBottomPct)
      (Dbl.positions env (fin s) (fin 0) (fin 0)).mousePctY) (fin 50) (fin 95) = _
    rw [hsb, hpy, hv1, hv2, clamp_fin]
  have h3x : (Dbl.positions env (fin s) (fin 0) (fin 0)).l3x = fin 50 := by
    show Dbl.add (fin 50) (Dbl.mul (Dbl.positions env (fin s) (fin 0) (fin 0)).mousePctX
      (Dbl.lit 0.5)) = fin 50
    rw [hpx, e50l]
  have h3y : (Dbl.positions env (fin s) (fin 0) (fin 0)).l3y = fin y3 := by
    show Dbl.add (Dbl.add (fin 30) (Dbl.mul (Dbl.positions env (fin s) (fin 0) (fin 0)).scrollTopPct
      (Dbl.lit 0.5))) (Dbl.mul (Dbl.positions env (fin s) (fin 0) (fin 0)).mousePctY (Dbl.lit 0.5)) = _
    rw [hst, hpy, lit_half]
    have : (0.5 : ℚ) = 1 / 2 := by norm_num
    rw [this, hy3]
  refine ⟨_, _, _, htx, hty, hbx, hby, h3x, h3y, ?_, ?_, ?_⟩
  · refine le_trans (clampQ_close _ _ _ _) ?_
    rw [abs_le]
    constructor <;> norm_num at q1 q2 t1 t2 u11 u12 u21 u22 ⊢ <;> linarith
  · refine le_trans (clampQ_close _ _ _ _) ?_
    rw [abs_le]
    constructor <;> norm_num at q1 q2 b1 b2 v11 v12 v21 v22 ⊢ <;> linarith
  · rw [abs_le]
    constructor <;> norm_num at q1 q2 t1 t2 y31 y32 ⊢ <;> linarith

theorem fin_add_ne_nan (a : ℚ) (x : JSNum) (hx : x ≠ JSNum.nan) : fin a + x ≠ JSNum.nan := by
  cases x with
  | fin b => simp
  | posInf => show JSNum.add (fin a) JSNum.posInf ≠ JSNum.nan; simp [JSNum.add]
  | negInf => show JSNum.add (fin a) JSNum.negInf ≠ JSNum.nan; simp [JSNum.add]
  | nan => exact absurd rfl hx

theorem add_fin_ne_nan (x : JSNum) (a : ℚ) (hx : x ≠ JSNum.nan) : x + fin a ≠ JSNum.nan := by
  cases x with
  | fin b => simp
  | posInf => show JSNum.add JSNum.posInf (fin a) ≠ JSNum.nan; simp [JSNum.add]
  | negInf => show JSNum.add JSNum.negInf (fin a) ≠ JSNum.nan; simp [JSNum.add]
  | nan => exact absurd rfl hx

theorem fin_sub_ne_nan (a : ℚ) (x : JSNum) (hx : x ≠ JSNum.nan) : fin a - x ≠ JSNum.nan := by
  cases x with
  | fin b => simp
  | posInf =>
    show JSNum.add (fin a) (JSNum.neg JSNum.posInf) ≠ JSNum.nan; simp [JSNum.add, JSNum.neg]
  | negInf =>
    show JSNum.add (fin a) (JSNum.neg JSNum.negInf) ≠ JSNum.nan; simp [JSNum.add, JSNum.neg]
  | nan => exact absurd rfl hx

theorem sub_fin_ne_nan (x : JSNum) (a : ℚ) (hx : x ≠ JSNum.nan) : x - fin a ≠ JSNum.nan := by
  cases x with
  | fin b => simp
  | posInf =>
    show JSNum.add JSNum.posInf (JSNum.neg (fin a)) ≠ JSNum.nan; simp [JSNum.add, JSNum.neg]
  | negInf =>
    show JSNum.add JSNum.negInf (JSNum.neg (fin a)) ≠ JSNum.nan; simp [JSNum.add, JSNum.neg]
  | nan => exact absurd rfl hx

theorem fin_mul_ne_nan (a : ℚ) (x : JSNum) (ha : a ≠ 0) (hx : x ≠ JSNum.nan) :
    fin a * x ≠ JSNum.nan := by
  cases x with
  | fin b => simp
  | posInf =>
    show JSNum.mul (fin a) JSNum.posInf ≠ JSNum.nan
    simp only [JSNum.mul, if_neg ha, JSNum.infOfSign]
    split <;> simp
  | negInf =>
    show JSNum.mul (fin a) JSNum.negInf ≠ JSNum.nan
    simp only [JSNum.mul, if_neg ha, JSNum.infOfSign]
    split <;> simp
  | nan => exact absurd rfl hx

/-- The scroll fraction on doubles is never `NaN`. -/
theorem pct_ne_nan (env : Env) (s : ℚ) : Dbl.div (fin s) (Dbl.docH env) ≠ JSNum.nan := by
  apply rd_ne_nan
  rcases docH_cases env with ⟨h, hd, h1, -⟩ | ⟨hd, -⟩
  · rw [hd, fin_div_fin _ _ (by linarith)]; simp
  · rw [hd]
    show fin 0 ≠ JSNum.nan
    simp

/-- On doubles too, the four clamped coordinates are finite and within their
ranges as soon as neither pixel offset is `NaN`. -/
theorem positions_clamped_d (env : Env) (smooth : ℚ) (mx my : JSNum)
    (hmx : mx ≠ JSNum.nan) (hmy : my ≠ JSNum.nan) :
    (Dbl.positions env (fin smooth) mx my).Clamped := by
  obtain ⟨px, py, hpx, hpy, -, -⟩ := mousePct_d env smooth mx my hmx hmy
  have hp := pct_ne_nan env smooth
  have hst : (Dbl.positions env (fin smooth) mx my).scrollTopPct ≠ JSNum.nan :=
    rd_ne_nan _ (fin_mul_ne_nan _ _ (by norm_num) hp)
  have hsb : (Dbl.positions env (fin smooth) mx my).scrollBottomPct ≠ JSNum.nan :=
    rd_ne_nan _ (fin_mul_ne_nan _ _ (by norm_num) hp)
  refine ⟨?_, ?_, ?_, ?_⟩
  · show JSNum.within 10 90 (clamp (Dbl.add (fin 50)
      (Dbl.positions env (fin smooth) mx my).mousePctX) (fin 10) (fin 90))
    rw [hpx]
    exact clamp_within _ _ _ (by norm_num) (rd_ne_nan _ (by simp))
  · show JSNum.within 5 50 (clamp (Dbl.add (Dbl.add (fin 20)
      (Dbl.positions env (fin smooth) mx my).scrollTopPct)
      (Dbl.positions env (fin smooth) mx my).mousePctY) (fin 5) (fin 50))
    rw [hpy]
    exact clamp_within _ _ _ (by norm_num)
      (rd_ne_nan _ (add_fin_ne_nan _ _ (rd_ne_nan _ (fin_add_ne_nan _ _ hst))))
  · show JSNum.within 10 90 (clamp (Dbl.sub (fin 50)
      (Dbl.positions env (fin smooth) mx my).mousePctX) (fin 10) (fin 90))
    rw [hpx]
    exact clamp_within _ _ _ (by norm_num) (rd_ne_nan _ (by simp))
  · show JSNum.within 50 95 (clamp (Dbl.sub (Dbl.sub (fin 80)
      (Dbl.positions env (fin smooth) mx my).scrollBottomPct)
      (Dbl.positions env (fin smooth) mx my).mousePctY) (fin 50) (fin 95))
    rw [hpy]
    exact clamp_within _ _ _ (by norm_num)
      (rd_ne_nan _ (sub_fin_ne_nan _ _ (rd_ne_nan _ (fin_sub_ne_nan _ _ hsb))))

theorem roundHalfEven_nonneg (x : ℚ) (hx : 0 ≤ x) : 0 ≤ roundHalfEven x := by
  have hf : 0 ≤ ⌊x⌋ := Int.floor_nonneg.mpr hx
  unfold roundHalfEven
  split_ifs <;> omega

theorem roundHalfEven_le (x : ℚ) (n : ℤ) (hx : x ≤ n) : roundHalfEven x ≤ n := by
  have h1 : ⌊x⌋ ≤ n := by
    have := Int.floor_le x
    exact_mod_cast (Int.floor_le_iff.mpr (by linarith [Int.lt_floor_add_one x] : x < n + 1))
  unfold roundHalfEven
  split_ifs with ha hb hc
  · exact h1
  · have h2 : (⌊x⌋ : ℚ) + 1 / 2 < x := by linarith
    have h3 : (⌊x⌋ : ℚ) < n := by linarith
    have : ⌊x⌋ < n := by exact_mod_cast h3
    omega
  · exact h1
  · have h2 : (⌊x⌋ : ℚ) + 1 / 2 ≤ x := by linarith
    have h3 : (⌊x⌋ : ℚ) < n := by linarith
    have : ⌊x⌋ < n := by exact_mod_cast h3
    omega

theorem pow2_le_pow2 (a b : ℤ) (h : a ≤ b) : pow2 a ≤ pow2 b := by
  rw [pow2_eq, pow2_eq]
  exact zpow_le_zpow_right₀ (by norm_num) h

/-- The exponent of the spacing around a positive rational that is at most
`2 ^ d` is at most `d`, for `d` in the normal range. -/
theorem ulpExp_le (a : ℚ) (d : ℤ) (had : a ≤ pow2 d) (hd : -1022 ≤ d) : ulpExp a ≤ d := by
  unfold ulpExp
  apply max_le _ (by omega)
  rcases floorLog2_spec a 12 (-1200) 1200 (Or.inr rfl) with key | key
  · by_contra hcon
    push_neg at hcon
    have h1 : d + 1 ≤ floorLog2 a 12 (-1200) 1200 := by omega
    have h2 := pow2_le_pow2 _ _ h1
    have h3 : pow2 d < pow2 (d + 1) := by
      rw [pow2_eq, pow2_eq]
      exact zpow_lt_zpow_right₀ (by norm_num) (by omega)
    linarith
  · omega

/-- Rounding does not cross a power of two: a rational in `[0, 2 ^ d]` rounds
to a double in `[0, 2 ^ d]`. -/
theorem toDouble_le_pow2 (q : ℚ) (d : ℤ) (h0 : 0 ≤ q) (hq : q ≤ pow2 d) (hd : -1022 ≤ d)
    (hd2 : d ≤ 1023) :
    ∃ r : ℚ, toDouble q = fin r ∧ 0 ≤ r ∧ r ≤ pow2 d ∧
      |r - q| ≤ q * (1 / 2 ^ 53) + 1 / 2 ^ 1075 := by
  rcases eq_or_lt_of_le h0 with hz | hpos
  · subst hz
    refine ⟨0, toDouble_zero, le_refl _, le_of_lt (pow2_pos d), ?_⟩
    simp
  have hqa : |q| = q := abs_of_pos hpos
  have he := ulpExp_le q d hq hd
  have hpe := pow2_pos (ulpExp q)
  -- `2 ^ d` is a multiple of the spacing
  have hmult : pow2 d = (((2 ^ (d - ulpExp q).toNat : ℕ) : ℤ) : ℚ) * pow2 (ulpExp q) := by
    rw [pow2_eq, pow2_eq]
    push_cast
    rw [← zpow_natCast, ← zpow_add₀ (by norm_num : (2 : ℚ) ≠ 0)]
    congr 1
    omega
  have hx : q / pow2 (ulpExp q) ≤ (((2 ^ (d - ulpExp q).toNat : ℕ) : ℤ) : ℚ) := by
    rw [div_le_iff₀ hpe, ← hmult]
    exact hq
  have hm := roundHalfEven_le _ _ hx
  have hm0 := roundHalfEven_nonneg (q / pow2 (ulpExp q)) (div_nonneg h0 (le_of_lt hpe))
  have hR : (roundHalfEven (q / pow2 (ulpExp q)) : ℚ) * pow2 (ulpExp q) ≤ pow2 d := by
    rw [hmult]
    apply mul_le_mul_of_nonneg_right _ (le_of_lt hpe)
    exact_mod_cast hm
  have hR0 : 0 ≤ (roundHalfEven (q / pow2 (ulpExp q)) : ℚ) * pow2 (ulpExp q) :=
    mul_nonneg (by exact_mod_cast hm0) (le_of_lt hpe)
  have hno : ¬ pow2 1024 ≤ (roundHalfEven (q / pow2 (ulpExp q)) : ℚ) * pow2 (ulpExp q) := by
    rw [not_le]
    have h3 : pow2 d < pow2 1024 := by
      rw [pow2_eq, pow2_eq]
      exact zpow_lt_zpow_right₀ (by norm_num) (by omega)
    linarith
  have herr := candidate_error q hpos
  refine ⟨_, ?_, hR0, hR, ?_⟩
  · unfold toDouble
    rw [if_neg (ne_of_gt hpos), hqa, if_neg hno, if_pos hpos]
  · rw [← div_eq_mul_one_div]
    exact herr

/-- Rounding commutes with the sign. -/
theorem toDouble_neg (q : ℚ) : toDouble (-q) = -toDouble q := by
  by_cases h0 : q = 0
  · subst h0; simp [toDouble]
  have h0' : -q ≠ 0 := neg_ne_zero.mpr h0
  unfold toDouble
  rw [if_neg h0, if_neg h0', abs_neg]
  by_cases hov : pow2 1024 ≤ (roundHalfEven (|q| / pow2 (ulpExp |q|)) : ℚ) * pow2 (ulpExp |q|)
  · rw [if_pos hov, if_pos hov]
    by_cases hpos : 0 < q
    · rw [if_pos hpos, if_neg (by linarith : ¬ 0 < -q)]; rfl
    · have hneg : q < 0 := lt_of_le_of_ne (not_lt.mp hpos) h0
      rw [if_neg hpos, if_pos (by linarith : 0 < -q)]; rfl
  · rw [if_neg hov, if_neg hov]
    by_cases hpos : 0 < q
    · rw [if_pos hpos, if_neg (by linarith : ¬ 0 < -q)]; rfl
    · have hneg : q < 0 := lt_of_le_of_ne (not_lt.mp hpos) h0
      rw [if_neg hpos, if_pos (by linarith : 0 < -q)]
      show _ = fin (- -_)
      rw [neg_neg]

theorem ten300_le : (10 : ℚ) ^ 300 ≤ 2 ^ 1000 := by
  have h : (10 : ℚ) ^ 3 ≤ 2 ^ 10 := by norm_num
  calc (10 : ℚ) ^ 300 = (10 ^ 3) ^ 100 := by rw [← pow_mul]
    _ ≤ (2 ^ 10) ^ 100 := pow_le_pow_left₀ (by norm_num) h 100
    _ = 2 ^ 1000 := by rw [← pow_mul]

theorem eta_mul (m : ℚ) (hm : m ≤ 10 ^ 300) :
    (1 : ℚ) / 2 ^ 1075 * m ≤ 1 / 2 ^ 75 := by
  have h1 : (2 : ℚ) ^ 1075 = 2 ^ 1000 * 2 ^ 75 := by rw [← pow_add]
  have h2 : (1 : ℚ) / 2 ^ 1075 * 2 ^ 1000 = 1 / 2 ^ 75 := by
    rw [h1]; field_simp
  have h3 : (1 : ℚ) / 2 ^ 1075 * m ≤ 1 / 2 ^ 1075 * 2 ^ 1000 :=
    mul_le_mul_of_nonneg_left (le_trans hm ten300_le) (by positivity)
  linarith

theorem eta_tiny : (1 : ℚ) / 2 ^ 1075 ≤ 1 / 2 ^ 75 := by
  apply div_le_div_of_nonneg_left (by norm_num) (by positivity)
  exact pow_le_pow_right₀ (by norm_num) (by norm_num)

theorem pow2_zero : pow2 0 = 1 := by simp [pow2]

theorem pow2_neg_one : pow2 (-1) = 1 / 2 := by
  rw [pow2_eq]; norm_num

/-- The normalized pointer coordinate on doubles lies in `[-0.5, 0.5]`. -/
theorem normalized_d (c w : ℚ) (hw : 0 < w) (hc0 : 0 ≤ c) (hcw : c ≤ w) :
    ∃ n : ℚ, Dbl.sub (Dbl.div (fin c) (fin w)) (Dbl.lit 0.5) = fin n ∧ |n| ≤ 1 / 2 ∧
      |n - (c / w - 1 / 2)| ≤ 2 / 10 ^ 16 := by
  have hr0 : 0 ≤ c / w := div_nonneg hc0 (le_of_lt hw)
  have hr1 : c / w ≤ 1 := (div_le_one hw).mpr hcw
  obtain ⟨q1, hq1, hq10, hq11, hq1e⟩ := toDouble_le_pow2 (c / w) 0 hr0
    (by rw [pow2_zero]; exact hr1) (by norm_num) (by norm_num)
  rw [pow2_zero] at hq11
  have hη := eta_tiny
  have hη0 : (0 : ℚ) ≤ 1 / 2 ^ 1075 := by positivity
  generalize (1 : ℚ) / 2 ^ 1075 = η at hq1e hη hη0
  -- the difference to one half, on either side
  have key : ∀ x : ℚ, 0 ≤ x → x ≤ 1 / 2 → ∃ r : ℚ, toDouble x = fin r ∧ 0 ≤ r ∧ r ≤ 1 / 2 ∧
      |r - x| ≤ x * (1 / 2 ^ 53) + 1 / 2 ^ 75 := by
    intro x hx0 hx1
    obtain ⟨r, hr, hr0', hr1', hre⟩ := toDouble_le_pow2 x (-1) hx0
      (by rw [pow2_neg_one]; exact hx1) (by norm_num) (by norm_num)
    rw [pow2_neg_one] at hr1'
    exact ⟨r, hr, hr0', hr1', le_trans hre (by linarith [eta_tiny])⟩
  obtain ⟨e1, e2⟩ := abs_le.mp hq1e
  have hm : c / w * (1 / 2 ^ 53) ≤ 1 * (1 / 2 ^ 53) :=
    mul_le_mul_of_nonneg_right hr1 (by positivity)
  have hexpr : Dbl.sub (Dbl.div (fin c) (fin w)) (Dbl.lit 0.5) = toDouble (q1 - 1 / 2) := by
    have h5 : (0.5 : ℚ) = 1 / 2 := by norm_num
    simp only [Dbl.sub, Dbl.div, fin_div_fin _ _ (ne_of_gt hw), JSNum.rd, hq1, lit_half,
      fin_sub_fin]
    rw [h5]
  rcases le_total (1 / 2) q1 with hge | hle
  · obtain ⟨r, hr, hr0', hr1', hre⟩ := key (q1 - 1 / 2) (by linarith) (by linarith)
    have hm2 : (q1 - 1 / 2) * (1 / 2 ^ 53) ≤ 1 / 2 * (1 / 2 ^ 53) :=
      mul_le_mul_of_nonneg_right (by linarith) (by positivity)
    obtain ⟨f1, f2⟩ := abs_le.mp hre
    refine ⟨r, ?_, ?_, ?_⟩
    · rw [hexpr, hr]
    · rw [abs_le]; constructor <;> linarith
    · rw [abs_le]
      constructor <;> norm_num at hη hm hm2 e1 e2 f1 f2 ⊢ <;> linarith
  · obtain ⟨r, hr, hr0', hr1', hre⟩ := key (1 / 2 - q1) (by linarith) (by linarith)
    have hm2 : (1 / 2 - q1) * (1 / 2 ^ 53) ≤ 1 / 2 * (1 / 2 ^ 53) :=
      mul_le_mul_of_nonneg_right (by linarith) (by positivity)
    obtain ⟨f1, f2⟩ := abs_le.mp hre
    have hneg : toDouble (q1 - 1 / 2) = fin (-r) := by
      have h1 : q1 - 1 / 2 = -(1 / 2 - q1) := by ring
      rw [h1, toDouble_neg, hr]
      rfl
    refine ⟨-r, ?_, ?_, ?_⟩
    · rw [hexpr, hneg]
    · rw [abs_le]; constructor <;> linarith
    · rw [abs_le]
      constructor <;> norm_num at hη hm hm2 e1 e2 f1 f2 ⊢ <;> linarith

theorem pow2_1023 : pow2 1023 = 2 ^ 1023 := by
  rw [pow2_eq, show (1023 : ℤ) = ((1023 : ℕ) : ℤ) by norm_num, zpow_natCast]

theorem cap_mul_le (x m : ℚ) (_hx0 : 0 ≤ x) (hx : x ≤ 40) (hm0 : 0 ≤ m) (hm : m ≤ 10 ^ 300) :
    x * m ≤ 2 ^ 1023 := by
  have h1 : x * m ≤ 40 * 10 ^ 300 := mul_le_mul hx hm hm0 (by norm_num)
  have h2 : (40 : ℚ) * 10 ^ 300 ≤ 2 ^ 23 * 2 ^ 1000 :=
    mul_le_mul (by norm_num) ten300_le (by positivity) (by positivity)
  have h3 : (2 : ℚ) ^ 23 * 2 ^ 1000 = 2 ^ 1023 := by rw [← pow_add]
  linarith

/-- The maximum pointer offset `min(cap, w * 0.06) * mouseMult` on doubles. -/
theorem maxOffset_d (w m cap : ℚ) (hw : 0 < w) (hw2 : w ≤ 2 ^ 1024) (hcap0 : 0 < cap)
    (hcap : cap ≤ 40) (hm0 : 0 < m) (hm1 : m ≤ 10 ^ 300) :
    ∃ x : ℚ, Dbl.mul (JSNum.min (fin cap) (Dbl.mul (fin w) (Dbl.lit 0.06))) (fin m) = fin x ∧
      0 ≤ x ∧
      |x - min cap (0.06 * w) * m| ≤ min cap (0.06 * w) * m * (3 / 10 ^ 16) + 1 / 2 ^ 70 := by
  have hwc0 : 0 ≤ w * (1080863910568919 / 18014398509481984) := by positivity
  have hwc1 : w * (1080863910568919 / 18014398509481984) ≤ pow2 1023 := by
    rw [pow2_1023]
    have h1 : w * (1080863910568919 / 18014398509481984) ≤ w * (1 / 2) :=
      mul_le_mul_of_nonneg_left (by norm_num) (le_of_lt hw)
    have h2 : (2 : ℚ) ^ 1024 = 2 ^ 1023 * 2 := by rw [← pow_succ]
    rw [h2] at hw2
    generalize (2 : ℚ) ^ 1023 = T at hw2 ⊢
    linarith
  obtain ⟨X, hX, hX0, -, hXe⟩ := toDouble_le_pow2 _ 1023 hwc0 hwc1 (by norm_num) (by norm_num)
  have hMd0 : 0 ≤ min cap X := le_min (le_of_lt hcap0) hX0
  have hMd1 : min cap X ≤ 40 := le_trans (min_le_left _ _) hcap
  have hq0 : 0 ≤ min cap X * m := mul_nonneg hMd0 (le_of_lt hm0)
  have hq1 : min cap X * m ≤ pow2 1023 := by
    rw [pow2_1023]
    exact cap_mul_le _ _ hMd0 hMd1 (le_of_lt hm0) hm1
  obtain ⟨x, hx, hx0, -, hxe⟩ := toDouble_le_pow2 _ 1023 hq0 hq1 (by norm_num) (by norm_num)
  have hηm := eta_mul m hm1
  have hη := eta_tiny
  have hη0 : (0 : ℚ) ≤ 1 / 2 ^ 1075 := by positivity
  generalize (1 : ℚ) / 2 ^ 1075 = η at hXe hxe hηm hη hη0
  have hM0 : 0 ≤ min cap (0.06 * w) := le_min (le_of_lt hcap0) (by positivity)
  -- the capped width
  have hMd : |min cap X - min cap (0.06 * w)| ≤ min cap (0.06 * w) * (17 / 10 ^ 17) + η := by
    obtain ⟨e1, e2⟩ := abs_le.mp hXe
    rw [abs_le]
    rcases min_cases cap X with ⟨h1, h1'⟩ | ⟨h1, h1'⟩ <;>
      rcases min_cases cap (0.06 * w) with ⟨h2, h2'⟩ | ⟨h2, h2'⟩ <;>
      rw [h1, h2] <;> constructor <;> norm_num at e1 e2 ⊢ <;> linarith
  refine ⟨x, ?_, hx0, ?_⟩
  · simp only [Dbl.mul, lit_006, fin_mul_fin, JSNum.rd, hX, min_fin_fin, hx]
  · obtain ⟨d1, d2⟩ := abs_le.mp hMd
    obtain ⟨f1, f2⟩ := abs_le.mp hxe
    have hm0' := le_of_lt hm0
    have g1 := mul_le_mul_of_nonneg_right d1 hm0'
    have g2 := mul_le_mul_of_nonneg_right d2 hm0'
    have e3 : (min cap (0.06 * w) * (17 / 10 ^ 17) + η) * m
        = min cap (0.06 * w) * m * (17 / 10 ^ 17) + η * m := by ring
    have e4 : (min cap X - min cap (0.06 * w)) * m
        = min cap X * m - min cap (0.06 * w) * m := by ring
    have e5 : -(min cap (0.06 * w) * (17 / 10 ^ 17) + η) * m
        = -(min cap (0.06 * w) * m * (17 / 10 ^ 17) + η * m) := by ring
    rw [e3, e4] at g2
    rw [e5, e4] at g1
    have hB0 : 0 ≤ min cap (0.06 * w) * m := mul_nonneg hM0 hm0'
    generalize min cap (0.06 * w) * m = B at g1 g2 hB0 ⊢
    generalize min cap X * m = Q at g1 g2 f1 f2 hq0
    rw [abs_le]
    constructor <;> norm_num at g1 g2 f1 f2 hηm hη ⊢ <;> nlinarith

/-- The rounded product of a normalized coordinate and a maximum offset. -/
theorem offset_round_d (n nx x B : ℚ) (hn : |n| ≤ 1 / 2) (hnx : |nx| ≤ 1 / 2)
    (hnn : |n - nx| ≤ 2 / 10 ^ 16) (hx0 : 0 ≤ x) (hB0 : 0 ≤ B) (hB1 : B ≤ 2 ^ 1020)
    (hxB : |x - B| ≤ B * (3 / 10 ^ 16) + 1 / 2 ^ 70) :
    ∃ a : ℤ, JSNum.round (Dbl.mul (fin n) (fin x)) = fin (a : ℚ) ∧
      |(a : ℚ)| ≤ B * (1 + 1 / 10 ^ 14) ∧ |(a : ℚ) - nx * B| ≤ 1 / 2 + B / 10 ^ 14 := by
  have hP : |n * x| ≤ x / 2 := by
    rw [abs_mul, abs_of_nonneg hx0]
    have := mul_le_mul_of_nonneg_right hn hx0
    linarith
  have hV : |nx * B| ≤ B / 2 := by
    rw [abs_mul, abs_of_nonneg hB0]
    have := mul_le_mul_of_nonneg_right hnx hB0
    linarith
  have hPV : |n * x - nx * B| ≤ 1 / 2 * |x - B| + 2 / 10 ^ 16 * B := by
    have e : n * x - nx * B = n * (x - B) + (n - nx) * B := by ring
    rw [e]
    refine le_trans (abs_add _ _) ?_
    rw [abs_mul, abs_mul, abs_of_nonneg hB0]
    have h1 := mul_le_mul_of_nonneg_right hn (abs_nonneg (x - B))
    have h2 := mul_le_mul_of_nonneg_right hnn hB0
    linarith
  have hT : (2 : ℚ) ^ 1023 = 2 ^ 1020 * 8 := by
    rw [show (8 : ℚ) = 2 ^ 3 by norm_num, ← pow_add]
  have hT1 : (1 : ℚ) ≤ 2 ^ 1020 := one_le_pow₀ (by norm_num)
  have hxle : x ≤ 2 * B + 1 := by
    obtain ⟨a1, a2⟩ := abs_le.mp hxB
    norm_num at a2
    linarith
  have hrange : |n * x| ≤ 2 ^ 1023 := by
    rw [hT]
    generalize (2 : ℚ) ^ 1020 = T at hB1 hT1 ⊢
    linarith
  obtain ⟨v, hv, hve⟩ := toDouble_error (n * x) hrange
  have hη := eta_tiny
  have hη0 : (0 : ℚ) ≤ 1 / 2 ^ 1075 := by positivity
  generalize (1 : ℚ) / 2 ^ 1075 = η at hve hη hη0
  refine ⟨⌊v + 1 / 2⌋, ?_, ?_⟩
  · simp only [Dbl.mul, fin_mul_fin, JSNum.rd, hv, JSNum.round]
  have hfl1 : ((⌊v + 1 / 2⌋ : ℤ) : ℚ) ≤ v + 1 / 2 := Int.floor_le _
  have hfl2 : v + 1 / 2 < ((⌊v + 1 / 2⌋ : ℤ) : ℚ) + 1 := Int.lt_floor_add_one _
  obtain ⟨p1, p2⟩ := abs_le.mp hP
  obtain ⟨v1, v2⟩ := abs_le.mp hV
  obtain ⟨q1, q2⟩ := abs_le.mp hPV
  obtain ⟨b1, b2⟩ := abs_le.mp hxB
  obtain ⟨e1, e2⟩ := abs_le.mp hve
  have hD := abs_nonneg (x - B)
  have hPn := abs_nonneg (n * x)
  generalize n * x = P at *
  generalize nx * B = V at *
  generalize |x - B| = D at *
  generalize |P| = PA at *
  by_cases hlo : v < -(1 / 2)
  · generalize ((⌊v + 1 / 2⌋ : ℤ) : ℚ) = a at hfl1 hfl2 ⊢
    norm_num at *
    constructor
    · rw [abs_le]; constructor <;> linarith
    · rw [abs_le]; constructor <;> linarith
  · by_cases hhi : 1 / 2 ≤ v
    · generalize ((⌊v + 1 / 2⌋ : ℤ) : ℚ) = a at hfl1 hfl2 ⊢
      norm_num at *
      constructor
      · rw [abs_le]; constructor <;> linarith
      · rw [abs_le]; constructor <;> linarith
    · have hz : ⌊v + 1 / 2⌋ = 0 := by
        rw [Int.floor_eq_zero_iff]
        constructor <;> push_neg at hlo hhi <;> linarith
      rw [hz]
      norm_num at *
      constructor
      · nlinarith
      · rw [abs_le]
        by_cases hB : B ≤ 1
        · constructor <;> linarith
        · constructor <;> linarith

theorem cap_mul_le2 (x m : ℚ) (_hx0 : 0 ≤ x) (hx : x ≤ 40) (hm0 : 0 ≤ m) (hm : m ≤ 10 ^ 300) :
    x * m ≤ 2 ^ 1020 := by
  have h1 : x * m ≤ 40 * 10 ^ 300 := mul_le_mul hx hm hm0 (by norm_num)
  have h2 : (40 : ℚ) * 10 ^ 300 ≤ 2 ^ 20 * 2 ^ 1000 :=
    mul_le_mul (by norm_num) ten300_le (by positivity) (by positivity)
  have h3 : (2 : ℚ) ^ 20 * 2 ^ 1000 = 2 ^ 1020 := by rw [← pow_add]
  linarith

/-- One coordinate of the pointer offsets on doubles. -/
theorem offset_d (c w m cap : ℚ) (hw : 0 < w) (hw2 : w ≤ 2 ^ 1024) (hc0 : 0 ≤ c) (hcw : c ≤ w)
    (hcap0 : 0 < cap) (hcap : cap ≤ 40) (hm0 : 0 < m) (hm1 : m ≤ 10 ^ 300) :
    ∃ (n : ℚ) (a : ℤ),
      Dbl.sub (Dbl.div (fin c) (fin w)) (Dbl.lit 0.5) = fin n ∧ |n| ≤ 1 / 2 ∧
      |n - (c / w - 1 / 2)| ≤ 2 / 10 ^ 16 ∧
      JSNum.round (Dbl.mul (Dbl.sub (Dbl.div (fin c) (fin w)) (Dbl.lit 0.5))
        (Dbl.mul (JSNum.min (fin cap) (Dbl.mul (fin w) (Dbl.lit 0.06))) (fin m))) = fin (a : ℚ) ∧
      |(a : ℚ)| ≤ min cap (0.06 * w) * m * (1 + 1 / 10 ^ 14) ∧
      |(a : ℚ) - (c / w - 1 / 2) * (min cap (0.06 * w) * m)|
        ≤ 1 / 2 + min cap (0.06 * w) * m / 10 ^ 14 := by
  obtain ⟨n, hn, hn1, hn2⟩ := normalized_d c w hw hc0 hcw
  obtain ⟨x, hx, hx0, hx1⟩ := maxOffset_d w m cap hw hw2 hcap0 hcap hm0 hm1
  have hM0 : 0 ≤ min cap (0.06 * w) := le_min (le_of_lt hcap0) (by positivity)
  have hM1 : min cap (0.06 * w) ≤ 40 := le_trans (min_le_left _ _) hcap
  have hnx : |c / w - 1 / 2| ≤ 1 / 2 := by
    have hr0 : 0 ≤ c / w := div_nonneg hc0 (le_of_lt hw)
    have hr1 : c / w ≤ 1 := (div_le_one hw).mpr hcw
    rw [abs_le]; constructor <;> linarith
  obtain ⟨a, ha, ha1, ha2⟩ := offset_round_d n (c / w - 1 / 2) x (min cap (0.06 * w) * m)
    hn1 hnx hn2 hx0 (mul_nonneg hM0 (le_of_lt hm0))
    (cap_mul_le2 _ _ hM0 hM1 (le_of_lt hm0) hm1) hx1
  exact ⟨n, a, hn, hn1, hn2, by rw [hn, hx]; exact ha, ha1, ha2⟩

theorem offsets_of_pointer_d (env : Env) (e : Pointer) (m : ℚ)
    (hw : 0 < env.innerWidth) (hw2 : env.innerWidth ≤ 2 ^ 1024)
    (hh : 0 < env.innerHeight) (hh2 : env.innerHeight ≤ 2 ^ 1024)
    (hx0 : 0 ≤ e.clientX) (hx1 : e.clientX ≤ env.innerWidth)
    (hy0 : 0 ≤ e.clientY) (hy1 : e.clientY ≤ env.innerHeight)
    (hm : JSNum.or env.mouseMultProp (Dbl.lit 0.5) = fin m) (hm0 : 0 < m) (hm1 : m ≤ 10 ^ 300) :
    ∃ (nx ny : ℚ) (mx my : ℤ),
      Dbl.sub (Dbl.div (fin e.clientX) (fin env.innerWidth)) (Dbl.lit 0.5) = fin nx ∧
      Dbl.sub (Dbl.div (fin e.clientY) (fin env.innerHeight)) (Dbl.lit 0.5) = fin ny ∧
      |nx| ≤ 1 / 2 ∧ |ny| ≤ 1 / 2 ∧
      |nx - (e.clientX / env.innerWidth - 1 / 2)| ≤ 2 / 10 ^ 16 ∧
      |ny - (e.clientY / env.innerHeight - 1 / 2)| ≤ 2 / 10 ^ 16 ∧
      Dbl.pointerOffsets env e = (fin (mx : ℚ), fin (my : ℚ)) ∧
      |(mx : ℚ) - (e.clientX / env.innerWidth - 1 / 2) * (min 40 (0.06 * env.innerWidth) * m)|
        ≤ 1 / 2 + min 40 (0.06 * env.innerWidth) * m / 10 ^ 14 ∧
      |(my : ℚ) - (e.clientY / env.innerHeight - 1 / 2) * (min 24 (0.06 * env.innerHeight) * m)|
        ≤ 1 / 2 + min 24 (0.06 * env.innerHeight) * m / 10 ^ 14 ∧
      |(mx : ℚ)| ≤ min 40 (0.06 * env.innerWidth) * m * (1 + 1 / 10 ^ 14) ∧
      |(my : ℚ)| ≤ min 24 (0.06 * env.innerHeight) * m * (1 + 1 / 10 ^ 14) := by
  obtain ⟨nx, mx, a1, a2, a3, a4, a5, a6⟩ := offset_d e.clientX env.innerWidth m 40 hw hw2 hx0 hx1
    (by norm_num) (by norm_num) hm0 hm1
  obtain ⟨ny, my, b1, b2, b3, b4, b5, b6⟩ := offset_d e.clientY env.innerHeight m 24 hh hh2 hy0
    hy1 (by norm_num) (by norm_num) hm0 hm1
  refine ⟨nx, ny, mx, my, a1, b1, a2, b2, a3, b3, ?_, a6, b6, a5, b5⟩
  simp only [Dbl.pointerOffsets, hm]
  rw [a4, b4]

/-! ## The page on doubles: frames and events -/

theorem foldl_inv_mem {α β : Type} (P : α → Prop) (f : α → β → α) (l : List β)
    (hf : ∀ a b, b ∈ l → P a → P (f a b)) : ∀ a, P a → P (l.foldl f a) := by
  induction l with
  | nil => intro a ha; exact ha
  | cons b l ih =>
    intro a ha
    exact ih (fun a' b' hb' => hf a' b' (List.mem_cons_of_mem _ hb')) _
      (hf a b (List.mem_cons_self _ _) ha)

theorem applyTransforms_eq_d (env : Env) (mx my : JSNum) (s : Dbl.State) :
    Dbl.applyTransforms env mx my s
      = { s with
          style := s.style ++ transformWrites (Dbl.positions env s.smoothScroll mx my) } := by
  simp [Dbl.applyTransforms, transformWrites, Dbl.setProperty]

/-- What `updateScroll` does to the scroll pipeline on doubles: the smoothing
step, and a request for itself exactly when the test after the step holds. -/
theorem updateScroll_fields_d (env : Env) (s : Dbl.State) :
    (Dbl.updateScroll env s).smoothScroll
      = (Dbl.smoothStep ⟨s.smoothScroll, fin s.targetScroll, true⟩).smoothScroll ∧
    (Dbl.updateScroll env s).targetScroll = s.targetScroll ∧
    (Dbl.updateScroll env s).listeners = s.listeners ∧
    (Dbl.updateScroll env s).pending
      = if (Dbl.smoothStep ⟨s.smoothScroll, fin s.targetScroll, true⟩).requested = true then
          s.pending ++ [(s.nextHandle + 1, Callback.updateScroll)]
        else s.pending := by
  unfold Dbl.updateScroll
  simp only [applyTransforms_eq_d, Dbl.requestAnimationFrame, Dbl.smoothStep]
  split <;> simp_all

theorem update_fields_d (env : Env) (s : Dbl.State) :
    (Dbl.update env s).smoothScroll = s.smoothScroll ∧
    (Dbl.update env s).targetScroll = s.targetScroll ∧
    (Dbl.update env s).pending = s.pending ∧
    (Dbl.update env s).listeners = s.listeners := by
  unfold Dbl.update
  cases s.lastEvent <;> simp [applyTransforms_eq_d]

theorem updateActiveLayer_fields_d (env : Env) (s : Dbl.State) :
    (Dbl.updateActiveLayer env s).smoothScroll = s.smoothScroll ∧
    (Dbl.updateActiveLayer env s).targetScroll = s.targetScroll ∧
    (Dbl.updateActiveLayer env s).pending = s.pending ∧
    (Dbl.updateActiveLayer env s).listeners = s.listeners := by
  simp only [Dbl.updateActiveLayer]
  split <;> simp

/-- A frame callback other than `updateScroll` leaves the scroll pipeline
alone. -/
theorem runCallback_other_d (env : Env) (cb : Callback) (s : Dbl.State)
    (h : cb ≠ Callback.updateScroll) :
    (Dbl.runCallback env cb s).smoothScroll = s.smoothScroll ∧
    (Dbl.runCallback env cb s).targetScroll = s.targetScroll ∧
    Dbl.scrollPending (Dbl.runCallback env cb s) = Dbl.scrollPending s := by
  cases cb with
  | update =>
    obtain ⟨h1, h2, h3, -⟩ := update_fields_d env s
    exact ⟨h1, h2, by simp [Dbl.scrollPending, Dbl.runCallback, h3]⟩
  | updateScroll => exact absurd rfl h
  | activeUpdate =>
    obtain ⟨h1, h2, h3, -⟩ := updateActiveLayer_fields_d env { s with rafActive := none }
    exact ⟨h1, h2, by simp [Dbl.scrollPending, Dbl.runCallback, h3]⟩

theorem scrollPending_updateScroll_d (env : Env) (s : Dbl.State) :
    Dbl.scrollPending (Dbl.updateScroll env s)
      = Dbl.scrollPending s
        + if (Dbl.smoothStep ⟨s.smoothScroll, fin s.targetScroll, true⟩).requested = true
          then 1 else 0 := by
  unfold Dbl.scrollPending
  rw [(updateScroll_fields_d env s).2.2.2]
  split <;> simp

theorem foldl_callbacks_none_d (env : Env) (cbs : List (ℕ × Callback)) :
    ∀ s : Dbl.State, cbs.countP (fun c => decide (c.2 = Callback.updateScroll)) = 0 →
      (cbs.foldl (fun st c => Dbl.runCallback env c.2 st) s).smoothScroll = s.smoothScroll ∧
      (cbs.foldl (fun st c => Dbl.runCallback env c.2 st) s).targetScroll = s.targetScroll ∧
      Dbl.scrollPending (cbs.foldl (fun st c => Dbl.runCallback env c.2 st) s)
        = Dbl.scrollPending s := by
  induction cbs with
  | nil => intro s _; exact ⟨rfl, rfl, rfl⟩
  | cons c cbs ih =>
    intro s h
    by_cases hc : c.2 = Callback.updateScroll
    · simp [List.countP_cons, hc] at h
    · have hrest : cbs.countP (fun c => decide (c.2 = Callback.updateScroll)) = 0 := by
        simpa [List.countP_cons, hc] using h
      obtain ⟨a1, a2, a3⟩ := runCallback_other_d env c.2 s hc
      obtain ⟨b1, b2, b3⟩ := ih (Dbl.runCallback env c.2 s) hrest
      simp only [List.foldl_cons]
      exact ⟨b1.trans a1, b2.trans a2, b3.trans a3⟩

theorem foldl_callbacks_one_d (env : Env) (cbs : List (ℕ × Callback)) :
    ∀ s : Dbl.State, cbs.countP (fun c => decide (c.2 = Callback.updateScroll)) = 1 →
      (cbs.foldl (fun st c => Dbl.runCallback env c.2 st) s).smoothScroll
        = (Dbl.smoothStep ⟨s.smoothScroll, fin s.targetScroll, true⟩).smoothScroll ∧
      (cbs.foldl (fun st c => Dbl.runCallback env c.2 st) s).targetScroll = s.targetScroll ∧
      Dbl.scrollPending (cbs.foldl (fun st c => Dbl.runCallback env c.2 st) s)
        = Dbl.scrollPending s
          + if (Dbl.smoothStep ⟨s.smoothScroll, fin s.targetScroll, true⟩).requested = true
            then 1 else 0 := by
  induction cbs with
  | nil => intro s h; simp at h
  | cons c cbs ih =>
    intro s h
    simp only [List.foldl_cons]
    by_cases hc : c.2 = Callback.updateScroll
    · have hrest : cbs.countP (fun c => decide (c.2 = Callback.updateScroll)) = 0 := by
        simpa [List.countP_cons, hc] using h
      obtain ⟨b1, b2, b3⟩ := foldl_callbacks_none_d env cbs (Dbl.runCallback env c.2 s) hrest
      have hrun : Dbl.runCallback env c.2 s = Dbl.updateScroll env s := by rw [hc]; rfl
      rw [hrun] at b1 b2 b3 ⊢
      obtain ⟨u1, u2, -, -⟩ := updateScroll_fields_d env s
      exact ⟨b1.trans u1, b2.trans u2, b3.trans (scrollPending_updateScroll_d env s)⟩
    · have hrest : cbs.countP (fun c => decide (c.2 = Callback.updateScroll)) = 1 := by
        simpa [List.countP_cons, hc] using h
      obtain ⟨a1, a2, a3⟩ := runCallback_other_d env c.2 s hc
      obtain ⟨b1, b2, b3⟩ := ih (Dbl.runCallback env c.2 s) hrest
      rw [a1, a2] at b1 b3
      exact ⟨b1, b2.trans a2, by rw [b3, a3]⟩

/-- An animation frame acts on the scroll pipeline as `chainFrame` does. -/
theorem runFrame_scroll_d (env : Env) (s : Dbl.State) (h : Dbl.scrollPending s ≤ 1) :
    Dbl.scrollOf (Dbl.runFrame env s) = Dbl.chainFrame (Dbl.scrollOf s) ∧
    Dbl.scrollPending (Dbl.runFrame env s) ≤ 1 := by
  have h0 : Dbl.scrollPending { s with pending := [] } = 0 := by simp [Dbl.scrollPending]
  rcases Nat.lt_or_ge (Dbl.scrollPending s) 1 with hlt | hge
  · have hz : Dbl.scrollPending s = 0 := by omega
    obtain ⟨b1, b2, b3⟩ := foldl_callbacks_none_d env s.pending { s with pending := [] } hz
    have hp : Dbl.scrollPending (Dbl.runFrame env s) = 0 := by
      unfold Dbl.runFrame; rw [b3, h0]
    refine ⟨?_, by omega⟩
    have hs1 : (Dbl.runFrame env s).smoothScroll = s.smoothScroll := b1
    have hs2 : (Dbl.runFrame env s).targetScroll = s.targetScroll := b2
    simp [Dbl.scrollOf, Dbl.chainFrame, hp, hz, hs1, hs2]
  · have ho : Dbl.scrollPending s = 1 := by omega
    obtain ⟨b1, b2, b3⟩ := foldl_callbacks_one_d env s.pending { s with pending := [] } ho
    have hs1 : (Dbl.runFrame env s).smoothScroll
        = (Dbl.smoothStep ⟨s.smoothScroll, fin s.targetScroll, true⟩).smoothScroll := b1
    have hs2 : (Dbl.runFrame env s).targetScroll = s.targetScroll := b2
    have hp : Dbl.scrollPending (Dbl.runFrame env s)
        = if (Dbl.smoothStep ⟨s.smoothScroll, fin s.targetScroll, true⟩).requested = true
          then 1 else 0 := by
      unfold Dbl.runFrame; rw [b3, h0]; simp
    constructor
    · simp only [Dbl.scrollOf, Dbl.chainFrame, ho, hs1, hs2, hp, decide_True, if_true]
      by_cases hr : (Dbl.smoothStep ⟨s.smoothScroll, fin s.targetScroll, true⟩).requested = true
      · simp [hr, Dbl.smoothStep] at *
      · simp [hr, Dbl.smoothStep] at *
    · rw [hp]; split <;> omega

/-- A listener other than `Dbl.onScroll` leaves the scroll pipeline and the listener
list alone. -/
theorem runHandler_scrollState_d (env : Env) (ev : Event) (f : Handler) (s : Dbl.State)
    (hf : f ≠ Handler.onScroll) :
    (Dbl.runHandler env ev f s).smoothScroll = s.smoothScroll ∧
    (Dbl.runHandler env ev f s).targetScroll = s.targetScroll ∧
    (Dbl.runHandler env ev f s).pending.countP (fun c => decide (c.2 = Callback.updateScroll))
      = s.pending.countP (fun c => decide (c.2 = Callback.updateScroll)) := by
  have hm : ∀ (e : Pointer) (st : Dbl.State),
      (Dbl.onMove e st).smoothScroll = st.smoothScroll ∧
      (Dbl.onMove e st).targetScroll = st.targetScroll ∧
      (Dbl.onMove e st).pending.countP (fun c => decide (c.2 = Callback.updateScroll))
        = st.pending.countP (fun c => decide (c.2 = Callback.updateScroll)) := by
    intro e st
    simp only [Dbl.onMove, Dbl.requestAnimationFrame]
    split <;> simp
  cases f with
  | onMove => cases ev <;> first | exact hm _ _ | exact ⟨rfl, rfl, rfl⟩
  | touchStart => cases ev <;> exact ⟨rfl, rfl, rfl⟩
  | touchMove =>
    cases ev with
    | touchmove ts => cases ts <;> first | exact hm _ _ | exact ⟨rfl, rfl, rfl⟩
    | _ => exact ⟨rfl, rfl, rfl⟩
  | onScroll => exact absurd rfl hf
  | scheduleActiveUpdate =>
    have : (Dbl.scheduleActiveUpdate s).smoothScroll = s.smoothScroll ∧
        (Dbl.scheduleActiveUpdate s).targetScroll = s.targetScroll ∧
        (Dbl.scheduleActiveUpdate s).pending.countP (fun c => decide (c.2 = Callback.updateScroll))
          = s.pending.countP (fun c => decide (c.2 = Callback.updateScroll)) := by
      simp only [Dbl.scheduleActiveUpdate, Dbl.requestAnimationFrame]
      split <;> simp
    cases ev <;> exact this

theorem runHandler_listeners_d (env : Env) (ev : Event) (f : Handler) (s : Dbl.State) :
    (Dbl.runHandler env ev f s).listeners = s.listeners := by
  have hm : ∀ (e : Pointer) (st : Dbl.State), (Dbl.onMove e st).listeners = st.listeners := by
    intro e st
    simp only [Dbl.onMove, Dbl.requestAnimationFrame]
    split <;> rfl
  have hs : (Dbl.onScroll env s).listeners = s.listeners := by
    simp only [Dbl.onScroll, Dbl.requestAnimationFrame]
    split <;> rfl
  have ha : (Dbl.scheduleActiveUpdate s).listeners = s.listeners := by
    simp only [Dbl.scheduleActiveUpdate, Dbl.requestAnimationFrame]
    split <;> rfl
  cases f with
  | onMove => cases ev <;> first | exact hm _ _ | rfl
  | touchStart => cases ev <;> rfl
  | touchMove =>
    cases ev with
    | touchmove ts => cases ts <;> first | exact hm _ _ | rfl
    | _ => rfl
  | onScroll => cases ev <;> exact hs
  | scheduleActiveUpdate => cases ev <;> exact ha

theorem runCallback_listeners_d (env : Env) (cb : Callback) (s : Dbl.State) :
    (Dbl.runCallback env cb s).listeners = s.listeners := by
  cases cb with
  | update =>
    show (Dbl.update env s).listeners = _
    unfold Dbl.update
    cases s.lastEvent <;> simp [applyTransforms_eq_d]
  | updateScroll =>
    show (Dbl.updateScroll env s).listeners = _
    simp only [Dbl.updateScroll, applyTransforms_eq, Dbl.requestAnimationFrame]
    split <;> rfl
  | activeUpdate =>
    show (Dbl.updateActiveLayer env _).listeners = _
    simp only [Dbl.updateActiveLayer]
    split <;> rfl

theorem step_listeners_d (s : Dbl.State) (x : Env × Event) : (Dbl.step s x).listeners = s.listeners := by
  have hh : ∀ (ev : Event) (l : List (String × Handler)) (st : Dbl.State),
      (l.foldl (fun st l => Dbl.runHandler x.1 ev l.2 st) st).listeners = st.listeners := by
    intro ev l
    induction l with
    | nil => intro st; rfl
    | cons b l ih => intro st; rw [List.foldl_cons, ih, runHandler_listeners_d]
  have hc : ∀ (l : List (ℕ × Callback)) (st : Dbl.State),
      (l.foldl (fun st c => Dbl.runCallback x.1 c.2 st) st).listeners = st.listeners := by
    intro l
    induction l with
    | nil => intro st; rfl
    | cons b l ih => intro st; rw [List.foldl_cons, ih, runCallback_listeners_d]
  unfold Dbl.step
  cases hx : x.2 with
  | frame => simp only [Dbl.runFrame]; rw [hc]
  | mousemove e => simp only []; rw [hh]
  | touchstart => simp only []; rw [hh]
  | touchmove ts => simp only []; rw [hh]
  | scroll => simp only []; rw [hh]

theorem scrollTyped_step_d (s : Dbl.State) (x : Env × Event) (h : Dbl.ScrollTyped s) :
    Dbl.ScrollTyped (Dbl.step s x) := by
  unfold Dbl.ScrollTyped
  rw [step_listeners_d]
  exact h

theorem scrollTyped_run_d (xs : List (Env × Event)) :
    ∀ s : Dbl.State, Dbl.ScrollTyped s → Dbl.ScrollTyped (Dbl.run s xs) := by
  induction xs with
  | nil => intro s h; exact h
  | cons x xs ih => intro s h; exact ih _ (scrollTyped_step_d s x h)

theorem scrollTyped_start_d (env : Env) (layers : List (List String)) :
    Dbl.ScrollTyped (Dbl.start env layers) := by
  have hu : ∀ st : Dbl.State, (Dbl.updateActiveLayer env st).listeners = st.listeners := by
    intro st
    simp only [Dbl.updateActiveLayer]
    split <;> rfl
  unfold Dbl.ScrollTyped Dbl.start
  by_cases hr : env.prefersReduced = true
  · simp [hr, Dbl.blank]
  · by_cases hm : env.hasOnMouseMove = true <;>
      simp [hr, hm, Dbl.addEventListener, Dbl.blank, hu]

/-- An event that is neither a scroll event nor a frame leaves the scroll
pipeline alone. -/
theorem step_scrollState_d (s : Dbl.State) (x : Env × Event) (h : Dbl.ScrollTyped s)
    (hs : x.2.isScroll = false) (hf : x.2.isFrame = false) :
    (Dbl.step s x).smoothScroll = s.smoothScroll ∧ (Dbl.step s x).targetScroll = s.targetScroll ∧
    Dbl.scrollPending (Dbl.step s x) = Dbl.scrollPending s := by
  have key : ∀ (ev : Event), ev.isScroll = false →
      ((s.listeners.filter (fun l => l.1 == ev.type)).foldl
          (fun st l => Dbl.runHandler x.1 ev l.2 st) s).smoothScroll = s.smoothScroll ∧
      ((s.listeners.filter (fun l => l.1 == ev.type)).foldl
          (fun st l => Dbl.runHandler x.1 ev l.2 st) s).targetScroll = s.targetScroll ∧
      Dbl.scrollPending ((s.listeners.filter (fun l => l.1 == ev.type)).foldl
          (fun st l => Dbl.runHandler x.1 ev l.2 st) s) = Dbl.scrollPending s := by
    intro ev hev
    have hty : ev.type ≠ "scroll" := by
      cases ev with
      | scroll => simp [Event.isScroll] at hev
      | mousemove e => show "mousemove" ≠ "scroll"; decide
      | touchstart => show "touchstart" ≠ "scroll"; decide
      | touchmove ts => show "touchmove" ≠ "scroll"; decide
      | frame => show "" ≠ "scroll"; decide
    apply foldl_inv_mem (fun st : Dbl.State => st.smoothScroll = s.smoothScroll ∧
      st.targetScroll = s.targetScroll ∧ Dbl.scrollPending st = Dbl.scrollPending s)
    · intro a b hb ⟨h1, h2, h3⟩
      have hbm := List.mem_filter.mp hb
      have hne : b.2 ≠ Handler.onScroll := by
        intro hb2
        have := h b hbm.1 hb2
        have hty2 : b.1 = ev.type := by simpa using hbm.2
        exact hty (hty2 ▸ this)
      obtain ⟨k1, k2, k3⟩ := runHandler_scrollState_d x.1 ev b.2 a hne
      exact ⟨k1.trans h1, k2.trans h2, by unfold Dbl.scrollPending at h3 ⊢; rw [k3, h3]⟩
    · exact ⟨rfl, rfl, rfl⟩
  unfold Dbl.step
  cases hx : x.2 with
  | frame => rw [hx] at hf; simp [Event.isFrame] at hf
  | mousemove e => exact key _ rfl
  | touchstart => exact key _ rfl
  | touchmove ts => exact key _ rfl
  | scroll => rw [hx] at hs; simp [Event.isScroll] at hs

theorem run_append_one_d (s : Dbl.State) (xs : List (Env × Event)) (x : Env × Event) :
    Dbl.run s (xs ++ [x]) = Dbl.step (Dbl.run s xs) x := by
  simp [Dbl.run]

theorem frameCount_append_one (xs : List (Env × Event)) (x : Env × Event) :
    frameCount (xs ++ [x]) = frameCount xs + if x.2.isFrame then 1 else 0 := by
  unfold frameCount
  rw [List.countP_append]
  by_cases h : x.2.isFrame = true <;> simp [List.countP_cons, h]

theorem step_frame_d (s : Dbl.State) (x : Env × Event) (h : x.2.isFrame = true) :
    Dbl.step s x = Dbl.runFrame x.1 s := by
  unfold Dbl.step
  cases hx : x.2 with
  | frame => rfl
  | mousemove e => rw [hx] at h; simp [Event.isFrame] at h
  | touchstart => rw [hx] at h; simp [Event.isFrame] at h
  | touchmove ts => rw [hx] at h; simp [Event.isFrame] at h
  | scroll => rw [hx] at h; simp [Event.isFrame] at h

/-- In a run without scroll events the scroll pipeline goes through one
`chainFrame` per animation frame: pointer and touch events in between change
nothing of it. -/
theorem run_scroll_d (s : Dbl.State) (hs : Dbl.ScrollTyped s) (h : Dbl.scrollPending s ≤ 1)
    (xs : List (Env × Event)) :
    NoScroll xs →
    Dbl.scrollOf (Dbl.run s xs) = Dbl.chainFrames (frameCount xs) (Dbl.scrollOf s) ∧
    Dbl.scrollPending (Dbl.run s xs) ≤ 1 := by
  induction xs using List.reverseRecOn with
  | nil => intro _; exact ⟨rfl, h⟩
  | append_singleton xs x ih =>
    intro hno
    have hnoxs : NoScroll xs := fun y hy => hno y (List.mem_append_left _ hy)
    have hx : x.2.isScroll = false := hno x (List.mem_append_right _ (List.mem_singleton_self x))
    obtain ⟨ih1, ih2⟩ := ih hnoxs
    rw [run_append_one_d, frameCount_append_one]
    by_cases hf : x.2.isFrame = true
    · rw [step_frame_d _ _ hf, if_pos hf]
      obtain ⟨c1, c2⟩ := runFrame_scroll_d x.1 (Dbl.run s xs) ih2
      exact ⟨by rw [c1, ih1]; rfl, c2⟩
    · have hf2 : x.2.isFrame = false := by simpa using hf
      obtain ⟨k1, k2, k3⟩ := step_scrollState_d (Dbl.run s xs) x (scrollTyped_run_d xs s hs) hx hf2
      rw [if_neg hf, Nat.add_zero]
      refine ⟨?_, by rw [k3]; exact ih2⟩
      rw [← ih1]
      simp only [Dbl.scrollOf, k1, k2, k3]

/-! ## Rounding within a binade -/

theorem pow2_lt_pow2 (a b : ℤ) (h : a < b) : pow2 a < pow2 b := by
  rw [pow2_eq, pow2_eq]
  exact zpow_lt_zpow_right₀ (by norm_num) h

/-- The bisection of `floorLog2` keeps the bracket `2 ^ lo <= a < 2 ^ hi` and
ends with a bracket of width one once the number of steps covers the width. -/
theorem floorLog2_bounds (a : ℚ) (n : ℕ) :
    ∀ lo hi : ℤ, lo < hi → hi - lo ≤ 2 ^ n → pow2 lo ≤ a → a < pow2 hi →
      pow2 (floorLog2 a n lo hi) ≤ a ∧ a < pow2 (floorLog2 a n lo hi + 1) := by
  induction n with
  | zero =>
    intro lo hi h1 h2 h3 h4
    have : hi = lo + 1 := by norm_num at h2; omega
    subst this
    exact ⟨h3, h4⟩
  | succ n ih =>
    intro lo hi h1 h2 h3 h4
    have hp : (2 : ℤ) ^ (n + 1) = 2 * 2 ^ n := by ring
    rw [hp] at h2
    unfold floorLog2
    split
    · rename_i hm
      exact ih _ _ (by omega) (by omega) hm h4
    · rename_i hm
      have hne : (lo + hi) / 2 ≠ lo := by
        intro he
        rw [he] at hm
        exact hm h3
      exact ih _ _ (by omega) (by omega) h3 (not_le.mp hm)

/-- The exponent found for a positive rational in the range of the bisection
is its binary exponent. -/
theorem floorLog2_eq (a : ℚ) (e : ℤ) (h1 : pow2 e ≤ a) (h2 : a < pow2 (e + 1))
    (he1 : -1200 ≤ e) (he2 : e < 1200) : floorLog2 a 12 (-1200) 1200 = e := by
  have hlo : pow2 (-1200) ≤ a := le_trans (pow2_le_pow2 _ _ he1) h1
  have hhi : a < pow2 1200 := lt_of_lt_of_le h2 (pow2_le_pow2 _ _ (by omega))
  obtain ⟨b1, b2⟩ := floorLog2_bounds a 12 (-1200) 1200 (by norm_num) (by norm_num) hlo hhi
  by_contra hne
  rcases lt_or_gt_of_ne hne with hlt | hgt
  · have := pow2_le_pow2 _ _ (show floorLog2 a 12 (-1200) 1200 + 1 ≤ e by omega)
    linarith
  · have := pow2_le_pow2 _ _ (show e + 1 ≤ floorLog2 a 12 (-1200) 1200 by omega)
    linarith

theorem roundHalfEven_ge (x : ℚ) (n : ℤ) (hx : (n : ℚ) ≤ x) : n ≤ roundHalfEven x := by
  have h1 : n ≤ ⌊x⌋ := Int.le_floor.mpr hx
  unfold roundHalfEven
  split_ifs <;> omega

/-- Rounding within a binade: a rational in `[2 ^ e, 2 ^ (e + 1))`, `e` in the
normal range, rounds to the nearest multiple of `2 ^ (e - 52)`, ties to the
even one. -/
theorem toDouble_binade (q : ℚ) (e : ℤ) (h1 : pow2 e ≤ q) (h2 : q < pow2 (e + 1))
    (he1 : -1022 ≤ e) (he2 : e ≤ 1022) :
    toDouble q = fin ((roundHalfEven (q / pow2 (e - 52)) : ℚ) * pow2 (e - 52)) := by
  have hpos : 0 < q := lt_of_lt_of_le (pow2_pos e) h1
  have hfl : floorLog2 q 12 (-1200) 1200 = e :=
    floorLog2_eq q e h1 h2 (by omega) (by omega)
  have hu : ulpExp q = e - 52 := by
    unfold ulpExp
    rw [hfl]
    exact max_eq_left (by omega)
  have hpe := pow2_pos (e - 52)
  have hmult : pow2 (e + 1) = (((2 ^ 53 : ℕ) : ℤ) : ℚ) * pow2 (e - 52) := by
    rw [pow2_eq, pow2_eq]
    push_cast
    rw [show (9007199254740992 : ℚ) = (2 : ℚ) ^ (53 : ℤ) by norm_num,
      ← zpow_add₀ (by norm_num : (2 : ℚ) ≠ 0)]
    congr 1
    omega
  have hx : q / pow2 (e - 52) ≤ (((2 ^ 53 : ℕ) : ℤ) : ℚ) := by
    rw [div_le_iff₀ hpe, ← hmult]
    exact le_of_lt h2
  have hm := roundHalfEven_le _ _ hx
  have hR : (roundHalfEven (q / pow2 (e - 52)) : ℚ) * pow2 (e - 52) ≤ pow2 (e + 1) := by
    rw [hmult]
    apply mul_le_mul_of_nonneg_right _ (le_of_lt hpe)
    exact_mod_cast hm
  have hno : ¬ pow2 1024 ≤ (roundHalfEven (q / pow2 (e - 52)) : ℚ) * pow2 (e - 52) := by
    rw [not_le]
    have h3 : pow2 (e + 1) < pow2 1024 := pow2_lt_pow2 _ _ (by omega)
    linarith
  unfold toDouble
  rw [if_neg (ne_of_gt hpos), abs_of_pos hpos, hu, if_neg hno, if_pos hpos]

/-- Rounding a rational between 32 and 64 to a double: the nearest multiple of
`2 ^ (-47)`, ties to the even one. -/
theorem toDouble_grid (q : ℚ) (h1 : 32 ≤ q) (h2 : q < 64) :
    toDouble q = fin ((roundHalfEven (q * 2 ^ 47) : ℚ) / 2 ^ 47) := by
  have p5 : pow2 5 = 32 := by rw [pow2_eq]; norm_num
  have p6 : pow2 (5 + 1) = 64 := by rw [pow2_eq]; norm_num
  have hp : pow2 (5 - 52) = 1 / 2 ^ 47 := by rw [pow2_eq]; norm_num
  have hdiv : q / (1 / 2 ^ 47) = q * 2 ^ 47 := by field_simp
  rw [toDouble_binade q 5 (by rw [p5]; exact h1) (by rw [p6]; exact h2) (by norm_num)
    (by norm_num), hp, hdiv, mul_one_div]

/-- Rounding does not leave `[-3, 3]`. -/
theorem toDouble_abs_le_three (q : ℚ) (hq : |q| ≤ 3) : ∃ r : ℚ, toDouble q = fin r ∧ |r| ≤ 3 := by
  have key : ∀ x : ℚ, 0 ≤ x → x ≤ 3 → ∃ r : ℚ, toDouble x = fin r ∧ 0 ≤ r ∧ r ≤ 3 := by
    intro x hx0 hx3
    have p1 : pow2 1 = 2 := by rw [pow2_eq]; norm_num
    rcases le_or_lt x 2 with h2 | h2
    · obtain ⟨r, hr, hr0, hr1, -⟩ := toDouble_le_pow2 x 1 hx0 (by rw [p1]; exact h2)
        (by norm_num) (by norm_num)
      rw [p1] at hr1
      exact ⟨r, hr, hr0, by linarith⟩
    · have p2 : pow2 (1 + 1) = 4 := by rw [pow2_eq]; norm_num
      have hp : pow2 (1 - 52) = 1 / 2 ^ 51 := by rw [pow2_eq]; norm_num
      have hdiv : x / (1 / 2 ^ 51) = x * 2 ^ 51 := by field_simp
      have ht := toDouble_binade x 1 (by rw [p1]; exact le_of_lt h2) (by rw [p2]; linarith)
        (by norm_num) (by norm_num)
      rw [hp, hdiv, mul_one_div] at ht
      have hr1 : roundHalfEven (x * 2 ^ 51) ≤ 6755399441055744 :=
        roundHalfEven_le _ _ (by push_cast; nlinarith)
      have hr0 : 0 ≤ roundHalfEven (x * 2 ^ 51) :=
        roundHalfEven_nonneg _ (by positivity)
      have hr1' : ((roundHalfEven (x * 2 ^ 51) : ℤ) : ℚ) ≤ 6755399441055744 := by
        exact_mod_cast hr1
      have hr0' : (0 : ℚ) ≤ ((roundHalfEven (x * 2 ^ 51) : ℤ) : ℚ) := by exact_mod_cast hr0
      refine ⟨_, ht, by positivity, ?_⟩
      rw [div_le_iff₀ (by positivity)]
      norm_num at hr1' ⊢
      linarith
  rcases le_total 0 q with h0 | h0
  · obtain ⟨r, hr, hr0, hr1⟩ := key q h0 (by rwa [abs_of_nonneg h0] at hq)
    exact ⟨r, hr, by rw [abs_of_nonneg hr0]; exact hr1⟩
  · obtain ⟨r, hr, hr0, hr1⟩ := key (-q) (by linarith) (by rwa [abs_of_nonpos h0] at hq)
    have hn := toDouble_neg (-q)
    rw [neg_neg, hr] at hn
    refine ⟨-r, hn, ?_⟩
    rw [abs_neg, abs_of_nonneg hr0]
    exact hr1

theorem roundHalfEven_add_even (x : ℚ) (n : ℤ) (hn : n % 2 = 0) :
    roundHalfEven ((n : ℚ) + x) = n + roundHalfEven x := by
  have hf : ⌊(n : ℚ) + x⌋ = n + ⌊x⌋ := Int.floor_int_add n x
  unfold roundHalfEven
  rw [hf]
  have e : (n : ℚ) + x - ((n + ⌊x⌋ : ℤ) : ℚ) = x - (⌊x⌋ : ℚ) := by push_cast; ring
  rw [e]
  split_ifs <;> omega

theorem roundHalfEven_neg (x : ℚ) : roundHalfEven (-x) = -roundHalfEven x := by
  have h1 := Int.floor_le x
  have h2 := Int.lt_floor_add_one x
  have h3 := Int.floor_le (-x)
  have h4 := Int.lt_floor_add_one (-x)
  have hcase : ((⌊-x⌋ : ℤ) = -⌊x⌋ ∧ x = (⌊x⌋ : ℚ)) ∨ ((⌊-x⌋ : ℤ) = -⌊x⌋ - 1 ∧ (⌊x⌋ : ℚ) < x) := by
    rcases eq_or_lt_of_le h1 with he | hl
    · left
      refine ⟨?_, he.symm⟩
      rw [Int.floor_eq_iff]
      push_cast
      constructor <;> linarith
    · right
      refine ⟨?_, hl⟩
      rw [Int.floor_eq_iff]
      push_cast
      constructor <;> linarith
  unfold roundHalfEven
  rcases hcase with ⟨hf, hx⟩ | ⟨hf, hx⟩
  · have e1 : x - (⌊x⌋ : ℚ) = 0 := by linarith
    have e2 : -x - ((⌊-x⌋ : ℤ) : ℚ) = 0 := by rw [hf]; push_cast; linarith
    rw [e1, e2]
    norm_num
    exact hf
  · have e2 : -x - ((⌊-x⌋ : ℤ) : ℚ) = 1 - (x - (⌊x⌋ : ℚ)) := by rw [hf]; push_cast; ring
    rw [e2, hf]
    split_ifs <;> first | omega | (exfalso; linarith)

/-- Adding a rational of magnitude at most 6 to 50 and subtracting it from 50
on doubles gives two doubles with sum 100. -/
theorem mirror_d (p : ℚ) (hp : |p| ≤ 6) :
    ∃ t b : ℚ, Dbl.add (fin 50) (fin p) = fin t ∧ Dbl.sub (fin 50) (fin p) = fin b ∧
      t + b = 100 ∧ 44 ≤ t ∧ t ≤ 56 ∧ 44 ≤ b ∧ b ≤ 56 ∧ |t - (50 + p)| ≤ 1 / 10 ^ 14 := by
  obtain ⟨p1, p2⟩ := abs_le.mp hp
  have ht := toDouble_grid (50 + p) (by linarith) (by linarith)
  have hb := toDouble_grid (50 - p) (by linarith) (by linarith)
  have e1 : (50 + p) * 2 ^ 47 = ((7036874417766400 : ℤ) : ℚ) + p * 2 ^ 47 := by
    push_cast; ring
  have e2 : (50 - p) * 2 ^ 47 = ((7036874417766400 : ℤ) : ℚ) + -(p * 2 ^ 47) := by
    push_cast; ring
  rw [e1, roundHalfEven_add_even _ _ (by norm_num)] at ht
  rw [e2, roundHalfEven_add_even _ _ (by norm_num), roundHalfEven_neg] at hb
  have hr1 : roundHalfEven (p * 2 ^ 47) ≤ 844424930131968 :=
    roundHalfEven_le _ _ (by push_cast; nlinarith)
  have hr2 : -844424930131968 ≤ roundHalfEven (p * 2 ^ 47) :=
    roundHalfEven_ge _ _ (by push_cast; nlinarith)
  have hr1' : ((roundHalfEven (p * 2 ^ 47) : ℤ) : ℚ) ≤ 844424930131968 := by exact_mod_cast hr1
  have hr2' : (-844424930131968 : ℚ) ≤ ((roundHalfEven (p * 2 ^ 47) : ℤ) : ℚ) := by
    exact_mod_cast hr2
  have herr := roundHalfEven_error (p * 2 ^ 47)
  obtain ⟨g1, g2⟩ := abs_le.mp herr
  push_cast at ht hb
  generalize ((roundHalfEven (p * 2 ^ 47) : ℤ) : ℚ) = r at ht hb hr1' hr2' g1 g2
  refine ⟨_, _, by simp only [Dbl.add, fin_add_fin, JSNum.rd]; exact ht,
    by simp only [Dbl.sub, fin_sub_fin, JSNum.rd]; exact hb, ?_, ?_, ?_, ?_, ?_, ?_⟩
  · field_simp; ring
  · rw [le_div_iff₀ (by positivity)]; norm_num; linarith
  · rw [div_le_iff₀ (by positivity)]; norm_num; linarith
  · rw [le_div_iff₀ (by positivity)]; norm_num; linarith
  · rw [div_le_iff₀ (by positivity)]; norm_num; linarith
  · rw [abs_le]
    constructor
    · rw [le_sub_iff_add_le, le_div_iff₀ (by positivity)]
      norm_num at g1 g2 ⊢
      linarith
    · rw [sub_le_iff_le_add, div_le_iff₀ (by positivity)]
      norm_num at g1 g2 ⊢
      linarith

/-! ## Monotone rounding -/

/-- The bisection of `floorLog2` ends below the upper end of its bracket. -/
theorem floorLog2_upper (a : ℚ) (n : ℕ) :
    ∀ lo hi : ℤ, lo ≤ hi → hi - lo ≤ 2 ^ n → a < pow2 hi →
      a < pow2 (floorLog2 a n lo hi + 1) := by
  induction n with
  | zero =>
    intro lo hi h1 h2 h3
    have h4 : hi ≤ lo + 1 := by norm_num at h2; omega
    exact lt_of_lt_of_le h3 (pow2_le_pow2 _ _ h4)
  | succ n ih =>
    intro lo hi h1 h2 h3
    have hp : (2 : ℤ) ^ (n + 1) = 2 * 2 ^ n := by ring
    rw [hp] at h2
    unfold floorLog2
    split
    · exact ih _ _ (by omega) (by omega) h3
    · rename_i hm
      exact ih _ _ (by omega) (by omega) (not_le.mp hm)

theorem roundHalfEven_mono (x y : ℚ) (h : x ≤ y) : roundHalfEven x ≤ roundHalfEven y := by
  have hf : ⌊x⌋ ≤ ⌊y⌋ := Int.floor_mono h
  rcases lt_or_eq_of_le hf with hlt | heq
  · have h1 : roundHalfEven x ≤ ⌊x⌋ + 1 := by unfold roundHalfEven; split_ifs <;> omega
    have h2 : ⌊y⌋ ≤ roundHalfEven y := by unfold roundHalfEven; split_ifs <;> omega
    omega
  · unfold roundHalfEven
    rw [← heq]
    split_ifs <;> first | omega | (exfalso; linarith)

/-- The exponent of the spacing around a rational below `2 ^ 1200`. -/
theorem ulpExp_cases (a : ℚ) (ha : a < pow2 1200) :
    ∃ k : ℤ, ulpExp a = max (k - 52) (-1074) ∧ a < pow2 (k + 1) ∧ (pow2 k ≤ a ∨ k = -1200) :=
  ⟨floorLog2 a 12 (-1200) 1200, rfl,
    floorLog2_upper a 12 (-1200) 1200 (by norm_num) (by norm_num) ha,
    floorLog2_spec a 12 (-1200) 1200 (Or.inr rfl)⟩

/-- The double of a positive rational up to `2 ^ 1023`. -/
theorem toDouble_pos_eq (q : ℚ) (h0 : 0 < q) (h1 : q ≤ pow2 1023) :
    toDouble q = fin ((roundHalfEven (q / pow2 (ulpExp q)) : ℚ) * pow2 (ulpExp q)) := by
  obtain ⟨r, hr, -, hr1, -⟩ := toDouble_le_pow2 q 1023 (le_of_lt h0) h1 (by norm_num)
    (by norm_num)
  unfold toDouble at hr ⊢
  rw [if_neg (ne_of_gt h0), abs_of_pos h0] at hr ⊢
  by_cases hov : pow2 1024 ≤ (roundHalfEven (q / pow2 (ulpExp q)) : ℚ) * pow2 (ulpExp q)
  · rw [if_pos hov, if_pos h0] at hr
    cases hr
  · rw [if_neg hov, if_pos h0]

/-- Rounding is monotone on the positive rationals. -/
theorem toDouble_mono_pos (q1 q2 : ℚ) (h0 : 0 < q1) (h : q1 ≤ q2) (h2 : q2 ≤ pow2 1023) :
    (roundHalfEven (q1 / pow2 (ulpExp q1)) : ℚ) * pow2 (ulpExp q1)
      ≤ (roundHalfEven (q2 / pow2 (ulpExp q2)) : ℚ) * pow2 (ulpExp q2) := by
  have h1200 : pow2 1023 < pow2 1200 := pow2_lt_pow2 _ _ (by norm_num)
  have hq2 : 0 < q2 := lt_of_lt_of_le h0 h
  obtain ⟨k1, e1, u1, l1⟩ := ulpExp_cases q1 (by linarith)
  obtain ⟨k2, e2, u2, l2⟩ := ulpExp_cases q2 (by linarith)
  have hle : ulpExp q1 ≤ ulpExp q2 := by
    rw [e1, e2]
    rcases l1 with l1 | l1
    · have hk : k1 < k2 + 1 := by
        by_contra hc
        have := pow2_le_pow2 _ _ (not_lt.mp hc)
        linarith
      exact max_le_max (by omega) le_rfl
    · subst l1
      exact le_trans (max_le (by norm_num) le_rfl) (le_max_right _ _)
  rcases eq_or_lt_of_le hle with heq | hlt
  · rw [heq]
    apply mul_le_mul_of_nonneg_right _ (le_of_lt (pow2_pos _))
    exact_mod_cast roundHalfEven_mono _ _
      (div_le_div_of_nonneg_right h (le_of_lt (pow2_pos _)))
  · have hg1 : k1 - 52 ≤ ulpExp q1 := by rw [e1]; exact le_max_left _ _
    have hg2 : -1074 ≤ ulpExp q1 := by rw [e1]; exact le_max_right _ _
    have hk2 : ulpExp q2 = k2 - 52 := by
      rw [e2]
      apply max_eq_left
      by_contra hc
      rw [e2, max_eq_right (le_of_lt (not_le.mp hc))] at hlt
      omega
    have hk : k1 + 1 ≤ k2 := by omega
    have hl2 : pow2 k2 ≤ q2 := by
      rcases l2 with l2 | l2
      · exact l2
      · omega
    have hk23 : k2 ≤ 1023 := by
      by_contra hc
      have := pow2_lt_pow2 _ _ (not_le.mp hc)
      linarith
    have hq1 : q1 ≤ pow2 k2 := le_of_lt (lt_of_lt_of_le u1 (pow2_le_pow2 _ _ hk))
    obtain ⟨r, hr, -, hr1, -⟩ := toDouble_le_pow2 q1 k2 (le_of_lt h0) hq1 (by omega) hk23
    rw [toDouble_pos_eq q1 h0 (by linarith)] at hr
    have hR1 := JSNum.fin.inj hr
    have hpe := pow2_pos (k2 - 52)
    have hmult : pow2 k2 = (((2 ^ 52 : ℕ) : ℤ) : ℚ) * pow2 (k2 - 52) := by
      rw [pow2_eq, pow2_eq]
      push_cast
      rw [show (4503599627370496 : ℚ) = (2 : ℚ) ^ (52 : ℤ) by norm_num,
        ← zpow_add₀ (by norm_num : (2 : ℚ) ≠ 0), show (52 : ℤ) + (k2 - 52) = k2 by ring]
    have hx : (((2 ^ 52 : ℕ) : ℤ) : ℚ) ≤ q2 / pow2 (k2 - 52) := by
      rw [le_div_iff₀ hpe, ← hmult]
      exact hl2
    have hm := roundHalfEven_ge _ _ hx
    have hR2 : pow2 k2 ≤ (roundHalfEven (q2 / pow2 (k2 - 52)) : ℚ) * pow2 (k2 - 52) := by
      rw [hmult]
      apply mul_le_mul_of_nonneg_right _ (le_of_lt hpe)
      exact_mod_cast hm
    rw [hk2, hR1]
    exact le_trans hr1 hR2

/-- Rounding to the nearest double is monotone. -/
theorem toDouble_mono (q1 q2 : ℚ) (h : q1 ≤ q2) (h1 : |q1| ≤ pow2 1023)
    (h2 : |q2| ≤ pow2 1023) :
    ∃ r1 r2 : ℚ, toDouble q1 = fin r1 ∧ toDouble q2 = fin r2 ∧ r1 ≤ r2 := by
  have key : ∀ q : ℚ, 0 ≤ q → q ≤ pow2 1023 → ∃ r : ℚ, toDouble q = fin r ∧ 0 ≤ r := by
    intro q hq0 hq1
    obtain ⟨r, hr, hr0, -, -⟩ := toDouble_le_pow2 q 1023 hq0 hq1 (by norm_num) (by norm_num)
    exact ⟨r, hr, hr0⟩
  obtain ⟨a1, a2⟩ := abs_le.mp h1
  obtain ⟨b1, b2⟩ := abs_le.mp h2
  rcases lt_trichotomy 0 q1 with hp | hz | hn
  · exact ⟨_, _, toDouble_pos_eq q1 hp a2, toDouble_pos_eq q2 (by linarith) b2,
      toDouble_mono_pos q1 q2 hp h b2⟩
  · subst hz
    obtain ⟨r, hr, hr0⟩ := key q2 h b2
    exact ⟨0, r, toDouble_zero, hr, hr0⟩
  · rcases lt_or_le q2 0 with hn2 | hp2
    · have e1 := toDouble_pos_eq (-q1) (by linarith) (by linarith)
      have e2 := toDouble_pos_eq (-q2) (by linarith) (by linarith)
      have hm := toDouble_mono_pos (-q2) (-q1) (by linarith) (by linarith) (by linarith)
      have n1 := toDouble_neg (-q1)
      have n2 := toDouble_neg (-q2)
      rw [neg_neg, e1] at n1
      rw [neg_neg, e2] at n2
      exact ⟨_, _, n1, n2, neg_le_neg hm⟩
    · obtain ⟨r, hr, hr0⟩ := key (-q1) (by linarith) (by linarith)
      obtain ⟨r2, hr2, hr20⟩ := key q2 hp2 b2
      have n1 := toDouble_neg (-q1)
      rw [neg_neg, hr] at n1
      exact ⟨-r, r2, n1, hr2, by linarith⟩

/-- Rounding to the nearest double is monotone, for results already named. -/
theorem toDouble_le_of_le (q1 q2 r1 r2 : ℚ) (h : q1 ≤ q2) (h1 : |q1| ≤ pow2 1023)
    (h2 : |q2| ≤ pow2 1023) (e1 : toDouble q1 = fin r1) (e2 : toDouble q2 = fin r2) :
    r1 ≤ r2 := by
  obtain ⟨s1, s2, f1, f2, hs⟩ := toDouble_mono q1 q2 h h1 h2
  have g1 : s1 = r1 := JSNum.fin.inj (f1.symm.trans e1)
  have g2 : s2 = r2 := JSNum.fin.inj (f2.symm.trans e2)
  rw [← g1, ← g2]
  exact hs

theorem pow2_1023_ge : (1024 : ℚ) ≤ pow2 1023 := by
  have h := pow2_le_pow2 10 1023 (by norm_num)
  have e : pow2 10 = 1024 := by rw [pow2_eq]; norm_num
  rw [e] at h
  exact h

/-- Rounding keeps a rational between the doubles of two rationals around it. -/
theorem toDouble_between (q lo hi L H : ℚ) (h1 : lo ≤ q) (h2 : q ≤ hi) (hlo : -1024 ≤ lo)
    (hhi : hi ≤ 1024) (hL : toDouble lo = fin L) (hH : toDouble hi = fin H) :
    ∃ r : ℚ, toDouble q = fin r ∧ L ≤ r ∧ r ≤ H := by
  have hb := pow2_1023_ge
  have b1 : |lo| ≤ pow2 1023 := by rw [abs_le]; constructor <;> linarith
  have b2 : |q| ≤ pow2 1023 := by rw [abs_le]; constructor <;> linarith
  have b3 : |hi| ≤ pow2 1023 := by rw [abs_le]; constructor <;> linarith
  obtain ⟨r, H', hr, hH', hle⟩ := toDouble_mono q hi h2 b2 b3
  have e : H' = H := JSNum.fin.inj (hH'.symm.trans hH)
  subst e
  exact ⟨r, hr, toDouble_le_of_le lo q L r h1 b1 b2 hL hr, hle⟩

/-- Rounding keeps a rational between two integers around it. -/
theorem toDouble_within (q : ℚ) (m n : ℤ) (h1 : (m : ℚ) ≤ q) (h2 : q ≤ n) (hm : -1024 ≤ m)
    (hn : n ≤ 1024) : ∃ r : ℚ, toDouble q = fin r ∧ (m : ℚ) ≤ r ∧ r ≤ n := by
  have hm' : (-1024 : ℚ) ≤ m := by exact_mod_cast hm
  have hn' : (n : ℚ) ≤ 1024 := by exact_mod_cast hn
  have hmn : (m : ℚ) ≤ n := le_trans h1 h2
  have hmn' : m ≤ n := by exact_mod_cast hmn
  exact toDouble_between q m n m n h1 h2 hm' hn'
    (toDouble_int m (by rw [abs_lt]; constructor <;> omega))
    (toDouble_int n (by rw [abs_lt]; constructor <;> omega))

/-- The `y` of an extra layer on doubles is monotone in the scroll fraction and
in the pointer percentage: for a scroll fraction in `[0, 1]` and a pointer
percentage in `[-4, 4]` it lies between its values at `(1, -4)` and `(0, 4)`. -/
theorem layerY_between_d (b c p v : ℚ) (hb0 : 0 ≤ b) (hb1 : b ≤ 100) (hc0 : 0 ≤ c) (hc1 : c ≤ 1)
    (hp0 : 0 ≤ p) (hp1 : p ≤ 1) (hv0 : -4 ≤ v) (hv1 : v ≤ 4) :
    ∃ y lo hi : ℚ,
      Dbl.add (Dbl.add (fin b) (Dbl.mul (Dbl.mul (fin (-12)) (fin p)) (fin c)))
        (Dbl.mul (fin v) (fin c)) = fin y ∧
      Dbl.add (Dbl.add (fin b) (Dbl.mul (fin (-12)) (fin c))) (Dbl.mul (fin (-4)) (fin c))
        = fin lo ∧
      Dbl.add (Dbl.add (fin b) (fin 0)) (Dbl.mul (fin 4) (fin c)) = fin hi ∧
      lo ≤ y ∧ y ≤ hi := by
  obtain ⟨s, hs, s1, s2⟩ := toDouble_within (-12 * p) (-12) 0 (by push_cast; linarith)
    (by push_cast; linarith) (by norm_num) (by norm_num)
  obtain ⟨A, hA, A1, A2⟩ := toDouble_within (-12 * c) (-12) 0 (by push_cast; linarith)
    (by push_cast; linarith) (by norm_num) (by norm_num)
  push_cast at s1 s2 A1 A2
  obtain ⟨α, hα, α1, α2⟩ := toDouble_between (s * c) (-12 * c) 0 A 0 (by nlinarith)
    (by nlinarith) (by linarith) (by norm_num) hA toDouble_zero
  obtain ⟨Blo, hBlo, B1, B2⟩ := toDouble_within (b + A) (-12) 100 (by push_cast; linarith)
    (by push_cast; linarith) (by norm_num) (by norm_num)
  obtain ⟨Bhi, hBhi, B3, B4⟩ := toDouble_within (b + 0) 0 100 (by push_cast; linarith)
    (by push_cast; linarith) (by norm_num) (by norm_num)
  push_cast at B1 B2 B3 B4
  obtain ⟨β, hβ, β1, β2⟩ := toDouble_between (b + α) (b + A) (b + 0) Blo Bhi (by linarith)
    (by linarith) (by linarith) (by linarith) hBlo hBhi
  obtain ⟨Glo, hGlo, G1, G2⟩ := toDouble_within (-4 * c) (-4) 0 (by push_cast; linarith)
    (by push_cast; linarith) (by norm_num) (by norm_num)
  obtain ⟨Ghi, hGhi, G3, G4⟩ := toDouble_within (4 * c) 0 4 (by push_cast; linarith)
    (by push_cast; linarith) (by norm_num) (by norm_num)
  push_cast at G1 G2 G3 G4
  obtain ⟨γ, hγ, γ1, γ2⟩ := toDouble_between (v * c) (-4 * c) (4 * c) Glo Ghi (by nlinarith)
    (by nlinarith) (by linarith) (by linarith) hGlo hGhi
  obtain ⟨lo, hlo, -, -⟩ := toDouble_within (Blo + Glo) (-16) 104 (by push_cast; linarith)
    (by push_cast; linarith) (by norm_num) (by norm_num)
  obtain ⟨hi, hhi, -, -⟩ := toDouble_within (Bhi + Ghi) (-16) 104 (by push_cast; linarith)
    (by push_cast; linarith) (by norm_num) (by norm_num)
  obtain ⟨y, hy, y1, y2⟩ := toDouble_between (β + γ) (Blo + Glo) (Bhi + Ghi) lo hi
    (by linarith) (by linarith) (by linarith) (by linarith) hlo hhi
  refine ⟨y, lo, hi, ?_, ?_, ?_, y1, y2⟩
  · simp only [Dbl.add, Dbl.mul, fin_mul_fin, fin_add_fin, JSNum.rd, hs, hα, hβ, hγ, hy]
  · simp only [Dbl.add, Dbl.mul, fin_mul_fin, fin_add_fin, JSNum.rd, hA, hBlo, hGlo, hlo]
  · simp only [Dbl.add, Dbl.mul, fin_mul_fin, fin_add_fin, JSNum.rd, hBhi, hGhi, hhi]

/-- The corners of the range of an extra layer on doubles: the `y` at scroll
fraction 1 with `mousePctY = -4` and the `y` at scroll fraction 0 with
`mousePctY = 4` lie between the doubles nearest to `base_k - 16 mul_k` and
`base_k + 4 mul_k`. -/
theorem layer_corners (k : ℕ) (h3 : 3 ≤ k) (h10 : k ≤ 10) :
    ∃ c lo hi L H : ℚ,
      Dbl.lit (layerMul k) = fin c ∧ 0 ≤ c ∧ c ≤ 1 ∧
      Dbl.add (Dbl.add (fin (layerBase k)) (Dbl.mul (fin (-12)) (fin c)))
        (Dbl.mul (fin (-4)) (fin c)) = fin lo ∧
      Dbl.add (Dbl.add (fin (layerBase k)) (fin 0)) (Dbl.mul (fin 4) (fin c)) = fin hi ∧
      toDouble (layerBase k - 16 * layerMul k) = fin L ∧
      toDouble (layerBase k + 4 * layerMul k) = fin H ∧
      L ≤ lo ∧ hi ≤ H ∧
      |L - (layerBase k - 16 * layerMul k)| ≤ 1 / 10 ^ 14 ∧
      |H - (layerBase k + 4 * layerMul k)| ≤ 1 / 10 ^ 14 ∧
      22 ≤ L ∧ H ≤ 616782042717225 / 8796093022208 := by
  interval_cases k
  · refine ⟨1 / 2,
      22, 32,
      22, 32,
      by decide!, by norm_num, by norm_num, by decide!, by decide!, by decide!, by decide!,
      by norm_num, by norm_num, ?_, ?_, by norm_num, by norm_num⟩
    · rw [abs_le]; constructor <;> norm_num [layerBase, layerMul]
    · rw [abs_le]; constructor <;> norm_num [layerBase, layerMul]
  · refine ⟨3152519739159347 / 9007199254740992,
      4841369599423283 / 140737488355328, 5826532017910579 / 140737488355328,
      4841369599423283 / 140737488355328, 5826532017910579 / 140737488355328,
      by decide!, by norm_num, by norm_num, by decide!, by decide!, by decide!, by decide!,
      by norm_num, by norm_num, ?_, ?_, by norm_num, by norm_num⟩
    · rw [abs_le]; constructor <;> norm_num [layerBase, layerMul]
    · rw [abs_le]; constructor <;> norm_num [layerBase, layerMul]
  · refine ⟨3602879701896397 / 18014398509481984,
      5882827013252711 / 140737488355328, 3222888483337011 / 70368744177664,
      2941413506626355 / 70368744177664, 3222888483337011 / 70368744177664,
      by decide!, by norm_num, by norm_num, by decide!, by decide!, by decide!, by decide!,
      by norm_num, by norm_num, ?_, ?_, by norm_num, by norm_num⟩
    · rw [abs_le]; constructor <;> norm_num [layerBase, layerMul]
    · rw [abs_le]; constructor <;> norm_num [layerBase, layerMul]
  · refine ⟨5404319552844595 / 36028797018963968,
      6699104445713613 / 140737488355328, 7121316910779597 / 140737488355328,
      6699104445713613 / 140737488355328, 7121316910779597 / 140737488355328,
      by decide!, by norm_num, by norm_num, by decide!, by decide!, by decide!, by decide!,
      by norm_num, by norm_num, ?_, ?_, by norm_num, by norm_num⟩
    · rw [abs_le]; constructor <;> norm_num [layerBase, layerMul]
    · rw [abs_le]; constructor <;> norm_num [layerBase, layerMul]
  · refine ⟨3602879701896397 / 36028797018963968,
      7515381878174515 / 140737488355328, 7796856854885171 / 140737488355328,
      7515381878174515 / 140737488355328, 7796856854885171 / 140737488355328,
      by decide!, by norm_num, by norm_num, by decide!, by decide!, by decide!, by decide!,
      by norm_num, by norm_num, ?_, ?_, by norm_num, by norm_num⟩
    · rw [abs_le]; constructor <;> norm_num [layerBase, layerMul]
    · rw [abs_le]; constructor <;> norm_num [layerBase, layerMul]
  · refine ⟨5764607523034235 / 72057594037927936,
      2066026329056215 / 35184372088832, 8489285297593385 / 140737488355328,
      2066026329056215 / 35184372088832, 8489285297593385 / 140737488355328,
      by decide!, by norm_num, by norm_num, by decide!, by decide!, by decide!, by decide!,
      by norm_num, by norm_num, ?_, ?_, by norm_num, by norm_num⟩
    · rw [abs_le]; constructor <;> norm_num [layerBase, layerMul]
    · rw [abs_le]; constructor <;> norm_num [layerBase, layerMul]
  · refine ⟨3602879701896397 / 72057594037927936,
      4517673376206029 / 70368744177664, 4588042120383693 / 70368744177664,
      4517673376206029 / 70368744177664, 4588042120383693 / 70368744177664,
      by decide!, by norm_num, by norm_num, by decide!, by decide!, by decide!, by decide!,
      by norm_num, by norm_num, ?_, ?_, by norm_num, by norm_num⟩
    · rw [abs_le]; constructor <;> norm_num [layerBase, layerMul]
    · rw [abs_le]; constructor <;> norm_num [layerBase, layerMul]
  · refine ⟨1080863910568919 / 36028797018963968,
      4892035095231201 / 70368744177664, 616782042717225 / 8796093022208,
      4892035095231201 / 70368744177664, 616782042717225 / 8796093022208,
      by decide!, by norm_num, by norm_num, by decide!, by decide!, by decide!, by decide!,
      by norm_num, by norm_num, ?_, ?_, by norm_num, by norm_num⟩
    · rw [abs_le]; constructor <;> norm_num [layerBase, layerMul]
    · rw [abs_le]; constructor <;> norm_num [layerBase, layerMul]

theorem layerX_eq_gen (env : Env) (smooth mx my : JSNum) (k : ℕ) (h3 : 3 ≤ k) (h10 : k ≤ 10) :
    (Dbl.positions env smooth mx my).layerX k
      = Dbl.add (fin 50)
          (Dbl.mul (Dbl.positions env smooth mx my).mousePctX (Dbl.lit (layerMul k))) := by
  interval_cases k <;> rfl

theorem layerY_eq_gen (env : Env) (smooth mx my : JSNum) (k : ℕ) (h3 : 3 ≤ k) (h10 : k ≤ 10) :
    (Dbl.positions env smooth mx my).layerY k
      = Dbl.add (Dbl.add (fin (layerBase k))
          (Dbl.mul (Dbl.mul (fin (-12)) (Dbl.positions env smooth mx my).pct)
            (Dbl.lit (layerMul k))))
          (Dbl.mul (Dbl.positions env smooth mx my).mousePctY (Dbl.lit (layerMul k))) := by
  interval_cases k <;> rfl

/-- The pointer percentages on doubles at any `smoothScroll`, for pixel offsets
that are numbers. -/
theorem mousePct_gen (env : Env) (smooth mx my : JSNum) (hmx : mx ≠ JSNum.nan)
    (hmy : my ≠ JSNum.nan) :
    ∃ px py : ℚ,
      (Dbl.positions env smooth mx my).mousePctX = fin px ∧
      (Dbl.positions env smooth mx my).mousePctY = fin py ∧
      (-6 ≤ px ∧ px ≤ 6) ∧ (-4 ≤ py ∧ py ≤ 4) :=
  mousePct_d env 0 mx my hmx hmy

theorem toDouble_fifty : toDouble 50 = fin 50 := by
  have := toDouble_int 50 (by norm_num)
  norm_num at this
  exact this

/-- The `x` of an extra layer on doubles moves no farther from 50 under a smaller
multiplier. -/
theorem layerX_order_d (u c c1 : ℚ) (hu : |u| ≤ 6) (hc1 : 0 ≤ c1) (hcc : c1 ≤ c) (hc : c ≤ 1) :
    ∃ x x1 : ℚ,
      Dbl.add (fin 50) (Dbl.mul (fin u) (fin c)) = fin x ∧
      Dbl.add (fin 50) (Dbl.mul (fin u) (fin c1)) = fin x1 ∧
      |x1 - 50| ≤ |x - 50| := by
  obtain ⟨u1, u2⟩ := abs_le.mp hu
  have hc0 : 0 ≤ c := le_trans hc1 hcc
  rcases le_total 0 u with h0 | h0
  · obtain ⟨g, hg, g1, g2⟩ := toDouble_within (u * c) 0 6 (by push_cast; nlinarith)
      (by push_cast; nlinarith) (by norm_num) (by norm_num)
    push_cast at g1 g2
    obtain ⟨g', hg', g3, g4⟩ := toDouble_between (u * c1) 0 (u * c) 0 g (by nlinarith)
      (by nlinarith) (by norm_num) (by nlinarith) toDouble_zero hg
    obtain ⟨x, hx, x1, x2⟩ := toDouble_within (50 + g) 50 56 (by push_cast; linarith)
      (by push_cast; linarith) (by norm_num) (by norm_num)
    push_cast at x1 x2
    obtain ⟨x', hx', x3, x4⟩ := toDouble_between (50 + g') 50 (50 + g) 50 x (by linarith)
      (by linarith) (by norm_num) (by linarith) toDouble_fifty hx
    refine ⟨x, x', ?_, ?_, ?_⟩
    · simp only [Dbl.add, Dbl.mul, fin_mul_fin, fin_add_fin, JSNum.rd, hg, hx]
    · simp only [Dbl.add, Dbl.mul, fin_mul_fin, fin_add_fin, JSNum.rd, hg', hx']
    · rw [abs_of_nonneg (by linarith), abs_of_nonneg (by linarith)]
      linarith
  · obtain ⟨g, hg, g1, g2⟩ := toDouble_within (u * c) (-6) 0 (by push_cast; nlinarith)
      (by push_cast; nlinarith) (by norm_num) (by norm_num)
    push_cast at g1 g2
    obtain ⟨g', hg', g3, g4⟩ := toDouble_between (u * c1) (u * c) 0 g 0 (by nlinarith)
      (by nlinarith) (by nlinarith) (by norm_num) hg toDouble_zero
    obtain ⟨x, hx, x1, x2⟩ := toDouble_within (50 + g) 44 50 (by push_cast; linarith)
      (by push_cast; linarith) (by norm_num) (by norm_num)
    push_cast at x1 x2
    obtain ⟨x', hx', x3, x4⟩ := toDouble_between (50 + g') (50 + g) 50 x 50 (by linarith)
      (by linarith) (by linarith) (by norm_num) hx toDouble_fifty
    refine ⟨x, x', ?_, ?_, ?_⟩
    · simp only [Dbl.add, Dbl.mul, fin_mul_fin, fin_add_fin, JSNum.rd, hg, hx]
    · simp only [Dbl.add, Dbl.mul, fin_mul_fin, fin_add_fin, JSNum.rd, hg', hx']
    · rw [abs_of_nonpos (by linarith), abs_of_nonpos (by linarith)]
      linarith

/-- The doubles of the layer multipliers decrease from one layer to the next. -/
theorem lit_layerMul_order (k : ℕ) (h3 : 3 ≤ k) (h9 : k ≤ 9) :
    ∃ c c1 : ℚ, Dbl.lit (layerMul k) = fin c ∧ Dbl.lit (layerMul (k + 1)) = fin c1 ∧
      0 < c1 ∧ c1 < c ∧ c ≤ 1 := by
  interval_cases k
  · exact ⟨1 / 2, 3152519739159347 / 9007199254740992, by decide!, by decide!, by norm_num,
      by norm_num, by norm_num⟩
  · exact ⟨3152519739159347 / 9007199254740992, 3602879701896397 / 18014398509481984,
      by decide!, by decide!, by norm_num, by norm_num, by norm_num⟩
  · exact ⟨3602879701896397 / 18014398509481984, 5404319552844595 / 36028797018963968,
      by decide!, by decide!, by norm_num, by norm_num, by norm_num⟩
  · exact ⟨5404319552844595 / 36028797018963968, 3602879701896397 / 36028797018963968,
      by decide!, by decide!, by norm_num, by norm_num, by norm_num⟩
  · exact ⟨3602879701896397 / 36028797018963968, 5764607523034235 / 72057594037927936,
      by decide!, by decide!, by norm_num, by norm_num, by norm_num⟩
  · exact ⟨5764607523034235 / 72057594037927936, 3602879701896397 / 72057594037927936,
      by decide!, by decide!, by norm_num, by norm_num, by norm_num⟩
  · exact ⟨3602879701896397 / 72057594037927936, 1080863910568919 / 36028797018963968,
      by decide!, by decide!, by norm_num, by norm_num, by norm_num⟩

/-- The `y` of an extra layer on doubles for a scroll fraction in `[0, 1]`. -/
theorem layerY_error_unit (b p py c μ : ℚ) (hb0 : 0 ≤ b) (hb1 : b ≤ 100) (hp0 : 0 ≤ p)
    (hp1 : p ≤ 1) (hpy : |py| ≤ 4) (hc0 : 0 ≤ c) (hc1 : c ≤ 1) (hμ0 : 0 ≤ μ) (hμ1 : μ ≤ 1)
    (hcμ : |c - μ| ≤ 3 / 10 ^ 17) :
    ∃ y : ℚ,
      Dbl.add (Dbl.add (fin b) (Dbl.mul (Dbl.mul (fin (-12)) (fin p)) (fin c)))
        (Dbl.mul (fin py) (fin c)) = fin y ∧
      |y - (b + -12 * p * μ + py * μ)| ≤ 4 / 10 ^ 14 := by
  have hbig := big_le
  have hpp : |(-12 : ℚ) * p| ≤ 12 := by
    rw [abs_le]; constructor <;> linarith
  obtain ⟨st, hst, hste⟩ := mul_fin_bound (-12) p 12 hpp (by linarith)
  obtain ⟨t1, t2⟩ := abs_le.mp hste
  obtain ⟨p1, p2⟩ := abs_le.mp hpp
  have hstb : |st| ≤ 13 := by
    rw [abs_le]; constructor <;> norm_num at t1 t2 ⊢ <;> linarith
  have hsc : |st * c| ≤ 13 := by
    rw [abs_mul, abs_of_nonneg hc0]
    have := mul_le_mul hstb hc1 hc0 (by norm_num : (0 : ℚ) ≤ 13)
    linarith
  have hpc : |py * c| ≤ 4 := by
    rw [abs_mul, abs_of_nonneg hc0]
    have := mul_le_mul hpy hc1 hc0 (by norm_num : (0 : ℚ) ≤ 4)
    linarith
  obtain ⟨m, hm, hme⟩ := mul_fin_bound st c 13 hsc (by linarith)
  obtain ⟨m1, m2⟩ := abs_le.mp hme
  obtain ⟨s1, s2⟩ := abs_le.mp hsc
  obtain ⟨a, ha, hae⟩ := add_fin_bound b m 114
    (by rw [abs_le]; constructor <;> norm_num at m1 m2 ⊢ <;> linarith) (by linarith)
  obtain ⟨a1, a2⟩ := abs_le.mp hae
  obtain ⟨n, hn, hne⟩ := mul_fin_bound py c 4 hpc (by linarith)
  obtain ⟨n1, n2⟩ := abs_le.mp hne
  obtain ⟨q1, q2⟩ := abs_le.mp hpc
  obtain ⟨y, hy, hye⟩ := add_fin_bound a n 119
    (by rw [abs_le]; constructor <;> norm_num at m1 m2 a1 a2 n1 n2 ⊢ <;> linarith)
    (by linarith)
  obtain ⟨y1, y2⟩ := abs_le.mp hye
  have hd1 : |st * c - st * μ| ≤ 39 / 10 ^ 17 := by
    rw [← mul_sub, abs_mul]
    have := mul_le_mul hstb hcμ (abs_nonneg _) (by norm_num : (0 : ℚ) ≤ 13)
    norm_num at this ⊢
    linarith
  have hd2 : |py * c - py * μ| ≤ 12 / 10 ^ 17 := by
    rw [← mul_sub, abs_mul]
    have := mul_le_mul hpy hcμ (abs_nonneg _) (by norm_num : (0 : ℚ) ≤ 4)
    norm_num at this ⊢
    linarith
  have hd3 : |st * μ - -12 * p * μ| ≤ 13 / 2 ^ 53 := by
    rw [← sub_mul, abs_mul, abs_of_nonneg hμ0]
    have := mul_le_mul hste hμ1 hμ0 (by norm_num : (0 : ℚ) ≤ (12 + 1) / 2 ^ 53)
    norm_num at this ⊢
    linarith
  obtain ⟨d1, d2⟩ := abs_le.mp hd1
  obtain ⟨f1, f2⟩ := abs_le.mp hd2
  obtain ⟨e1, e2⟩ := abs_le.mp hd3
  refine ⟨y, by rw [hst, hm, ha, hn, hy], ?_⟩
  rw [abs_le]
  constructor <;> norm_num at m1 m2 a1 a2 n1 n2 y1 y2 d1 d2 f1 f2 e1 e2 ⊢ <;> linarith

/-- The scroll fraction on doubles lies in `[0, 1]` for a `smoothScroll` between
0 and `docH`. -/
theorem pct_unit_d (env : Env) (mx my : JSNum) (a D : ℚ) (hD : Dbl.docH env = fin D)
    (h0 : 0 ≤ a) (h1 : a ≤ D) :
    ∃ p : ℚ, (Dbl.positions env (fin a) mx my).pct = fin p ∧ 0 ≤ p ∧ p ≤ 1 := by
  have hD1 : 1 ≤ D := by
    rcases docH_cases env with ⟨h, hd, hh, -⟩ | ⟨hd, -⟩
    · have e : h = D := JSNum.fin.inj (hd.symm.trans hD)
      rw [← e]; exact hh
    · rw [hd] at hD; cases hD
  have hDpos : 0 < D := by linarith
  obtain ⟨p, hp, p0, p1⟩ := toDouble_within (a / D) 0 1
    (by push_cast; exact div_nonneg h0 hDpos.le)
    (by push_cast; rw [div_le_iff₀ hDpos]; linarith) (by norm_num) (by norm_num)
  push_cast at p0 p1
  refine ⟨p, ?_, p0, p1⟩
  show Dbl.div (fin a) (Dbl.docH env) = fin p
  rw [hD]
  simp only [Dbl.div, fin_div_fin _ _ (ne_of_gt hDpos), JSNum.rd, hp]

/-- The constant `docH` on doubles is exact when the scrollable height is a
double. -/
theorem docH_exact_d (env : Env)
    (h : toDouble (env.scrollHeight - env.innerHeight)
      = fin (env.scrollHeight - env.innerHeight)) :
    Dbl.docH env = fin (max (env.scrollHeight - env.innerHeight) 1) := by
  unfold Dbl.docH Dbl.sub
  rw [fin_sub_fin]
  simp only [JSNum.rd, h, max_fin_fin]

/-- What `applyTransforms(0, 0)` computes on doubles for the top, bottom and
third layer when `smoothScroll` lies between 0 and `docH`. -/
theorem zero_offsets_unit_d (env : Env) (a D : ℚ) (hD : Dbl.docH env = fin D) (h0 : 0 ≤ a)
    (h1 : a ≤ D) :
    ∃ yt yb y3 : ℚ,
      (Dbl.positions env (fin a) (fin 0) (fin 0)).topY = fin yt ∧
      (Dbl.positions env (fin a) (fin 0) (fin 0)).bottomY = fin yb ∧
      (Dbl.positions env (fin a) (fin 0) (fin 0)).l3y = fin y3 ∧
      |yt - clampQ (20 - 12 * (a / D)) 5 50| ≤ 1 / 10 ^ 13 ∧
      |yb - clampQ (80 - 12 * (a / D)) 50 95| ≤ 1 / 10 ^ 13 ∧
      |y3 - (30 - 6 * (a / D))| ≤ 1 / 10 ^ 13 := by
  have hbig := big_le
  obtain ⟨p, hp, hp0, hp1⟩ := pct_unit_d env (fin 0) (fin 0) a D hD h0 h1
  have hD1 : 1 ≤ D := by
    rcases docH_cases env with ⟨h, hd, hh, -⟩ | ⟨hd, -⟩
    · have e : h = D := JSNum.fin.inj (hd.symm.trans hD)
      rw [← e]; exact hh
    · rw [hd] at hD; cases hD
  have hDpos : 0 < D := by linarith
  have hq0 : 0 ≤ a / D := div_nonneg h0 hDpos.le
  have hq1 : a / D ≤ 1 := by rw [div_le_iff₀ hDpos]; linarith
  obtain ⟨p', hp', hpe⟩ := toDouble_bound (a / D) 1 (by rw [abs_le]; constructor <;> linarith)
    (by linarith)
  have ep : p' = p := by
    have : (Dbl.positions env (fin a) (fin 0) (fin 0)).pct = fin p' := by
      show Dbl.div (fin a) (Dbl.docH env) = fin p'
      rw [hD]
      simp only [Dbl.div, fin_div_fin _ _ (ne_of_gt hDpos), JSNum.rd, hp']
    exact JSNum.fin.inj (this.symm.trans hp)
  subst ep
  obtain ⟨q1, q2⟩ := abs_le.mp hpe
  obtain ⟨st, hst, hste⟩ := mul_fin_bound (-12) p' 12
    (by rw [abs_le]; constructor <;> linarith) (by linarith)
  obtain ⟨sb, hsb, hsbe⟩ := mul_fin_bound 12 p' 12
    (by rw [abs_le]; constructor <;> linarith) (by linarith)
  obtain ⟨t1, t2⟩ := abs_le.mp hste
  obtain ⟨b1, b2⟩ := abs_le.mp hsbe
  have hpy : (Dbl.positions env (fin a) (fin 0) (fin 0)).mousePctY = fin 0 := by
    simp only [Dbl.positions, lit_004]
    exact mousePct_zero_d _ _ 4 (by norm_num)
  have hstp : (Dbl.positions env (fin a) (fin 0) (fin 0)).scrollTopPct = fin st := by
    show Dbl.mul (fin (-12)) (Dbl.positions env (fin a) (fin 0) (fin 0)).pct = fin st
    rw [hp, hst]
  have hsbp : (Dbl.positions env (fin a) (fin 0) (fin 0)).scrollBottomPct = fin sb := by
    show Dbl.mul (fin 12) (Dbl.positions env (fin a) (fin 0) (fin 0)).pct = fin sb
    rw [hp, hsb]
  -- top
  obtain ⟨u1, hu1, hu1e⟩ := add_fin_bound 20 st 34
    (by rw [abs_le]; constructor <;> norm_num at t1 t2 ⊢ <;> linarith) (by linarith)
  obtain ⟨u11, u12⟩ := abs_le.mp hu1e
  obtain ⟨u2, hu2, hu2e⟩ := add_fin_bound u1 0 35
    (by rw [abs_le]; constructor <;> norm_num at t1 t2 u11 u12 ⊢ <;> linarith) (by linarith)
  obtain ⟨u21, u22⟩ := abs_le.mp hu2e
  -- bottom
  obtain ⟨v1, hv1, hv1e⟩ := sub_fin_bound 80 sb 94
    (by rw [abs_le]; constructor <;> norm_num at b1 b2 ⊢ <;> linarith) (by linarith)
  obtain ⟨v11, v12⟩ := abs_le.mp hv1e
  obtain ⟨v2, hv2, hv2e⟩ := sub_fin_bound v1 0 95
    (by rw [abs_le]; constructor <;> norm_num at b1 b2 v11 v12 ⊢ <;> linarith) (by linarith)
  obtain ⟨v21, v22⟩ := abs_le.mp hv2e
  -- layer 3
  obtain ⟨y3, hy3, hy3e⟩ := layerY_error_unit 30 p' 0 (1 / 2) (1 / 2) (by norm_num)
    (by norm_num) hp0 hp1 (by norm_num) (by norm_num) (by norm_num) (by norm_num)
    (by norm_num) (by norm_num)
  obtain ⟨y31, y32⟩ := abs_le.mp hy3e
  have hty : (Dbl.positions env (fin a) (fin 0) (fin 0)).topY = fin (clampQ u2 5 50) := by
    show clamp (Dbl.add (Dbl.add (fin 20) (Dbl.positions env (fin a) (fin 0) (fin 0)).scrollTopPct)
      (Dbl.positions env (fin a) (fin 0) (fin 0)).mousePctY) (fin 5) (fin 50) = _
    rw [hstp, hpy, hu1, hu2, clamp_fin]
  have hby : (Dbl.positions env (fin a) (fin 0) (fin 0)).bottomY = fin (clampQ v2 50 95) := by
    show clamp (Dbl.sub (Dbl.sub (fin 80)
      (Dbl.positions env (fin a) (fin 0) (fin 0)).scrollBottomPct)
      (Dbl.positions env (fin a) (fin 0) (fin 0)).mousePctY) (fin 50) (fin 95) = _
    rw [hsbp, hpy, hv1, hv2, clamp_fin]
  have h3y : (Dbl.positions env (fin a) (fin 0) (fin 0)).l3y = fin y3 := by
    show Dbl.add (Dbl.add (fin 30)
      (Dbl.mul (Dbl.mul (fin (-12)) (Dbl.positions env (fin a) (fin 0) (fin 0)).pct)
        (Dbl.lit 0.5)))
      (Dbl.mul (Dbl.positions env (fin a) (fin 0) (fin 0)).mousePctY (Dbl.lit 0.5)) = _
    rw [hp, hpy, lit_half]
    have : (0.5 : ℚ) = 1 / 2 := by norm_num
    rw [this, hy3]
  refine ⟨_, _, _, hty, hby, h3y, ?_, ?_, ?_⟩
  · refine le_trans (clampQ_close _ _ _ _) ?_
    rw [abs_le]
    constructor <;> norm_num at q1 q2 t1 t2 u11 u12 u21 u22 ⊢ <;> linarith
  · refine le_trans (clampQ_close _ _ _ _) ?_
    rw [abs_le]
    constructor <;> norm_num at q1 q2 b1 b2 v11 v12 v21 v22 ⊢ <;> linarith
  · rw [abs_le]
    constructor <;> norm_num at q1 q2 y31 y32 ⊢ <;> linarith

/-- The `y` of the extra layers on doubles for a scroll fraction in `[0, 1]`. -/
theorem layers_unit_d (env : Env) (smooth mx my : JSNum) (hmy : my ≠ JSNum.nan) (p : ℚ)
    (hp : (Dbl.positions env smooth mx my).pct = fin p) (hp0 : 0 ≤ p) (hp1 : p ≤ 1)
    (k : ℕ) (h3 : 3 ≤ k) (h10 : k ≤ 10) :
    ∃ py y : ℚ,
      (Dbl.positions env smooth mx my).mousePctY = fin py ∧
      (Dbl.positions env smooth mx my).layerY k = fin y ∧
      |y - (layerBase k + -12 * p * layerMul k + py * layerMul k)| ≤ 4 / 10 ^ 14 := by
  obtain ⟨py, hpy, hy1, hy2⟩ := mousePct_finite_d my env.innerHeight
    (5764607523034235 / 144115188075855872) 4 (by norm_num) (by norm_num) hmy
  have hpy' : (Dbl.positions env smooth mx my).mousePctY = fin py := by
    simp only [Dbl.positions, lit_004]
    exact hpy
  obtain ⟨c, hc, hc0, hc1, hcμ⟩ := lit_layerMul k h3 h10
  obtain ⟨hb0, hb1⟩ := layerBase_range k h3 h10
  have hμ : 0 ≤ layerMul k ∧ layerMul k ≤ 1 := by
    interval_cases k <;> norm_num [layerMul]
  obtain ⟨y, hy, hye⟩ := layerY_error_unit (layerBase k) p py c (layerMul k) hb0 hb1 hp0 hp1
    (abs_le.mpr ⟨hy1, hy2⟩) hc0 hc1 hμ.1 hμ.2 hcμ
  exact ⟨py, y, hpy', by rw [layerY_eq_gen env smooth mx my k h3 h10, hp, hpy', hc, hy], hye⟩

/-! ## Claims about the smoothing step -/

theorem smoothStep_congr (x y : Dbl.Scroll) (h1 : x.smoothScroll = y.smoothScroll)
    (h2 : x.targetScroll = y.targetScroll) : Dbl.smoothStep x = Dbl.smoothStep y := by
  simp [Dbl.smoothStep, h1, h2]

theorem smoothSteps_append_d (envs : List Env) (env : Env) (s : Dbl.State) :
    Dbl.smoothSteps (envs ++ [env]) s = Dbl.updateScroll env (Dbl.smoothSteps envs s) := by
  simp [Dbl.smoothSteps]

/-- Calls of `updateScroll` in a row act on `smoothScroll` as `chainSteps`
does. -/
theorem smoothSteps_scroll_d (envs : List Env) (s : Dbl.State) :
    (Dbl.smoothSteps envs s).smoothScroll
      = (Dbl.chainSteps envs.length ⟨s.smoothScroll, fin s.targetScroll, true⟩).smoothScroll ∧
    (Dbl.smoothSteps envs s).targetScroll = s.targetScroll ∧
    (Dbl.chainSteps envs.length ⟨s.smoothScroll, fin s.targetScroll, true⟩).targetScroll
      = fin s.targetScroll := by
  induction envs using List.reverseRecOn with
  | nil => exact ⟨rfl, rfl, rfl⟩
  | append_singleton envs env ih =>
    obtain ⟨i1, i2, i3⟩ := ih
    obtain ⟨u1, u2, -, -⟩ := updateScroll_fields_d env (Dbl.smoothSteps envs s)
    rw [smoothSteps_append_d, List.length_append, List.length_singleton]
    have hc : Dbl.smoothStep
        ⟨(Dbl.smoothSteps envs s).smoothScroll, fin (Dbl.smoothSteps envs s).targetScroll, true⟩
        = Dbl.smoothStep
          (Dbl.chainSteps envs.length ⟨s.smoothScroll, fin s.targetScroll, true⟩) :=
      smoothStep_congr _ _ i1 (by rw [i2, i3])
    refine ⟨?_, u2.trans i2, ?_⟩
    · rw [u1, hc]; rfl
    · show (Dbl.smoothStep
        (Dbl.chainSteps envs.length ⟨s.smoothScroll, fin s.targetScroll, true⟩)).targetScroll = _
      exact i3

/-- C5, as stated, fails on the code, whose numbers are doubles.  The page is
loaded at scroll offset 0 and scrolled to 23: the first frame leaves
`smoothScroll = 1553741871442821 / 562949953421312`, so the gap is not `0.88 *
23 = 20.24` (it prints as `20.240000000000002`).  And a gap that is not zero
need not decrease: loaded at the largest double below 1 and scrolled to 1, the
page keeps `smoothScroll` where it was. -/
theorem smoothing_contraction_counterexample :
    (Dbl.run (Dbl.start (page 1000 800 2800 0) [])
        [(page 1000 800 2800 23, Event.scroll), (page 1000 800 2800 23, Event.frame)]).smoothScroll
      = fin (1553741871442821 / 562949953421312) ∧
    (Dbl.run (Dbl.start (page 1000 800 2800 0) [])
        [(page 1000 800 2800 23, Event.scroll), (page 1000 800 2800 23, Event.frame)]).targetScroll
      = 23 ∧
    |(23 : ℚ) - 1553741871442821 / 562949953421312| ≠ 0.88 * |23 - 0| ∧
    (Dbl.start (page 1000 800 2800 (9007199254740991 / 9007199254740992)) []).smoothScroll
      = fin (9007199254740991 / 9007199254740992) ∧
    (Dbl.updateScroll (page 1000 800 2800 1)
      (Dbl.onScroll (page 1000 800 2800 1)
        (Dbl.start (page 1000 800 2800 (9007199254740991 / 9007199254740992)) []))).smoothScroll
      = fin (9007199254740991 / 9007199254740992) ∧
    (Dbl.updateScroll (page 1000 800 2800 1)
      (Dbl.onScroll (page 1000 800 2800 1)
        (Dbl.start (page 1000 800 2800 (9007199254740991 / 9007199254740992)) []))).targetScroll
      = 1 := by
  refine ⟨by decide!, by decide!, ?_, by decide!, by decide!, by decide!⟩
  rw [abs_of_pos (by norm_num : (0 : ℚ) < 23 - 1553741871442821 / 562949953421312),
    abs_of_pos (by norm_num : (0 : ℚ) < 23 - 0)]
  norm_num

/-- C5, amended (smoothing contraction on doubles).  One call of `updateScroll`
replaces `smoothScroll` by the double `smoothScroll + (targetScroll -
smoothScroll) * 0.12` and leaves `targetScroll` alone.  For `smoothScroll` and
`targetScroll` of magnitude at most `10 ^ 9` the new gap is `0.88` times the old
one up to `10 ^ (-6)`, and smaller than the old one whenever that exceeds
`10 ^ (-5)`; after `n` calls the gap is `0.88 ^ n` times the initial one up to
`10 ^ (-5)`, and each further call decreases a gap above `10 ^ (-5)`. -/
theorem smoothing_contraction (env : Env) (s : Dbl.State) (a : ℚ) (hs : s.smoothScroll = fin a)
    (ha : |a| ≤ 10 ^ 9) (ht : |s.targetScroll| ≤ 10 ^ 9) :
    (Dbl.updateScroll env s).smoothScroll
      = Dbl.add s.smoothScroll
          (Dbl.mul (Dbl.sub (fin s.targetScroll) s.smoothScroll) (Dbl.lit 0.12)) ∧
    (∃ a' : ℚ,
      (Dbl.updateScroll env s).smoothScroll = fin a' ∧
      (Dbl.updateScroll env s).targetScroll = s.targetScroll ∧
      |abs (s.targetScroll - a') - 0.88 * abs (s.targetScroll - a)| ≤ 1 / 10 ^ 6 ∧
      (1 / 10 ^ 5 < |s.targetScroll - a| → |s.targetScroll - a'| < |s.targetScroll - a|)) ∧
    (∀ (envs : List Env) (e : Env), ∃ an an1 : ℚ,
      (Dbl.smoothSteps envs s).smoothScroll = fin an ∧
      (Dbl.smoothSteps envs s).targetScroll = s.targetScroll ∧
      (Dbl.smoothSteps (envs ++ [e]) s).smoothScroll = fin an1 ∧
      |abs (s.targetScroll - an) - 0.88 ^ envs.length * abs (s.targetScroll - a)| ≤ 1 / 10 ^ 5 ∧
      (1 / 10 ^ 5 < |s.targetScroll - an| → |s.targetScroll - an1| < |s.targetScroll - an|)) := by
  obtain ⟨⟨a', h1, -, h3, h4⟩, hn⟩ := smoothing_chain_d a s.targetScroll true ha ht
  obtain ⟨u1, u2, -, -⟩ := updateScroll_fields_d env s
  refine ⟨u1, ⟨a', ?_, u2, h3, h4⟩, fun envs e => ?_⟩
  · rw [u1, hs]; exact h1
  · obtain ⟨an, an1, k1, -, k3, k4, k5⟩ := hn envs.length
    obtain ⟨c1, c2, -⟩ := smoothSteps_scroll_d envs s
    obtain ⟨d1, -, -⟩ := smoothSteps_scroll_d (envs ++ [e]) s
    rw [List.length_append, List.length_singleton] at d1
    rw [hs] at c1 d1
    exact ⟨an, an1, c1.trans k1, c2, d1.trans k3, k4, k5⟩

/-! ## Claims about the smoothing chain -/

theorem chainFrames_fixed (x : Dbl.Scroll) (h : Dbl.chainFrame x = x) (n : ℕ) :
    Dbl.chainFrames n x = x := by
  induction n with
  | zero => rfl
  | succ n ih => show Dbl.chainFrame (Dbl.chainFrames n x) = x; rw [ih, h]

theorem scrollPending_of_requested (s : Dbl.State) (h : Dbl.scrollPending s ≤ 1) :
    ((Dbl.scrollOf s).requested = true → Dbl.scrollPending s = 1) ∧
    ((Dbl.scrollOf s).requested = false → Dbl.scrollPending s = 0) := by
  constructor
  · intro hr
    simpa [Dbl.scrollOf] using hr
  · intro hr
    have : ¬ Dbl.scrollPending s = 1 := by simpa [Dbl.scrollOf] using hr
    omega

/-- The chain of `updateScroll` callbacks in runs without scroll events, from a
state the page reaches with one `updateScroll` pending. -/
theorem run_chain_d (env0 : Env) (layers : List (List String)) (pre : List (Env × Event))
    (a : ℚ) (hp : Dbl.scrollPending (Dbl.run (Dbl.start env0 layers) pre) = 1)
    (hs : (Dbl.run (Dbl.start env0 layers) pre).smoothScroll = fin a)
    (xs : List (Env × Event)) (hno : NoScroll xs) :
    Dbl.scrollOf (Dbl.run (Dbl.run (Dbl.start env0 layers) pre) xs)
      = Dbl.chainFrames (frameCount xs)
          (Dbl.scrolled a (Dbl.run (Dbl.start env0 layers) pre).targetScroll) ∧
    Dbl.scrollPending (Dbl.run (Dbl.run (Dbl.start env0 layers) pre) xs) ≤ 1 := by
  have hty := scrollTyped_run_d pre _ (scrollTyped_start_d env0 layers)
  obtain ⟨h1, h2⟩ := run_scroll_d _ hty (by omega) xs hno
  refine ⟨?_, h2⟩
  rw [h1]
  simp [Dbl.scrollOf, Dbl.scrolled, hp, hs]

theorem updateScroll_pending_d (env : Env) (s : Dbl.State) :
    (Dbl.updateScroll env s).pending
      = if JSNum.gt (JSNum.abs (Dbl.sub (fin (Dbl.updateScroll env s).targetScroll)
            (Dbl.updateScroll env s).smoothScroll)) (Dbl.lit 0.5) = true then
          s.pending ++ [(s.nextHandle + 1, Callback.updateScroll)]
        else s.pending := by
  obtain ⟨u1, u2, -, u4⟩ := updateScroll_fields_d env s
  rw [u4, u1, u2]
  rfl

/-- C6, as stated, fails on the code, whose numbers are doubles.  Loaded at
scroll offset 0 and scrolled to `0.5681818181818182`, the page stops after one
frame, although `0.88` times the gap still exceeds `0.5` (the least `n` of the
claim is 2).  Loaded at scroll offset `2 ^ 53` and scrolled to `2 ^ 53 + 4`, the
page never stops: every frame leaves `smoothScroll` at `2 ^ 53` and requests
the next call. -/
theorem chain_terminates_counterexample :
    (0.5 < 0.88 ^ 1 * |(5117726849284655 / 9007199254740992 : ℚ) - 0| ∧
      0.88 ^ 2 * |(5117726849284655 / 9007199254740992 : ℚ) - 0| ≤ 0.5 ∧
      Dbl.scrollPending (Dbl.run (Dbl.start (page 1000 800 2800 0) [])
        [(page 1000 800 2800 (5117726849284655 / 9007199254740992), Event.scroll)]) = 1 ∧
      Dbl.scrollPending (Dbl.run (Dbl.start (page 1000 800 2800 0) [])
        [(page 1000 800 2800 (5117726849284655 / 9007199254740992), Event.scroll),
         (page 1000 800 2800 (5117726849284655 / 9007199254740992), Event.frame)]) = 0) ∧
    (∀ xs : List (Env × Event), NoScroll xs →
      Dbl.scrollPending (Dbl.run
        (Dbl.run (Dbl.start (page 1000 800 9007199254750000 9007199254740992) [])
          [(page 1000 800 9007199254750000 9007199254740996, Event.scroll)]) xs) = 1 ∧
      (Dbl.run
        (Dbl.run (Dbl.start (page 1000 800 9007199254750000 9007199254740992) [])
          [(page 1000 800 9007199254750000 9007199254740996, Event.scroll)]) xs).smoothScroll
        = fin 9007199254740992 ∧
      (Dbl.run
        (Dbl.run (Dbl.start (page 1000 800 9007199254750000 9007199254740992) [])
          [(page 1000 800 9007199254750000 9007199254740996, Event.scroll)]) xs).targetScroll
        = 9007199254740996) := by
  refine ⟨⟨?_, ?_, by decide!, by decide!⟩, fun xs hno => ?_⟩
  · rw [abs_of_pos (by norm_num)]; norm_num
  · rw [abs_of_pos (by norm_num)]; norm_num
  · obtain ⟨h1, h2⟩ := run_chain_d (page 1000 800 9007199254750000 9007199254740992) []
      [(page 1000 800 9007199254750000 9007199254740996, Event.scroll)] 9007199254740992
      (by decide!) (by decide!) xs hno
    have ht : (Dbl.run (Dbl.start (page 1000 800 9007199254750000 9007199254740992) [])
        [(page 1000 800 9007199254750000 9007199254740996, Event.scroll)]).targetScroll
        = 9007199254740996 := by decide!
    rw [ht] at h1
    have hfix : Dbl.chainFrame (Dbl.scrolled 9007199254740992 9007199254740996)
        = Dbl.scrolled 9007199254740992 9007199254740996 := by decide!
    rw [chainFrames_fixed _ hfix] at h1
    have hr := congrArg Dbl.Scroll.requested h1
    have hsm := congrArg Dbl.Scroll.smoothScroll h1
    have htg := congrArg Dbl.Scroll.targetScroll h1
    refine ⟨(scrollPending_of_requested _ h2).1 hr, hsm, ?_⟩
    have : fin (Dbl.run
        (Dbl.run (Dbl.start (page 1000 800 9007199254750000 9007199254740992) [])
          [(page 1000 800 9007199254750000 9007199254740996, Event.scroll)]) xs).targetScroll
        = fin 9007199254740996 := htg
    exact JSNum.fin.inj this

/-- C6, amended (termination of the smoothing loop on doubles).  `updateScroll`
requests itself again exactly when `|targetScroll - smoothScroll| > 0.5` holds
after its step.  From a state the page reaches with one `updateScroll` pending
and `smoothScroll`, `targetScroll` of magnitude at most `10 ^ 9`, in every run
without scroll events (pointer and touch events may come in between): after `n`
frames `updateScroll` is still pending if `0.88 ^ n` times the initial gap
exceeds `0.5001`, none is pending if `n >= 1` and that product is at most
`0.4999`, and from some number of frames on none is pending.  After a scroll
from 0 to 1000 one is pending after fewer than 60 frames and none from frame 60
on. -/
theorem updateScroll_chain_terminates :
    (∀ (env : Env) (s : Dbl.State),
      (Dbl.updateScroll env s).pending
        = if JSNum.gt (JSNum.abs (Dbl.sub (fin (Dbl.updateScroll env s).targetScroll)
              (Dbl.updateScroll env s).smoothScroll)) (Dbl.lit 0.5) = true then
            s.pending ++ [(s.nextHandle + 1, Callback.updateScroll)]
          else s.pending) ∧
    (∀ (env0 : Env) (layers : List (List String)) (pre : List (Env × Event)) (a : ℚ),
      Dbl.scrollPending (Dbl.run (Dbl.start env0 layers) pre) = 1 →
      (Dbl.run (Dbl.start env0 layers) pre).smoothScroll = fin a →
      |a| ≤ 10 ^ 9 → |(Dbl.run (Dbl.start env0 layers) pre).targetScroll| ≤ 10 ^ 9 →
      (∀ xs, NoScroll xs →
        1 / 2 + 1 / 10 ^ 4
          < 0.88 ^ frameCount xs * |(Dbl.run (Dbl.start env0 layers) pre).targetScroll - a| →
        Dbl.scrollPending (Dbl.run (Dbl.run (Dbl.start env0 layers) pre) xs) = 1) ∧
      (∀ xs, NoScroll xs → 1 ≤ frameCount xs →
        0.88 ^ frameCount xs * |(Dbl.run (Dbl.start env0 layers) pre).targetScroll - a|
          ≤ 1 / 2 - 1 / 10 ^ 4 →
        Dbl.scrollPending (Dbl.run (Dbl.run (Dbl.start env0 layers) pre) xs) = 0) ∧
      (∃ N : ℕ, ∀ xs, NoScroll xs → N ≤ frameCount xs →
        Dbl.scrollPending (Dbl.run (Dbl.run (Dbl.start env0 layers) pre) xs) = 0)) ∧
    (∀ xs, NoScroll xs →
      (frameCount xs < 60 →
        Dbl.scrollPending (Dbl.run (Dbl.run (Dbl.start (page 1000 800 2800 0) [])
          [(page 1000 800 2800 1000, Event.scroll)]) xs) = 1) ∧
      (60 ≤ frameCount xs →
        Dbl.scrollPending (Dbl.run (Dbl.run (Dbl.start (page 1000 800 2800 0) [])
          [(page 1000 800 2800 1000, Event.scroll)]) xs) = 0)) := by
  refine ⟨updateScroll_pending_d, ?_, ?_⟩
  · intro env0 layers pre a hp hs ha ht
    obtain ⟨b1, b2, N, b3⟩ := frames_band a _ ha ht
    refine ⟨fun xs hno hgt => ?_, fun xs hno h1 hle => ?_, ⟨N, fun xs hno hN => ?_⟩⟩
    · obtain ⟨c1, c2⟩ := run_chain_d env0 layers pre a hp hs xs hno
      exact (scrollPending_of_requested _ c2).1 (by rw [c1]; exact b1 _ hgt)
    · obtain ⟨c1, c2⟩ := run_chain_d env0 layers pre a hp hs xs hno
      exact (scrollPending_of_requested _ c2).2 (by rw [c1]; exact b2 _ h1 hle)
    · obtain ⟨c1, c2⟩ := run_chain_d env0 layers pre a hp hs xs hno
      exact (scrollPending_of_requested _ c2).2 (by rw [c1]; exact b3 _ hN)
  · intro xs hno
    obtain ⟨c1, c2⟩ := run_chain_d (page 1000 800 2800 0) []
      [(page 1000 800 2800 1000, Event.scroll)] 0 (by decide!) (by decide!) xs hno
    have ht : (Dbl.run (Dbl.start (page 1000 800 2800 0) [])
        [(page 1000 800 2800 1000, Event.scroll)]).targetScroll = 1000 := by decide!
    rw [ht] at c1
    obtain ⟨s1, s2⟩ := frames_sixty
    exact ⟨fun hlt => (scrollPending_of_requested _ c2).1 (by rw [c1]; exact s1 _ hlt),
      fun hge => (scrollPending_of_requested _ c2).2 (by rw [c1]; exact s2 _ hge)⟩

/-! ## Claims about the scroll formula and the extra layers -/

/-- C4, as stated, fails on the code, whose numbers are doubles.  On a 1000 x
800 viewport with document height 3200 and `smoothScroll = 3` the formulas give
top `y = 19.985` and bottom `y = 79.985`, printed as 19.99 and 79.99; the code
computes doubles just below and writes 19.98 and 79.98.  With document height
2800 and `smoothScroll = 5` the formula gives layer-3 `y = 29.985`, printed as
29.99; the code writes 29.98. -/
theorem scroll_formula_counterexample :
    ((Dbl.start (page 1000 800 3200 3) []).smoothScroll = fin 3 ∧
      clampQ (20 - 12 * pctQ (page 1000 800 3200 3) 3) 5 50 = 19.985 ∧
      clampQ (80 - 12 * pctQ (page 1000 800 3200 3) 3) 50 95 = 79.985 ∧
      JSNum.toFixed2 (fin 19.985) = "19.99" ∧ JSNum.toFixed2 (fin 79.985) = "79.99" ∧
      (Dbl.positions (page 1000 800 3200 3) (fin 3) (fin 0) (fin 0)).topY
        = fin (1406319352390615 / 70368744177664) ∧
      (Dbl.positions (page 1000 800 3200 3) (fin 3) (fin 0) (fin 0)).bottomY
        = fin (5628444003050455 / 70368744177664) ∧
      Dbl.styleValue "--bg-top-pos" (Dbl.applyTransforms (page 1000 800 3200 3) (fin 0) (fin 0)
        (Dbl.start (page 1000 800 3200 3) [])) = some "50.00% 19.98%" ∧
      Dbl.styleValue "--bg-bottom-pos" (Dbl.applyTransforms (page 1000 800 3200 3) (fin 0) (fin 0)
        (Dbl.start (page 1000 800 3200 3) [])) = some "50.00% 79.98%") ∧
    ((Dbl.start (page 1000 800 2800 5) []).smoothScroll = fin 5 ∧
      30 - 6 * pctQ (page 1000 800 2800 5) 5 = 29.985 ∧
      JSNum.toFixed2 (fin 29.985) = "29.99" ∧
      Dbl.styleValue "--bg-layer-3-pos" (Dbl.applyTransforms (page 1000 800 2800 5) (fin 0)
        (fin 0) (Dbl.start (page 1000 800 2800 5) [])) = some "50.00% 29.98%") := by
  refine ⟨⟨by decide!, by norm_num [clampQ, pctQ, page], by norm_num [clampQ, pctQ, page],
    by decide!, by decide!, by decide!, by decide!, by decide!, by decide!⟩,
    ⟨by decide!, by norm_num [pctQ, page], by decide!, by decide!⟩⟩

/-- What `applyTransforms(0, 0)` writes on doubles for the top, the bottom and
the third layer. -/
theorem zero_offsets_written_d (env : Env) (s : Dbl.State) :
    Dbl.styleValue "--bg-top-pos" (Dbl.applyTransforms env (fin 0) (fin 0) s)
      = some (posString (Dbl.positions env s.smoothScroll (fin 0) (fin 0)).topX
          (Dbl.positions env s.smoothScroll (fin 0) (fin 0)).topY) ∧
    Dbl.styleValue "--bg-bottom-pos" (Dbl.applyTransforms env (fin 0) (fin 0) s)
      = some (posString (Dbl.positions env s.smoothScroll (fin 0) (fin 0)).bottomX
          (Dbl.positions env s.smoothScroll (fin 0) (fin 0)).bottomY) ∧
    Dbl.styleValue "--bg-layer-3-pos" (Dbl.applyTransforms env (fin 0) (fin 0) s)
      = some (posString (Dbl.positions env s.smoothScroll (fin 0) (fin 0)).l3x
          (Dbl.positions env s.smoothScroll (fin 0) (fin 0)).l3y) := by
  obtain ⟨-, -, h3, h4⟩ := applyTransforms_writes_d env (fin 0) (fin 0) s
  refine ⟨h3, h4, ?_⟩
  have h := (layer_written_d env (fin 0) (fin 0) s 3 (le_refl 3) (by decide)).2
  rw [layerName_values.1] at h
  exact h

/-- C4, amended (scroll formula on doubles).  With pointer offset `(0, 0)`, for
every page and every `smoothScroll` of magnitude at most `10 ^ 9`, with `pct =
smoothScroll / max(documentHeight - viewportHeight, 1)`, `applyTransforms`
computes doubles within `10 ^ (-5)` of top `y = clamp(20 - 12 pct, 5, 50)`,
bottom `y = clamp(80 - 12 pct, 50, 95)` and layer-3 `y = 30 - 6 pct`, and writes
them with two decimals after `x = 50.00%`.  For a `smoothScroll` between 0 and
the `docH` the code computes they are within `10 ^ (-13)` of the formulas at
`pct = smoothScroll / docH`, and `docH` is `max(documentHeight - viewportHeight,
1)` whenever that difference is a double.  On a 1000 x 800 viewport with
document height 2800 and `smoothScroll = 1000` it writes 14.00%, 74.00% and
27.00%. -/
theorem applyTransforms_scroll_formula :
    (∀ (env : Env) (s : Dbl.State) (a : ℚ), s.smoothScroll = fin a → |a| ≤ 10 ^ 9 →
      ∃ yt yb y3 : ℚ,
        (Dbl.positions env s.smoothScroll (fin 0) (fin 0)).topY = fin yt ∧
        (Dbl.positions env s.smoothScroll (fin 0) (fin 0)).bottomY = fin yb ∧
        (Dbl.positions env s.smoothScroll (fin 0) (fin 0)).l3y = fin y3 ∧
        |yt - clampQ (20 - 12 * pctQ env a) 5 50| ≤ 1 / 10 ^ 5 ∧
        |yb - clampQ (80 - 12 * pctQ env a) 50 95| ≤ 1 / 10 ^ 5 ∧
        |y3 - (30 - 6 * pctQ env a)| ≤ 1 / 10 ^ 5 ∧
        Dbl.styleValue "--bg-top-pos" (Dbl.applyTransforms env (fin 0) (fin 0) s)
          = some (posString (fin 50) (fin yt)) ∧
        Dbl.styleValue "--bg-bottom-pos" (Dbl.applyTransforms env (fin 0) (fin 0) s)
          = some (posString (fin 50) (fin yb)) ∧
        Dbl.styleValue "--bg-layer-3-pos" (Dbl.applyTransforms env (fin 0) (fin 0) s)
          = some (posString (fin 50) (fin y3))) ∧
    (∀ (env : Env) (s : Dbl.State) (a D : ℚ), s.smoothScroll = fin a →
      Dbl.docH env = fin D → 0 ≤ a → a ≤ D →
      ∃ yt yb y3 : ℚ,
        (Dbl.positions env s.smoothScroll (fin 0) (fin 0)).topY = fin yt ∧
        (Dbl.positions env s.smoothScroll (fin 0) (fin 0)).bottomY = fin yb ∧
        (Dbl.positions env s.smoothScroll (fin 0) (fin 0)).l3y = fin y3 ∧
        |yt - clampQ (20 - 12 * (a / D)) 5 50| ≤ 1 / 10 ^ 13 ∧
        |yb - clampQ (80 - 12 * (a / D)) 50 95| ≤ 1 / 10 ^ 13 ∧
        |y3 - (30 - 6 * (a / D))| ≤ 1 / 10 ^ 13) ∧
    (∀ env : Env,
      toDouble (env.scrollHeight - env.innerHeight) = fin (env.scrollHeight - env.innerHeight) →
      Dbl.docH env = fin (max (env.scrollHeight - env.innerHeight) 1)) ∧
    ((Dbl.start (page 1000 800 2800 1000) []).smoothScroll = fin 1000 ∧
      pctQ (page 1000 800 2800 1000) 1000 = 1 / 2 ∧
      (Dbl.positions (page 1000 800 2800 1000) (fin 1000) (fin 0) (fin 0)).pct = fin (1 / 2) ∧
      (Dbl.positions (page 1000 800 2800 1000) (fin 1000) (fin 0) (fin 0)).topY = fin 14 ∧
      (Dbl.positions (page 1000 800 2800 1000) (fin 1000) (fin 0) (fin 0)).bottomY = fin 74 ∧
      (Dbl.positions (page 1000 800 2800 1000) (fin 1000) (fin 0) (fin 0)).l3y = fin 27 ∧
      Dbl.styleValue "--bg-top-pos" (Dbl.applyTransforms (page 1000 800 2800 1000) (fin 0)
        (fin 0) (Dbl.start (page 1000 800 2800 1000) [])) = some "50.00% 14.00%" ∧
      Dbl.styleValue "--bg-bottom-pos" (Dbl.applyTransforms (page 1000 800 2800 1000) (fin 0)
        (fin 0) (Dbl.start (page 1000 800 2800 1000) [])) = some "50.00% 74.00%" ∧
      Dbl.styleValue "--bg-layer-3-pos" (Dbl.applyTransforms (page 1000 800 2800 1000) (fin 0)
        (fin 0) (Dbl.start (page 1000 800 2800 1000) [])) = some "50.00% 27.00%") := by
  refine ⟨?_, ?_, docH_exact_d, ?_⟩
  · intro env s a hs ha
    obtain ⟨yt, yb, y3, h1, h2, h3, h4, h5, h6, e1, e2, e3⟩ := zero_offsets_d env a ha
    obtain ⟨w1, w2, w3⟩ := zero_offsets_written_d env s
    rw [hs] at w1 w2 w3 ⊢
    rw [h1, h2] at w1
    rw [h3, h4] at w2
    rw [h5, h6] at w3
    exact ⟨yt, yb, y3, h2, h4, h6, e1, e2, e3, w1, w2, w3⟩
  · intro env s a D hs hD h0 h1
    rw [hs]
    exact zero_offsets_unit_d env a D hD h0 h1
  · exact ⟨by decide!, by norm_num [pctQ, page], by decide!, by decide!, by decide!, by decide!,
      by decide!, by decide!, by decide!⟩

/-- C21, as stated, fails on the code, whose numbers are doubles.  On a 1000 x
800 viewport with document height 2800, `smoothScroll = 5` and offsets `(0, 0)`
the code computes `pct = 5764607523034235 / 2 ^ 61` (the double next to
`0.0025`) and `mousePctY = 0`; the layer-3 `y` it computes is not the value of
`base_3 + (-12 * pct) * mul_3 + mousePctY * mul_3` at these numbers, and
neither is the layer-4 `y`.  With the exact fraction `pct = 5 / 2000` the
formula gives `29.985` for layer 3, printed as 29.99, and the code writes
29.98. -/
theorem extra_layers_counterexample :
    (Dbl.start (page 1000 800 2800 5) []).smoothScroll = fin 5 ∧
    (Dbl.positions (page 1000 800 2800 5) (fin 5) (fin 0) (fin 0)).pct
      = fin (5764607523034235 / 2305843009213693952) ∧
    (Dbl.positions (page 1000 800 2800 5) (fin 5) (fin 0) (fin 0)).mousePctY = fin 0 ∧
    (Dbl.positions (page 1000 800 2800 5) (fin 5) (fin 0) (fin 0)).layerY 3
      = fin (2110006794167255 / 70368744177664) ∧
    (2110006794167255 / 70368744177664 : ℚ)
      ≠ layerBase 3 + -12 * (5764607523034235 / 2305843009213693952) * layerMul 3
          + 0 * layerMul 3 ∧
    (Dbl.positions (page 1000 800 2800 5) (fin 5) (fin 0) (fin 0)).layerY 4
      = fin (5628021790585389 / 140737488355328) ∧
    (5628021790585389 / 140737488355328 : ℚ)
      ≠ layerBase 4 + -12 * (5764607523034235 / 2305843009213693952) * layerMul 4
          + 0 * layerMul 4 ∧
    pctQ (page 1000 800 2800 5) 5 = 5 / 2000 ∧
    layerBase 3 + -12 * (5 / 2000) * layerMul 3 + 0 * layerMul 3 = 29.985 ∧
    posString (fin 50) (fin 29.985) = "50.00% 29.99%" ∧
    Dbl.styleValue (layerName 3) (Dbl.applyTransforms (page 1000 800 2800 5) (fin 0) (fin 0)
      (Dbl.start (page 1000 800 2800 5) [])) = some "50.00% 29.98%" := by
  refine ⟨by decide!, by decide!, by decide!, by decide!, by norm_num [layerBase, layerMul],
    by decide!, by norm_num [layerBase, layerMul], by norm_num [pctQ, page],
    by norm_num [layerBase, layerMul], by decide!, by decide!⟩

/-- C21, amended (extra layers formula on doubles).  For every input and every
`k = 3..10`, with `mousePctX`, `mousePctY` and `pct` as `applyTransforms`
computes them, layer `k` is computed in double arithmetic as `x = 50 +
mousePctX * mul_k`, `y = base_k + (-12 * pct) * mul_k + mousePctY * mul_k` with
the multipliers and bases of the specification, and written with two decimals
under `--bg-layer-k-pos`.  For offsets that are numbers and a `smoothScroll` of
magnitude at most `10 ^ 9` the computed `x` is within `10 ^ (-14)` and the
computed `y` within `10 ^ (-5)` of the exact value of the formula; for a scroll
fraction in `[0, 1]` the computed `y` is within `4 * 10 ^ (-14)` of it.  No
clamp is applied: with `smoothScroll = 20000` on a page of scrollable height
2000 the top `y` is clamped to 5 while layer 3 is written at `y = -30.00%`. -/
theorem extra_layers_formula :
    (∀ (env : Env) (s : Dbl.State) (mx my : JSNum) (k : ℕ), 3 ≤ k → k ≤ 10 →
      (Dbl.positions env s.smoothScroll mx my).layerX k
        = Dbl.add (fin 50)
            (Dbl.mul (Dbl.positions env s.smoothScroll mx my).mousePctX (Dbl.lit (layerMul k))) ∧
      (Dbl.positions env s.smoothScroll mx my).layerY k
        = Dbl.add (Dbl.add (fin (layerBase k))
            (Dbl.mul (Dbl.mul (fin (-12)) (Dbl.positions env s.smoothScroll mx my).pct)
              (Dbl.lit (layerMul k))))
            (Dbl.mul (Dbl.positions env s.smoothScroll mx my).mousePctY (Dbl.lit (layerMul k))) ∧
      (layerName k, posString ((Dbl.positions env s.smoothScroll mx my).layerX k)
          ((Dbl.positions env s.smoothScroll mx my).layerY k))
        ∈ Dbl.written s (Dbl.applyTransforms env mx my s) ∧
      Dbl.styleValue (layerName k) (Dbl.applyTransforms env mx my s)
        = some (posString ((Dbl.positions env s.smoothScroll mx my).layerX k)
            ((Dbl.positions env s.smoothScroll mx my).layerY k)) ∧
      (∀ a : ℚ, s.smoothScroll = fin a → |a| ≤ 10 ^ 9 → mx ≠ JSNum.nan → my ≠ JSNum.nan →
        ∃ px py p x y : ℚ,
          (Dbl.positions env s.smoothScroll mx my).mousePctX = fin px ∧
          (Dbl.positions env s.smoothScroll mx my).mousePctY = fin py ∧
          (Dbl.positions env s.smoothScroll mx my).pct = fin p ∧
          (Dbl.positions env s.smoothScroll mx my).layerX k = fin x ∧
          (Dbl.positions env s.smoothScroll mx my).layerY k = fin y ∧
          |x - (50 + px * layerMul k)| ≤ 1 / 10 ^ 14 ∧
          |y - (layerBase k + -12 * p * layerMul k + py * layerMul k)| ≤ 1 / 10 ^ 5) ∧
      (∀ p : ℚ, (Dbl.positions env s.smoothScroll mx my).pct = fin p → 0 ≤ p → p ≤ 1 →
        my ≠ JSNum.nan →
        ∃ py y : ℚ,
          (Dbl.positions env s.smoothScroll mx my).mousePctY = fin py ∧
          (Dbl.positions env s.smoothScroll mx my).layerY k = fin y ∧
          |y - (layerBase k + -12 * p * layerMul k + py * layerMul k)| ≤ 4 / 10 ^ 14)) ∧
    ((layerMul 3, layerMul 4, layerMul 5, layerMul 6, layerMul 7, layerMul 8, layerMul 9,
        layerMul 10) = (0.5, 0.35, 0.2, 0.15, 0.1, 0.08, 0.05, 0.03) ∧
      (layerBase 3, layerBase 4, layerBase 5, layerBase 6, layerBase 7, layerBase 8,
        layerBase 9, layerBase 10) = (30, 40, 45, 50, 55, 60, 65, 70)) ∧
    ((Dbl.start (page 1000 800 2800 20000) []).smoothScroll = fin 20000 ∧
      (Dbl.positions (page 1000 800 2800 20000) (fin 20000) (fin 0) (fin 0)).topY = fin 5 ∧
      (Dbl.positions (page 1000 800 2800 20000) (fin 20000) (fin 0) (fin 0)).l3y = fin (-30) ∧
      Dbl.styleValue "--bg-layer-3-pos" (Dbl.applyTransforms (page 1000 800 2800 20000) (fin 0)
        (fin 0) (Dbl.start (page 1000 800 2800 20000) [])) = some "50.00% -30.00%") := by
  refine ⟨fun env s mx my k h3 h10 => ⟨?_, ?_, (layer_written_d env mx my s k h3 h10).1,
    (layer_written_d env mx my s k h3 h10).2, fun a hs ha hmx hmy => ?_,
    fun p hp hp0 hp1 hmy => ?_⟩,
    ⟨rfl, rfl⟩, ⟨by decide!, by decide!, by decide!, by decide!⟩⟩
  · interval_cases k <;> rfl
  · interval_cases k <;> rfl
  · rw [hs]
    exact layers_d env a mx my hmx hmy ha k h3 h10
  · exact layers_unit_d env s.smoothScroll mx my hmy p hp hp0 hp1 k h3 h10

/-! ## Claims about the pointer offsets -/

/-- C20, as stated, fails on the code.  With the property `--parallax-mouse-mult`
at 0 the code computes with `0.5` and gives the offsets `(8, -4)` at `(900,
100)`, above the bound `min(40, 0.06 w) * 0 = 0`.  On doubles, in a 1000 x 800
viewport with the default multiplier and `clientX = 475`, `nx` is
`-0.025000000000000022`, the product is `-0.5000000000000004` and `mx = -1`,
where the exact product `-0.5` rounds to 0.  In a viewport of width 100 with
the multiplier at the double next to `1/6`, `clientX = 100` gives `mx = 1`,
above `min(40, 0.06 w) * m < 1`.  With the multiplier at the double next to
`10 ^ 308` the maximum offset overflows: the offsets are `NaN` at the centre of
the viewport and infinite at `(900, 100)`. -/
theorem pointerOffsets_counterexample :
    (Dbl.pointerOffsets (pageWithMouseMult 1000 800 2800 0 (fin 0)) ⟨900, 100⟩
        = (fin 8, fin (-4)) ∧
      ¬ (|(8 : ℚ)| ≤ min 40 (0.06 * 1000) * 0)) ∧
    (JSNum.or (page 1000 800 2800 0).mouseMultProp (Dbl.lit 0.5) = fin 0.5 ∧
      Dbl.sub (Dbl.div (fin 475) (fin 1000)) (Dbl.lit 0.5)
        = fin (-225179981368525 / 9007199254740992) ∧
      (Dbl.pointerOffsets (page 1000 800 2800 0) ⟨475, 100⟩).1 = fin (-1) ∧
      roundQ ((475 / 1000 - 0.5) * min 40 (0.06 * 1000) * 0.5) = 0) ∧
    (Dbl.lit (1 / 6) = fin (6004799503160661 / 36028797018963968) ∧
      (Dbl.pointerOffsets (pageWithMouseMult 100 800 2800 0 (Dbl.lit (1 / 6))) ⟨100, 400⟩).1
        = fin 1 ∧
      ¬ (|(1 : ℚ)| ≤ min 40 (0.06 * 100) * (6004799503160661 / 36028797018963968))) ∧
    (Dbl.lit (10 ^ 308) ≠ JSNum.posInf ∧
      Dbl.pointerOffsets (pageWithMouseMult 1000 800 2800 0 (Dbl.lit (10 ^ 308))) ⟨500, 400⟩
        = (JSNum.nan, JSNum.nan) ∧
      Dbl.pointerOffsets (pageWithMouseMult 1000 800 2800 0 (Dbl.lit (10 ^ 308))) ⟨900, 100⟩
        = (JSNum.posInf, JSNum.negInf)) := by
  refine ⟨⟨by decide!, by norm_num⟩, ⟨by decide!, by decide!, by decide!, by decide!⟩,
    ⟨by decide!, by decide!, by norm_num⟩, ⟨by decide!, by decide!, by decide!⟩⟩

/-- C20, amended (pointer offsets on doubles).  In a viewport of width `0 < w`
and height `0 < h` (doubles, so at most `2 ^ 1024`), for a pointer position with
`0 <= clientX <= w` and `0 <= clientY <= h` and the multiplier `m` that
`update` computes with (the property's number when that is neither 0 nor `NaN`,
else 0.5), `0 < m <= 10 ^ 300`: the normalized coordinates `nx`, `ny` are
doubles in `[-0.5, 0.5]` within `2 * 10 ^ (-16)` of `clientX / w - 0.5` and
`clientY / h - 0.5`, and the offsets are integers `mx`, `my` within `1/2 + B /
10 ^ 14` of the exact product `(clientX / w - 0.5) * B`, with `B = min(40, 0.06
w) * m` for `mx` and `B = min(24, 0.06 h) * m` for `my`, and of magnitude at
most `B * (1 + 10 ^ (-14))`. -/
theorem pointerOffsets_bounds (env : Env) (e : Pointer) (m : ℚ)
    (hw : 0 < env.innerWidth) (hw2 : env.innerWidth ≤ 2 ^ 1024)
    (hh : 0 < env.innerHeight) (hh2 : env.innerHeight ≤ 2 ^ 1024)
    (hx0 : 0 ≤ e.clientX) (hx1 : e.clientX ≤ env.innerWidth)
    (hy0 : 0 ≤ e.clientY) (hy1 : e.clientY ≤ env.innerHeight)
    (hm : JSNum.or env.mouseMultProp (Dbl.lit 0.5) = fin m) (hm0 : 0 < m) (hm1 : m ≤ 10 ^ 300) :
    ∃ (nx ny : ℚ) (mx my : ℤ),
      Dbl.sub (Dbl.div (fin e.clientX) (fin env.innerWidth)) (Dbl.lit 0.5) = fin nx ∧
      Dbl.sub (Dbl.div (fin e.clientY) (fin env.innerHeight)) (Dbl.lit 0.5) = fin ny ∧
      |nx| ≤ 1 / 2 ∧ |ny| ≤ 1 / 2 ∧
      |nx - (e.clientX / env.innerWidth - 1 / 2)| ≤ 2 / 10 ^ 16 ∧
      |ny - (e.clientY / env.innerHeight - 1 / 2)| ≤ 2 / 10 ^ 16 ∧
      Dbl.pointerOffsets env e = (fin (mx : ℚ), fin (my : ℚ)) ∧
      |(mx : ℚ) - (e.clientX / env.innerWidth - 1 / 2) * (min 40 (0.06 * env.innerWidth) * m)|
        ≤ 1 / 2 + min 40 (0.06 * env.innerWidth) * m / 10 ^ 14 ∧
      |(my : ℚ) - (e.clientY / env.innerHeight - 1 / 2) * (min 24 (0.06 * env.innerHeight) * m)|
        ≤ 1 / 2 + min 24 (0.06 * env.innerHeight) * m / 10 ^ 14 ∧
      |(mx : ℚ)| ≤ min 40 (0.06 * env.innerWidth) * m * (1 + 1 / 10 ^ 14) ∧
      |(my : ℚ)| ≤ min 24 (0.06 * env.innerHeight) * m * (1 + 1 / 10 ^ 14) :=
  offsets_of_pointer_d env e m hw hw2 hh hh2 hx0 hx1 hy0 hy1 hm hm0 hm1

/-! ## Claims about the clamp -/

/-- One pixel offset on doubles is a number for every finite multiplier of
magnitude at most `10 ^ 300`. -/
theorem offset_finite_d (c w m cap : ℚ) (hw : 0 < w) (hw2 : w ≤ 2 ^ 1024) (hc0 : 0 ≤ c)
    (hcw : c ≤ w) (hcap0 : 0 < cap) (hcap : cap ≤ 40) (hm : |m| ≤ 10 ^ 300) :
    ∃ a : ℚ, JSNum.round (Dbl.mul (Dbl.sub (Dbl.div (fin c) (fin w)) (Dbl.lit 0.5))
        (Dbl.mul (JSNum.min (fin cap) (Dbl.mul (fin w) (Dbl.lit 0.06))) (fin m))) = fin a := by
  obtain ⟨n, hn, hn1, -⟩ := normalized_d c w hw hc0 hcw
  have hwc0 : 0 ≤ w * (1080863910568919 / 18014398509481984) := by positivity
  have hwc1 : w * (1080863910568919 / 18014398509481984) ≤ pow2 1023 := by
    rw [pow2_1023]
    have h1 : w * (1080863910568919 / 18014398509481984) ≤ w * (1 / 2) :=
      mul_le_mul_of_nonneg_left (by norm_num) (le_of_lt hw)
    have h2 : (2 : ℚ) ^ 1024 = 2 ^ 1023 * 2 := by rw [← pow_succ]
    rw [h2] at hw2
    generalize (2 : ℚ) ^ 1023 = T at hw2 ⊢
    linarith
  obtain ⟨X, hX, hX0, -, -⟩ := toDouble_le_pow2 _ 1023 hwc0 hwc1 (by norm_num) (by norm_num)
  have hMd0 : 0 ≤ min cap X := le_min (le_of_lt hcap0) hX0
  have hMd1 : min cap X ≤ 40 := le_trans (min_le_left _ _) hcap
  have hT : (2 : ℚ) ^ 1023 = 2 ^ 1020 * 8 := by
    rw [show (8 : ℚ) = 2 ^ 3 by norm_num, ← pow_add]
  have hT1 : (1 : ℚ) ≤ 2 ^ 1020 := one_le_pow₀ (by norm_num)
  have hq : |min cap X * m| ≤ 2 ^ 1020 := by
    rw [abs_mul, abs_of_nonneg hMd0]
    exact cap_mul_le2 _ _ hMd0 hMd1 (abs_nonneg m) hm
  obtain ⟨r, hr, hre⟩ := toDouble_error (min cap X * m) (by
    rw [hT]; generalize (2 : ℚ) ^ 1020 = T at hq hT1 ⊢; linarith)
  have hη := eta_tiny
  have hrb : |r| ≤ 2 * 2 ^ 1020 + 1 := by
    have h1 : |r| ≤ |r - min cap X * m| + |min cap X * m| := by
      have := abs_add (r - min cap X * m) (min cap X * m)
      rwa [sub_add_cancel] at this
    have h2 : |min cap X * m| / 2 ^ 53 ≤ |min cap X * m| :=
      div_le_self (abs_nonneg _) (one_le_pow₀ (by norm_num))
    generalize (1 : ℚ) / 2 ^ 1075 = η at hre hη
    generalize (2 : ℚ) ^ 1020 = T at hq hT1 ⊢
    norm_num at hη
    linarith
  have hnr : |n * r| ≤ 2 ^ 1023 := by
    rw [abs_mul, hT]
    have h1 := mul_le_mul hn1 hrb (abs_nonneg r) (by norm_num : (0 : ℚ) ≤ 1 / 2)
    generalize (2 : ℚ) ^ 1020 = T at h1 hT1 ⊢
    linarith
  obtain ⟨v, hv, -⟩ := toDouble_error (n * r) hnr
  refine ⟨((⌊v + 1 / 2⌋ : ℤ) : ℚ), ?_⟩
  rw [hn]
  simp only [Dbl.mul, lit_006, fin_mul_fin, JSNum.rd, hX, min_fin_fin, hr, hv, JSNum.round]

/-- In a viewport of positive width and height, for a pointer inside it and a
finite multiplier of magnitude at most `10 ^ 300`, the pixel offsets computed by
`update` on doubles are numbers. -/
theorem pointerOffsets_finite_d (env : Env) (e : Pointer) (m : ℚ)
    (hw : 0 < env.innerWidth) (hw2 : env.innerWidth ≤ 2 ^ 1024)
    (hh : 0 < env.innerHeight) (hh2 : env.innerHeight ≤ 2 ^ 1024)
    (hx0 : 0 ≤ e.clientX) (hx1 : e.clientX ≤ env.innerWidth)
    (hy0 : 0 ≤ e.clientY) (hy1 : e.clientY ≤ env.innerHeight)
    (hm : JSNum.or env.mouseMultProp (Dbl.lit 0.5) = fin m) (hm1 : |m| ≤ 10 ^ 300) :
    ∃ a b : ℚ, Dbl.pointerOffsets env e = (fin a, fin b) := by
  obtain ⟨a, ha⟩ := offset_finite_d e.clientX env.innerWidth m 40 hw hw2 hx0 hx1
    (by norm_num) (by norm_num) hm1
  obtain ⟨b, hb⟩ := offset_finite_d e.clientY env.innerHeight m 24 hh hh2 hy0 hy1
    (by norm_num) (by norm_num) hm1
  refine ⟨a, b, ?_⟩
  simp only [Dbl.pointerOffsets, hm]
  rw [ha, hb]

/-- C1, as stated, fails on the code.  With the property `--parallax-mouse-mult`
at `Infinity` and the pointer at the centre of a 1000 x 800 viewport `update`
derives the offsets `(NaN, NaN)` and writes "NaN% NaN%" for the top and the
bottom layer; the same with the property at the double next to `10 ^ 308`, and
in a viewport of width and height 0. -/
theorem clamp_invariant_counterexample :
    (Dbl.pointerOffsets (pageWithMouseMult 1000 800 2800 0 JSNum.posInf) ⟨500, 400⟩
        = (JSNum.nan, JSNum.nan) ∧
      Dbl.styleValue "--bg-top-pos"
        (Dbl.run (Dbl.start (pageWithMouseMult 1000 800 2800 0 JSNum.posInf) [])
          [(pageWithMouseMult 1000 800 2800 0 JSNum.posInf, Event.mousemove ⟨500, 400⟩),
           (pageWithMouseMult 1000 800 2800 0 JSNum.posInf, Event.frame)])
        = some "NaN% NaN%" ∧
      Dbl.styleValue "--bg-bottom-pos"
        (Dbl.run (Dbl.start (pageWithMouseMult 1000 800 2800 0 JSNum.posInf) [])
          [(pageWithMouseMult 1000 800 2800 0 JSNum.posInf, Event.mousemove ⟨500, 400⟩),
           (pageWithMouseMult 1000 800 2800 0 JSNum.posInf, Event.frame)])
        = some "NaN% NaN%" ∧
      ¬ (Dbl.positions (pageWithMouseMult 1000 800 2800 0 JSNum.posInf) (fin 0)
          JSNum.nan JSNum.nan).Clamped) ∧
    (Dbl.lit (10 ^ 308) ≠ JSNum.posInf ∧
      Dbl.pointerOffsets (pageWithMouseMult 1000 800 2800 0 (Dbl.lit (10 ^ 308))) ⟨500, 400⟩
        = (JSNum.nan, JSNum.nan) ∧
      Dbl.styleValue "--bg-top-pos"
        (Dbl.run (Dbl.start (pageWithMouseMult 1000 800 2800 0 (Dbl.lit (10 ^ 308))) [])
          [(pageWithMouseMult 1000 800 2800 0 (Dbl.lit (10 ^ 308)), Event.mousemove ⟨500, 400⟩),
           (pageWithMouseMult 1000 800 2800 0 (Dbl.lit (10 ^ 308)), Event.frame)])
        = some "NaN% NaN%") ∧
    (Dbl.pointerOffsets (page 0 0 2800 0) ⟨0, 0⟩ = (JSNum.nan, JSNum.nan) ∧
      Dbl.styleValue "--bg-top-pos"
        (Dbl.run (Dbl.start (page 0 0 2800 0) [])
          [(page 0 0 2800 0, Event.mousemove ⟨0, 0⟩), (page 0 0 2800 0, Event.frame)])
        = some "NaN% NaN%") := by
  refine ⟨⟨by decide!, by decide!, by decide!, ?_⟩, ⟨by decide!, by decide!, by decide!⟩,
    ⟨by decide!, by decide!⟩⟩
  intro h
  have h1 := h.1
  have e1 : (Dbl.positions (pageWithMouseMult 1000 800 2800 0 JSNum.posInf) (fin 0)
      JSNum.nan JSNum.nan).topX = JSNum.nan := by decide!
  rw [e1] at h1
  exact h1

theorem update_writes_d (env : Env) (s : Dbl.State) (e : Pointer) :
    Dbl.WritesTopBottom
      (Dbl.positions env s.smoothScroll (Dbl.pointerOffsets env e).1 (Dbl.pointerOffsets env e).2)
      s (Dbl.update env { s with lastEvent := some e }) := by
  have h := applyTransforms_writes_d env (Dbl.pointerOffsets env e).1 (Dbl.pointerOffsets env e).2
    { s with rafId := none, lastEvent := some e }
  simpa [Dbl.WritesTopBottom, Dbl.update, Dbl.styleValue, applyTransforms_style_d] using h

/-- C1, amended (clamp invariant on doubles).  For every viewport size,
document height and `smoothScroll` that is a number: whenever neither pixel
offset is `NaN`, the top position computed by `applyTransforms` lies in `[10,90]
x [5,50]`, the bottom one in `[10,90] x [50,95]`, and these are the positions
written.  In a viewport of positive width and height, for every pointer position
in it (`0 <= clientX <= innerWidth`, `0 <= clientY <= innerHeight`) and a
multiplier of magnitude at most `10 ^ 300`, the offsets `update` derives are such
numbers, so what `update` writes is clamped. -/
theorem applyTransforms_clamp_invariant (env : Env) (s : Dbl.State) (a : ℚ)
    (hs : s.smoothScroll = fin a) :
    (∀ mx my : JSNum, mx ≠ JSNum.nan → my ≠ JSNum.nan →
      (Dbl.positions env s.smoothScroll mx my).Clamped ∧
      Dbl.WritesTopBottom (Dbl.positions env s.smoothScroll mx my) s
        (Dbl.applyTransforms env mx my s)) ∧
    (∀ (e : Pointer) (m : ℚ), 0 < env.innerWidth → env.innerWidth ≤ 2 ^ 1024 →
      0 < env.innerHeight → env.innerHeight ≤ 2 ^ 1024 →
      0 ≤ e.clientX → e.clientX ≤ env.innerWidth →
      0 ≤ e.clientY → e.clientY ≤ env.innerHeight →
      JSNum.or env.mouseMultProp (Dbl.lit 0.5) = fin m → |m| ≤ 10 ^ 300 →
      (Dbl.positions env s.smoothScroll
        (Dbl.pointerOffsets env e).1 (Dbl.pointerOffsets env e).2).Clamped ∧
      Dbl.WritesTopBottom
        (Dbl.positions env s.smoothScroll (Dbl.pointerOffsets env e).1
          (Dbl.pointerOffsets env e).2)
        s (Dbl.update env { s with lastEvent := some e })) := by
  refine ⟨fun mx my hmx hmy => ⟨?_, applyTransforms_writes_d env mx my s⟩, ?_⟩
  · rw [hs]; exact positions_clamped_d env a mx my hmx hmy
  · intro e m hw hw2 hh hh2 hx0 hx1 hy0 hy1 hm hm1
    obtain ⟨x, y, hxy⟩ := pointerOffsets_finite_d env e m hw hw2 hh hh2 hx0 hx1 hy0 hy1 hm hm1
    refine ⟨?_, update_writes_d env s e⟩
    rw [hs]
    exact positions_clamped_d env a _ _ (by simp [hxy]) (by simp [hxy])

/-! ## Claims about the mirror and the order of the layers -/

theorem toDouble_hundred : toDouble 100 = fin 100 := by
  have := toDouble_int 100 (by norm_num)
  norm_num at this
  exact this

/-- The top and bottom `x` on doubles, for a pixel offset that is a number. -/
theorem mirror_positions_d (env : Env) (smooth mx my : JSNum) (hmx : mx ≠ JSNum.nan) :
    ∃ px tx bx : ℚ,
      (Dbl.positions env smooth mx my).mousePctX = fin px ∧
      (Dbl.positions env smooth mx my).topX = fin tx ∧
      (Dbl.positions env smooth mx my).bottomX = fin bx ∧
      Dbl.add (fin 50) (fin px) = fin tx ∧ Dbl.sub (fin 50) (fin px) = fin bx ∧
      (-6 ≤ px ∧ px ≤ 6) ∧
      |tx - (50 + px)| ≤ 1 / 10 ^ 14 ∧
      tx + bx = 100 ∧
      (44 ≤ tx ∧ tx ≤ 56) ∧ (44 ≤ bx ∧ bx ≤ 56) ∧
      Dbl.add (Dbl.positions env smooth mx my).topX (Dbl.positions env smooth mx my).bottomX
        = fin 100 := by
  obtain ⟨px, hpx, hx1, hx2⟩ := mousePct_finite_d mx env.innerWidth
    (1080863910568919 / 18014398509481984) 6 (by norm_num) (by norm_num) hmx
  have hpx' : (Dbl.positions env smooth mx my).mousePctX = fin px := by
    simp only [Dbl.positions, lit_006]
    exact hpx
  obtain ⟨t, b, ht, hb, hsum, t1, t2, b1, b2, hte⟩ := mirror_d px (abs_le.mpr ⟨hx1, hx2⟩)
  have htx : (Dbl.positions env smooth mx my).topX = fin t := by
    show clamp (Dbl.add (fin 50) (Dbl.positions env smooth mx my).mousePctX) (fin 10) (fin 90) = _
    rw [hpx', ht, clamp_fin, clampQ, min_eq_right (by linarith), max_eq_right (by linarith)]
  have hbx : (Dbl.positions env smooth mx my).bottomX = fin b := by
    show clamp (Dbl.sub (fin 50) (Dbl.positions env smooth mx my).mousePctX) (fin 10) (fin 90) = _
    rw [hpx', hb, clamp_fin, clampQ, min_eq_right (by linarith), max_eq_right (by linarith)]
  refine ⟨px, t, b, hpx', htx, hbx, ht, hb, ⟨hx1, hx2⟩, hte, hsum, ⟨t1, t2⟩, ⟨b1, b2⟩, ?_⟩
  rw [htx, hbx]
  simp only [Dbl.add, fin_add_fin, JSNum.rd, hsum, toDouble_hundred]

/-- C22, as stated, fails on the code: a pixel offset need not be a number.
With the property `--parallax-mouse-mult` at `Infinity` and the pointer at the
centre of a 1000 x 800 viewport `update` passes the offsets `(NaN, NaN)`; the
top and the bottom `x` are `NaN` then, and so is their sum. -/
theorem horizontal_mirror_counterexample :
    Dbl.pointerOffsets (pageWithMouseMult 1000 800 2800 0 JSNum.posInf) ⟨500, 400⟩
      = (JSNum.nan, JSNum.nan) ∧
    (Dbl.positions (pageWithMouseMult 1000 800 2800 0 JSNum.posInf) (fin 0)
      JSNum.nan JSNum.nan).topX = JSNum.nan ∧
    (Dbl.positions (pageWithMouseMult 1000 800 2800 0 JSNum.posInf) (fin 0)
      JSNum.nan JSNum.nan).bottomX = JSNum.nan ∧
    Dbl.add
      (Dbl.positions (pageWithMouseMult 1000 800 2800 0 JSNum.posInf) (fin 0)
        JSNum.nan JSNum.nan).topX
      (Dbl.positions (pageWithMouseMult 1000 800 2800 0 JSNum.posInf) (fin 0)
        JSNum.nan JSNum.nan).bottomX = JSNum.nan ∧
    Dbl.add
      (Dbl.positions (pageWithMouseMult 1000 800 2800 0 JSNum.posInf) (fin 0)
        JSNum.nan JSNum.nan).topX
      (Dbl.positions (pageWithMouseMult 1000 800 2800 0 JSNum.posInf) (fin 0)
        JSNum.nan JSNum.nan).bottomX ≠ fin 100 := by
  refine ⟨by decide!, by decide!, by decide!, by decide!, by decide!⟩

/-- C22, amended (horizontal mirror on doubles).  For every viewport width,
scroll value and pixel offset `mx` that is a number, the top and bottom `x`
computed by `applyTransforms` are the doubles `50 + mousePctX` and `50 -
mousePctX`: the `[10, 90]` clamp is never active (both lie in `[44, 56]`), and
their sum is exactly 100, as rationals and as computed on doubles. -/
theorem horizontal_mirror (env : Env) (smooth mx my : JSNum) (hmx : mx ≠ JSNum.nan) :
    ∃ px tx bx : ℚ,
      (Dbl.positions env smooth mx my).mousePctX = fin px ∧
      (Dbl.positions env smooth mx my).topX = fin tx ∧
      (Dbl.positions env smooth mx my).bottomX = fin bx ∧
      Dbl.add (fin 50) (fin px) = fin tx ∧ Dbl.sub (fin 50) (fin px) = fin bx ∧
      (-6 ≤ px ∧ px ≤ 6) ∧
      |tx - (50 + px)| ≤ 1 / 10 ^ 14 ∧
      tx + bx = 100 ∧
      (44 ≤ tx ∧ tx ≤ 56) ∧ (44 ≤ bx ∧ bx ≤ 56) ∧
      Dbl.add (Dbl.positions env smooth mx my).topX (Dbl.positions env smooth mx my).bottomX
        = fin 100 :=
  mirror_positions_d env smooth mx my hmx

/-- The displacements of two neighbouring extra layers on doubles. -/
theorem layers_move_d (env : Env) (a : ℚ) (mx my : JSNum) (ha : |a| ≤ 10 ^ 9)
    (hmx : mx ≠ JSNum.nan) (hmy : my ≠ JSNum.nan) (k : ℕ) (h3 : 3 ≤ k) (h9 : k ≤ 9) :
    ∃ x y x1 y1 : ℚ,
      (Dbl.positions env (fin a) mx my).layerX k = fin x ∧
      (Dbl.positions env (fin a) mx my).layerY k = fin y ∧
      (Dbl.positions env (fin a) mx my).layerX (k + 1) = fin x1 ∧
      (Dbl.positions env (fin a) mx my).layerY (k + 1) = fin y1 ∧
      |x1 - 50| ≤ |x - 50| + 2 / 10 ^ 14 ∧
      |y1 - layerBase (k + 1)| ≤ |y - layerBase k| + 2 / 10 ^ 5 ∧
      0 < layerMul (k + 1) ∧ layerMul (k + 1) < layerMul k := by
  obtain ⟨px, py, p, x, y, hpx, hpy, hp, hx, hy, hxe, hye⟩ :=
    layers_d env a mx my hmx hmy ha k h3 (by omega)
  obtain ⟨px', py', p', x1, y1, hpx1, hpy1, hp1, hx1, hy1, hxe1, hye1⟩ :=
    layers_d env a mx my hmx hmy ha (k + 1) (by omega) (by omega)
  have e1 : px' = px := JSNum.fin.inj (hpx1.symm.trans hpx)
  have e2 : py' = py := JSNum.fin.inj (hpy1.symm.trans hpy)
  have e3 : p' = p := JSNum.fin.inj (hp1.symm.trans hp)
  subst e1 e2 e3
  obtain ⟨hm0, hm1⟩ := layerMul_decreasing k h3 h9
  refine ⟨x, y, x1, y1, hx, hy, hx1, hy1, ?_, ?_, hm0, hm1⟩
  · have hmono := abs_mul_le_of_le px' _ _ (le_of_lt hm0) (le_of_lt hm1)
    have t1 : |x1 - 50| ≤ |x1 - (50 + px' * layerMul (k + 1))| + |px' * layerMul (k + 1)| := by
      have := abs_add (x1 - (50 + px' * layerMul (k + 1))) (px' * layerMul (k + 1))
      have e : x1 - (50 + px' * layerMul (k + 1)) + px' * layerMul (k + 1) = x1 - 50 := by ring
      rwa [e] at this
    have t2 : |px' * layerMul k| ≤ |x - 50| + |x - (50 + px' * layerMul k)| := by
      have := abs_sub (x - 50) (x - (50 + px' * layerMul k))
      have e : x - 50 - (x - (50 + px' * layerMul k)) = px' * layerMul k := by ring
      rwa [e] at this
    linarith
  · have hmono := abs_mul_le_of_le (-12 * p' + py') _ _ (le_of_lt hm0) (le_of_lt hm1)
    have t1 : |y1 - layerBase (k + 1)|
        ≤ |y1 - (layerBase (k + 1) + -12 * p' * layerMul (k + 1) + py' * layerMul (k + 1))|
          + |(-12 * p' + py') * layerMul (k + 1)| := by
      have := abs_add
        (y1 - (layerBase (k + 1) + -12 * p' * layerMul (k + 1) + py' * layerMul (k + 1)))
        ((-12 * p' + py') * layerMul (k + 1))
      have e : y1 - (layerBase (k + 1) + -12 * p' * layerMul (k + 1) + py' * layerMul (k + 1))
          + (-12 * p' + py') * layerMul (k + 1) = y1 - layerBase (k + 1) := by ring
      rwa [e] at this
    have t2 : |(-12 * p' + py') * layerMul k|
        ≤ |y - layerBase k|
          + |y - (layerBase k + -12 * p' * layerMul k + py' * layerMul k)| := by
      have := abs_sub (y - layerBase k)
        (y - (layerBase k + -12 * p' * layerMul k + py' * layerMul k))
      have e : y - layerBase k - (y - (layerBase k + -12 * p' * layerMul k + py' * layerMul k))
          = (-12 * p' + py') * layerMul k := by ring
      rwa [e] at this
    linarith

/-- The displacements of two neighbouring extra layers on doubles. -/
theorem layers_order_d (env : Env) (a : ℚ) (mx my : JSNum) (ha : |a| ≤ 10 ^ 9)
    (hmx : mx ≠ JSNum.nan) (hmy : my ≠ JSNum.nan) (k : ℕ) (h3 : 3 ≤ k) (h9 : k ≤ 9) :
    ∃ x y x1 y1 c c1 : ℚ,
      (Dbl.positions env (fin a) mx my).layerX k = fin x ∧
      (Dbl.positions env (fin a) mx my).layerY k = fin y ∧
      (Dbl.positions env (fin a) mx my).layerX (k + 1) = fin x1 ∧
      (Dbl.positions env (fin a) mx my).layerY (k + 1) = fin y1 ∧
      |x1 - 50| ≤ |x - 50| ∧
      |y1 - layerBase (k + 1)| ≤ |y - layerBase k| + 2 / 10 ^ 5 ∧
      (∀ p : ℚ, (Dbl.positions env (fin a) mx my).pct = fin p → 0 ≤ p → p ≤ 1 →
        |y1 - layerBase (k + 1)| ≤ |y - layerBase k| + 1 / 10 ^ 13) ∧
      (Dbl.lit (layerMul k) = fin c ∧ Dbl.lit (layerMul (k + 1)) = fin c1 ∧ 0 < c1 ∧ c1 < c) ∧
      (0 < layerMul (k + 1) ∧ layerMul (k + 1) < layerMul k) := by
  obtain ⟨x, y, x1, y1, hx, hy, hx1, hy1, -, hyt, hm0, hm1⟩ :=
    layers_move_d env a mx my ha hmx hmy k h3 h9
  obtain ⟨c, c1, hc, hc1, c0, cc, cle⟩ := lit_layerMul_order k h3 h9
  obtain ⟨px, py, hpx, hpy, ⟨hx1', hx2'⟩, ⟨hy1', hy2'⟩⟩ := mousePct_d env a mx my hmx hmy
  obtain ⟨X, X1, hX, hX1, hord⟩ := layerX_order_d px c c1 (abs_le.mpr ⟨hx1', hx2'⟩)
    (le_of_lt c0) (le_of_lt cc) cle
  have eX : X = x := by
    have : (Dbl.positions env (fin a) mx my).layerX k = fin X := by
      rw [layerX_eq_d env a mx my k h3 (by omega), hpx, hc, hX]
    exact JSNum.fin.inj (this.symm.trans hx)
  have eX1 : X1 = x1 := by
    have : (Dbl.positions env (fin a) mx my).layerX (k + 1) = fin X1 := by
      rw [layerX_eq_d env a mx my (k + 1) (by omega) (by omega), hpx, hc1, hX1]
    exact JSNum.fin.inj (this.symm.trans hx1)
  subst eX eX1
  refine ⟨X, y, X1, y1, c, c1, hx, hy, hx1, hy1, hord, hyt, ?_, ⟨hc, hc1, c0, cc⟩, hm0, hm1⟩
  intro p hp hp0 hp1
  obtain ⟨d, hd, hd0, hd1, hdμ⟩ := lit_layerMul k h3 (by omega)
  obtain ⟨d', hd', hd0', hd1', hdμ'⟩ := lit_layerMul (k + 1) (by omega) (by omega)
  obtain ⟨hb0, hb1⟩ := layerBase_range k h3 (by omega)
  obtain ⟨hb0', hb1'⟩ := layerBase_range (k + 1) (by omega) (by omega)
  have hμ : layerMul k ≤ 1 := by
    interval_cases k <;> norm_num [layerMul]
  obtain ⟨Y, hY, hYe⟩ := layerY_error_unit (layerBase k) p py d (layerMul k) hb0 hb1 hp0 hp1
    (abs_le.mpr ⟨hy1', hy2'⟩) hd0 hd1 (by linarith) hμ hdμ
  obtain ⟨Y1, hY1, hYe1⟩ := layerY_error_unit (layerBase (k + 1)) p py d' (layerMul (k + 1))
    hb0' hb1' hp0 hp1 (abs_le.mpr ⟨hy1', hy2'⟩) hd0' hd1' (le_of_lt hm0) (by linarith) hdμ'
  have eY : Y = y := by
    have : (Dbl.positions env (fin a) mx my).layerY k = fin Y := by
      rw [layerY_eq_gen env (fin a) mx my k h3 (by omega), hp, hpy, hd, hY]
    exact JSNum.fin.inj (this.symm.trans hy)
  have eY1 : Y1 = y1 := by
    have : (Dbl.positions env (fin a) mx my).layerY (k + 1) = fin Y1 := by
      rw [layerY_eq_gen env (fin a) mx my (k + 1) (by omega) (by omega), hp, hpy, hd', hY1]
    exact JSNum.fin.inj (this.symm.trans hy1)
  subst eY eY1
  have hmono := abs_mul_le_of_le (-12 * p + py) _ _ (le_of_lt hm0) (le_of_lt hm1)
  have t1 : |Y1 - layerBase (k + 1)|
      ≤ |Y1 - (layerBase (k + 1) + -12 * p * layerMul (k + 1) + py * layerMul (k + 1))|
        + |(-12 * p + py) * layerMul (k + 1)| := by
    have := abs_add
      (Y1 - (layerBase (k + 1) + -12 * p * layerMul (k + 1) + py * layerMul (k + 1)))
      ((-12 * p + py) * layerMul (k + 1))
    have e : Y1 - (layerBase (k + 1) + -12 * p * layerMul (k + 1) + py * layerMul (k + 1))
        + (-12 * p + py) * layerMul (k + 1) = Y1 - layerBase (k + 1) := by ring
    rwa [e] at this
  have t2 : |(-12 * p + py) * layerMul k|
      ≤ |Y - layerBase k|
        + |Y - (layerBase k + -12 * p * layerMul k + py * layerMul k)| := by
    have := abs_sub (Y - layerBase k)
      (Y - (layerBase k + -12 * p * layerMul k + py * layerMul k))
    have e : Y - layerBase k - (Y - (layerBase k + -12 * p * layerMul k + py * layerMul k))
        = (-12 * p + py) * layerMul k := by ring
    rwa [e] at this
  have h13 : (4 : ℚ) / 10 ^ 14 + 4 / 10 ^ 14 ≤ 1 / 10 ^ 13 := by norm_num
  linarith

/-- C26, as stated, fails on the code.  A pixel offset need not be a number:
with the offsets `(NaN, NaN)` that `update` passes when the multiplier property
is `Infinity` and the pointer at the centre of the viewport, every coordinate of
every extra layer is `NaN`.  And on doubles the displacements are ordered only
up to rounding: in a 1000 x 1024 viewport on a page of scrollable height 5000,
at `smoothScroll = 14.648437500004361` with the offsets `(0, 9)`, layer 3 is
`2 ^ (-48)` below 30 and layer 4 is `2 ^ (-47)` below 40. -/
theorem farther_layers_counterexample :
    (Dbl.pointerOffsets (pageWithMouseMult 1000 800 2800 0 JSNum.posInf) ⟨500, 400⟩
        = (JSNum.nan, JSNum.nan) ∧
      (Dbl.positions (pageWithMouseMult 1000 800 2800 0 JSNum.posInf) (fin 0)
        JSNum.nan JSNum.nan).layerX 3 = JSNum.nan ∧
      (Dbl.positions (pageWithMouseMult 1000 800 2800 0 JSNum.posInf) (fin 0)
        JSNum.nan JSNum.nan).layerX 4 = JSNum.nan ∧
      (Dbl.positions (pageWithMouseMult 1000 800 2800 0 JSNum.posInf) (fin 0)
        JSNum.nan JSNum.nan).layerY 3 = JSNum.nan ∧
      (Dbl.positions (pageWithMouseMult 1000 800 2800 0 JSNum.posInf) (fin 0)
        JSNum.nan JSNum.nan).layerY 4 = JSNum.nan) ∧
    ((Dbl.positions (page 1000 1024 6024 0) (fin (8246337208322455 / 562949953421312))
        (fin 0) (fin 9)).layerY 3 = fin (8444249301319679 / 281474976710656) ∧
      (Dbl.positions (page 1000 1024 6024 0) (fin (8246337208322455 / 562949953421312))
        (fin 0) (fin 9)).layerY 4 = fin (5629499534213119 / 140737488355328) ∧
      |(8444249301319679 / 281474976710656 : ℚ) - layerBase 3|
        < |(5629499534213119 / 140737488355328 : ℚ) - layerBase 4|) := by
  refine ⟨⟨by decide!, by decide!, by decide!, by decide!, by decide!⟩,
    ⟨by decide!, by decide!, ?_⟩⟩
  rw [abs_of_neg (by norm_num [layerBase]), abs_of_neg (by norm_num [layerBase])]
  norm_num [layerBase]

/-- C26, amended (farther layers move less, on doubles).  For a `smoothScroll`
of magnitude at most `10 ^ 9`, pixel offsets that are numbers and every `k =
3..9`: in `x` the displacement of layer `k + 1` from 50 is at most that of layer
`k`; in `y` the displacement of layer `k + 1` from its base is at most that of
layer `k` from its base up to `2 * 10 ^ (-5)`, and up to `10 ^ (-13)` when the
scroll fraction the code computes lies in `[0, 1]`; the double multiplier of
layer `k + 1` is positive and strictly smaller than that of layer `k`, as are
the decimal multipliers. -/
theorem farther_layers_move_less (env : Env) (a : ℚ) (mx my : JSNum) (ha : |a| ≤ 10 ^ 9)
    (hmx : mx ≠ JSNum.nan) (hmy : my ≠ JSNum.nan) (k : ℕ) (h3 : 3 ≤ k) (h9 : k ≤ 9) :
    ∃ x y x1 y1 c c1 : ℚ,
      (Dbl.positions env (fin a) mx my).layerX k = fin x ∧
      (Dbl.positions env (fin a) mx my).layerY k = fin y ∧
      (Dbl.positions env (fin a) mx my).layerX (k + 1) = fin x1 ∧
      (Dbl.positions env (fin a) mx my).layerY (k + 1) = fin y1 ∧
      |x1 - 50| ≤ |x - 50| ∧
      |y1 - layerBase (k + 1)| ≤ |y - layerBase k| + 2 / 10 ^ 5 ∧
      (∀ p : ℚ, (Dbl.positions env (fin a) mx my).pct = fin p → 0 ≤ p → p ≤ 1 →
        |y1 - layerBase (k + 1)| ≤ |y - layerBase k| + 1 / 10 ^ 13) ∧
      (Dbl.lit (layerMul k) = fin c ∧ Dbl.lit (layerMul (k + 1)) = fin c1 ∧ 0 < c1 ∧ c1 < c) ∧
      (0 < layerMul (k + 1) ∧ layerMul (k + 1) < layerMul k) :=
  layers_order_d env a mx my ha hmx hmy k h3 h9

/-! ## Claims about the bounds of the layers and the scroll direction -/

/-- The doubles of the layer multipliers are at most one half. -/
theorem lit_layerMul_half (k : ℕ) (h3 : 3 ≤ k) (h10 : k ≤ 10) :
    ∃ c : ℚ, Dbl.lit (layerMul k) = fin c ∧ 0 ≤ c ∧ c ≤ 1 / 2 := by
  interval_cases k
  · exact ⟨1 / 2, by decide!, by norm_num, by norm_num⟩
  · exact ⟨3152519739159347 / 9007199254740992, by decide!, by norm_num, by norm_num⟩
  · exact ⟨3602879701896397 / 18014398509481984, by decide!, by norm_num, by norm_num⟩
  · exact ⟨5404319552844595 / 36028797018963968, by decide!, by norm_num, by norm_num⟩
  · exact ⟨3602879701896397 / 36028797018963968, by decide!, by norm_num, by norm_num⟩
  · exact ⟨5764607523034235 / 72057594037927936, by decide!, by norm_num, by norm_num⟩
  · exact ⟨3602879701896397 / 72057594037927936, by decide!, by norm_num, by norm_num⟩
  · exact ⟨1080863910568919 / 36028797018963968, by decide!, by norm_num, by norm_num⟩

/-- The `x` of an extra layer on doubles lies in `[47, 53]`. -/
theorem layerX_range (px c : ℚ) (hpx : |px| ≤ 6) (hc0 : 0 ≤ c) (hc1 : c ≤ 1 / 2) :
    ∃ x : ℚ, Dbl.add (fin 50) (Dbl.mul (fin px) (fin c)) = fin x ∧ 47 ≤ x ∧ x ≤ 53 := by
  have hpc : |px * c| ≤ 3 := by
    rw [abs_mul, abs_of_nonneg hc0]
    have := mul_le_mul hpx hc1 hc0 (by norm_num : (0 : ℚ) ≤ 6)
    linarith
  obtain ⟨m, hm, hm3⟩ := toDouble_abs_le_three (px * c) hpc
  obtain ⟨m1, m2⟩ := abs_le.mp hm3
  have hx := toDouble_grid (50 + m) (by linarith) (by linarith)
  have hr1 : roundHalfEven ((50 + m) * 2 ^ 47) ≤ 7459086882832384 :=
    roundHalfEven_le _ _ (by push_cast; nlinarith)
  have hr2 : 6614661952700416 ≤ roundHalfEven ((50 + m) * 2 ^ 47) :=
    roundHalfEven_ge _ _ (by push_cast; nlinarith)
  have hr1' : ((roundHalfEven ((50 + m) * 2 ^ 47) : ℤ) : ℚ) ≤ 7459086882832384 := by
    exact_mod_cast hr1
  have hr2' : (6614661952700416 : ℚ) ≤ ((roundHalfEven ((50 + m) * 2 ^ 47) : ℤ) : ℚ) := by
    exact_mod_cast hr2
  refine ⟨(roundHalfEven ((50 + m) * 2 ^ 47) : ℚ) / 2 ^ 47, ?_, ?_, ?_⟩
  · simp only [Dbl.add, Dbl.mul, fin_mul_fin, JSNum.rd, hm, fin_add_fin]
    exact hx
  · rw [le_div_iff₀ (by positivity)]
    norm_num at hr2' ⊢
    linarith
  · rw [div_le_iff₀ (by positivity)]
    norm_num at hr1' ⊢
    linarith

/-- The extra layers on doubles stay in their ranges. -/
theorem layers_range_d (env : Env) (smooth mx my : JSNum) (hmx : mx ≠ JSNum.nan)
    (hmy : my ≠ JSNum.nan) (k : ℕ) (h3 : 3 ≤ k) (h10 : k ≤ 10) :
    ∃ x : ℚ,
      (Dbl.positions env smooth mx my).layerX k = fin x ∧ (47 ≤ x ∧ x ≤ 53) ∧
      ∀ p : ℚ, (Dbl.positions env smooth mx my).pct = fin p → 0 ≤ p → p ≤ 1 →
        ∃ y L H : ℚ,
          (Dbl.positions env smooth mx my).layerY k = fin y ∧
          toDouble (layerBase k - 16 * layerMul k) = fin L ∧
          toDouble (layerBase k + 4 * layerMul k) = fin H ∧
          (L ≤ y ∧ y ≤ H) ∧
          |L - (layerBase k - 16 * layerMul k)| ≤ 1 / 10 ^ 14 ∧
          |H - (layerBase k + 4 * layerMul k)| ≤ 1 / 10 ^ 14 ∧
          (22 ≤ y ∧ y ≤ 616782042717225 / 8796093022208) ∧ (0 ≤ y ∧ y ≤ 100) := by
  obtain ⟨px, py, hpx, hpy, ⟨hx1, hx2⟩, ⟨hy1, hy2⟩⟩ := mousePct_gen env smooth mx my hmx hmy
  obtain ⟨c, lo, hi, L, H, hc, hc0, hc1, hlo, hhi, hL, hH, hLlo, hhiH, eL, eH, h22, h70⟩ :=
    layer_corners k h3 h10
  obtain ⟨c', hc', hc0', hc1'⟩ := lit_layerMul_half k h3 h10
  have ec : c' = c := JSNum.fin.inj (hc'.symm.trans hc)
  subst ec
  obtain ⟨x, hx, hxr1, hxr2⟩ := layerX_range px c' (abs_le.mpr ⟨hx1, hx2⟩) hc0 hc1'
  obtain ⟨hb0, hb1⟩ := layerBase_range k h3 h10
  refine ⟨x, by rw [layerX_eq_gen env smooth mx my k h3 h10, hpx, hc, hx], ⟨hxr1, hxr2⟩, ?_⟩
  intro p hp hp0 hp1
  obtain ⟨y, lo', hi', hy, hlo', hhi', y1, y2⟩ :=
    layerY_between_d (layerBase k) c' p py hb0 hb1 hc0 hc1 hp0 hp1 hy1 hy2
  have e1 : lo' = lo := JSNum.fin.inj (hlo'.symm.trans hlo)
  have e2 : hi' = hi := JSNum.fin.inj (hhi'.symm.trans hhi)
  subst e1 e2
  refine ⟨y, L, H, by rw [layerY_eq_gen env smooth mx my k h3 h10, hp, hpy, hc, hy], hL, hH,
    ⟨by linarith, by linarith⟩, eL, eH, ⟨by linarith, by linarith⟩, ⟨by linarith, ?_⟩⟩
  have : (616782042717225 / 8796093022208 : ℚ) ≤ 100 := by norm_num
  linarith

/-- C29, as stated, fails on the code.  A pixel offset need not be a number:
with the offsets `(NaN, NaN)` that `update` passes when the multiplier property
is `Infinity` and the pointer at the centre of the viewport, every extra layer
is written "NaN% NaN%".  And the bounds on `y` hold only up to the rounding of
the bounds: at scroll fraction 1 with `mousePctY = -4` layer 4 is computed as
the double nearest to `34.4 = 40 - 16 * 0.35`, which is smaller than `34.4`, and
at scroll fraction 0 with `mousePctY = 4` layer 10 is computed as the double
nearest to `70.12`, which is larger than `70.12`. -/
theorem extra_layers_bounded_counterexample :
    (Dbl.pointerOffsets (pageWithMouseMult 1000 800 2800 0 JSNum.posInf) ⟨500, 400⟩
        = (JSNum.nan, JSNum.nan) ∧
      (Dbl.positions (pageWithMouseMult 1000 800 2800 0 JSNum.posInf) (fin 0)
        JSNum.nan JSNum.nan).layerX 3 = JSNum.nan ∧
      (Dbl.positions (pageWithMouseMult 1000 800 2800 0 JSNum.posInf) (fin 0)
        JSNum.nan JSNum.nan).layerY 3 = JSNum.nan ∧
      Dbl.styleValue (layerName 3)
        (Dbl.run (Dbl.start (pageWithMouseMult 1000 800 2800 0 JSNum.posInf) [])
          [(pageWithMouseMult 1000 800 2800 0 JSNum.posInf, Event.mousemove ⟨500, 400⟩),
           (pageWithMouseMult 1000 800 2800 0 JSNum.posInf, Event.frame)])
        = some "NaN% NaN%") ∧
    (pctQ (page 1000 800 5800 0) 5000 = 1 ∧
      (Dbl.positions (page 1000 800 5800 0) (fin 5000) (fin 0) (fin (-800))).mousePctY
        = fin (-4) ∧
      (Dbl.positions (page 1000 800 5800 0) (fin 5000) (fin 0) (fin (-800))).layerY 4
        = fin (4841369599423283 / 140737488355328) ∧
      (4841369599423283 / 140737488355328 : ℚ) < layerBase 4 - 16 * layerMul 4) ∧
    (pctQ (page 1000 800 5800 0) 0 = 0 ∧
      (Dbl.positions (page 1000 800 5800 0) (fin 0) (fin 0) (fin 800)).mousePctY = fin 4 ∧
      (Dbl.positions (page 1000 800 5800 0) (fin 0) (fin 0) (fin 800)).layerY 10
        = fin (616782042717225 / 8796093022208) ∧
      layerBase 10 + 4 * layerMul 10 < (616782042717225 / 8796093022208 : ℚ) ∧
      (70.12 : ℚ) < 616782042717225 / 8796093022208) := by
  refine ⟨⟨by decide!, by decide!, by decide!, by decide!⟩,
    ⟨by norm_num [pctQ, page], by decide!, by decide!, by norm_num [layerBase, layerMul]⟩,
    ⟨by norm_num [pctQ, page], by decide!, by decide!, by norm_num [layerBase, layerMul],
      by norm_num⟩⟩

/-- C29, amended (the unclamped extra layers stay bounded, on doubles).  For
pixel offsets that are numbers and every `k = 3..10`: the `x` of layer `k` lies
in `[47, 53]`, and whenever the scroll fraction `pct` the code computes lies in
`[0, 1]` its `y` lies between the doubles nearest to `base_k - 16 mul_k` and
`base_k + 4 mul_k`, each within `10 ^ (-14)` of that bound, hence between 22 and
the double nearest to `70.12`, inside `[0, 100]`.  The scroll fraction lies in
`[0, 1]` whenever `smoothScroll` lies between 0 and `docH`. -/
theorem extra_layers_bounded (env : Env) (smooth mx my : JSNum) (hmx : mx ≠ JSNum.nan)
    (hmy : my ≠ JSNum.nan) (k : ℕ) (h3 : 3 ≤ k) (h10 : k ≤ 10) :
    (∃ x : ℚ,
      (Dbl.positions env smooth mx my).layerX k = fin x ∧ (47 ≤ x ∧ x ≤ 53) ∧
      ∀ p : ℚ, (Dbl.positions env smooth mx my).pct = fin p → 0 ≤ p → p ≤ 1 →
        ∃ y L H : ℚ,
          (Dbl.positions env smooth mx my).layerY k = fin y ∧
          toDouble (layerBase k - 16 * layerMul k) = fin L ∧
          toDouble (layerBase k + 4 * layerMul k) = fin H ∧
          (L ≤ y ∧ y ≤ H) ∧
          |L - (layerBase k - 16 * layerMul k)| ≤ 1 / 10 ^ 14 ∧
          |H - (layerBase k + 4 * layerMul k)| ≤ 1 / 10 ^ 14 ∧
          (22 ≤ y ∧ y ≤ 616782042717225 / 8796093022208) ∧ (0 ≤ y ∧ y ≤ 100)) ∧
    (∀ a D : ℚ, smooth = fin a → Dbl.docH env = fin D → 0 ≤ a → a ≤ D →
      ∃ p : ℚ, (Dbl.positions env smooth mx my).pct = fin p ∧ 0 ≤ p ∧ p ≤ 1) ∧
    (Dbl.lit 70.12 = fin (616782042717225 / 8796093022208) ∧
      (616782042717225 / 8796093022208 : ℚ) ≤ 70.12 + 1 / 10 ^ 14) := by
  refine ⟨layers_range_d env smooth mx my hmx hmy k h3 h10, ?_, by decide!, by norm_num⟩
  intro a D hs hD h0 h1
  rw [hs]
  exact pct_unit_d env mx my a D hD h0 h1

/-- C23 fails on the code.  The comments of `applyTransforms` and of
`updateScroll` have the bottom layer move down as the page scrolls ("bottom
moves 0..+12%", "bottom shifts down to +12%"), opposite to the top layer.  The
code subtracts the scroll contribution: on a page of scrollable height 2000
with pointer offset `(0, 0)` the bottom `y` goes from 80 at the top of the page
to 74 at scroll fraction 0.5 and 68 at the bottom of the page, as the top `y`
goes from 20 to 14 and 8; the comments give 86 and 92 for the bottom layer. -/
theorem bottom_moves_up_with_scroll :
    (pctQ (page 1000 800 2800 0) 0 = 0 ∧ pctQ (page 1000 800 2800 0) 1000 = 1 / 2 ∧
      pctQ (page 1000 800 2800 0) 2000 = 1) ∧
    ((Dbl.positions (page 1000 800 2800 0) (fin 0) (fin 0) (fin 0)).topY = fin 20 ∧
      (Dbl.positions (page 1000 800 2800 0) (fin 1000) (fin 0) (fin 0)).topY = fin 14 ∧
      (Dbl.positions (page 1000 800 2800 0) (fin 2000) (fin 0) (fin 0)).topY = fin 8) ∧
    ((Dbl.positions (page 1000 800 2800 0) (fin 0) (fin 0) (fin 0)).bottomY = fin 80 ∧
      (Dbl.positions (page 1000 800 2800 0) (fin 1000) (fin 0) (fin 0)).bottomY = fin 74 ∧
      (Dbl.positions (page 1000 800 2800 0) (fin 2000) (fin 0) (fin 0)).bottomY = fin 68) ∧
    ((positions (page 1000 800 2800 0) 0 (fin 0) (fin 0)).bottomY = fin 80 ∧
      (positions (page 1000 800 2800 0) 1000 (fin 0) (fin 0)).bottomY = fin 74 ∧
      (positions (page 1000 800 2800 0) 2000 (fin 0) (fin 0)).bottomY = fin 68) ∧
    ((74 : ℚ) < 80 ∧ (68 : ℚ) < 74 ∧ (74 : ℚ) ≠ 80 + 12 * (1 / 2) ∧ (68 : ℚ) ≠ 80 + 12 * 1) ∧
    (Dbl.styleValue "--bg-bottom-pos"
        (Dbl.run (Dbl.start (page 1000 800 2800 1000) [])
          [(page 1000 800 2800 1000, Event.scroll), (page 1000 800 2800 1000, Event.frame)])
      = some "50.00% 74.00%") := by
  refine ⟨⟨by norm_num [pctQ, page], by norm_num [pctQ, page], by norm_num [pctQ, page]⟩,
    ⟨by decide!, by decide!, by decide!⟩, ⟨by decide!, by decide!, by decide!⟩,
    ⟨by decide!, by decide!, by decide!⟩, ⟨by norm_num, by norm_num, by norm_num, by norm_num⟩,
    by decide!⟩

/-! ## Instances at concrete inputs -/

/-- C2 at a concrete input: the page as loaded at scroll offset 0. -/
theorem applyTransforms_at_rest_witness :
    (start (page 1000 800 2800 0) []).smoothScroll = 0 ∧
    styleValue "--bg-top-pos" (applyTransforms (page 1000 800 2800 0) (fin 0) (fin 0)
      (start (page 1000 800 2800 0) [])) = some "50.00% 20.00%" ∧
    styleValue "--bg-bottom-pos" (applyTransforms (page 1000 800 2800 0) (fin 0) (fin 0)
      (start (page 1000 800 2800 0) [])) = some "50.00% 80.00%" :=
  ⟨by decide!,
    (applyTransforms_at_rest (page 1000 800 2800 0) (start (page 1000 800 2800 0) [])
      (by decide!)).2.2⟩

/-- C3 amended, at a concrete input: the page loaded at its maximum scroll
offset 2000. -/
theorem applyTransforms_at_max_scroll_witness :
    (1 : ℚ) ≤ (page 1000 800 2800 2000).scrollHeight - (page 1000 800 2800 2000).innerHeight ∧
    (start (page 1000 800 2800 2000) []).smoothScroll
      = (page 1000 800 2800 2000).scrollHeight - (page 1000 800 2800 2000).innerHeight ∧
    styleValue "--bg-top-pos" (applyTransforms (page 1000 800 2800 2000) (fin 0) (fin 0)
      (start (page 1000 800 2800 2000) [])) = some "50.00% 8.00%" ∧
    styleValue "--bg-bottom-pos" (applyTransforms (page 1000 800 2800 2000) (fin 0) (fin 0)
      (start (page 1000 800 2800 2000) [])) = some "50.00% 68.00%" :=
  ⟨by decide!, by decide!,
    (applyTransforms_at_max_scroll (page 1000 800 2800 2000)
      (start (page 1000 800 2800 2000) []) (by decide!) (by decide!)).2.2.2.2⟩

/-- C8 at a concrete input: three layers, viewport height 800, scroll offset
1700: the index is `floor(1700 / 800) = 2`. -/
theorem updateActiveLayer_index_witness :
    (0 : ℚ) < (page 1000 800 2800 1700).innerHeight ∧
    1 ≤ (blank [["bg-layer"], ["bg-layer"], ["bg-layer"]]).layers.length ∧
    (updateActiveLayer (page 1000 800 2800 1700)
      (blank [["bg-layer"], ["bg-layer"], ["bg-layer"]])).activeIndex = fin 2 ∧
    ∃ k : ℕ, (updateActiveLayer (page 1000 800 2800 1700)
        (blank [["bg-layer"], ["bg-layer"], ["bg-layer"]])).activeIndex = fin k ∧
      (k : ℤ) = max 0 (min
        (((blank [["bg-layer"], ["bg-layer"], ["bg-layer"]]).layers.length : ℤ) - 1)
        ⌊(page 1000 800 2800 1700).scrollY / (page 1000 800 2800 1700).innerHeight⌋) ∧
      0 ≤ k ∧ k ≤ (blank [["bg-layer"], ["bg-layer"], ["bg-layer"]]).layers.length - 1 :=
  ⟨by decide!, by decide, by decide!,
    updateActiveLayer_index (page 1000 800 2800 1700)
      (blank [["bg-layer"], ["bg-layer"], ["bg-layer"]]) (by decide!) (by decide)⟩

/-- C10 at a concrete input: three layers of which the first carries `active`
before the script runs, viewport height 800, scroll offset 1700: after start-up
only the third layer carries it. -/
theorem exactly_one_active_layer_witness :
    (page 1000 800 2800 1700).prefersReduced = false ∧
    (0 : ℚ) < (page 1000 800 2800 1700).innerHeight ∧
    (start (page 1000 800 2800 1700)
      [["bg-layer", "active"], ["bg-layer"], ["bg-layer"]]).layers
      = [["bg-layer"], ["bg-layer"], ["bg-layer", "active"]] ∧
    (start (page 1000 800 2800 1700)
      [["bg-layer", "active"], ["bg-layer"], ["bg-layer"]]).activeIndex = fin 2 ∧
    ActiveInv (start (page 1000 800 2800 1700)
      [["bg-layer", "active"], ["bg-layer"], ["bg-layer"]]) :=
  ⟨rfl, by decide!, by decide!, by decide!,
    (exactly_one_active_layer (page 1000 800 2800 1700)
      [["bg-layer", "active"], ["bg-layer"], ["bg-layer"]] rfl (by decide!) (by decide)).1⟩

/-- C11 at a concrete input: a user who prefers reduced motion moves the
pointer and scrolls, and a frame passes. -/
theorem reduced_motion_inert_witness :
    (reducedPage 1000 800 2800 0).prefersReduced = true ∧
    run (start (reducedPage 1000 800 2800 0) [["bg-layer", "active"], ["bg-layer"]])
      [(reducedPage 1000 800 2800 0, Event.mousemove ⟨900, 100⟩),
       (reducedPage 1000 800 2800 1000, Event.scroll),
       (reducedPage 1000 800 2800 1000, Event.frame)]
      = blank [["bg-layer", "active"], ["bg-layer"]] ∧
    (run (start (reducedPage 1000 800 2800 0) [["bg-layer", "active"], ["bg-layer"]])
      [(reducedPage 1000 800 2800 0, Event.mousemove ⟨900, 100⟩),
       (reducedPage 1000 800 2800 1000, Event.scroll),
       (reducedPage 1000 800 2800 1000, Event.frame)]).style = [] :=
  ⟨rfl,
    (reduced_motion_inert (reducedPage 1000 800 2800 0) [["bg-layer", "active"], ["bg-layer"]]
      rfl _).2.1,
    (reduced_motion_inert (reducedPage 1000 800 2800 0) [["bg-layer", "active"], ["bg-layer"]]
      rfl _).2.2.2.2.2.1⟩

/-- C18 at a concrete input: three pointer events before one frame; the frame
writes the positions of the third, `(900, 100)`. -/
theorem latest_event_wins_witness :
    written (burst ([⟨10, 20⟩, ⟨500, 400⟩] ++ [⟨900, 100⟩]) (start (page 1000 800 2800 0) []))
        (update (page 1000 800 2800 0)
          (burst ([⟨10, 20⟩, ⟨500, 400⟩] ++ [⟨900, 100⟩]) (start (page 1000 800 2800 0) [])))
      = transformWrites (positions (page 1000 800 2800 0)
          (start (page 1000 800 2800 0) []).smoothScroll
          (pointerOffsets (page 1000 800 2800 0) ⟨900, 100⟩).1
          (pointerOffsets (page 1000 800 2800 0) ⟨900, 100⟩).2) ∧
    (run (start (page 1000 800 2800 0) [])
      [(page 1000 800 2800 0, Event.mousemove ⟨10, 20⟩),
       (page 1000 800 2800 0, Event.mousemove ⟨500, 400⟩),
       (page 1000 800 2800 0, Event.mousemove ⟨900, 100⟩),
       (page 1000 800 2800 0, Event.frame)]).style
      = (run (start (page 1000 800 2800 0) [])
      [(page 1000 800 2800 0, Event.mousemove ⟨900, 100⟩),
       (page 1000 800 2800 0, Event.frame)]).style ∧
    styleValue "--bg-top-pos" (run (start (page 1000 800 2800 0) [])
      [(page 1000 800 2800 0, Event.mousemove ⟨10, 20⟩),
       (page 1000 800 2800 0, Event.mousemove ⟨500, 400⟩),
       (page 1000 800 2800 0, Event.mousemove ⟨900, 100⟩),
       (page 1000 800 2800 0, Event.frame)]) = some "50.05% 19.98%" :=
  ⟨(latest_event_wins (page 1000 800 2800 0) (start (page 1000 800 2800 0) [])
      [⟨10, 20⟩, ⟨500, 400⟩] ⟨900, 100⟩).2.1, by decide!, by decide!⟩

/-- C19 at a concrete input: the page as loaded stores no event; `update`
writes nothing there. -/
theorem update_consumes_once_witness :
    (start (page 1000 800 2800 0) []).lastEvent = none ∧
    written (start (page 1000 800 2800 0) [])
      (update (page 1000 800 2800 0) (start (page 1000 800 2800 0) [])) = [] :=
  ⟨by decide!,
    ((update_consumes_once (page 1000 800 2800 0) (start (page 1000 800 2800 0) [])).2.1
      (by decide!)).2⟩

/-- C25 at a concrete input: after a scroll from 0 to 1000 on a page of
scrollable height 2000 the first smoothing step gives `smoothScroll = 120`. -/
theorem scroll_fraction_range_witness :
    (1 : ℚ) ≤ (page 1000 800 2800 1000).scrollHeight - (page 1000 800 2800 1000).innerHeight ∧
    (updateScroll (page 1000 800 2800 1000) (run (start (page 1000 800 2800 0) [])
      [(page 1000 800 2800 1000, Event.scroll)])).smoothScroll = 120 ∧
    (0 ≤ (updateScroll (page 1000 800 2800 1000) (run (start (page 1000 800 2800 0) [])
        [(page 1000 800 2800 1000, Event.scroll)])).smoothScroll ∧
      (updateScroll (page 1000 800 2800 1000) (run (start (page 1000 800 2800 0) [])
        [(page 1000 800 2800 1000, Event.scroll)])).smoothScroll
      ≤ (page 1000 800 2800 1000).scrollHeight - (page 1000 800 2800 1000).innerHeight) :=
  ⟨by decide!, by decide!,
    (scroll_fraction_range (page 1000 800 2800 1000)
      (run (start (page 1000 800 2800 0) []) [(page 1000 800 2800 1000, Event.scroll)])
      (by decide!) (by decide!) (by decide!) (by decide!) (by decide!)).2.1⟩

/-- C28 at a concrete input: the pointer at `(900, 100)` in a 1000 x 800
viewport gives `mousePctX = 0.048` and `mousePctY = -0.02`. -/
theorem pointer_contribution_small_witness :
    ((1 : ℚ) ≤ (page 1000 800 2800 0).innerWidth ∧
      (1 : ℚ) ≤ (page 1000 800 2800 0).innerHeight ∧
      mouseMult (page 1000 800 2800 0) = fin 0.5) ∧
    (positions (page 1000 800 2800 0) 0 (pointerOffsets (page 1000 800 2800 0) ⟨900, 100⟩).1
      (pointerOffsets (page 1000 800 2800 0) ⟨900, 100⟩).2).mousePctX = fin 0.048 ∧
    (positions (page 1000 800 2800 0) 0 (pointerOffsets (page 1000 800 2800 0) ⟨900, 100⟩).1
      (pointerOffsets (page 1000 800 2800 0) ⟨900, 100⟩).2).mousePctY = fin (-0.02) ∧
    ∃ (a b : ℤ) (px py : ℚ),
      pointerOffsets (page 1000 800 2800 0) ⟨900, 100⟩ = (fin a, fin b) ∧
      px = a / (page 1000 800 2800 0).innerWidth * 100 * 0.06 ∧
      py = b / (page 1000 800 2800 0).innerHeight * 100 * 0.04 ∧
      (positions (page 1000 800 2800 0) 0 (pointerOffsets (page 1000 800 2800 0) ⟨900, 100⟩).1
        (pointerOffsets (page 1000 800 2800 0) ⟨900, 100⟩).2).mousePctX = fin px ∧
      (positions (page 1000 800 2800 0) 0 (pointerOffsets (page 1000 800 2800 0) ⟨900, 100⟩).1
        (pointerOffsets (page 1000 800 2800 0) ⟨900, 100⟩).2).mousePctY = fin py ∧
      |px| ≤ 0.18 ∧ |py| ≤ 0.12 ∧
      (positions (page 1000 800 2800 0) 0 (pointerOffsets (page 1000 800 2800 0) ⟨900, 100⟩).1
        (pointerOffsets (page 1000 800 2800 0) ⟨900, 100⟩).2).topX = fin (50 + px) ∧
      (positions (page 1000 800 2800 0) 0 (pointerOffsets (page 1000 800 2800 0) ⟨900, 100⟩).1
        (pointerOffsets (page 1000 800 2800 0) ⟨900, 100⟩).2).bottomX = fin (50 - px) ∧
      (49.82 ≤ 50 + px ∧ 50 + px ≤ 50.18) ∧ (49.82 ≤ 50 - px ∧ 50 - px ≤ 50.18) :=
  ⟨⟨by decide!, by decide!, by decide!⟩, by decide!, by decide!,
    pointer_contribution_small (page 1000 800 2800 0) 0 ⟨900, 100⟩ (by decide!) (by decide!)
      (by decide!) (by decide!) (by decide!) (by decide!) (by decide!)⟩

/-- C30 at a concrete input: after a pointer move `update` is pending and the
event is stored; the frame that follows does not take the early return. -/
theorem update_guard_unreachable_witness :
    0 < pendingCount Callback.update (run (start (page 1000 800 2800 0) [])
      [(page 1000 800 2800 0, Event.mousemove ⟨900, 100⟩)]) ∧
    (run (start (page 1000 800 2800 0) [])
      [(page 1000 800 2800 0, Event.mousemove ⟨900, 100⟩)]).lastEvent ≠ none ∧
    hitsGuard (run (start (page 1000 800 2800 0) [])
      [(page 1000 800 2800 0, Event.mousemove ⟨900, 100⟩)])
      (page 1000 800 2800 0, Event.frame) = false :=
  ⟨by decide!,
    (update_guard_unreachable.1 (page 1000 800 2800 0) []
      [(page 1000 800 2800 0, Event.mousemove ⟨900, 100⟩)]).1 (by decide!),
    (update_guard_unreachable.1 (page 1000 800 2800 0) []
      [(page 1000 800 2800 0, Event.mousemove ⟨900, 100⟩)]).2 _⟩

/-- C5 amended, at a concrete input: the page loaded at scroll offset 0 and
scrolled to 1000; the first call of `updateScroll` brings `smoothScroll` to 120. -/
theorem smoothing_contraction_witness :
    (Dbl.onScroll (page 1000 800 2800 1000) (Dbl.start (page 1000 800 2800 0) [])).smoothScroll
      = fin 0 ∧
    |(0 : ℚ)| ≤ 10 ^ 9 ∧
    |(Dbl.onScroll (page 1000 800 2800 1000)
      (Dbl.start (page 1000 800 2800 0) [])).targetScroll| ≤ 10 ^ 9 ∧
    (Dbl.updateScroll (page 1000 800 2800 1000)
        (Dbl.onScroll (page 1000 800 2800 1000) (Dbl.start (page 1000 800 2800 0) []))).smoothScroll
      = fin 120 ∧
    ∃ a' : ℚ,
      (Dbl.updateScroll (page 1000 800 2800 1000)
        (Dbl.onScroll (page 1000 800 2800 1000)
          (Dbl.start (page 1000 800 2800 0) []))).smoothScroll = fin a' ∧
      (Dbl.updateScroll (page 1000 800 2800 1000)
        (Dbl.onScroll (page 1000 800 2800 1000)
          (Dbl.start (page 1000 800 2800 0) []))).targetScroll
        = (Dbl.onScroll (page 1000 800 2800 1000)
            (Dbl.start (page 1000 800 2800 0) [])).targetScroll ∧
      |abs ((Dbl.onScroll (page 1000 800 2800 1000)
            (Dbl.start (page 1000 800 2800 0) [])).targetScroll - a')
          - 0.88 * abs ((Dbl.onScroll (page 1000 800 2800 1000)
            (Dbl.start (page 1000 800 2800 0) [])).targetScroll - 0)| ≤ 1 / 10 ^ 6 ∧
      (1 / 10 ^ 5 < |(Dbl.onScroll (page 1000 800 2800 1000)
            (Dbl.start (page 1000 800 2800 0) [])).targetScroll - 0| →
        |(Dbl.onScroll (page 1000 800 2800 1000)
            (Dbl.start (page 1000 800 2800 0) [])).targetScroll - a'|
          < |(Dbl.onScroll (page 1000 800 2800 1000)
            (Dbl.start (page 1000 800 2800 0) [])).targetScroll - 0|) := by
  have hs : (Dbl.onScroll (page 1000 800 2800 1000)
      (Dbl.start (page 1000 800 2800 0) [])).smoothScroll = fin 0 := by decide!
  have ht : (Dbl.onScroll (page 1000 800 2800 1000)
      (Dbl.start (page 1000 800 2800 0) [])).targetScroll = 1000 := by decide!
  have ha : |(0 : ℚ)| ≤ 10 ^ 9 := by norm_num
  have hT : |(Dbl.onScroll (page 1000 800 2800 1000)
      (Dbl.start (page 1000 800 2800 0) [])).targetScroll| ≤ 10 ^ 9 := by
    rw [ht]; norm_num
  exact ⟨hs, ha, hT, by decide!,
    (smoothing_contraction (page 1000 800 2800 1000)
      (Dbl.onScroll (page 1000 800 2800 1000) (Dbl.start (page 1000 800 2800 0) [])) 0
      hs ha hT).2.1⟩

/-- C6 amended, at a concrete input: the page loaded at scroll offset 0 and
scrolled to 1000; a pointer move and three frames later `updateScroll` is still
pending. -/
theorem updateScroll_chain_terminates_witness :
    Dbl.scrollPending (Dbl.run (Dbl.start (page 1000 800 2800 0) [])
      [(page 1000 800 2800 1000, Event.scroll)]) = 1 ∧
    (Dbl.run (Dbl.start (page 1000 800 2800 0) [])
      [(page 1000 800 2800 1000, Event.scroll)]).smoothScroll = fin 0 ∧
    |(0 : ℚ)| ≤ 10 ^ 9 ∧
    |(Dbl.run (Dbl.start (page 1000 800 2800 0) [])
      [(page 1000 800 2800 1000, Event.scroll)]).targetScroll| ≤ 10 ^ 9 ∧
    NoScroll [(page 1000 800 2800 1000, Event.frame),
      (page 1000 800 2800 1000, Event.mousemove ⟨900, 100⟩),
      (page 1000 800 2800 1000, Event.frame), (page 1000 800 2800 1000, Event.frame)] ∧
    Dbl.scrollPending (Dbl.run (Dbl.run (Dbl.start (page 1000 800 2800 0) [])
        [(page 1000 800 2800 1000, Event.scroll)])
      [(page 1000 800 2800 1000, Event.frame),
       (page 1000 800 2800 1000, Event.mousemove ⟨900, 100⟩),
       (page 1000 800 2800 1000, Event.frame), (page 1000 800 2800 1000, Event.frame)]) = 1 := by
  have hp : Dbl.scrollPending (Dbl.run (Dbl.start (page 1000 800 2800 0) [])
      [(page 1000 800 2800 1000, Event.scroll)]) = 1 := by decide!
  have hs : (Dbl.run (Dbl.start (page 1000 800 2800 0) [])
      [(page 1000 800 2800 1000, Event.scroll)]).smoothScroll = fin 0 := by decide!
  have ht : (Dbl.run (Dbl.start (page 1000 800 2800 0) [])
      [(page 1000 800 2800 1000, Event.scroll)]).targetScroll = 1000 := by decide!
  have ha : |(0 : ℚ)| ≤ 10 ^ 9 := by norm_num
  have hT : |(Dbl.run (Dbl.start (page 1000 800 2800 0) [])
      [(page 1000 800 2800 1000, Event.scroll)]).targetScroll| ≤ 10 ^ 9 := by
    rw [ht]; norm_num
  have hno : NoScroll [(page 1000 800 2800 1000, Event.frame),
      (page 1000 800 2800 1000, Event.mousemove ⟨900, 100⟩),
      (page 1000 800 2800 1000, Event.frame), (page 1000 800 2800 1000, Event.frame)] := by
    intro x hx
    simp only [List.mem_cons, List.mem_singleton, List.not_mem_nil, or_false] at hx
    rcases hx with h | h | h | h <;> rw [h] <;> rfl
  refine ⟨hp, hs, ha, hT, hno,
    (updateScroll_chain_terminates.2.1 (page 1000 800 2800 0) []
      [(page 1000 800 2800 1000, Event.scroll)] 0 hp hs ha hT).1 _ hno ?_⟩
  rw [ht]
  have hc : frameCount [(page 1000 800 2800 1000, Event.frame),
      (page 1000 800 2800 1000, Event.mousemove ⟨900, 100⟩),
      (page 1000 800 2800 1000, Event.frame), (page 1000 800 2800 1000, Event.frame)] = 3 := by
    decide
  rw [hc]
  norm_num

/-- C4 amended, at a concrete input: the page loaded at scroll offset 3 on a
document of height 3200, where the top layer is written at 19.98%. -/
theorem applyTransforms_scroll_formula_witness :
    (Dbl.start (page 1000 800 3200 3) []).smoothScroll = fin 3 ∧ |(3 : ℚ)| ≤ 10 ^ 9 ∧
    ∃ yt yb y3 : ℚ,
      (Dbl.positions (page 1000 800 3200 3) (Dbl.start (page 1000 800 3200 3) []).smoothScroll
        (fin 0) (fin 0)).topY = fin yt ∧
      (Dbl.positions (page 1000 800 3200 3) (Dbl.start (page 1000 800 3200 3) []).smoothScroll
        (fin 0) (fin 0)).bottomY = fin yb ∧
      (Dbl.positions (page 1000 800 3200 3) (Dbl.start (page 1000 800 3200 3) []).smoothScroll
        (fin 0) (fin 0)).l3y = fin y3 ∧
      |yt - clampQ (20 - 12 * pctQ (page 1000 800 3200 3) 3) 5 50| ≤ 1 / 10 ^ 5 ∧
      |yb - clampQ (80 - 12 * pctQ (page 1000 800 3200 3) 3) 50 95| ≤ 1 / 10 ^ 5 ∧
      |y3 - (30 - 6 * pctQ (page 1000 800 3200 3) 3)| ≤ 1 / 10 ^ 5 ∧
      Dbl.styleValue "--bg-top-pos" (Dbl.applyTransforms (page 1000 800 3200 3) (fin 0) (fin 0)
        (Dbl.start (page 1000 800 3200 3) [])) = some (posString (fin 50) (fin yt)) ∧
      Dbl.styleValue "--bg-bottom-pos" (Dbl.applyTransforms (page 1000 800 3200 3) (fin 0)
        (fin 0) (Dbl.start (page 1000 800 3200 3) [])) = some (posString (fin 50) (fin yb)) ∧
      Dbl.styleValue "--bg-layer-3-pos" (Dbl.applyTransforms (page 1000 800 3200 3) (fin 0)
        (fin 0) (Dbl.start (page 1000 800 3200 3) [])) = some (posString (fin 50) (fin y3)) :=
  ⟨by decide!, by norm_num,
    applyTransforms_scroll_formula.1 (page 1000 800 3200 3) (Dbl.start (page 1000 800 3200 3) [])
      3 (by decide!) (by norm_num)⟩

/-- C21 amended, at a concrete input: layer 3 for the offsets `(8, -4)` in a
1000 x 800 viewport at `smoothScroll = 1000`, written as "50.02% 26.99%". -/
theorem extra_layers_formula_witness :
    3 ≤ 3 ∧ 3 ≤ 10 ∧
    (Dbl.positions (page 1000 800 2800 1000)
        (Dbl.start (page 1000 800 2800 1000) []).smoothScroll (fin 8) (fin (-4))).layerX 3
      = Dbl.add (fin 50) (Dbl.mul (Dbl.positions (page 1000 800 2800 1000)
          (Dbl.start (page 1000 800 2800 1000) []).smoothScroll (fin 8) (fin (-4))).mousePctX
        (Dbl.lit (layerMul 3))) ∧
    Dbl.styleValue "--bg-layer-3-pos" (Dbl.applyTransforms (page 1000 800 2800 1000) (fin 8)
      (fin (-4)) (Dbl.start (page 1000 800 2800 1000) [])) = some "50.02% 26.99%" :=
  ⟨le_refl 3, by decide,
    (extra_layers_formula.1 (page 1000 800 2800 1000) (Dbl.start (page 1000 800 2800 1000) [])
      (fin 8) (fin (-4)) 3 (le_refl 3) (by decide)).1,
    by decide!⟩

/-- C20 amended, at a concrete input: a 1000 x 800 viewport, the pointer at
`(475, 100)`, the default multiplier 0.5; the offsets are `(-1, -4)`. -/
theorem pointerOffsets_bounds_witness :
    (0 : ℚ) < (page 1000 800 2800 0).innerWidth ∧ (page 1000 800 2800 0).innerWidth ≤ 2 ^ 1024 ∧
    (0 : ℚ) < (page 1000 800 2800 0).innerHeight ∧
    (page 1000 800 2800 0).innerHeight ≤ 2 ^ 1024 ∧
    (0 : ℚ) ≤ (⟨475, 100⟩ : Pointer).clientX ∧
    (⟨475, 100⟩ : Pointer).clientX ≤ (page 1000 800 2800 0).innerWidth ∧
    (0 : ℚ) ≤ (⟨475, 100⟩ : Pointer).clientY ∧
    (⟨475, 100⟩ : Pointer).clientY ≤ (page 1000 800 2800 0).innerHeight ∧
    JSNum.or (page 1000 800 2800 0).mouseMultProp (Dbl.lit 0.5) = fin 0.5 ∧
    (0 : ℚ) < 0.5 ∧ (0.5 : ℚ) ≤ 10 ^ 300 ∧
    Dbl.pointerOffsets (page 1000 800 2800 0) ⟨475, 100⟩ = (fin (-1), fin (-4)) ∧
    ∃ (nx : ℚ) (mx my : ℤ),
      Dbl.sub (Dbl.div (fin 475) (fin (page 1000 800 2800 0).innerWidth)) (Dbl.lit 0.5)
        = fin nx ∧
      |nx| ≤ 1 / 2 ∧
      Dbl.pointerOffsets (page 1000 800 2800 0) ⟨475, 100⟩ = (fin (mx : ℚ), fin (my : ℚ)) ∧
      |(mx : ℚ)| ≤ min 40 (0.06 * (page 1000 800 2800 0).innerWidth) * 0.5 * (1 + 1 / 10 ^ 14) ∧
      |(my : ℚ)| ≤ min 24 (0.06 * (page 1000 800 2800 0).innerHeight) * 0.5
        * (1 + 1 / 10 ^ 14) := by
  have h1 : (0 : ℚ) < (page 1000 800 2800 0).innerWidth := by norm_num [page]
  have h2 : (page 1000 800 2800 0).innerWidth ≤ 2 ^ 1024 := by
    show (1000 : ℚ) ≤ 2 ^ 1024
    exact le_trans (by norm_num : (1000 : ℚ) ≤ 2 ^ 10)
      (pow_le_pow_right₀ (by norm_num) (by norm_num))
  have h3 : (0 : ℚ) < (page 1000 800 2800 0).innerHeight := by norm_num [page]
  have h4 : (page 1000 800 2800 0).innerHeight ≤ 2 ^ 1024 := by
    show (800 : ℚ) ≤ 2 ^ 1024
    exact le_trans (by norm_num : (800 : ℚ) ≤ 2 ^ 10)
      (pow_le_pow_right₀ (by norm_num) (by norm_num))
  have h5 : (0 : ℚ) ≤ (⟨475, 100⟩ : Pointer).clientX := by norm_num
  have h6 : (⟨475, 100⟩ : Pointer).clientX ≤ (page 1000 800 2800 0).innerWidth := by
    norm_num [page]
  have h7 : (0 : ℚ) ≤ (⟨475, 100⟩ : Pointer).clientY := by norm_num
  have h8 : (⟨475, 100⟩ : Pointer).clientY ≤ (page 1000 800 2800 0).innerHeight := by
    norm_num [page]
  have h9 : JSNum.or (page 1000 800 2800 0).mouseMultProp (Dbl.lit 0.5) = fin 0.5 := by decide!
  have h10 : (0 : ℚ) < 0.5 := by norm_num
  have h11 : (0.5 : ℚ) ≤ 10 ^ 300 :=
    le_trans (by norm_num : (0.5 : ℚ) ≤ 1) (one_le_pow₀ (by norm_num))
  obtain ⟨nx, -, mx, my, a1, -, a3, -, -, -, a7, -, -, a10, a11⟩ :=
    pointerOffsets_bounds (page 1000 800 2800 0) ⟨475, 100⟩ 0.5 h1 h2 h3 h4 h5 h6 h7 h8 h9 h10 h11
  exact ⟨h1, h2, h3, h4, h5, h6, h7, h8, h9, h10, h11, by decide!,
    nx, mx, my, a1, a3, a7, a10, a11⟩

/-- C1 amended, at a concrete input: a 1000 x 800 viewport, document height
2800, scroll offset 0, the offsets `(8, -4)`; the top layer is written at
"50.05% 19.98%". -/
theorem applyTransforms_clamp_invariant_witness :
    (Dbl.start (page 1000 800 2800 0) []).smoothScroll = fin 0 ∧
    fin 8 ≠ JSNum.nan ∧ fin (-4) ≠ JSNum.nan ∧
    (Dbl.positions (page 1000 800 2800 0) (Dbl.start (page 1000 800 2800 0) []).smoothScroll
      (fin 8) (fin (-4))).Clamped ∧
    Dbl.styleValue "--bg-top-pos" (Dbl.applyTransforms (page 1000 800 2800 0) (fin 8) (fin (-4))
      (Dbl.start (page 1000 800 2800 0) [])) = some "50.05% 19.98%" :=
  ⟨by decide!, by simp, by simp,
    ((applyTransforms_clamp_invariant (page 1000 800 2800 0)
      (Dbl.start (page 1000 800 2800 0) []) 0 (by decide!)).1 (fin 8) (fin (-4))
      (by simp) (by simp)).1,
    by decide!⟩

/-- C22 amended, at a concrete input: the offset `mx = 8` in a viewport of width
1000 gives `mousePctX` next to `0.048`, the top `x` next to `50.048` and the
bottom `x` next to `49.952`, with sum 100. -/
theorem horizontal_mirror_witness :
    fin 8 ≠ JSNum.nan ∧
    (Dbl.positions (page 1000 800 2800 0) (fin 0) (fin 8) (fin (-4))).topX
      = fin (220113431787733 / 4398046511104) ∧
    (Dbl.positions (page 1000 800 2800 0) (fin 0) (fin 8) (fin (-4))).bottomX
      = fin (219691219322667 / 4398046511104) ∧
    ∃ px tx bx : ℚ,
      (Dbl.positions (page 1000 800 2800 0) (fin 0) (fin 8) (fin (-4))).mousePctX = fin px ∧
      (Dbl.positions (page 1000 800 2800 0) (fin 0) (fin 8) (fin (-4))).topX = fin tx ∧
      (Dbl.positions (page 1000 800 2800 0) (fin 0) (fin 8) (fin (-4))).bottomX = fin bx ∧
      tx + bx = 100 := by
  obtain ⟨px, tx, bx, h1, h2, h3, -, -, -, -, h4, -⟩ :=
    horizontal_mirror (page 1000 800 2800 0) (fin 0) (fin 8) (fin (-4)) (by simp)
  exact ⟨by simp, by decide!, by decide!, px, tx, bx, h1, h2, h3, h4⟩

/-- C26 amended, at a concrete input: layers 3 and 4 for the offsets `(8, -4)`
at `smoothScroll = 1000`, scroll fraction `1/2`. -/
theorem farther_layers_move_less_witness :
    |(1000 : ℚ)| ≤ 10 ^ 9 ∧ fin 8 ≠ JSNum.nan ∧ fin (-4) ≠ JSNum.nan ∧ 3 ≤ 3 ∧ 3 ≤ 9 ∧
    (Dbl.positions (page 1000 800 2800 0) (fin 1000) (fin 8) (fin (-4))).pct = fin (1 / 2) ∧
    ∃ x y x1 y1 : ℚ,
      (Dbl.positions (page 1000 800 2800 0) (fin 1000) (fin 8) (fin (-4))).layerX 3 = fin x ∧
      (Dbl.positions (page 1000 800 2800 0) (fin 1000) (fin 8) (fin (-4))).layerY 3 = fin y ∧
      (Dbl.positions (page 1000 800 2800 0) (fin 1000) (fin 8) (fin (-4))).layerX (3 + 1)
        = fin x1 ∧
      (Dbl.positions (page 1000 800 2800 0) (fin 1000) (fin 8) (fin (-4))).layerY (3 + 1)
        = fin y1 ∧
      |x1 - 50| ≤ |x - 50| ∧
      |y1 - layerBase (3 + 1)| ≤ |y - layerBase 3| + 1 / 10 ^ 13 := by
  have hp : (Dbl.positions (page 1000 800 2800 0) (fin 1000) (fin 8) (fin (-4))).pct
      = fin (1 / 2) := by decide!
  obtain ⟨x, y, x1, y1, c, c1, h1, h2, h3, h4, h5, -, h7, -, -⟩ :=
    farther_layers_move_less (page 1000 800 2800 0) 1000 (fin 8) (fin (-4)) (by norm_num)
      (by simp) (by simp) 3 (le_refl 3) (by decide)
  exact ⟨by norm_num, by simp, by simp, le_refl 3, by decide, hp, x, y, x1, y1, h1, h2, h3, h4,
    h5, h7 (1 / 2) hp (by norm_num) (by norm_num)⟩

/-- C29 amended, at a concrete input: layer 3 for the offsets `(8, -4)` at
scroll fraction `1/2`. -/
theorem extra_layers_bounded_witness :
    fin 8 ≠ JSNum.nan ∧ fin (-4) ≠ JSNum.nan ∧ 3 ≤ 3 ∧ 3 ≤ 10 ∧
    (Dbl.positions (page 1000 800 2800 0) (fin 1000) (fin 8) (fin (-4))).pct = fin (1 / 2) ∧
    ∃ x y : ℚ,
      (Dbl.positions (page 1000 800 2800 0) (fin 1000) (fin 8) (fin (-4))).layerX 3 = fin x ∧
      (Dbl.positions (page 1000 800 2800 0) (fin 1000) (fin 8) (fin (-4))).layerY 3 = fin y ∧
      (47 ≤ x ∧ x ≤ 53) ∧ (22 ≤ y ∧ y ≤ 32) := by
  have hp : (Dbl.positions (page 1000 800 2800 0) (fin 1000) (fin 8) (fin (-4))).pct
      = fin (1 / 2) := by decide!
  obtain ⟨⟨x, h1, h2, h3⟩, -, -⟩ :=
    extra_layers_bounded (page 1000 800 2800 0) (fin 1000) (fin 8) (fin (-4)) (by simp)
      (by simp) 3 (le_refl 3) (by decide)
  obtain ⟨y, L, H, k1, k2, k3, k4, -, -, k7, -⟩ := h3 (1 / 2) hp (by norm_num) (by norm_num)
  have eH : toDouble (layerBase 3 + 4 * layerMul 3) = fin 32 := by decide!
  have e : H = 32 := JSNum.fin.inj (k3.symm.trans eH)
  rw [e] at k4
  exact ⟨by simp, by simp, le_refl 3, by decide, hp, x, y, h1, k1, h2, k7.1, k4.2⟩

end Parallax
